import Mathlib

/-!
# solana-dex-parse: the dispatcher, the summariser and the instruction recognisers

A shallow embedding of `dex-parse/parser.go` (the constructors, `ParseTransaction`,
`processRouterSwaps`, `getInnerInstructions`, `ProcessSwapData`, `getTransferFromSwapData`),
of the recognisers of `dex-parse/checks.go`, of `dex-parse/parse_transfer.go`
(`processTransfer`, `extractSPLTokenInfo`, `processRaydSwaps`, `processOrcaSwaps`) and of the
decoders of the event files (`event_boopfun.go`, `event_meteora_damm_v2.go`,
`event_meteora_dbc.go`, `event_raydium_launchlab.go`), followed by the properties proved
about them.

Conventions of the embedding.

* Go `uint8`, `uint16`, `uint64` values are natural numbers; where the Go code can wrap
  (the `uint64` sums of the generic reduction, the `uint16` conversion of an outer index)
  the reduction modulo `2 ^ 64` or `2 ^ 16` is written out.
* A Go `map[string]T` that is only read is a function `String → Option T`; reading a missing
  key gives the zero value of `T`. A `map[string]bool` used as a set of seen keys is the list
  of the keys stored so far.
* A pointer payload is modelled by the value it points to.
* A call that can abort the program (`solana.MustPublicKeyFromBase58`, the indexing of a
  slice out of range) makes the enclosing function return `Outcome.abort`.
* `time.Time` values are unix seconds; the reading of the wall clock (`time.Now()`) is an
  explicit argument.
-/

namespace SolanaDexParse

/-! ## Public keys and their base58 text -/

/-- A `solana.PublicKey`: 32 bytes, held as the big-endian number they spell. -/
abbrev PublicKey := Fin (2 ^ 256)

/-- The all-zero key, the zero value of `solana.PublicKey`. -/
def PublicKey.zero : PublicKey := ⟨0, by decide⟩

/-- Method `PublicKey.IsZero`. -/
def PublicKey.IsZero (k : PublicKey) : Bool := decide (k.val = 0)

/-- A `solana.Signature` (64 bytes), as a list of bytes. -/
abbrev Signature := List Nat

/-- The base58 alphabet (Bitcoin order) used by Solana. -/
def b58Alphabet : List Char :=
  "123456789ABCDEFGHJKLMNPQRSTUVWXYZabcdefghijkmnopqrstuvwxyz".toList

/-- Value of a base58 character, if it is one. -/
def b58Digit (c : Char) : Option Nat :=
  if b58Alphabet.indexOf c < 58 then some (b58Alphabet.indexOf c) else none

/-- Character of a base58 digit. -/
def b58Char (d : Nat) : Char := b58Alphabet.getD d '1'

/-- Values of all characters of a text, or `none` when one of them is not base58. -/
def b58Digits : List Char → Option (List Nat)
  | [] => some []
  | c :: cs =>
    match b58Digit c, b58Digits cs with
    | some d, some ds => some (d :: ds)
    | _, _ => none

/-- Little-endian digits of `n` in base `b`, at most `fuel` of them. -/
def digitsLE (b : Nat) : Nat → Nat → List Nat
  | 0, _ => []
  | fuel + 1, n => if n = 0 then [] else n % b :: digitsLE b fuel (n / b)

/-- The number spelled by big-endian digits in base `b`. -/
def valueBE (b : Nat) (ds : List Nat) : Nat := ds.foldl (fun acc d => acc * b + d) 0

/-- Number of bytes of the shortest big-endian byte string of `n` (0 for 0). -/
def byteLen (n : Nat) : Nat := (digitsLE 256 (n + 1) n).length

/-- Number of leading zero digits. -/
def leadingZeros : List Nat → Nat
  | 0 :: ds => leadingZeros ds + 1
  | _ => 0

/-- Method `PublicKey.String`: the base58 text of the 32 bytes. Every leading zero byte
gives a `1`, the rest is the number in base 58. -/
def PublicKey.String (k : PublicKey) : String :=
  String.mk (List.replicate (32 - byteLen k.val) '1' ++
    ((digitsLE 58 45 k.val).reverse.map b58Char))

/-- Function `solana.PublicKeyFromBase58`: decodes base58 text and accepts it when it spells
exactly 32 bytes (leading `1`s are zero bytes). The empty text and a text with a character
outside the alphabet are errors. -/
def PublicKeyFromBase58 (s : String) : Option PublicKey :=
  match s.data with
  | [] => none
  | cs =>
    match b58Digits cs with
    | none => none
    | some ds =>
      if h : valueBE 58 ds < 2 ^ 256 then
        if leadingZeros ds + byteLen (valueBE 58 ds) = 32 then some ⟨valueBE 58 ds, h⟩ else none
      else none

/-- The native SOL mint `So11111111111111111111111111111111111111112`. -/
def NATIVE_SOL_MINT_PROGRAM_ID : PublicKey :=
  ⟨0x069b8857feab8184fb687f634618c035dac439dc1aeb3b5598a0f00000000001, by decide⟩

/-- Function `solana.MustPublicKeyFromBase58`: as `PublicKeyFromBase58`, but a text that is
not a key aborts the program; `none` stands for that. -/
def MustPublicKeyFromBase58 (s : String) : Option PublicKey := PublicKeyFromBase58 s

/-! ## Decimal text of unsigned integers -/

/-- Character of a decimal digit. -/
def decChar (d : Nat) : Char := Char.ofNat (48 + d)

/-- Value of a decimal digit character, if it is one. -/
def decDigit (c : Char) : Option Nat :=
  if 48 ≤ c.toNat ∧ c.toNat ≤ 57 then some (c.toNat - 48) else none

/-- Values of all characters of a text, or `none` when one of them is not a decimal digit. -/
def decDigits : List Char → Option (List Nat)
  | [] => some []
  | c :: cs =>
    match decDigit c, decDigits cs with
    | some d, some ds => some (d :: ds)
    | _, _ => none

/-- The verb `%d` of `fmt.Sprintf` on an unsigned integer: its decimal text. -/
def fmtDecimal (n : Nat) : String :=
  if n = 0 then "0" else String.mk ((digitsLE 10 (n + 1) n).reverse.map decChar)

/-- Function `strconv.ParseUint(s, 10, 64)`: a non-empty text of decimal digits whose value
fits 64 bits; everything else is an error. -/
def ParseUint (s : String) : Option Nat :=
  match s.data with
  | [] => none
  | cs =>
    match decDigits cs with
    | none => none
    | some ds => if valueBE 10 ds < 2 ^ 64 then some (valueBE 10 ds) else none

/-! ## Records of the transaction and of the decoders -/

/-- A `solana.CompiledInstruction`. -/
structure CompiledInstruction where
  ProgramIDIndex : Nat
  Accounts : List Nat
  Data : List Nat
deriving DecidableEq

/-- An `rpc.InnerInstruction`: the instructions spawned by the outer instruction `Index`. -/
structure InnerInstruction where
  Index : Nat
  Instructions : List CompiledInstruction
deriving DecidableEq

/-- An `rpc.TokenBalance`, with the decimals of its `UiTokenAmount`. -/
structure TokenBalance where
  AccountIndex : Nat
  Mint : PublicKey
  Decimals : Nat
deriving DecidableEq

/-- The parts of `rpc.TransactionMeta` the parser reads. -/
structure TransactionMeta where
  InnerInstructions : List InnerInstruction
  PostTokenBalances : List TokenBalance
  LoadedWritable : List PublicKey
  LoadedReadOnly : List PublicKey
deriving DecidableEq

/-- The parts of `solana.Transaction` the parser reads. -/
structure Transaction where
  Signatures : List Signature
  AccountKeys : List PublicKey
  Instructions : List CompiledInstruction
deriving DecidableEq

/-- The parts of `rpc.GetTransactionResult` the parser reads. -/
structure GetTransactionResult where
  BlockTime : Option Int
deriving DecidableEq

/-- Record `TokenInfo` of `parse_transfer.go`. -/
structure TokenInfo where
  Mint : String
  Decimals : Nat
deriving DecidableEq

/-- Record `TokenTransfer` of `parser.go`. -/
structure TokenTransfer where
  mint : String
  amount : Nat
  decimals : Nat
deriving DecidableEq

/-- Record `TransferInfo` of `parse_transfer.go`. -/
structure TransferInfo where
  Amount : Nat
  Authority : String
  Destination : String
  Source : String
deriving DecidableEq

/-- Record `TransferData` of `parse_transfer.go`; `Kind` is its field `Type`. -/
structure TransferData where
  Info : TransferInfo
  Kind : String
  Mint : String
  Decimals : Nat
deriving DecidableEq

/-- Modelled from the spec: the record `TransferCheck` (a decoded TransferChecked), declared
outside the listed sources; the fields are those the listed sources read
(`Info.Mint`, `Info.TokenAmount.Amount`, `Info.TokenAmount.Decimals`) and the three parties. -/
structure TransferCheck where
  Authority : String
  Destination : String
  Mint : String
  Source : String
  Amount : String
  Decimals : Nat
deriving DecidableEq

/-- Modelled from the spec: the Pump.fun trade event, declared outside the listed sources;
fields in the order of the payload layout of the spec. -/
structure PumpfunTradeEvent where
  Mint : PublicKey
  SolAmount : Nat
  TokenAmount : Nat
  IsBuy : Bool
  User : PublicKey
  Timestamp : Int
  VirtualSolReserves : Nat
  VirtualTokenReserves : Nat
deriving DecidableEq

/-- Modelled from the spec: the Jupiter route event, declared outside the listed sources. -/
structure JupiterSwapEvent where
  Amm : PublicKey
  InputMint : PublicKey
  InputAmount : Nat
  OutputMint : PublicKey
  OutputAmount : Nat
deriving DecidableEq

/-- Record `TradeDirection` of `event_raydium_launchlab.go`. -/
structure TradeDirection where
  IsBuy : Bool
deriving DecidableEq

/-- Record `PoolStatus` of `event_raydium_launchlab.go`. -/
structure PoolStatus where
  IsFund : Bool
deriving DecidableEq

/-- Record `RaydiumLaunchLabBuyEvent` of `event_raydium_launchlab.go`. -/
structure RaydiumLaunchLabBuyEvent where
  PoolState : PublicKey
  TotalBaseSell : Nat
  VirtualBase : Nat
  VirtualQuote : Nat
  RealBaseBefore : Nat
  RealQuoteBefore : Nat
  RealBaseAfter : Nat
  RealQuoteAfter : Nat
  AmountIn : Nat
  AmountOut : Nat
  MinimumAmountOut : Nat
  ProtocolFee : Nat
  PlatformFee : Nat
  ShareFee : Nat
  TradeDirection : TradeDirection
  PoolStatus : PoolStatus
  TokenMint : PublicKey
  TokenDecimals : Nat
  IsBuy : Bool
deriving DecidableEq

/-- Record `MeteoraDAMMv2SwapEvent` of `event_meteora_damm_v2.go`. -/
structure MeteoraDAMMv2SwapEvent where
  AmountIn : Nat
  MinimumAmountOut : Nat
  Direction : Nat
  TokenInMint : PublicKey
  TokenInDecimals : Nat
  TokenOutMint : PublicKey
  TokenOutDecimals : Nat
  ActualAmountOut : Nat
deriving DecidableEq

/-- Record `MeteoraDBCSwapEvent` of `event_meteora_dbc.go`. -/
structure MeteoraDBCSwapEvent where
  Pool : PublicKey
  Config : PublicKey
  TradeDirection : Nat
  HasReferral : Bool
  AmountIn : Nat
  MinimumAmountOut : Nat
  ActualInputAmount : Nat
  OutputAmount : Nat
  NextSqrtPrice : Nat
  TradingFee : Nat
  ProtocolFee : Nat
  ReferralFee : Nat
  CurrentTimestamp : Nat
  TokenInMint : PublicKey
  TokenInDecimals : Nat
  TokenOutMint : PublicKey
  TokenOutDecimals : Nat
deriving DecidableEq

/-- Record `BoopFunSwapEvent` of `event_boopfun.go`. -/
structure BoopFunSwapEvent where
  BuyAmount : Nat
  AmountOutMin : Nat
  TokenOut : Nat
  TokenMint : PublicKey
  TokenDecimals : Nat
  IsBuy : Bool
deriving DecidableEq

/-- The dynamic type of `SwapData.Data` (an `interface{}`): one case for each pointer type
the summariser switches on, and `other` for every other value, `nil` included. -/
inductive Payload where
  | pumpfunTrade (data : PumpfunTradeEvent)
  | raydiumLaunchLab (data : RaydiumLaunchLabBuyEvent)
  | meteoraDAMMv2 (data : MeteoraDAMMv2SwapEvent)
  | meteoraDBC (data : MeteoraDBCSwapEvent)
  | boopFun (data : BoopFunSwapEvent)
  | jupiterSwap (data : JupiterSwapEvent)
  | transferData (data : TransferData)
  | transferCheck (data : TransferCheck)
  | other
deriving DecidableEq

/-- Go `type SwapType string`. -/
abbrev SwapType := String

/-- Record `SwapData` of `parser.go`; `Typ` is its field `Type`. -/
structure SwapData where
  Typ : SwapType
  Data : Payload
deriving DecidableEq

/-- Record `SwapInfo` of `parser.go`. -/
structure SwapInfo where
  Signers : List PublicKey
  Signatures : List Signature
  AMMs : List String
  Timestamp : Int
  TokenInMint : PublicKey
  TokenInAmount : Nat
  TokenInDecimals : Nat
  TokenOutMint : PublicKey
  TokenOutAmount : Nat
  TokenOutDecimals : Nat
deriving DecidableEq

/-- Record `Parser` of `parser.go` (the logger apart). -/
structure Parser where
  txResult : Option GetTransactionResult
  txMeta : TransactionMeta
  txInfo : Transaction
  allAccountKeys : List PublicKey
  splTokenInfoMap : String → Option TokenInfo
  splDecimalsMap : String → Option Nat

/-- What a Go call gives back: a value, an `error`, or no return at all because the
program aborted. -/
inductive Outcome (α : Type) where
  | ok (val : α)
  | error (msg : String)
  | abort
deriving DecidableEq

/-- The constants module of the package, which is outside the listed sources: the `SwapType`
tags and the program IDs, taken as parameters. -/
structure Consts where
  RAYDIUM : SwapType
  RAYDIUM_LAUNCHLAB : SwapType
  ORCA : SwapType
  METEORA : SwapType
  PUMP_FUN : SwapType
  PUMPFUN_AMM : SwapType
  JUPITER : SwapType
  MOONSHOT : SwapType
  BOOPFUN : SwapType
  OKX : SwapType
  JUPITER_PROGRAM_ID : PublicKey
  JUPITER_DCA_PROGRAM_ID : PublicKey
  MOONSHOT_PROGRAM_ID : PublicKey
  BOOPFUN_PROGRAM_ID : PublicKey
  OKX_DEX_ROUTER_PROGRAM_ID : PublicKey
  BANANA_GUN_PROGRAM_ID : PublicKey
  MINTECH_PROGRAM_ID : PublicKey
  BLOOM_PROGRAM_ID : PublicKey
  NOVA_PROGRAM_ID : PublicKey
  MAESTRO_PROGRAM_ID : PublicKey
  RAYDIUM_V4_PROGRAM_ID : PublicKey
  RAYDIUM_CPMM_PROGRAM_ID : PublicKey
  RAYDIUM_AMM_PROGRAM_ID : PublicKey
  RAYDIUM_CONCENTRATED_LIQUIDITY_PROGRAM_ID : PublicKey
  RAYDIUM_LAUNCHLAB_PROGRAM_ID : PublicKey
  ORCA_PROGRAM_ID : PublicKey
  METEORA_PROGRAM_ID : PublicKey
  METEORA_POOLS_PROGRAM_ID : PublicKey
  METEORA_DLMM_PROGRAM_ID : PublicKey
  METEORA_DAMM_V2_PROGRAM_ID : PublicKey
  METEORA_DBC_PROGRAM_ID : PublicKey
  PUMP_FUN_PROGRAM_ID : PublicKey
  PUMPFUN_AMM_PROGRAM_ID : PublicKey
deriving DecidableEq

/-- Modelled from the spec: the result record of `parseJupiterEvents`, declared outside the
listed sources; the fields are those `ProcessSwapData` copies. -/
structure JupiterSwapInfo where
  AMMs : List String
  TokenInMint : PublicKey
  TokenInAmount : Nat
  TokenInDecimals : Nat
  TokenOutMint : PublicKey
  TokenOutAmount : Nat
  TokenOutDecimals : Nat
deriving DecidableEq

/-- Functions of the package that the summariser calls and whose bodies are outside the
listed sources, taken as parameters. -/
structure Helpers where
  /-- Function `parseJupiterEvents`: the Jupiter summary, or the text of its error. -/
  parseJupiterEvents : List SwapData → Except String JupiterSwapInfo
  /-- Method `containsDCAProgram`. -/
  containsDCAProgram : Parser → Bool

/-! ## The summariser -/

/-- Method `GetBlockTime`: the block time in unix seconds, when the parser holds a
transaction result that has one. -/
def Parser.GetBlockTime (p : Parser) : Option Int :=
  match p.txResult with
  | some r => r.BlockTime
  | none => none

/-- The timestamp block repeated in `ProcessSwapData`: the block time, else the wall clock. -/
def Parser.blockTimeOrNow (p : Parser) (now : Int) : Int :=
  match p.GetBlockTime with
  | some blockTime => blockTime
  | none => now

/-- Function `getTransferFromSwapData`; `none` is the `nil` result. -/
def getTransferFromSwapData (swapData : SwapData) : Option TokenTransfer :=
  match swapData.Data with
  | .meteoraDAMMv2 data =>
    some { mint := data.TokenInMint.String, amount := data.AmountIn,
           decimals := data.TokenInDecimals }
  | .meteoraDBC data =>
    some { mint := data.TokenInMint.String, amount := data.AmountIn,
           decimals := data.TokenInDecimals }
  | .boopFun data =>
    some { mint := NATIVE_SOL_MINT_PROGRAM_ID.String, amount := data.BuyAmount, decimals := 9 }
  | .transferData data =>
    some { mint := data.Mint, amount := data.Info.Amount, decimals := data.Decimals }
  | .transferCheck data =>
    match ParseUint data.Amount with
    | none => none
    | some amt => some { mint := data.Mint, amount := amt, decimals := data.Decimals }
  | _ => none

/-- The six lists `ProcessSwapData` sorts the entries into. -/
structure Buckets where
  jupiterSwaps : List SwapData
  pumpfunSwaps : List SwapData
  raydiumLaunchLabSwaps : List SwapData
  meteoraDAMMv2Swaps : List SwapData
  boopFunSwaps : List SwapData
  otherSwaps : List SwapData
deriving DecidableEq

/-- The six empty lists. -/
def Buckets.empty : Buckets := ⟨[], [], [], [], [], []⟩

/-- One round of the sorting loop of `ProcessSwapData` (the `switch swapData.Type`). -/
def classify (c : Consts) (b : Buckets) (swapData : SwapData) : Buckets :=
  if swapData.Typ = c.JUPITER then
    { b with jupiterSwaps := b.jupiterSwaps ++ [swapData] }
  else if swapData.Typ = c.PUMP_FUN then
    { b with pumpfunSwaps := b.pumpfunSwaps ++ [swapData] }
  else if swapData.Typ = c.RAYDIUM_LAUNCHLAB then
    { b with raydiumLaunchLabSwaps := b.raydiumLaunchLabSwaps ++ [swapData] }
  else if swapData.Typ = c.METEORA then
    match swapData.Data with
    | .meteoraDAMMv2 _ => { b with meteoraDAMMv2Swaps := b.meteoraDAMMv2Swaps ++ [swapData] }
    | .meteoraDBC _ => { b with meteoraDAMMv2Swaps := b.meteoraDAMMv2Swaps ++ [swapData] }
    | _ => { b with otherSwaps := b.otherSwaps ++ [swapData] }
  else if swapData.Typ = c.BOOPFUN then
    { b with boopFunSwaps := b.boopFunSwaps ++ [swapData] }
  else
    { b with otherSwaps := b.otherSwaps ++ [swapData] }

/-- One round of the loop that builds `uniqueTokens`; the state is `uniqueTokens` and the
keys of `seenTokens`. -/
def uniqueStep (st : List TokenTransfer × List String) (swapData : SwapData) :
    List TokenTransfer × List String :=
  match getTransferFromSwapData swapData with
  | some transfer =>
    if transfer.mint ∈ st.2 then st else (st.1 ++ [transfer], transfer.mint :: st.2)
  | none => st

/-- The state of the loop that adds up the amounts. -/
structure SumState where
  totalInputAmount : Nat
  totalOutputAmount : Nat
  seenInputs : List String
  seenOutputs : List String
deriving DecidableEq

/-- The key `fmt.Sprintf("%d-%s", transfer.amount, transfer.mint)`. -/
def amountStr (transfer : TokenTransfer) : String :=
  fmtDecimal transfer.amount ++ "-" ++ transfer.mint

/-- One round of the loop that adds up the amounts; the additions are those of `uint64`. -/
def sumStep (inputMint outputMint : String) (st : SumState) (swapData : SwapData) : SumState :=
  match getTransferFromSwapData swapData with
  | none => st
  | some transfer =>
    let st1 : SumState :=
      if transfer.mint = inputMint ∧ amountStr transfer ∉ st.seenInputs then
        { st with totalInputAmount := (st.totalInputAmount + transfer.amount) % 2 ^ 64,
                  seenInputs := amountStr transfer :: st.seenInputs }
      else st
    if transfer.mint = outputMint ∧ amountStr transfer ∉ st1.seenOutputs then
      { st1 with totalOutputAmount := (st1.totalOutputAmount + transfer.amount) % 2 ^ 64,
                 seenOutputs := amountStr transfer :: st1.seenOutputs }
    else st1

/-- One round of the loop that collects the AMM tags; the state is the list built so far
and the keys of `seenAMMs`. -/
def ammStep (st : List String × List String) (swapData : SwapData) :
    List String × List String :=
  if swapData.Typ ∈ st.2 then st else (st.1 ++ [swapData.Typ], swapData.Typ :: st.2)

/-- The last block of `ProcessSwapData` (`if len(otherSwaps) > 0` to the end): the generic
reduction of the transfers of `otherSwaps`. -/
def genericReduction (p : Parser) (now : Int) (swapInfo : SwapInfo)
    (otherSwaps : List SwapData) : Outcome SwapInfo :=
  if otherSwaps.length > 0 then
    let uniqueTokens := (otherSwaps.foldl uniqueStep ([], [])).1
    if uniqueTokens.length ≥ 2 then
      let inputTransfer := uniqueTokens.headD ⟨"", 0, 0⟩
      let outputTransfer := uniqueTokens.getLastD ⟨"", 0, 0⟩
      let sums := otherSwaps.foldl (sumStep inputTransfer.mint outputTransfer.mint) ⟨0, 0, [], []⟩
      match MustPublicKeyFromBase58 inputTransfer.mint with
      | none => .abort
      | some tokenInMint =>
        match MustPublicKeyFromBase58 outputTransfer.mint with
        | none => .abort
        | some tokenOutMint =>
          .ok { swapInfo with
                TokenInMint := tokenInMint
                TokenInAmount := sums.totalInputAmount
                TokenInDecimals := inputTransfer.decimals
                TokenOutMint := tokenOutMint
                TokenOutAmount := sums.totalOutputAmount
                TokenOutDecimals := outputTransfer.decimals
                AMMs := swapInfo.AMMs ++ (otherSwaps.foldl ammStep ([], [])).1
                Timestamp := p.blockTimeOrNow now }
    else .error "no valid swaps found"
  else .error "no valid swaps found"

/-- The block `if len(meteoraDAMMv2Swaps) > 0` of `ProcessSwapData` and what follows it. -/
def meteoraStage (p : Parser) (now : Int) (swapInfo : SwapInfo)
    (meteoraDAMMv2Swaps otherSwaps : List SwapData) : Outcome SwapInfo :=
  match meteoraDAMMv2Swaps with
  | [] => genericReduction p now swapInfo otherSwaps
  | first :: _ =>
    match first.Data with
    | .meteoraDAMMv2 data =>
      .ok { swapInfo with
            TokenInMint := data.TokenInMint
            TokenInAmount := data.AmountIn
            TokenInDecimals := data.TokenInDecimals
            TokenOutMint := data.TokenOutMint
            TokenOutAmount := data.ActualAmountOut
            TokenOutDecimals := data.TokenOutDecimals
            AMMs := swapInfo.AMMs ++ [first.Typ]
            Timestamp := p.blockTimeOrNow now }
    | .meteoraDBC data =>
      .ok { swapInfo with
            TokenInMint := data.TokenInMint
            TokenInAmount := data.AmountIn
            TokenInDecimals := data.TokenInDecimals
            TokenOutMint := data.TokenOutMint
            TokenOutAmount := data.OutputAmount
            TokenOutDecimals := data.TokenOutDecimals
            AMMs := swapInfo.AMMs ++ [first.Typ]
            Timestamp := p.blockTimeOrNow now }
    | _ => genericReduction p now swapInfo (otherSwaps ++ meteoraDAMMv2Swaps)

/-- The block `if len(boopFunSwaps) > 0` of `ProcessSwapData` and what follows it. -/
def boopFunStage (p : Parser) (now : Int) (swapInfo : SwapInfo)
    (boopFunSwaps meteoraDAMMv2Swaps otherSwaps : List SwapData) : Outcome SwapInfo :=
  match boopFunSwaps with
  | [] => meteoraStage p now swapInfo meteoraDAMMv2Swaps otherSwaps
  | first :: _ =>
    match first.Data with
    | .boopFun data =>
      .ok { swapInfo with
            TokenInMint := NATIVE_SOL_MINT_PROGRAM_ID
            TokenInAmount := data.BuyAmount
            TokenInDecimals := 9
            TokenOutMint := data.TokenMint
            TokenOutAmount := data.TokenOut
            TokenOutDecimals := data.TokenDecimals
            AMMs := swapInfo.AMMs ++ [first.Typ]
            Timestamp := p.blockTimeOrNow now }
    | _ => meteoraStage p now swapInfo meteoraDAMMv2Swaps (otherSwaps ++ boopFunSwaps)

/-- The block `if len(raydiumLaunchLabSwaps) > 0` of `ProcessSwapData` and what follows. -/
def raydiumLaunchLabStage (p : Parser) (now : Int) (swapInfo : SwapInfo)
    (raydiumLaunchLabSwaps boopFunSwaps meteoraDAMMv2Swaps otherSwaps : List SwapData) :
    Outcome SwapInfo :=
  match raydiumLaunchLabSwaps with
  | [] => boopFunStage p now swapInfo boopFunSwaps meteoraDAMMv2Swaps otherSwaps
  | first :: _ =>
    match first.Data with
    | .raydiumLaunchLab data =>
      if data.IsBuy then
        .ok { swapInfo with
              TokenInMint := NATIVE_SOL_MINT_PROGRAM_ID
              TokenInAmount := data.AmountIn
              TokenInDecimals := 9
              TokenOutMint := data.TokenMint
              TokenOutAmount := data.AmountOut
              TokenOutDecimals := data.TokenDecimals
              AMMs := swapInfo.AMMs ++ [first.Typ]
              Timestamp := p.blockTimeOrNow now }
      else
        .ok { swapInfo with
              TokenInMint := data.TokenMint
              TokenInAmount := data.AmountIn
              TokenInDecimals := data.TokenDecimals
              TokenOutMint := NATIVE_SOL_MINT_PROGRAM_ID
              TokenOutAmount := data.AmountOut
              TokenOutDecimals := 9
              AMMs := swapInfo.AMMs ++ [first.Typ]
              Timestamp := p.blockTimeOrNow now }
    | _ =>
      boopFunStage p now swapInfo boopFunSwaps meteoraDAMMv2Swaps
        (otherSwaps ++ raydiumLaunchLabSwaps)

/-- The block `if len(pumpfunSwaps) > 0` of `ProcessSwapData` and what follows it. The
timestamp of the event is an `int64`, so that `int64(data.Timestamp)` is the value itself. -/
def pumpfunStage (p : Parser) (now : Int) (swapInfo : SwapInfo)
    (pumpfunSwaps raydiumLaunchLabSwaps boopFunSwaps meteoraDAMMv2Swaps otherSwaps :
      List SwapData) : Outcome SwapInfo :=
  match pumpfunSwaps with
  | [] =>
    raydiumLaunchLabStage p now swapInfo raydiumLaunchLabSwaps boopFunSwaps
      meteoraDAMMv2Swaps otherSwaps
  | first :: _ =>
    match first.Data with
    | .pumpfunTrade data =>
      if data.IsBuy then
        .ok { swapInfo with
              TokenInMint := NATIVE_SOL_MINT_PROGRAM_ID
              TokenInAmount := data.SolAmount
              TokenInDecimals := 9
              TokenOutMint := data.Mint
              TokenOutAmount := data.TokenAmount
              TokenOutDecimals := (p.splDecimalsMap data.Mint.String).getD 0
              AMMs := swapInfo.AMMs ++ [first.Typ]
              Timestamp := data.Timestamp }
      else
        .ok { swapInfo with
              TokenInMint := data.Mint
              TokenInAmount := data.TokenAmount
              TokenInDecimals := (p.splDecimalsMap data.Mint.String).getD 0
              TokenOutMint := NATIVE_SOL_MINT_PROGRAM_ID
              TokenOutAmount := data.SolAmount
              TokenOutDecimals := 9
              AMMs := swapInfo.AMMs ++ [first.Typ]
              Timestamp := data.Timestamp }
    | _ =>
      raydiumLaunchLabStage p now swapInfo raydiumLaunchLabSwaps boopFunSwaps
        meteoraDAMMv2Swaps (otherSwaps ++ pumpfunSwaps)

/-- The signer chosen at the head of `ProcessSwapData`. -/
def signersOf (x : Helpers) (p : Parser) : List PublicKey :=
  if x.containsDCAProgram p then
    if p.allAccountKeys.length > 2 then [p.allAccountKeys.getD 2 PublicKey.zero] else []
  else
    if p.allAccountKeys.length > 0 then [p.allAccountKeys.getD 0 PublicKey.zero] else []

/-- The record `swapInfo` as it stands before the entries are looked at: the signatures and
the signer are set, every other field has its zero value. -/
def initSwapInfo (x : Helpers) (p : Parser) : SwapInfo :=
  { Signers := signersOf x p
    Signatures := p.txInfo.Signatures
    AMMs := []
    Timestamp := 0
    TokenInMint := PublicKey.zero
    TokenInAmount := 0
    TokenInDecimals := 0
    TokenOutMint := PublicKey.zero
    TokenOutAmount := 0
    TokenOutDecimals := 0 }

/-- The block `if len(jupiterSwaps) > 0` of `ProcessSwapData`, entered with a non-empty
list. -/
def jupiterStage (x : Helpers) (p : Parser) (now : Int) (swapInfo : SwapInfo)
    (jupiterSwaps : List SwapData) : Outcome SwapInfo :=
  match x.parseJupiterEvents jupiterSwaps with
  | .error err => .error ("failed to parse Jupiter events: " ++ err)
  | .ok jupiterInfo =>
    .ok { swapInfo with
          TokenInMint := jupiterInfo.TokenInMint
          TokenInAmount := jupiterInfo.TokenInAmount
          TokenInDecimals := jupiterInfo.TokenInDecimals
          TokenOutMint := jupiterInfo.TokenOutMint
          TokenOutAmount := jupiterInfo.TokenOutAmount
          TokenOutDecimals := jupiterInfo.TokenOutDecimals
          AMMs := jupiterInfo.AMMs
          Timestamp := p.blockTimeOrNow now }

/-- Method `ProcessSwapData`. `now` is what `time.Now()` reads during the call. -/
def ProcessSwapData (c : Consts) (x : Helpers) (p : Parser) (now : Int)
    (swapDatas : List SwapData) : Outcome SwapInfo :=
  if swapDatas.length = 0 then .error "no swap data provided"
  else
    let swapInfo := initSwapInfo x p
    let b := swapDatas.foldl (classify c) Buckets.empty
    if b.jupiterSwaps.length > 0 then jupiterStage x p now swapInfo b.jupiterSwaps
    else
      pumpfunStage p now swapInfo b.pumpfunSwaps b.raydiumLaunchLabSwaps b.boopFunSwaps
        b.meteoraDAMMv2Swaps b.otherSwaps

/-! ## The dispatcher -/

/-- The key `AP51WLiiqTdbZfgyRMs35PsZpdmLuPDdHYmrB23pEtMU` written out in `ParseTransaction`. -/
def RAYDIUM_LEGACY_PROGRAM_ID : PublicKey :=
  ⟨63041973996429283364219651907242237751509461164755672686314072849054062722119, by decide⟩

/-- The key `BSfD6SHZigAfDWSjzD5Q41jw8LmKwtmjskPH9XW1mrRW` written out in `ParseTransaction`
and in `processRouterSwaps`. -/
def PUMP_FUN_LEGACY_PROGRAM_ID : PublicKey :=
  ⟨70178444527353197421700810631060772261736686973094132575863201806421662839537, by decide⟩

/-- The constant `PROTOCOL_RAYDIUM`. -/
def PROTOCOL_RAYDIUM : String := "raydium"

/-- The constant `PROTOCOL_ORCA`. -/
def PROTOCOL_ORCA : String := "orca"

/-- The constant `PROTOCOL_METEORA`. -/
def PROTOCOL_METEORA : String := "meteora"

/-- The constant `PROTOCOL_PUMPFUN`. -/
def PROTOCOL_PUMPFUN : String := "pumpfun"

/-- The per-protocol decoder methods of the parser. The dispatcher only calls them with the
index of an outer instruction and appends what they return, so they are taken as
parameters: each field is the function from the parser and the outer index to the returned
list. A field stands for calls that return; the calls with their aborts are the fields of
`Aborting.Decoders` below. -/
structure Decoders where
  processJupiterSwaps : Parser → Nat → List SwapData
  processMoonshotSwaps : Parser → List SwapData
  processBoopFunSwaps : Parser → Nat → List SwapData
  processOKXSwaps : Parser → Nat → List SwapData
  processRaydSwaps : Parser → Nat → List SwapData
  processRaydiumLaunchLabSwaps : Parser → Nat → List SwapData
  processOrcaSwaps : Parser → Nat → List SwapData
  processMeteoraDAMMv2Swaps : Parser → Nat → List SwapData
  processMeteoraDBCSwaps : Parser → Nat → List SwapData
  processMeteoraSwaps : Parser → Nat → List SwapData
  processPumpfunAMMSwaps : Parser → Nat → List SwapData
  processPumpfunSwaps : Parser → Nat → List SwapData

/-- Method `getInnerInstructions`: the instructions of the first inner set whose index is
the outer index converted to `uint16`; the empty list stands for `nil`. -/
def Parser.getInnerInstructions (p : Parser) (index : Nat) : List CompiledInstruction :=
  match p.txMeta.InnerInstructions.find? (fun inner => inner.Index = index % 2 ^ 16) with
  | some inner => inner.Instructions
  | none => []

/-- The key at an index that was checked to be in range. -/
def Parser.keyAt (p : Parser) (i : Nat) : PublicKey := p.allAccountKeys.getD i PublicKey.zero

/-- One round of the loop of `processRouterSwaps`; the state is `swaps` and the keys of
`processedProtocols`. -/
def routerStep (c : Consts) (d : Decoders) (p : Parser) (instructionIndex : Nat)
    (st : List SwapData × List String) (inner : CompiledInstruction) :
    List SwapData × List String :=
  if inner.ProgramIDIndex ≥ p.allAccountKeys.length then st
  else
    let progID := p.keyAt inner.ProgramIDIndex
    if (progID = c.RAYDIUM_V4_PROGRAM_ID ∨ progID = c.RAYDIUM_CPMM_PROGRAM_ID ∨
        progID = c.RAYDIUM_AMM_PROGRAM_ID ∨
        progID = c.RAYDIUM_CONCENTRATED_LIQUIDITY_PROGRAM_ID) ∧ PROTOCOL_RAYDIUM ∉ st.2 then
      (st.1 ++ d.processRaydSwaps p instructionIndex, PROTOCOL_RAYDIUM :: st.2)
    else if progID = c.ORCA_PROGRAM_ID ∧ PROTOCOL_ORCA ∉ st.2 then
      (st.1 ++ d.processOrcaSwaps p instructionIndex, PROTOCOL_ORCA :: st.2)
    else if (progID = c.METEORA_PROGRAM_ID ∨ progID = c.METEORA_POOLS_PROGRAM_ID ∨
        progID = c.METEORA_DLMM_PROGRAM_ID ∨ progID = c.METEORA_DAMM_V2_PROGRAM_ID ∨
        progID = c.METEORA_DBC_PROGRAM_ID) ∧ PROTOCOL_METEORA ∉ st.2 then
      (st.1 ++ d.processMeteoraSwaps p instructionIndex, PROTOCOL_METEORA :: st.2)
    else if progID = c.PUMPFUN_AMM_PROGRAM_ID ∧ PROTOCOL_PUMPFUN ∉ st.2 then
      (st.1 ++ d.processPumpfunAMMSwaps p instructionIndex, PROTOCOL_PUMPFUN :: st.2)
    else if (progID = c.PUMP_FUN_PROGRAM_ID ∨ progID = PUMP_FUN_LEGACY_PROGRAM_ID) ∧
        PROTOCOL_PUMPFUN ∉ st.2 then
      (st.1 ++ d.processPumpfunSwaps p instructionIndex, PROTOCOL_PUMPFUN :: st.2)
    else st

/-- Method `processRouterSwaps`. -/
def processRouterSwaps (c : Consts) (d : Decoders) (p : Parser) (instructionIndex : Nat) :
    List SwapData :=
  let innerInstructions := p.getInnerInstructions instructionIndex
  if innerInstructions.length = 0 then []
  else (innerInstructions.foldl (routerStep c d p instructionIndex) ([], [])).1

/-- One round of the first loop of `ParseTransaction`; the state is `skip` and
`parsedSwaps`, the round is given the index and the outer instruction. -/
def pass1Step (c : Consts) (d : Decoders) (p : Parser) (st : Bool × List SwapData)
    (io : Nat × CompiledInstruction) : Bool × List SwapData :=
  if io.2.ProgramIDIndex ≥ p.allAccountKeys.length then st
  else
    let progID := p.keyAt io.2.ProgramIDIndex
    if progID = c.JUPITER_PROGRAM_ID then (true, st.2 ++ d.processJupiterSwaps p io.1)
    else if progID = c.MOONSHOT_PROGRAM_ID then (true, st.2 ++ d.processMoonshotSwaps p)
    else if progID = c.BOOPFUN_PROGRAM_ID then (true, st.2 ++ d.processBoopFunSwaps p io.1)
    else if progID = c.BANANA_GUN_PROGRAM_ID ∨ progID = c.MINTECH_PROGRAM_ID ∨
        progID = c.BLOOM_PROGRAM_ID ∨ progID = c.NOVA_PROGRAM_ID ∨
        progID = c.MAESTRO_PROGRAM_ID then
      (st.1, st.2 ++ processRouterSwaps c d p io.1)
    else if progID = c.OKX_DEX_ROUTER_PROGRAM_ID then (true, st.2 ++ d.processOKXSwaps p io.1)
    else st

/-- One round of the second loop of `ParseTransaction`; the state is `parsedSwaps`. -/
def pass2Step (c : Consts) (d : Decoders) (p : Parser) (parsedSwaps : List SwapData)
    (io : Nat × CompiledInstruction) : List SwapData :=
  if io.2.ProgramIDIndex ≥ p.allAccountKeys.length then parsedSwaps
  else
    let progID := p.keyAt io.2.ProgramIDIndex
    if progID = c.RAYDIUM_V4_PROGRAM_ID ∨ progID = c.RAYDIUM_CPMM_PROGRAM_ID ∨
        progID = c.RAYDIUM_AMM_PROGRAM_ID ∨
        progID = c.RAYDIUM_CONCENTRATED_LIQUIDITY_PROGRAM_ID ∨
        progID = RAYDIUM_LEGACY_PROGRAM_ID then
      parsedSwaps ++ d.processRaydSwaps p io.1
    else if progID = c.RAYDIUM_LAUNCHLAB_PROGRAM_ID then
      parsedSwaps ++ d.processRaydiumLaunchLabSwaps p io.1
    else if progID = c.ORCA_PROGRAM_ID then parsedSwaps ++ d.processOrcaSwaps p io.1
    else if progID = c.METEORA_DAMM_V2_PROGRAM_ID then
      parsedSwaps ++ d.processMeteoraDAMMv2Swaps p io.1
    else if progID = c.METEORA_DBC_PROGRAM_ID then
      parsedSwaps ++ d.processMeteoraDBCSwaps p io.1
    else if progID = c.METEORA_PROGRAM_ID ∨ progID = c.METEORA_POOLS_PROGRAM_ID ∨
        progID = c.METEORA_DLMM_PROGRAM_ID then
      parsedSwaps ++ d.processMeteoraSwaps p io.1
    else if progID = c.PUMPFUN_AMM_PROGRAM_ID then
      parsedSwaps ++ d.processPumpfunAMMSwaps p io.1
    else if progID = c.PUMP_FUN_PROGRAM_ID ∨ progID = PUMP_FUN_LEGACY_PROGRAM_ID then
      parsedSwaps ++ d.processPumpfunSwaps p io.1
    else parsedSwaps

/-- Method `ParseTransaction` for decoder calls that return; its error result is always
`nil` and is left out. `Aborting.ParseTransaction` below is the method with the aborts of the
decoder calls, and it returns this list when every call returns. -/
def ParseTransaction (c : Consts) (d : Decoders) (p : Parser) : List SwapData :=
  let st := p.txInfo.Instructions.enum.foldl (pass1Step c d p) (false, [])
  if st.1 then st.2
  else p.txInfo.Instructions.enum.foldl (pass2Step c d p) st.2

/-! ## Notions used in the statements -/

/-- The payload is a Pump.fun trade event. -/
def Payload.isPumpfunTrade : Payload → Bool
  | .pumpfunTrade _ => true
  | _ => false

/-- The payload is a Raydium LaunchLab event. -/
def Payload.isRaydiumLaunchLab : Payload → Bool
  | .raydiumLaunchLab _ => true
  | _ => false

/-- The payload is a Boop.fun event. -/
def Payload.isBoopFun : Payload → Bool
  | .boopFun _ => true
  | _ => false

/-- The payload is a Meteora DAMM v2 or DBC event. -/
def Payload.isMeteoraEvent : Payload → Bool
  | .meteoraDAMMv2 _ => true
  | .meteoraDBC _ => true
  | _ => false

/-- The five tags named in the `switch` of the sorting loop are pairwise different; the Go
compiler refuses a `switch` with two equal constant cases. -/
@[reducible] def Consts.tagsDistinct (c : Consts) : Prop :=
  [c.JUPITER, c.PUMP_FUN, c.RAYDIUM_LAUNCHLAB, c.METEORA, c.BOOPFUN].Nodup

/-- The first entry of a list that has the given tag. -/
def firstOfType (tag : SwapType) (xs : List SwapData) : Option SwapData :=
  xs.find? (fun sd => sd.Typ = tag)

/-- The transfer records of a list of entries, in the order of the list. -/
def transferRecords (l : List SwapData) : List TokenTransfer :=
  l.filterMap getTransferFromSwapData

/-- No class of the summariser matches the list: it has no JUPITER entry, its first
PUMP_FUN, RAYDIUM_LAUNCHLAB and BOOPFUN entries, if any, do not carry the event of their
class, and no METEORA entry carries a DAMM v2 or DBC event. -/
@[reducible] def noClassMatches (c : Consts) (xs : List SwapData) : Prop :=
  (∀ sd ∈ xs, sd.Typ ≠ c.JUPITER) ∧
  (firstOfType c.PUMP_FUN xs).all (fun sd => !sd.Data.isPumpfunTrade) = true ∧
  (firstOfType c.RAYDIUM_LAUNCHLAB xs).all (fun sd => !sd.Data.isRaydiumLaunchLab) = true ∧
  (firstOfType c.BOOPFUN xs).all (fun sd => !sd.Data.isBoopFun) = true ∧
  (∀ sd ∈ xs, sd.Typ = c.METEORA → sd.Data.isMeteoraEvent = false)

/-- The list the generic reduction works on when no class matches: the entries with none of
the tags PUMP_FUN, RAYDIUM_LAUNCHLAB, BOOPFUN in the order of the list, then the PUMP_FUN
entries, then the RAYDIUM_LAUNCHLAB entries, then the BOOPFUN entries. -/
def reducedList (c : Consts) (xs : List SwapData) : List SwapData :=
  xs.filter (fun sd => sd.Typ ∉ [c.PUMP_FUN, c.RAYDIUM_LAUNCHLAB, c.BOOPFUN]) ++
    xs.filter (fun sd => sd.Typ = c.PUMP_FUN) ++
    xs.filter (fun sd => sd.Typ = c.RAYDIUM_LAUNCHLAB) ++
    xs.filter (fun sd => sd.Typ = c.BOOPFUN)

/-- The elements of a list that are the first with their key, in the order of the list. -/
def firstSeen {α κ : Type} [DecidableEq κ] (key : α → κ) : List α → List α
  | [] => []
  | a :: l => a :: (firstSeen key l).filter (fun b => key b ≠ key a)

/-- The sum modulo `2 ^ 64` of the set of the distinct amounts of the records of a mint. -/
def distinctAmountSum (ts : List TokenTransfer) (mint : String) : Nat :=
  (∑ a ∈ ((ts.filter (fun t => t.mint = mint)).map (fun t => t.amount)).toFinset, a) % 2 ^ 64

/-- The classes of entries of the summariser, one for each list of the sorting loop:
Jupiter, Pump.fun, Raydium LaunchLab, Boop.fun, Meteora DAMM v2 / DBC events, and `other`,
the entries left to the generic reduction. -/
inductive SwapClass where
  | jupiter | pumpfun | raydiumLaunchLab | boopFun | meteoraDAMMv2 | other
deriving DecidableEq

/-- The list of the sorting loop that holds the entries of a class. -/
def Buckets.get (b : Buckets) : SwapClass → List SwapData
  | .jupiter => b.jupiterSwaps
  | .pumpfun => b.pumpfunSwaps
  | .raydiumLaunchLab => b.raydiumLaunchLabSwaps
  | .meteoraDAMMv2 => b.meteoraDAMMv2Swaps
  | .boopFun => b.boopFunSwaps
  | .other => b.otherSwaps

/-- The class of an entry: its tag decides, and a METEORA entry is of the Meteora class
only when it carries a DAMM v2 or DBC event. -/
def classOf (c : Consts) (sd : SwapData) : SwapClass :=
  if sd.Typ = c.JUPITER then .jupiter
  else if sd.Typ = c.PUMP_FUN then .pumpfun
  else if sd.Typ = c.RAYDIUM_LAUNCHLAB then .raydiumLaunchLab
  else if sd.Typ = c.METEORA then
    if sd.Data.isMeteoraEvent then .meteoraDAMMv2 else .other
  else if sd.Typ = c.BOOPFUN then .boopFun
  else .other

/-- The place of a class in the order in which the summariser tries the classes
(0 is tried first). -/
def SwapClass.rank : SwapClass → Nat
  | .jupiter => 0
  | .pumpfun => 1
  | .raydiumLaunchLab => 2
  | .boopFun => 3
  | .meteoraDAMMv2 => 4
  | .other => 5

/-- The payload is the event of the class; the Jupiter class and `other` ask for none. -/
def SwapClass.carriesEvent : SwapClass → Payload → Bool
  | .jupiter, _ => true
  | .pumpfun, d => d.isPumpfunTrade
  | .raydiumLaunchLab, d => d.isRaydiumLaunchLab
  | .boopFun, d => d.isBoopFun
  | .meteoraDAMMv2, d => d.isMeteoraEvent
  | .other, _ => true

/-- The entries of a class, in the order of the list. -/
def entriesOf (c : Consts) (k : SwapClass) (xs : List SwapData) : List SwapData :=
  xs.filter (fun sd => classOf c sd = k)

/-- The program is one of those that make `ParseTransaction` skip its second loop. -/
def isSkipProgram (c : Consts) (progID : PublicKey) : Bool :=
  progID = c.JUPITER_PROGRAM_ID ∨ progID = c.MOONSHOT_PROGRAM_ID ∨
    progID = c.BOOPFUN_PROGRAM_ID ∨ progID = c.OKX_DEX_ROUTER_PROGRAM_ID

/-- The program is one of the five router wrappers. -/
def isRouterWrapper (c : Consts) (progID : PublicKey) : Bool :=
  progID = c.BANANA_GUN_PROGRAM_ID ∨ progID = c.MINTECH_PROGRAM_ID ∨
    progID = c.BLOOM_PROGRAM_ID ∨ progID = c.NOVA_PROGRAM_ID ∨ progID = c.MAESTRO_PROGRAM_ID

/-- Some outer instruction with an in-range program index runs Jupiter, Moonshot, Boop.fun
or the OKX router. -/
@[reducible] def hasSkippingInstruction (c : Consts) (p : Parser) : Prop :=
  ∃ ins ∈ p.txInfo.Instructions,
    ins.ProgramIDIndex < p.allAccountKeys.length ∧
      isSkipProgram c (p.keyAt ins.ProgramIDIndex) = true

/-- What the first loop of `ParseTransaction` collects for one outer instruction, given
with its index. -/
def pass1Output (c : Consts) (d : Decoders) (p : Parser) (io : Nat × CompiledInstruction) :
    List SwapData :=
  if io.2.ProgramIDIndex ≥ p.allAccountKeys.length then []
  else if p.keyAt io.2.ProgramIDIndex = c.JUPITER_PROGRAM_ID then d.processJupiterSwaps p io.1
  else if p.keyAt io.2.ProgramIDIndex = c.MOONSHOT_PROGRAM_ID then d.processMoonshotSwaps p
  else if p.keyAt io.2.ProgramIDIndex = c.BOOPFUN_PROGRAM_ID then d.processBoopFunSwaps p io.1
  else if isRouterWrapper c (p.keyAt io.2.ProgramIDIndex) then processRouterSwaps c d p io.1
  else if p.keyAt io.2.ProgramIDIndex = c.OKX_DEX_ROUTER_PROGRAM_ID then
    d.processOKXSwaps p io.1
  else []

/-- Everything the first loop collects: the outputs for the outer instructions, in their
order. -/
def pass1Collected (c : Consts) (d : Decoders) (p : Parser) : List SwapData :=
  (p.txInfo.Instructions.enum.map (pass1Output c d p)).flatten

/-! ## Concrete data for the instances -/

/-- Constants for the instances: lower-case tags and the main-net program IDs. -/
def sampleConsts : Consts :=
  { RAYDIUM := "raydium"
    RAYDIUM_LAUNCHLAB := "raydium_launchlab"
    ORCA := "orca"
    METEORA := "meteora"
    PUMP_FUN := "pumpfun"
    PUMPFUN_AMM := "pumpfun_amm"
    JUPITER := "jupiter"
    MOONSHOT := "moonshot"
    BOOPFUN := "boopfun"
    OKX := "okx"
    JUPITER_PROGRAM_ID :=
      ⟨2024512440004304401218460610310738430137902625605816137218628783959189492623, by decide⟩
    JUPITER_DCA_PROGRAM_ID :=
      ⟨81938998317135222205742299452034870059123439979198301072604423558382126943236, by decide⟩
    MOONSHOT_PROGRAM_ID :=
      ⟨2410934384591440803147444625975917724320808275659964519383805872757841576921, by decide⟩
    BOOPFUN_PROGRAM_ID :=
      ⟨4033133173774354650890168636797934524456824858923061261220944532110575182231, by decide⟩
    OKX_DEX_ROUTER_PROGRAM_ID :=
      ⟨38703385018602092643889640758174365389593298819755562336790676482139849265001, by decide⟩
    BANANA_GUN_PROGRAM_ID :=
      ⟨68290448110443151334256321262164084514603320122068400332395268078585598794014, by decide⟩
    MINTECH_PROGRAM_ID :=
      ⟨5181810238948475880424103450101604082222688066243685290111108231274860474285, by decide⟩
    BLOOM_PROGRAM_ID :=
      ⟨3941235058423062903133737510633514020550968173094580644525584268848582985030, by decide⟩
    NOVA_PROGRAM_ID :=
      ⟨2526164151541409277354516163274234939702776643156889920267613340026022851868, by decide⟩
    MAESTRO_PROGRAM_ID :=
      ⟨2384656622385552233976103739784767985451827517139636210107322119192616518381, by decide⟩
    RAYDIUM_V4_PROGRAM_ID :=
      ⟨34307378574122751251753648456821433629702160761243254248185250197633836157645, by decide⟩
    RAYDIUM_CPMM_PROGRAM_ID :=
      ⟨76515703900233190660591128275926181994727486580522254552177469512830257523827, by decide⟩
    RAYDIUM_AMM_PROGRAM_ID :=
      ⟨5771411421329603887937878836354796110694785128307055242253959903570526983431, by decide⟩
    RAYDIUM_CONCENTRATED_LIQUIDITY_PROGRAM_ID :=
      ⟨75009356853976929659943414926574456823275450602745972963014244811826130862110, by decide⟩
    RAYDIUM_LAUNCHLAB_PROGRAM_ID :=
      ⟨2269042859434166448385157605447593008716662538106545696250340109426254530850, by decide⟩
    ORCA_PROGRAM_ID :=
      ⟨6338400779188879694835442338119989991763804279920687834040273975642487814569, by decide⟩
    METEORA_PROGRAM_ID :=
      ⟨2222480940325335872388304432163824986101655287136298596997600281027040817340, by decide⟩
    METEORA_POOLS_PROGRAM_ID :=
      ⟨92710018723620611263323491632918954775580046908789018343327465393353659269248, by decide⟩
    METEORA_DLMM_PROGRAM_ID :=
      ⟨2270457756523882753425812388632408014518675121052301294034842682989603341643, by decide⟩
    METEORA_DAMM_V2_PROGRAM_ID :=
      ⟨4150552952357806311296800041893419763326785395543983333600872279026800614125, by decide⟩
    METEORA_DBC_PROGRAM_ID :=
      ⟨4240520228708621946113894509669528729720934734953116493984457471335347179849, by decide⟩
    PUMP_FUN_PROGRAM_ID :=
      ⟨605814335005781813025241542787157911726959411820757128006101511735853521072, by decide⟩
    PUMPFUN_AMM_PROGRAM_ID :=
      ⟨5464630119619898166266341678619113288817485149253204375108042491183227316323, by decide⟩ }

/-- Stand-ins for the helper functions in the instances: no Jupiter event parses, and the
DCA program is looked for among the account keys. -/
def sampleHelpers : Helpers :=
  { parseJupiterEvents := fun _ => .error "no events provided"
    containsDCAProgram := fun p => p.allAccountKeys.contains sampleConsts.JUPITER_DCA_PROGRAM_ID }

/-- The mint `EPjFWdd5AufqSSqeM2qN1xzybapC8G4wEGGkZwyTDt1v` (USDC). -/
def usdcMint : PublicKey :=
  ⟨90000504370102394704099784797280792267247599056409324908524740370261802442081, by decide⟩

/-- A signer key for the instances. -/
def sampleSigner : PublicKey := ⟨7, by decide⟩

/-- A parser with one account key, no instruction, a block time and empty token maps. -/
def sampleParser : Parser :=
  { txResult := some ⟨some 1700000000⟩
    txMeta := ⟨[], [], [], []⟩
    txInfo := ⟨[[1, 2, 3]], [sampleSigner], []⟩
    allAccountKeys := [sampleSigner]
    splTokenInfoMap := fun _ => none
    splDecimalsMap := fun s => if s = "EPjFWdd5AufqSSqeM2qN1xzybapC8G4wEGGkZwyTDt1v" then some 6
      else none }

/-- A decoded Transfer of the given mint and amount. -/
def sampleTransfer (mint : String) (amount : Nat) (decimals : Nat) : Payload :=
  .transferData ⟨⟨amount, "authority", "destination", "source"⟩, "transfer", mint, decimals⟩

/-- The text of the native SOL mint. -/
def solText : String := "So11111111111111111111111111111111111111112"

/-- The text of the USDC mint. -/
def usdcText : String := "EPjFWdd5AufqSSqeM2qN1xzybapC8G4wEGGkZwyTDt1v"

/-- A DAMM v2 event as `processMeteoraDAMMv2Swaps` emits it when fewer than two inner
TransferChecked were found: both mints keep their zero value. -/
def bareMeteoraEvent : MeteoraDAMMv2SwapEvent := ⟨10, 5, 0, PublicKey.zero, 0, PublicKey.zero, 0, 0⟩

/-- One METEORA entry that carries `bareMeteoraEvent`. -/
def bareMeteoraList : List SwapData := [⟨"meteora", .meteoraDAMMv2 bareMeteoraEvent⟩]

/-- Four transfers of two AMMs: USDC in, SOL out, one SOL transfer seen twice. -/
def plainList : List SwapData :=
  [⟨"raydium", sampleTransfer usdcText 5 6⟩, ⟨"orca", sampleTransfer solText 7 9⟩,
   ⟨"raydium", sampleTransfer solText 7 9⟩, ⟨"raydium", sampleTransfer solText 9 9⟩]

/-- The summary of `plainList` on `sampleParser`. -/
def plainSummary : SwapInfo :=
  { Signers := [sampleSigner]
    Signatures := [[1, 2, 3]]
    AMMs := ["raydium", "orca"]
    Timestamp := 1700000000
    TokenInMint := usdcMint
    TokenInAmount := 5
    TokenInDecimals := 6
    TokenOutMint := NATIVE_SOL_MINT_PROGRAM_ID
    TokenOutAmount := 16
    TokenOutDecimals := 9 }

/-- A LaunchLab transfer of USDC followed by a Raydium transfer of SOL. -/
def demotedList : List SwapData :=
  [⟨"raydium_launchlab", sampleTransfer usdcText 1 6⟩, ⟨"raydium", sampleTransfer solText 2 9⟩]

/-- A transfer with the mint `Unknown` that `processTransfer` gives to a destination it
does not know, followed by a transfer of SOL. -/
def unknownMintList : List SwapData :=
  [⟨"raydium", sampleTransfer "Unknown" 1 0⟩, ⟨"raydium", sampleTransfer solText 2 9⟩]

/-- One transfer of SOL and an entry without transfer. -/
def singleMintList : List SwapData :=
  [⟨"raydium", sampleTransfer solText 1 9⟩, ⟨"orca", .other⟩]

/-- A Pump.fun buy of USDC. -/
def samplePumpfunEvent : PumpfunTradeEvent := ⟨usdcMint, 10, 20, true, sampleSigner, 1234, 0, 0⟩

/-- A Raydium transfer, then a PUMP_FUN entry with `samplePumpfunEvent`, then a PUMP_FUN
entry without event. -/
def pumpfunList : List SwapData :=
  [⟨"raydium", sampleTransfer solText 1 9⟩, ⟨"pumpfun", .pumpfunTrade samplePumpfunEvent⟩,
   ⟨"pumpfun", .other⟩]

/-- Entries of four classes, each with its event, the one of the first class tried
standing last. -/
def mixedClassList : List SwapData :=
  [⟨"meteora", .meteoraDAMMv2 bareMeteoraEvent⟩, ⟨"raydium", sampleTransfer solText 1 9⟩,
   ⟨"boopfun", .boopFun ⟨3, 1, 4, usdcMint, 6, true⟩⟩,
   ⟨"pumpfun", .pumpfunTrade samplePumpfunEvent⟩]

/-- Decoders for the instances: each returns one entry that names it. -/
def sampleDecoders : Decoders :=
  { processJupiterSwaps := fun _ _ => [⟨"jupiter", .other⟩]
    processMoonshotSwaps := fun _ => [⟨"moonshot", .other⟩]
    processBoopFunSwaps := fun _ _ => [⟨"boopfun", .other⟩]
    processOKXSwaps := fun _ _ => [⟨"okx", .other⟩]
    processRaydSwaps := fun _ _ => [⟨"raydium", .other⟩]
    processRaydiumLaunchLabSwaps := fun _ _ => [⟨"raydium_launchlab", .other⟩]
    processOrcaSwaps := fun _ _ => [⟨"orca", .other⟩]
    processMeteoraDAMMv2Swaps := fun _ _ => [⟨"meteora", .other⟩]
    processMeteoraDBCSwaps := fun _ _ => [⟨"meteora", .other⟩]
    processMeteoraSwaps := fun _ _ => [⟨"meteora", .other⟩]
    processPumpfunAMMSwaps := fun _ _ => [⟨"pumpfun_amm", .other⟩]
    processPumpfunSwaps := fun _ _ => [⟨"pumpfun", .other⟩] }

/-- A transaction with a Raydium V4 instruction, a Jupiter instruction and an instruction
whose program index is out of range. -/
def dispatchParser : Parser :=
  { txResult := none
    txMeta := ⟨[], [], [], []⟩
    txInfo := ⟨[[1, 2, 3]], [sampleSigner], [⟨2, [], []⟩, ⟨1, [], []⟩, ⟨9, [], []⟩]⟩
    allAccountKeys :=
      [sampleSigner, sampleConsts.JUPITER_PROGRAM_ID, sampleConsts.RAYDIUM_V4_PROGRAM_ID]
    splTokenInfoMap := fun _ => none
    splDecimalsMap := fun _ => none }

/-- The summary of `bareMeteoraList` on `sampleParser`. -/
def bareMeteoraSummary : SwapInfo :=
  { Signers := [sampleSigner]
    Signatures := [[1, 2, 3]]
    AMMs := ["meteora"]
    Timestamp := 1700000000
    TokenInMint := PublicKey.zero
    TokenInAmount := 10
    TokenInDecimals := 0
    TokenOutMint := PublicKey.zero
    TokenOutAmount := 0
    TokenOutDecimals := 0 }

/-- The summary of `demotedList` on `sampleParser`. -/
def demotedSummary : SwapInfo :=
  { Signers := [sampleSigner]
    Signatures := [[1, 2, 3]]
    AMMs := ["raydium", "raydium_launchlab"]
    Timestamp := 1700000000
    TokenInMint := NATIVE_SOL_MINT_PROGRAM_ID
    TokenInAmount := 2
    TokenInDecimals := 9
    TokenOutMint := usdcMint
    TokenOutAmount := 1
    TokenOutDecimals := 6 }

/-! ## The instruction recognisers -/

/-- The library constant `solana.TokenProgramID`,
`TokenkegQfeZyiNwAJbNbGKPFXCWuBvf9Ss623VQ5DA`. -/
def TokenProgramID : PublicKey :=
  ⟨3106054211088883198575105191760876350940303353676611666299516346430146937001, by decide⟩

/-- The library constant `solana.Token2022ProgramID`,
`TokenzQdBNbLqP5VEhdkAS6EPFLC1PHnBqCXEpPxuEb`. -/
def Token2022ProgramID : PublicKey :=
  ⟨3106054213517619466333521364411816883583182866730275619636245252638471457788, by decide⟩

/-- The constant `RaydiumLaunchLabBuyEventDiscriminator`. -/
def RaydiumLaunchLabBuyEventDiscriminator : List Nat := [102, 230, 103, 87, 137, 106, 134, 187]

/-- The constant `RaydiumLaunchLabSellEventDiscriminator`. -/
def RaydiumLaunchLabSellEventDiscriminator : List Nat := [149, 39, 222, 155, 211, 124, 152, 26]

/-- The two event discriminator constants of `checks.go`, declared in the constants module
outside the listed sources and taken as parameters: byte strings of whatever length the
module gives them. -/
structure EventDiscriminators where
  PumpfunTradeEventDiscriminator : List Nat
  JupiterRouteEventDiscriminator : List Nat
deriving DecidableEq

/-- Go sequencing: the second computation runs on the value of the first, an error or an
abort of the first is the result. -/
def Outcome.bind {α β : Type} (o : Outcome α) (f : α → Outcome β) : Outcome β :=
  match o with
  | .ok a => f a
  | .error msg => .error msg
  | .abort => .abort

/-- Go indexing `xs[i]` of a slice: the element, or an abort when `i` is out of range. -/
def indexAt {α : Type} (xs : List α) (i : Nat) : Outcome α :=
  match xs[i]? with
  | some a => .ok a
  | none => .abort

/-- Go slicing `xs[:n]`: the first `n` elements, or an abort when there are fewer. -/
def sliceTo {α : Type} (xs : List α) (n : Nat) : Outcome (List α) :=
  if n ≤ xs.length then .ok (xs.take n) else .abort

/-- The call `base58.Decode(inst.Data.String())`: the bytes are written as base58 text and
the text is decoded again, which gives the bytes back; `Decode` refuses the empty text, and
`none` stands for that error. -/
def decodeDataText (data : List Nat) : Option (List Nat) :=
  if data.length = 0 then none else some data

/-- The loop `for i := 0; i < n; i++` of `isTransfer` and `isTransferCheck`, entered at `i`
with `remaining` rounds to go: `false` at the first account index that is not below the
number of account keys. -/
def accountLoop (p : Parser) (accounts : List Nat) : Nat → Nat → Outcome Bool
  | _, 0 => .ok true
  | i, remaining + 1 =>
    (indexAt accounts i).bind fun account =>
      if account ≥ p.allAccountKeys.length then .ok false
      else accountLoop p accounts (i + 1) remaining

/-- Method `isTransfer`. -/
def Parser.isTransfer (p : Parser) (instr : CompiledInstruction) : Outcome Bool :=
  if instr.ProgramIDIndex ≥ p.allAccountKeys.length then .ok false
  else
    (indexAt p.allAccountKeys instr.ProgramIDIndex).bind fun progID =>
      if progID ≠ TokenProgramID then .ok false
      else if instr.Accounts.length < 3 ∨ instr.Data.length < 9 then .ok false
      else
        (indexAt instr.Data 0).bind fun opcode =>
          if opcode ≠ 3 then .ok false
          else accountLoop p instr.Accounts 0 3

/-- Method `isTransferCheck`. -/
def Parser.isTransferCheck (p : Parser) (instr : CompiledInstruction) : Outcome Bool :=
  if instr.ProgramIDIndex ≥ p.allAccountKeys.length then .ok false
  else
    (indexAt p.allAccountKeys instr.ProgramIDIndex).bind fun progID =>
      if progID ≠ TokenProgramID ∧ progID ≠ Token2022ProgramID then .ok false
      else if instr.Accounts.length < 4 ∨ instr.Data.length < 9 then .ok false
      else
        (indexAt instr.Data 0).bind fun opcode =>
          if opcode ≠ 12 then .ok false
          else accountLoop p instr.Accounts 0 4

/-- Method `isPumpFunTradeEventInstruction`. -/
def Parser.isPumpFunTradeEventInstruction (c : Consts) (k : EventDiscriminators) (p : Parser)
    (inst : CompiledInstruction) : Outcome Bool :=
  if inst.ProgramIDIndex ≥ p.allAccountKeys.length then .ok false
  else
    (indexAt p.allAccountKeys inst.ProgramIDIndex).bind fun progID =>
      if progID ≠ c.PUMP_FUN_PROGRAM_ID ∨ inst.Data.length < 16 then .ok false
      else
        match decodeDataText inst.Data with
        | none => .ok false
        | some decodedBytes =>
          (sliceTo decodedBytes 16).bind fun head =>
            .ok (decide (head = k.PumpfunTradeEventDiscriminator))

/-- Method `isJupiterRouteEventInstruction`. -/
def Parser.isJupiterRouteEventInstruction (c : Consts) (k : EventDiscriminators) (p : Parser)
    (inst : CompiledInstruction) : Outcome Bool :=
  if inst.ProgramIDIndex ≥ p.allAccountKeys.length then .ok false
  else
    (indexAt p.allAccountKeys inst.ProgramIDIndex).bind fun progID =>
      if progID ≠ c.JUPITER_PROGRAM_ID ∨ inst.Data.length < 16 then .ok false
      else
        match decodeDataText inst.Data with
        | none => .ok false
        | some decodedBytes =>
          (sliceTo decodedBytes 16).bind fun head =>
            .ok (decide (head = k.JupiterRouteEventDiscriminator))

/-- Method `isMeteoraDBCEventInstruction`. -/
def Parser.isMeteoraDBCEventInstruction (c : Consts) (p : Parser)
    (instruction : CompiledInstruction) : Outcome Bool :=
  if instruction.ProgramIDIndex ≥ p.allAccountKeys.length then .ok false
  else
    (indexAt p.allAccountKeys instruction.ProgramIDIndex).bind fun programID =>
      .ok (decide (programID = c.METEORA_DBC_PROGRAM_ID))

/-- Method `isRaydiumLaunchLabEvent`; it indexes the account keys without a check of the
program index. -/
def Parser.isRaydiumLaunchLabEvent (c : Consts) (p : Parser) (inst : CompiledInstruction) :
    Outcome Bool :=
  (indexAt p.allAccountKeys inst.ProgramIDIndex).bind fun progID =>
    if progID ≠ c.RAYDIUM_LAUNCHLAB_PROGRAM_ID then .ok false
    else if inst.Data.length < 8 then .ok false
    else
      match decodeDataText inst.Data with
      | none => .ok false
      | some decodedBytes =>
        (sliceTo decodedBytes 8).bind fun head =>
          .ok (decide (head = RaydiumLaunchLabBuyEventDiscriminator) ||
            decide (head = RaydiumLaunchLabSellEventDiscriminator))

/-- A result with its timestamp put to zero; errors and aborts are left as they are. -/
def Outcome.forgetTimestamp : Outcome SwapInfo → Outcome SwapInfo
  | .ok s => .ok { s with Timestamp := 0 }
  | .error msg => .error msg
  | .abort => .abort

/-! ## More concrete data for the instances -/

/-- A sample Pump.fun trade event discriminator of 16 bytes: the 8 bytes of the event tag,
then the 8 bytes of the event. -/
def pumpfun16 : List Nat :=
  [228, 69, 165, 46, 81, 203, 154, 29, 189, 219, 127, 211, 78, 230, 97, 238]

/-- A sample Jupiter route event discriminator of 16 bytes. -/
def jupiter16 : List Nat :=
  [228, 69, 165, 46, 81, 203, 154, 29, 64, 198, 205, 232, 38, 8, 113, 226]

/-- Discriminators of 16 bytes. -/
def sampleDiscriminators16 : EventDiscriminators := ⟨pumpfun16, jupiter16⟩

/-- Discriminators of 8 bytes. -/
def sampleDiscriminators8 : EventDiscriminators :=
  ⟨[189, 219, 127, 211, 78, 230, 97, 238], [64, 198, 205, 232, 38, 8, 113, 226]⟩

/-- A parser whose account keys are the signer, the Pump.fun program and the Jupiter
program. -/
def eventParser : Parser :=
  { txResult := none
    txMeta := ⟨[], [], [], []⟩
    txInfo := ⟨[[1, 2, 3]], [sampleSigner], []⟩
    allAccountKeys :=
      [sampleSigner, sampleConsts.PUMP_FUN_PROGRAM_ID, sampleConsts.JUPITER_PROGRAM_ID]
    splTokenInfoMap := fun _ => none
    splDecimalsMap := fun _ => none }

/-- A parser whose account keys are the signer, the two token programs and the USDC
mint. -/
def tokenParser : Parser :=
  { txResult := none
    txMeta := ⟨[], [], [], []⟩
    txInfo := ⟨[[1, 2, 3]], [sampleSigner], []⟩
    allAccountKeys := [sampleSigner, TokenProgramID, Token2022ProgramID, usdcMint]
    splTokenInfoMap := fun _ => none
    splDecimalsMap := fun _ => none }

/-- A PUMP_FUN entry without event, followed by a PUMP_FUN entry with
`samplePumpfunEvent`. -/
def lateEventList : List SwapData :=
  [⟨"pumpfun", .other⟩, ⟨"pumpfun", .pumpfunTrade samplePumpfunEvent⟩]

/-- A LaunchLab sale of 50 units of USDC for 70 lamports. -/
def sampleLaunchLabEvent : RaydiumLaunchLabBuyEvent :=
  { PoolState := PublicKey.zero
    TotalBaseSell := 0
    VirtualBase := 0
    VirtualQuote := 0
    RealBaseBefore := 0
    RealQuoteBefore := 0
    RealBaseAfter := 0
    RealQuoteAfter := 0
    AmountIn := 50
    AmountOut := 70
    MinimumAmountOut := 60
    ProtocolFee := 0
    PlatformFee := 0
    ShareFee := 0
    TradeDirection := ⟨false⟩
    PoolStatus := ⟨false⟩
    TokenMint := usdcMint
    TokenDecimals := 6
    IsBuy := false }

/-- A PUMP_FUN transfer, a Raydium transfer, then a LaunchLab entry with
`sampleLaunchLabEvent`. -/
def launchLabList : List SwapData :=
  [⟨"pumpfun", sampleTransfer solText 1 9⟩, ⟨"raydium", sampleTransfer solText 1 9⟩,
   ⟨"raydium_launchlab", .raydiumLaunchLab sampleLaunchLabEvent⟩]

/-- A Boop.fun event that says it is a sale. -/
def sampleBoopFunEvent : BoopFunSwapEvent := ⟨3, 1, 4, usdcMint, 6, false⟩

/-- A Meteora event, a LaunchLab transfer, then a BOOPFUN entry with
`sampleBoopFunEvent`. -/
def boopFunList : List SwapData :=
  [⟨"meteora", .meteoraDAMMv2 bareMeteoraEvent⟩,
   ⟨"raydium_launchlab", sampleTransfer solText 1 9⟩, ⟨"boopfun", .boopFun sampleBoopFunEvent⟩]

/-! ## The transfer decoder, the token-account index and the constructors -/

/-- Go slicing `xs[lo:hi]`, the capacity of the slice taken to be its length: the elements
from `lo` up to `hi`, or an abort when the bounds are out of range. -/
def sliceFromTo {α : Type} (xs : List α) (lo hi : Nat) : Outcome (List α) :=
  if lo ≤ hi ∧ hi ≤ xs.length then .ok ((xs.take hi).drop lo) else .abort

/-- The number spelled by little-endian bytes. -/
def leBytes : List Nat → Nat
  | [] => 0
  | b :: bs => b % 256 + 256 * leBytes bs

/-- Function `binary.LittleEndian.Uint64` on the first 8 bytes. -/
def leUint64 (b : List Nat) : Nat := leBytes (b.take 8)

/-- The loop over `instr.Accounts[:3]` of `processTransfer`: some account index is not below
the number of account keys. -/
def Parser.someAccountOutOfRange (p : Parser) (accounts : List Nat) : Bool :=
  accounts.any (fun accountIndex => decide (accountIndex ≥ p.allAccountKeys.length))

/-- Method `processTransfer`; `none` is the `nil` result. A missing key of the token map reads
as the zero `TokenInfo`. -/
def Parser.processTransfer (p : Parser) (instr : CompiledInstruction) :
    Outcome (Option TransferData) :=
  (sliceFromTo instr.Data 1 9).bind fun bytes =>
    let amount := leUint64 bytes
    if instr.Accounts.length < 3 then .ok none
    else if p.someAccountOutOfRange (instr.Accounts.take 3) then .ok none
    else
      (indexAt instr.Accounts 1).bind fun a1 =>
      (indexAt p.allAccountKeys a1).bind fun destination =>
      (indexAt instr.Accounts 0).bind fun a0 =>
      (indexAt p.allAccountKeys a0).bind fun source =>
      (indexAt instr.Accounts 2).bind fun a2 =>
      (indexAt p.allAccountKeys a2).bind fun authority =>
        let destinationKey := PublicKey.String destination
        let info := (p.splTokenInfoMap destinationKey).getD ⟨"", 0⟩
        .ok (some
          { Info :=
              { Amount := amount
                Source := PublicKey.String source
                Destination := destinationKey
                Authority := PublicKey.String authority }
            Kind := "transfer"
            Mint := if info.Mint = "" then "Unknown" else info.Mint
            Decimals := info.Decimals })

/-- A Go map write `m[key] = value`. -/
def mapSet {α : Type} (m : String → Option α) (key : String) (value : α) :
    String → Option α :=
  fun k => if k = key then some value else m k

/-- One round of the loop of `extractSPLTokenInfo` over the post-token-balances. -/
def balanceStep (p : Parser) (splTokenAddresses : String → Option TokenInfo)
    (accountInfo : TokenBalance) : String → Option TokenInfo :=
  if !accountInfo.Mint.IsZero then
    if accountInfo.AccountIndex ≥ p.allAccountKeys.length then splTokenAddresses
    else
      mapSet splTokenAddresses (PublicKey.String (p.keyAt accountInfo.AccountIndex))
        ⟨PublicKey.String accountInfo.Mint, accountInfo.Decimals⟩
  else splTokenAddresses

/-- The closure `processInstruction` of `extractSPLTokenInfo`, as a function of the map it
writes to. -/
def processInstruction (p : Parser) (splTokenAddresses : String → Option TokenInfo)
    (instr : CompiledInstruction) : String → Option TokenInfo :=
  if instr.ProgramIDIndex ≥ p.allAccountKeys.length then splTokenAddresses
  else if p.keyAt instr.ProgramIDIndex ≠ TokenProgramID then splTokenAddresses
  else if instr.Data.length = 0 ∨ (instr.Data.getD 0 0 ≠ 3 ∧ instr.Data.getD 0 0 ≠ 12) then
    splTokenAddresses
  else if instr.Accounts.length < 3 then splTokenAddresses
  else if instr.Accounts.getD 0 0 ≥ p.allAccountKeys.length then splTokenAddresses
  else if instr.Accounts.getD 1 0 ≥ p.allAccountKeys.length then splTokenAddresses
  else
    let source := PublicKey.String (p.keyAt (instr.Accounts.getD 0 0))
    let destination := PublicKey.String (p.keyAt (instr.Accounts.getD 1 0))
    let m1 :=
      if (splTokenAddresses source).isNone then mapSet splTokenAddresses source ⟨"", 0⟩
      else splTokenAddresses
    if (m1 destination).isNone then mapSet m1 destination ⟨"", 0⟩ else m1

/-- The last loop of `extractSPLTokenInfo`: every entry with an empty mint becomes the
native SOL entry. -/
def fillPlaceholders (splTokenAddresses : String → Option TokenInfo) :
    String → Option TokenInfo :=
  fun account =>
    (splTokenAddresses account).map fun info =>
      if info.Mint = "" then ⟨PublicKey.String NATIVE_SOL_MINT_PROGRAM_ID, 9⟩ else info

/-- Method `extractSPLTokenInfo`: the parser with its token map set; the error result is
always `nil` and is left out. -/
def Parser.extractSPLTokenInfo (p : Parser) : Parser :=
  let m0 : String → Option TokenInfo := fun _ => none
  let m1 := p.txMeta.PostTokenBalances.foldl (balanceStep p) m0
  let m2 := p.txInfo.Instructions.foldl (processInstruction p) m1
  let m3 := p.txMeta.InnerInstructions.foldl
    (fun m innerSet => innerSet.Instructions.foldl (processInstruction p) m) m2
  { p with splTokenInfoMap := fillPlaceholders m3 }

/-- Functions of the package that the decoders and the constructors call and whose bodies
are outside the listed sources, taken as parameters: `processTransferCheck` gives the decoded
TransferChecked or `nil`; `extractSPLDecimals` gives the mint-decimals map it stores in the
parser, or an error. -/
structure TransferHelpers where
  processTransferCheck : Parser → CompiledInstruction → Option TransferCheck
  extractSPLDecimals : Parser → Except String (String → Option Nat)

/-- Function `NewTransactionParserFromTransactionResult`. -/
def NewTransactionParserFromTransactionResult (x : TransferHelpers)
    (txResult : Option GetTransactionResult) (tx : Transaction) (txMeta : TransactionMeta) :
    Outcome Parser :=
  let allAccountKeys := tx.AccountKeys ++ txMeta.LoadedWritable
  let allAccountKeys := allAccountKeys ++ txMeta.LoadedReadOnly
  let parser : Parser :=
    { txResult := txResult
      txMeta := txMeta
      txInfo := tx
      allAccountKeys := allAccountKeys
      splTokenInfoMap := fun _ => none
      splDecimalsMap := fun _ => none }
  let parser := parser.extractSPLTokenInfo
  match x.extractSPLDecimals parser with
  | .error err => .error ("failed to extract SPL decimals: " ++ err)
  | .ok decimals => .ok { parser with splDecimalsMap := decimals }

/-- Function `NewTransactionParserFromTransaction`. -/
def NewTransactionParserFromTransaction (x : TransferHelpers) (tx : Transaction)
    (txMeta : TransactionMeta) : Outcome Parser :=
  let allAccountKeys := tx.AccountKeys ++ txMeta.LoadedWritable
  let allAccountKeys := allAccountKeys ++ txMeta.LoadedReadOnly
  let parser : Parser :=
    { txResult := none
      txMeta := txMeta
      txInfo := tx
      allAccountKeys := allAccountKeys
      splTokenInfoMap := fun _ => none
      splDecimalsMap := fun _ => none }
  let parser := parser.extractSPLTokenInfo
  match x.extractSPLDecimals parser with
  | .error err => .error ("failed to extract SPL decimals: " ++ err)
  | .ok decimals => .ok { parser with splDecimalsMap := decimals }

/-! ## Notions used to state the properties of the token-account index -/

/-- The post-token-balance writes the entry of the account text `k`: non-zero mint, account
index in range, and `k` the text of the key at that index. -/
def Parser.writesEntry (p : Parser) (k : String) (b : TokenBalance) : Bool :=
  !b.Mint.IsZero && decide (b.AccountIndex < p.allAccountKeys.length) &&
    decide (PublicKey.String (p.keyAt b.AccountIndex) = k)

/-- The post-token-balances that write the entry of the account text `k`, in their order. -/
def Parser.balancesOf (p : Parser) (k : String) : List TokenBalance :=
  p.txMeta.PostTokenBalances.filter (p.writesEntry k)

/-- The outer instructions followed by the inner instructions of all inner sets. -/
def Parser.allInstructions (p : Parser) : List CompiledInstruction :=
  p.txInfo.Instructions ++ p.txMeta.InnerInstructions.flatMap fun innerSet => innerSet.Instructions

/-- The instruction is one of the SPL Token program with opcode 3 or 12, at least 3 accounts
and its first two account indices in range, and `k` is the text of the key of its account 0
or of its account 1. -/
def Parser.movesAccount (p : Parser) (instr : CompiledInstruction) (k : String) : Bool :=
  decide (p.allAccountKeys[instr.ProgramIDIndex]? = some TokenProgramID) &&
    decide (instr.Data[0]? = some 3 ∨ instr.Data[0]? = some 12) &&
    decide (3 ≤ instr.Accounts.length) &&
    match instr.Accounts[0]?, instr.Accounts[1]? with
    | some a0, some a1 =>
      match p.allAccountKeys[a0]?, p.allAccountKeys[a1]? with
      | some k0, some k1 => decide (k = PublicKey.String k0 ∨ k = PublicKey.String k1)
      | _, _ => false
    | _, _ => false

/-! ## The protocol decoders of the event files and of `parse_transfer.go` -/

/-- A Go `for` over a slice whose body can abort: the rounds run in order on the state, an
abort or an error of a round ends the loop with it. -/
def Outcome.foldl {σ α : Type} (f : σ → α → Outcome σ) : σ → List α → Outcome σ
  | s, [] => .ok s
  | s, a :: l => (f s a).bind fun s2 => Outcome.foldl f s2 l

/-- The instructions that the pair of loops `for innerInstructionSet ... if
innerInstructionSet.Index == uint16(instructionIndex) ... for innerInstruction` visits, in
the order of the visits. -/
def Parser.innerUnder (p : Parser) (instructionIndex : Nat) : List CompiledInstruction :=
  (p.txMeta.InnerInstructions.filter fun innerInstructionSet =>
    innerInstructionSet.Index = instructionIndex % 2 ^ 16).flatMap
      fun innerInstructionSet => innerInstructionSet.Instructions

/-- One round of the inner loop of `processOrcaSwaps`. -/
def orcaStep (c : Consts) (p : Parser) (swaps : List SwapData)
    (innerInstruction : CompiledInstruction) : Outcome (List SwapData) :=
  (p.isTransfer innerInstruction).bind fun isT =>
    if isT then
      (p.processTransfer innerInstruction).bind fun transfer =>
        match transfer with
        | some t => .ok (swaps ++ [⟨c.ORCA, .transferData t⟩])
        | none => .ok swaps
    else .ok swaps

/-- Method `processOrcaSwaps`. -/
def Parser.processOrcaSwaps (c : Consts) (p : Parser) (instructionIndex : Nat) :
    Outcome (List SwapData) :=
  Outcome.foldl (orcaStep c p) [] (p.innerUnder instructionIndex)

/-- One round of the inner loop of `processRaydSwaps`: the `switch` tests `isTransfer`
first. -/
def raydStep (c : Consts) (x : TransferHelpers) (p : Parser) (swaps : List SwapData)
    (innerInstruction : CompiledInstruction) : Outcome (List SwapData) :=
  (p.isTransfer innerInstruction).bind fun isT =>
    if isT then
      (p.processTransfer innerInstruction).bind fun transfer =>
        match transfer with
        | some t => .ok (swaps ++ [⟨c.RAYDIUM, .transferData t⟩])
        | none => .ok swaps
    else
      (p.isTransferCheck innerInstruction).bind fun isTC =>
        if isTC then
          match x.processTransferCheck p innerInstruction with
          | some t => .ok (swaps ++ [⟨c.RAYDIUM, .transferCheck t⟩])
          | none => .ok swaps
        else .ok swaps

/-- Method `processRaydSwaps`. -/
def Parser.processRaydSwaps (c : Consts) (x : TransferHelpers) (p : Parser)
    (instructionIndex : Nat) : Outcome (List SwapData) :=
  Outcome.foldl (raydStep c x p) [] (p.innerUnder instructionIndex)

/-- One round of the transfer loop that ends `processBoopFunSwaps`,
`processMeteoraDAMMv2Swaps` and `processMeteoraDBCSwaps` and makes
`processRaydiumLaunchLabTransfers`, with the tag of the function: the `switch` tests
`isTransferCheck` first. -/
def transferStep (tag : SwapType) (x : TransferHelpers) (p : Parser) (swaps : List SwapData)
    (innerInstruction : CompiledInstruction) : Outcome (List SwapData) :=
  (p.isTransferCheck innerInstruction).bind fun isTC =>
    if isTC then
      match x.processTransferCheck p innerInstruction with
      | some t => .ok (swaps ++ [⟨tag, .transferCheck t⟩])
      | none => .ok swaps
    else
      (p.isTransfer innerInstruction).bind fun isT =>
        if isT then
          (p.processTransfer innerInstruction).bind fun transfer =>
            match transfer with
            | some t => .ok (swaps ++ [⟨tag, .transferData t⟩])
            | none => .ok swaps
        else .ok swaps

/-- The transfer loop of a decoder, with its tag. -/
def transferTier (tag : SwapType) (x : TransferHelpers) (p : Parser) (instructionIndex : Nat) :
    Outcome (List SwapData) :=
  Outcome.foldl (transferStep tag x p) [] (p.innerUnder instructionIndex)

/-- One round of the loop that collects the decoded TransferChecked in the `enrich`
methods. -/
def collectStep (x : TransferHelpers) (p : Parser) (transfers : List TransferCheck)
    (innerInstruction : CompiledInstruction) : Outcome (List TransferCheck) :=
  (p.isTransferCheck innerInstruction).bind fun isTC =>
    if isTC then
      match x.processTransferCheck p innerInstruction with
      | some t => .ok (transfers ++ [t])
      | none => .ok transfers
    else .ok transfers

/-- The first loop of `enrichBoopFunEventFromTransfers`,
`enrichMeteoraDAMMv2EventFromTransfers` and `enrichMeteoraDBCEventFromTransfers`. -/
def collectTransferChecks (x : TransferHelpers) (p : Parser) (instructionIndex : Nat) :
    Outcome (List TransferCheck) :=
  Outcome.foldl (collectStep x p) [] (p.innerUnder instructionIndex)

/-- The loop of `parseUint64`: it stops at the first character that is not a digit (below
`'0'`, code 48, or above `'9'`, code 57), and the `uint64` arithmetic wraps. -/
def parseUint64Loop : Nat → List Char → Nat
  | result, [] => result
  | result, ch :: rest =>
    if ch.toNat < 48 ∨ ch.toNat > 57 then result
    else parseUint64Loop ((result * 10 + (ch.toNat - 48)) % 2 ^ 64) rest

/-- Function `parseUint64` of `event_raydium_launchlab.go`; its error is always `nil`. -/
def parseUint64 (s : String) : Nat := parseUint64Loop 0 s.data

/-- The Borsh decoding of a record of two `uint64`: 16 bytes, little-endian; fewer bytes are
an error. -/
def borshTwoUint64 (bytes : List Nat) : Option (Nat × Nat) :=
  if bytes.length < 16 then none else some (leUint64 bytes, leUint64 (bytes.drop 8))

/-- The Borsh decoding of a record of three `uint64`. -/
def borshThreeUint64 (bytes : List Nat) : Option (Nat × Nat × Nat) :=
  if bytes.length < 24 then none
  else some (leUint64 bytes, leUint64 (bytes.drop 8), leUint64 (bytes.drop 16))

/-! ### Boop.fun -/

/-- The constant `BoopFunBuyTokenDiscriminator`. -/
def BoopFunBuyTokenDiscriminator : List Nat := [138, 127, 14, 91, 38, 87, 115, 105]

/-- Record `BoopFunInstructionData`. -/
structure BoopFunInstructionData where
  BuyAmount : Nat
  AmountOutMin : Nat
deriving DecidableEq

/-- Method `parseBoopFunInstruction`; `none` stands for its errors. -/
def parseBoopFunInstruction (instruction : CompiledInstruction) :
    Option BoopFunInstructionData :=
  match decodeDataText instruction.Data with
  | none => none
  | some decodedBytes =>
    if decodedBytes.length < 24 then none
    else if decodedBytes.take 8 ≠ BoopFunBuyTokenDiscriminator then none
    else
      match borshTwoUint64 (decodedBytes.drop 8) with
      | none => none
      | some (buyAmount, amountOutMin) => some ⟨buyAmount, amountOutMin⟩

/-- Method `enrichBoopFunEventFromTransfers`, as a function of the event it updates; the
second loop stops at the first decoded TransferChecked whose mint is not the SOL text, not
`Unknown` and not empty. -/
def enrichBoopFunEventFromTransfers (x : TransferHelpers) (p : Parser)
    (event : BoopFunSwapEvent) (instructionIndex : Nat) : Outcome BoopFunSwapEvent :=
  (collectTransferChecks x p instructionIndex).bind fun transfers =>
    match transfers.find? (fun transfer =>
      transfer.Mint ≠ "So11111111111111111111111111111111111111112" ∧
        transfer.Mint ≠ "Unknown" ∧ transfer.Mint ≠ "") with
    | some transfer =>
      match MustPublicKeyFromBase58 transfer.Mint with
      | none => .abort
      | some mint =>
        .ok { event with
              TokenMint := mint
              TokenDecimals := transfer.Decimals
              TokenOut := parseUint64 transfer.Amount }
    | none => .ok event

/-- Method `processBoopFunSwaps`. -/
def Parser.processBoopFunSwaps (c : Consts) (x : TransferHelpers) (p : Parser)
    (instructionIndex : Nat) : Outcome (List SwapData) :=
  (indexAt p.txInfo.Instructions instructionIndex).bind fun mainInstruction =>
  (indexAt p.allAccountKeys mainInstruction.ProgramIDIndex).bind fun programID =>
    match (if programID = c.BOOPFUN_PROGRAM_ID then parseBoopFunInstruction mainInstruction
      else none) with
    | some instructionData =>
      (enrichBoopFunEventFromTransfers x p
        { BuyAmount := instructionData.BuyAmount
          AmountOutMin := instructionData.AmountOutMin
          TokenOut := 0
          TokenMint := PublicKey.zero
          TokenDecimals := 0
          IsBuy := true } instructionIndex).bind fun event =>
        .ok [⟨c.BOOPFUN, .boopFun event⟩]
    | none => transferTier c.BOOPFUN x p instructionIndex

/-! ### Meteora DAMM v2 -/

/-- The constant `MeteoraDAMMv2SwapDiscriminator`. -/
def MeteoraDAMMv2SwapDiscriminator : List Nat := [248, 198, 158, 145, 225, 117, 135, 200]

/-- Record `MeteoraDAMMv2InstructionData`. -/
structure MeteoraDAMMv2InstructionData where
  Amount : Nat
  OtherAmountThreshold : Nat
deriving DecidableEq

/-- Method `parseMeteoraDAMMv2Instruction`; `none` stands for its errors. -/
def parseMeteoraDAMMv2Instruction (instruction : CompiledInstruction) :
    Option MeteoraDAMMv2InstructionData :=
  match decodeDataText instruction.Data with
  | none => none
  | some decodedBytes =>
    if decodedBytes.length < 8 then none
    else if decodedBytes.take 8 ≠ MeteoraDAMMv2SwapDiscriminator then none
    else if (decodedBytes.drop 8).length < 16 then none
    else
      match borshTwoUint64 (decodedBytes.drop 8) with
      | none => none
      | some (amount, otherAmountThreshold) => some ⟨amount, otherAmountThreshold⟩

/-- Method `enrichMeteoraDAMMv2EventFromTransfers`, as a function of the event it updates. -/
def enrichMeteoraDAMMv2EventFromTransfers (x : TransferHelpers) (p : Parser)
    (event : MeteoraDAMMv2SwapEvent) (instructionIndex : Nat) :
    Outcome MeteoraDAMMv2SwapEvent :=
  (collectTransferChecks x p instructionIndex).bind fun transfers =>
    match transfers with
    | inputTransfer :: outputTransfer :: _ =>
      let afterInput : Outcome MeteoraDAMMv2SwapEvent :=
        if inputTransfer.Mint ≠ "Unknown" ∧ inputTransfer.Mint ≠ "" then
          match MustPublicKeyFromBase58 inputTransfer.Mint with
          | none => .abort
          | some mint =>
            .ok { event with TokenInMint := mint, TokenInDecimals := inputTransfer.Decimals }
        else .ok event
      afterInput.bind fun event =>
        if outputTransfer.Mint ≠ "Unknown" ∧ outputTransfer.Mint ≠ "" then
          match MustPublicKeyFromBase58 outputTransfer.Mint with
          | none => .abort
          | some mint =>
            .ok { event with
                  TokenOutMint := mint
                  TokenOutDecimals := outputTransfer.Decimals
                  ActualAmountOut := parseUint64 outputTransfer.Amount }
        else .ok event
    | _ => .ok event

/-- Method `processMeteoraDAMMv2Swaps`. -/
def Parser.processMeteoraDAMMv2Swaps (c : Consts) (x : TransferHelpers) (p : Parser)
    (instructionIndex : Nat) : Outcome (List SwapData) :=
  (indexAt p.txInfo.Instructions instructionIndex).bind fun mainInstruction =>
    if mainInstruction.ProgramIDIndex ≥ p.allAccountKeys.length then .ok []
    else
      (indexAt p.allAccountKeys mainInstruction.ProgramIDIndex).bind fun programID =>
        match (if programID = c.METEORA_DAMM_V2_PROGRAM_ID then
            parseMeteoraDAMMv2Instruction mainInstruction else none) with
        | some instructionData =>
          (enrichMeteoraDAMMv2EventFromTransfers x p
            { AmountIn := instructionData.Amount
              MinimumAmountOut := instructionData.OtherAmountThreshold
              Direction := 0
              TokenInMint := PublicKey.zero
              TokenInDecimals := 0
              TokenOutMint := PublicKey.zero
              TokenOutDecimals := 0
              ActualAmountOut := 0 } instructionIndex).bind fun event =>
            .ok [⟨c.METEORA, .meteoraDAMMv2 event⟩]
        | none => transferTier c.METEORA x p instructionIndex

/-! ### Meteora DBC -/

/-- The constant `MeteoraDBCSwapDiscriminator`. -/
def MeteoraDBCSwapDiscriminator : List Nat := [248, 198, 158, 145, 225, 117, 135, 200]

/-- Record `MeteoraDBCInstructionData`. -/
structure MeteoraDBCInstructionData where
  AmountIn : Nat
  MinimumAmountOut : Nat
deriving DecidableEq

/-- Method `parseMeteoraDBCEventInstruction`: it returns `nil`. -/
def parseMeteoraDBCEventInstruction (_instruction : CompiledInstruction) :
    Option MeteoraDBCSwapEvent := none

/-- The loops of `parseMeteoraDBCEvent` over the visited instructions: the first one that
`isMeteoraDBCEventInstruction` accepts decides. -/
def parseMeteoraDBCEventLoop (c : Consts) (p : Parser) :
    List CompiledInstruction → Outcome (Option MeteoraDBCSwapEvent)
  | [] => .ok none
  | innerInstruction :: rest =>
    (p.isMeteoraDBCEventInstruction c innerInstruction).bind fun isEvent =>
      if isEvent then .ok (parseMeteoraDBCEventInstruction innerInstruction)
      else parseMeteoraDBCEventLoop c p rest

/-- Method `parseMeteoraDBCEvent`. -/
def Parser.parseMeteoraDBCEvent (c : Consts) (p : Parser) (instructionIndex : Nat) :
    Outcome (Option MeteoraDBCSwapEvent) :=
  parseMeteoraDBCEventLoop c p (p.innerUnder instructionIndex)

/-- Method `parseMeteoraDBCInstruction`; `none` stands for its errors. -/
def parseMeteoraDBCInstruction (instruction : CompiledInstruction) :
    Option MeteoraDBCInstructionData :=
  match decodeDataText instruction.Data with
  | none => none
  | some decodedBytes =>
    if decodedBytes.length < 24 then none
    else if decodedBytes.take 8 ≠ MeteoraDBCSwapDiscriminator then none
    else
      match borshTwoUint64 (decodedBytes.drop 8) with
      | none => none
      | some (amountIn, minimumAmountOut) => some ⟨amountIn, minimumAmountOut⟩

/-- Method `enrichMeteoraDBCEventFromTransfers`, as a function of the event it updates. -/
def enrichMeteoraDBCEventFromTransfers (x : TransferHelpers) (p : Parser)
    (event : MeteoraDBCSwapEvent) (instructionIndex : Nat) : Outcome MeteoraDBCSwapEvent :=
  (collectTransferChecks x p instructionIndex).bind fun transfers =>
    match transfers with
    | inputTransfer :: outputTransfer :: _ =>
      let afterInput : Outcome MeteoraDBCSwapEvent :=
        if inputTransfer.Mint ≠ "Unknown" ∧ inputTransfer.Mint ≠ "" then
          match MustPublicKeyFromBase58 inputTransfer.Mint with
          | none => .abort
          | some mint =>
            .ok { event with
                  TokenInMint := mint
                  TokenInDecimals := inputTransfer.Decimals
                  AmountIn := parseUint64 inputTransfer.Amount
                  ActualInputAmount := parseUint64 inputTransfer.Amount }
        else .ok event
      afterInput.bind fun event =>
        if outputTransfer.Mint ≠ "Unknown" ∧ outputTransfer.Mint ≠ "" then
          match MustPublicKeyFromBase58 outputTransfer.Mint with
          | none => .abort
          | some mint =>
            .ok { event with
                  TokenOutMint := mint
                  TokenOutDecimals := outputTransfer.Decimals
                  OutputAmount := parseUint64 outputTransfer.Amount }
        else .ok event
    | _ => .ok event

/-- The zero value of `MeteoraDBCSwapEvent` with the two amounts of the instruction. -/
def dbcEventOfInstruction (instructionData : MeteoraDBCInstructionData) : MeteoraDBCSwapEvent :=
  { Pool := PublicKey.zero
    Config := PublicKey.zero
    TradeDirection := 0
    HasReferral := false
    AmountIn := instructionData.AmountIn
    MinimumAmountOut := instructionData.MinimumAmountOut
    ActualInputAmount := 0
    OutputAmount := 0
    NextSqrtPrice := 0
    TradingFee := 0
    ProtocolFee := 0
    ReferralFee := 0
    CurrentTimestamp := 0
    TokenInMint := PublicKey.zero
    TokenInDecimals := 0
    TokenOutMint := PublicKey.zero
    TokenOutDecimals := 0 }

/-- Method `processMeteoraDBCSwaps`. -/
def Parser.processMeteoraDBCSwaps (c : Consts) (x : TransferHelpers) (p : Parser)
    (instructionIndex : Nat) : Outcome (List SwapData) :=
  (indexAt p.txInfo.Instructions instructionIndex).bind fun mainInstruction =>
    if mainInstruction.ProgramIDIndex ≥ p.allAccountKeys.length then .ok []
    else
      (indexAt p.allAccountKeys mainInstruction.ProgramIDIndex).bind fun programID =>
        if programID = c.METEORA_DBC_PROGRAM_ID then
          (p.parseMeteoraDBCEvent c instructionIndex).bind fun event =>
            match event with
            | some event =>
              (enrichMeteoraDBCEventFromTransfers x p event instructionIndex).bind fun event =>
                .ok [⟨c.METEORA, .meteoraDBC event⟩]
            | none =>
              match parseMeteoraDBCInstruction mainInstruction with
              | some instructionData =>
                (enrichMeteoraDBCEventFromTransfers x p (dbcEventOfInstruction instructionData)
                  instructionIndex).bind fun event => .ok [⟨c.METEORA, .meteoraDBC event⟩]
              | none => transferTier c.METEORA x p instructionIndex
        else transferTier c.METEORA x p instructionIndex

/-! ### Raydium LaunchLab -/

/-- Record `RaydiumLaunchLabInstructionData`. -/
structure RaydiumLaunchLabInstructionData where
  AmountIn : Nat
  MinimumAmountOut : Nat
  ShareFeeRate : Nat
deriving DecidableEq

/-- Method `parseRaydiumLaunchLabInstruction`: the decoded amounts and the flag `isBuy`;
`none` stands for its errors. -/
def parseRaydiumLaunchLabInstruction (instruction : CompiledInstruction) :
    Option (RaydiumLaunchLabInstructionData × Bool) :=
  match decodeDataText instruction.Data with
  | none => none
  | some decodedBytes =>
    if decodedBytes.length < 32 then none
    else
      let discriminator := decodedBytes.take 8
      let isBuy := decide (discriminator = RaydiumLaunchLabBuyEventDiscriminator)
      let isSell := decide (discriminator = RaydiumLaunchLabSellEventDiscriminator)
      if !isBuy && !isSell then none
      else
        match borshThreeUint64 (decodedBytes.drop 8) with
        | none => none
        | some (amountIn, minimumAmountOut, shareFeeRate) =>
          some (⟨amountIn, minimumAmountOut, shareFeeRate⟩, isBuy)

/-- The key spelled by 32 bytes. -/
def keyOfBytes (bytes : List Nat) : PublicKey :=
  ⟨valueBE 256 ((bytes.take 32).map (fun b => b % 256)) % 2 ^ 256, Nat.mod_lt _ (by decide)⟩

/-- The Borsh decoding of a `RaydiumLaunchLabBuyEvent`: the fields in the order of the
record, a key in 32 bytes, a `uint64` in 8 bytes little-endian, a `bool` and a `uint8` in one
byte, 172 bytes in all; fewer bytes are an error, more are ignored. -/
def borshRaydiumLaunchLabBuyEvent (bytes : List Nat) : Option RaydiumLaunchLabBuyEvent :=
  if bytes.length < 172 then none
  else
    some
      { PoolState := keyOfBytes bytes
        TotalBaseSell := leUint64 (bytes.drop 32)
        VirtualBase := leUint64 (bytes.drop 40)
        VirtualQuote := leUint64 (bytes.drop 48)
        RealBaseBefore := leUint64 (bytes.drop 56)
        RealQuoteBefore := leUint64 (bytes.drop 64)
        RealBaseAfter := leUint64 (bytes.drop 72)
        RealQuoteAfter := leUint64 (bytes.drop 80)
        AmountIn := leUint64 (bytes.drop 88)
        AmountOut := leUint64 (bytes.drop 96)
        MinimumAmountOut := leUint64 (bytes.drop 104)
        ProtocolFee := leUint64 (bytes.drop 112)
        PlatformFee := leUint64 (bytes.drop 120)
        ShareFee := leUint64 (bytes.drop 128)
        TradeDirection := ⟨decide (bytes.getD 136 0 ≠ 0)⟩
        PoolStatus := ⟨decide (bytes.getD 137 0 ≠ 0)⟩
        TokenMint := keyOfBytes (bytes.drop 138)
        TokenDecimals := bytes.getD 170 0 % 256
        IsBuy := decide (bytes.getD 171 0 ≠ 0) }

/-- Go slicing `xs[lo:]`: the elements from `lo` on, or an abort when there are fewer. -/
def sliceFrom {α : Type} (xs : List α) (lo : Nat) : Outcome (List α) :=
  if lo ≤ xs.length then .ok (xs.drop lo) else .abort

/-- Method `parseRaydiumLaunchLabEvent`; `none` stands for its errors. -/
def parseRaydiumLaunchLabEvent (instruction : CompiledInstruction) :
    Outcome (Option RaydiumLaunchLabBuyEvent) :=
  match decodeDataText instruction.Data with
  | none => .ok none
  | some decodedBytes =>
    (sliceFrom decodedBytes 8).bind fun payload => .ok (borshRaydiumLaunchLabBuyEvent payload)

/-- The loops of `enrichRaydiumLaunchLabEvent` over the visited instructions: the first
TransferChecked with at least 3 accounts whose account 2 is in range and is not the native
SOL mint gives the token mint and ends the method. -/
def enrichRaydiumLaunchLabEventLoop (p : Parser) (event : RaydiumLaunchLabBuyEvent) :
    List CompiledInstruction → Outcome RaydiumLaunchLabBuyEvent
  | [] => .ok event
  | innerInstruction :: rest =>
    (p.isTransferCheck innerInstruction).bind fun isTC =>
      if isTC ∧ innerInstruction.Accounts.length ≥ 3 then
        (indexAt innerInstruction.Accounts 2).bind fun mintIndex =>
          if mintIndex < p.allAccountKeys.length then
            (indexAt p.allAccountKeys mintIndex).bind fun mint =>
              if mint ≠ NATIVE_SOL_MINT_PROGRAM_ID then
                .ok { event with
                      TokenMint := mint
                      TokenDecimals := (p.splDecimalsMap (PublicKey.String mint)).getD 6 }
              else enrichRaydiumLaunchLabEventLoop p event rest
          else enrichRaydiumLaunchLabEventLoop p event rest
      else enrichRaydiumLaunchLabEventLoop p event rest

/-- Method `enrichRaydiumLaunchLabEvent`, as a function of the event it updates. -/
def enrichRaydiumLaunchLabEvent (p : Parser) (event : RaydiumLaunchLabBuyEvent)
    (instructionIndex : Nat) : Outcome RaydiumLaunchLabBuyEvent :=
  enrichRaydiumLaunchLabEventLoop p event (p.innerUnder instructionIndex)

/-- The locals `solAmount`, `tokenAmount`, `tokenMint`, `tokenDecimals` of
`enrichRaydiumLaunchLabEventFromTransfers`. -/
structure LaunchLabAmounts where
  solAmount : Nat
  tokenAmount : Nat
  tokenMint : PublicKey
  tokenDecimals : Nat
deriving DecidableEq

/-- One round of the loop of `enrichRaydiumLaunchLabEventFromTransfers`. -/
def launchLabAmountStep (x : TransferHelpers) (p : Parser) (st : LaunchLabAmounts)
    (innerInstruction : CompiledInstruction) : Outcome LaunchLabAmounts :=
  (p.isTransferCheck innerInstruction).bind fun isTC =>
    if isTC then
      match x.processTransferCheck p innerInstruction with
      | some transfer =>
        if transfer.Mint = PublicKey.String NATIVE_SOL_MINT_PROGRAM_ID then
          .ok { st with solAmount := parseUint64 transfer.Amount }
        else if transfer.Mint ≠ "Unknown" ∧ transfer.Mint ≠ "" then
          match MustPublicKeyFromBase58 transfer.Mint with
          | none => .abort
          | some mint =>
            .ok { st with
                  tokenAmount := parseUint64 transfer.Amount
                  tokenMint := mint
                  tokenDecimals := transfer.Decimals }
        else .ok st
      | none => .ok st
    else .ok st

/-- The end of `enrichRaydiumLaunchLabEventFromTransfers`: the amounts found go to the
event by its direction, and a non-zero token mint is copied. -/
def applyLaunchLabAmounts (event : RaydiumLaunchLabBuyEvent) (st : LaunchLabAmounts) :
    RaydiumLaunchLabBuyEvent :=
  let event :=
    if event.IsBuy then
      let event := if st.solAmount > 0 then { event with AmountIn := st.solAmount } else event
      if st.tokenAmount > 0 then { event with AmountOut := st.tokenAmount } else event
    else
      let event := if st.tokenAmount > 0 then { event with AmountIn := st.tokenAmount } else event
      if st.solAmount > 0 then { event with AmountOut := st.solAmount } else event
  if !st.tokenMint.IsZero then
    { event with TokenMint := st.tokenMint, TokenDecimals := st.tokenDecimals }
  else event

/-- Method `enrichRaydiumLaunchLabEventFromTransfers`, as a function of the event it
updates. -/
def enrichRaydiumLaunchLabEventFromTransfers (x : TransferHelpers) (p : Parser)
    (event : RaydiumLaunchLabBuyEvent) (instructionIndex : Nat) :
    Outcome RaydiumLaunchLabBuyEvent :=
  (Outcome.foldl (launchLabAmountStep x p) ⟨0, 0, PublicKey.zero, 6⟩
    (p.innerUnder instructionIndex)).bind fun st => .ok (applyLaunchLabAmounts event st)

/-- Method `processRaydiumLaunchLabTransfers`. -/
def Parser.processRaydiumLaunchLabTransfers (c : Consts) (x : TransferHelpers) (p : Parser)
    (instructionIndex : Nat) : Outcome (List SwapData) :=
  transferTier c.RAYDIUM_LAUNCHLAB x p instructionIndex

/-- One round of the event loop of `processRaydiumLaunchLabSwaps`; an event instruction
that does not decode is passed over. -/
def launchLabEventStep (c : Consts) (p : Parser) (instructionIndex : Nat)
    (swaps : List SwapData) (innerInstruction : CompiledInstruction) :
    Outcome (List SwapData) :=
  (p.isRaydiumLaunchLabEvent c innerInstruction).bind fun isEvent =>
    if isEvent then
      (parseRaydiumLaunchLabEvent innerInstruction).bind fun eventData =>
        match eventData with
        | none => .ok swaps
        | some eventData =>
          (enrichRaydiumLaunchLabEvent p eventData instructionIndex).bind fun eventData =>
            .ok (swaps ++ [⟨c.RAYDIUM_LAUNCHLAB, .raydiumLaunchLab eventData⟩])
    else .ok swaps

/-- The event of `processRaydiumLaunchLabSwaps` built from the decoded instruction, before
it is enriched: every other field has its zero value. -/
def launchLabEventOfInstruction (instructionData : RaydiumLaunchLabInstructionData)
    (isBuy : Bool) : RaydiumLaunchLabBuyEvent :=
  { PoolState := PublicKey.zero
    TotalBaseSell := 0
    VirtualBase := 0
    VirtualQuote := 0
    RealBaseBefore := 0
    RealQuoteBefore := 0
    RealBaseAfter := 0
    RealQuoteAfter := 0
    AmountIn := instructionData.AmountIn
    AmountOut := 0
    MinimumAmountOut := instructionData.MinimumAmountOut
    ProtocolFee := 0
    PlatformFee := 0
    ShareFee := instructionData.ShareFeeRate
    TradeDirection := ⟨false⟩
    PoolStatus := ⟨false⟩
    TokenMint := PublicKey.zero
    TokenDecimals := 0
    IsBuy := isBuy }

/-- Method `processRaydiumLaunchLabSwaps`. -/
def Parser.processRaydiumLaunchLabSwaps (c : Consts) (x : TransferHelpers) (p : Parser)
    (instructionIndex : Nat) : Outcome (List SwapData) :=
  (indexAt p.txInfo.Instructions instructionIndex).bind fun mainInstruction =>
    match parseRaydiumLaunchLabInstruction mainInstruction with
    | some (instructionData, isBuy) =>
      (enrichRaydiumLaunchLabEventFromTransfers x p
        (launchLabEventOfInstruction instructionData isBuy) instructionIndex).bind fun event =>
        .ok [⟨c.RAYDIUM_LAUNCHLAB, .raydiumLaunchLab event⟩]
    | none =>
      (Outcome.foldl (launchLabEventStep c p instructionIndex) []
        (p.innerUnder instructionIndex)).bind fun swaps =>
        if swaps.length = 0 then p.processRaydiumLaunchLabTransfers c x instructionIndex
        else .ok swaps

/-! ## Notions used to state the properties of the decoders -/

/-- The payload that a transfer loop emits for an instruction that `isTransfer` accepts:
the record of `processTransfer`. -/
def Parser.emitsTransfer (p : Parser) (instr : CompiledInstruction) : Option Payload :=
  if p.isTransfer instr = .ok true then
    match p.processTransfer instr with
    | .ok (some t) => some (.transferData t)
    | _ => none
  else none

/-- The payload that a transfer loop emits for an instruction that `isTransferCheck`
accepts: the record of `processTransferCheck`, when it is not `nil`. -/
def Parser.emitsTransferCheck (x : TransferHelpers) (p : Parser) (instr : CompiledInstruction) :
    Option Payload :=
  if p.isTransferCheck instr = .ok true then
    (x.processTransferCheck p instr).map .transferCheck
  else none

/-- The payload that a transfer loop for both kinds emits for an instruction. -/
def Parser.emitsEither (x : TransferHelpers) (p : Parser) (instr : CompiledInstruction) :
    Option Payload :=
  match p.emitsTransferCheck x instr with
  | some d => some d
  | none => p.emitsTransfer instr

/-- The mint text of a decoded TransferChecked can be handed to
`solana.MustPublicKeyFromBase58`: it is the base58 text of a key. -/
@[reducible] def TransferHelpers.mintsDecode (x : TransferHelpers) (p : Parser) : Prop :=
  ∀ instr t, x.processTransferCheck p instr = some t →
    t.Mint ≠ "Unknown" → t.Mint ≠ "" → (PublicKeyFromBase58 t.Mint).isSome = true

/-! ## Notions used to state the properties of the dispatcher -/

/-- The program IDs of the Raydium case of `processRouterSwaps`. -/
def Consts.raydiumRouterIDs (c : Consts) : List PublicKey :=
  [c.RAYDIUM_V4_PROGRAM_ID, c.RAYDIUM_CPMM_PROGRAM_ID, c.RAYDIUM_AMM_PROGRAM_ID,
    c.RAYDIUM_CONCENTRATED_LIQUIDITY_PROGRAM_ID]

/-- The program IDs of the Meteora case of `processRouterSwaps`. -/
def Consts.meteoraRouterIDs (c : Consts) : List PublicKey :=
  [c.METEORA_PROGRAM_ID, c.METEORA_POOLS_PROGRAM_ID, c.METEORA_DLMM_PROGRAM_ID,
    c.METEORA_DAMM_V2_PROGRAM_ID, c.METEORA_DBC_PROGRAM_ID]

/-- The program IDs of the two Pump.fun cases of `processRouterSwaps`. -/
def Consts.pumpfunRouterIDs (c : Consts) : List PublicKey :=
  [c.PUMPFUN_AMM_PROGRAM_ID, c.PUMP_FUN_PROGRAM_ID, PUMP_FUN_LEGACY_PROGRAM_ID]

/-- The check that no program ID belongs to two protocol families of
`processRouterSwaps`: Raydium against the other three, Orca against Meteora and Pump.fun,
Meteora against Pump.fun. -/
def Consts.familiesDisjointCheck (c : Consts) : Bool :=
  c.raydiumRouterIDs.all (fun a =>
    (c.ORCA_PROGRAM_ID :: (c.meteoraRouterIDs ++ c.pumpfunRouterIDs)).all
      fun b => decide (a ≠ b)) &&
  (c.meteoraRouterIDs ++ c.pumpfunRouterIDs).all (fun b => decide (c.ORCA_PROGRAM_ID ≠ b)) &&
  c.meteoraRouterIDs.all fun a => c.pumpfunRouterIDs.all fun b => decide (a ≠ b)

/-- No program ID belongs to two protocol families of `processRouterSwaps`. -/
@[reducible] def Consts.familiesDisjoint (c : Consts) : Prop :=
  c.familiesDisjointCheck = true

/-- The protocol family of an inner instruction of a router wrapper, with the output of the
decoder that `processRouterSwaps` calls for it when the family was not processed before;
`none` for an out-of-range program index and for a program of no family. -/
def routerCall (c : Consts) (d : Decoders) (p : Parser) (instructionIndex : Nat)
    (inner : CompiledInstruction) : Option (String × List SwapData) :=
  if inner.ProgramIDIndex ≥ p.allAccountKeys.length then none
  else if p.keyAt inner.ProgramIDIndex ∈ c.raydiumRouterIDs then
    some (PROTOCOL_RAYDIUM, d.processRaydSwaps p instructionIndex)
  else if p.keyAt inner.ProgramIDIndex = c.ORCA_PROGRAM_ID then
    some (PROTOCOL_ORCA, d.processOrcaSwaps p instructionIndex)
  else if p.keyAt inner.ProgramIDIndex ∈ c.meteoraRouterIDs then
    some (PROTOCOL_METEORA, d.processMeteoraSwaps p instructionIndex)
  else if p.keyAt inner.ProgramIDIndex = c.PUMPFUN_AMM_PROGRAM_ID then
    some (PROTOCOL_PUMPFUN, d.processPumpfunAMMSwaps p instructionIndex)
  else if p.keyAt inner.ProgramIDIndex = c.PUMP_FUN_PROGRAM_ID ∨
      p.keyAt inner.ProgramIDIndex = PUMP_FUN_LEGACY_PROGRAM_ID then
    some (PROTOCOL_PUMPFUN, d.processPumpfunSwaps p instructionIndex)
  else none

/-- What the first loop of `ParseTransaction` collects for an outer instruction that is
not one of Jupiter, Moonshot, Boop.fun or the OKX router: the result of
`processRouterSwaps` for a router wrapper, nothing otherwise. -/
def routerOutput (c : Consts) (d : Decoders) (p : Parser) (io : Nat × CompiledInstruction) :
    List SwapData :=
  if io.2.ProgramIDIndex ≥ p.allAccountKeys.length then []
  else if isRouterWrapper c (p.keyAt io.2.ProgramIDIndex) then processRouterSwaps c d p io.1
  else []

/-- What the second loop of `ParseTransaction` collects for one outer instruction, given
with its index. -/
def pass2Output (c : Consts) (d : Decoders) (p : Parser) (io : Nat × CompiledInstruction) :
    List SwapData :=
  if io.2.ProgramIDIndex ≥ p.allAccountKeys.length then []
  else
    let progID := p.keyAt io.2.ProgramIDIndex
    if progID = c.RAYDIUM_V4_PROGRAM_ID ∨ progID = c.RAYDIUM_CPMM_PROGRAM_ID ∨
        progID = c.RAYDIUM_AMM_PROGRAM_ID ∨
        progID = c.RAYDIUM_CONCENTRATED_LIQUIDITY_PROGRAM_ID ∨
        progID = RAYDIUM_LEGACY_PROGRAM_ID then d.processRaydSwaps p io.1
    else if progID = c.RAYDIUM_LAUNCHLAB_PROGRAM_ID then d.processRaydiumLaunchLabSwaps p io.1
    else if progID = c.ORCA_PROGRAM_ID then d.processOrcaSwaps p io.1
    else if progID = c.METEORA_DAMM_V2_PROGRAM_ID then d.processMeteoraDAMMv2Swaps p io.1
    else if progID = c.METEORA_DBC_PROGRAM_ID then d.processMeteoraDBCSwaps p io.1
    else if progID = c.METEORA_PROGRAM_ID ∨ progID = c.METEORA_POOLS_PROGRAM_ID ∨
        progID = c.METEORA_DLMM_PROGRAM_ID then d.processMeteoraSwaps p io.1
    else if progID = c.PUMPFUN_AMM_PROGRAM_ID then d.processPumpfunAMMSwaps p io.1
    else if progID = c.PUMP_FUN_PROGRAM_ID ∨ progID = PUMP_FUN_LEGACY_PROGRAM_ID then
      d.processPumpfunSwaps p io.1
    else []

/-- The parser record that both constructors fill in before they call
`extractSPLTokenInfo`. -/
def baseParser (txResult : Option GetTransactionResult) (tx : Transaction)
    (txMeta : TransactionMeta) : Parser :=
  { txResult := txResult
    txMeta := txMeta
    txInfo := tx
    allAccountKeys := tx.AccountKeys ++ txMeta.LoadedWritable ++ txMeta.LoadedReadOnly
    splTokenInfoMap := fun _ => none
    splDecimalsMap := fun _ => none }

/-- The mint text of a transfer record is `Unknown`, the text of the native SOL mint or the
text of the mint of a post-token-balance. -/
@[reducible] def knownMint (balances : List TokenBalance) (mint : String) : Prop :=
  mint = "Unknown" ∨ mint = PublicKey.String NATIVE_SOL_MINT_PROGRAM_ID ∨
    ∃ b ∈ balances, mint = PublicKey.String b.Mint

/-! ## Concrete data for the instances of the decoders -/

/-- A sample decoder of TransferChecked and a sample decimals extractor: every instruction
with at least 4 accounts decodes to a record of the USDC mint with the amount of its data
bytes 1 to 8; the decimals map knows USDC. -/
def sampleTransferHelpers : TransferHelpers :=
  { processTransferCheck := fun _ instr =>
      if instr.Accounts.length ≥ 4 then
        some ⟨"authority", "destination", usdcText, "source",
          fmtDecimal (leUint64 (instr.Data.drop 1)), 6⟩
      else none
    extractSPLDecimals := fun _ => .ok fun s => if s = usdcText then some 6 else none }

/-- Three token accounts for the instances. -/
def accountA : PublicKey := ⟨11, by decide⟩

/-- The second token account. -/
def accountB : PublicKey := ⟨12, by decide⟩

/-- The third token account. -/
def accountC : PublicKey := ⟨13, by decide⟩

/-- A Transfer of 257 units from account 2 to account 3, signed by account 0. -/
def sampleTransferInstruction : CompiledInstruction := ⟨1, [2, 3, 0], [3, 1, 1, 0, 0, 0, 0, 0, 0]⟩

/-- A TransferChecked of the Token-2022 program (account key 4) from account 5. -/
def sampleToken2022Instruction : CompiledInstruction :=
  ⟨4, [5, 3, 2, 0], [12, 7, 0, 0, 0, 0, 0, 0, 0, 6]⟩

/-- A transaction with four static keys (signer, SPL Token program, accounts A and B) and
one outer Transfer. -/
def sampleTx : Transaction :=
  ⟨[[1, 2, 3]], [sampleSigner, TokenProgramID, accountA, accountB], [sampleTransferInstruction]⟩

/-- Metadata: account B holds USDC; under the outer instruction 0 an inner Transfer and an
inner TransferChecked of Token-2022; one loaded writable key (the Token-2022 program) and one
loaded read-only key (account C). -/
def sampleMeta : TransactionMeta :=
  ⟨[⟨0, [sampleTransferInstruction, sampleToken2022Instruction]⟩], [⟨3, usdcMint, 6⟩],
    [Token2022ProgramID], [accountC]⟩

/-- The parser that `NewTransactionParserFromTransaction` returns for `sampleTx` and
`sampleMeta`. -/
def indexedParser : Parser :=
  { (baseParser none sampleTx sampleMeta).extractSPLTokenInfo with
    splDecimalsMap := fun s => if s = usdcText then some 6 else none }

/-- The record of `sampleTransferInstruction` on `indexedParser`. -/
def sampleTransferRecord : TransferData :=
  { Info :=
      { Amount := 257
        Authority := PublicKey.String sampleSigner
        Destination := PublicKey.String accountB
        Source := PublicKey.String accountA }
    Kind := "transfer"
    Mint := usdcText
    Decimals := 6 }

/-- A transaction with a Banana Gun instruction, a Raydium V4 instruction and an instruction
whose program index is out of range; under the Banana Gun instruction, inner instructions
of Orca, the Pump.fun AMM, Orca, Pump.fun and Raydium V4. -/
def routerParser : Parser :=
  { txResult := none
    txMeta := ⟨[⟨0, [⟨3, [], []⟩, ⟨4, [], []⟩, ⟨3, [], []⟩, ⟨5, [], []⟩, ⟨2, [], []⟩]⟩], [], [], []⟩
    txInfo := ⟨[[1, 2, 3]], [sampleSigner], [⟨1, [], []⟩, ⟨2, [], []⟩, ⟨9, [], []⟩]⟩
    allAccountKeys :=
      [sampleSigner, sampleConsts.BANANA_GUN_PROGRAM_ID, sampleConsts.RAYDIUM_V4_PROGRAM_ID,
        sampleConsts.ORCA_PROGRAM_ID, sampleConsts.PUMPFUN_AMM_PROGRAM_ID,
        sampleConsts.PUMP_FUN_PROGRAM_ID]
    splTokenInfoMap := fun _ => none
    splDecimalsMap := fun _ => none }

/-- The payload of a LaunchLab buy: the discriminator, then the amounts 100, 90 and 1. -/
def launchLabBuyData : List Nat :=
  RaydiumLaunchLabBuyEventDiscriminator ++
    [100, 0, 0, 0, 0, 0, 0, 0, 90, 0, 0, 0, 0, 0, 0, 0, 1, 0, 0, 0, 0, 0, 0, 0]

/-- The data of a LaunchLab event instruction: the discriminator, then the 172 bytes of an
event with pool state of bytes 1, amounts 5 in and 9 out, token mint of bytes 2, 6 decimals,
marked as a buy. -/
def launchLabEventData : List Nat :=
  RaydiumLaunchLabBuyEventDiscriminator ++ List.replicate 32 1 ++ List.replicate 56 0 ++
    [5, 0, 0, 0, 0, 0, 0, 0, 9, 0, 0, 0, 0, 0, 0, 0] ++ List.replicate 32 0 ++ [1, 0] ++
    List.replicate 32 2 ++ [6, 1]

/-- The event that `launchLabEventData` decodes to. -/
def sampleInnerEvent : RaydiumLaunchLabBuyEvent :=
  { PoolState := keyOfBytes (List.replicate 32 1)
    TotalBaseSell := 0
    VirtualBase := 0
    VirtualQuote := 0
    RealBaseBefore := 0
    RealQuoteBefore := 0
    RealBaseAfter := 0
    RealQuoteAfter := 0
    AmountIn := 5
    AmountOut := 9
    MinimumAmountOut := 0
    ProtocolFee := 0
    PlatformFee := 0
    ShareFee := 0
    TradeDirection := ⟨true⟩
    PoolStatus := ⟨false⟩
    TokenMint := keyOfBytes (List.replicate 32 2)
    TokenDecimals := 6
    IsBuy := true }

/-- A transaction whose outer instruction 0 is a LaunchLab buy with a decodable payload and
has, among its inner instructions, a LaunchLab event instruction and a TransferChecked of 7
units; the outer instruction 1 is a LaunchLab instruction with 3 data bytes. -/
def launchLabParser : Parser :=
  { txResult := none
    txMeta :=
      ⟨[⟨0, [⟨1, [], launchLabEventData⟩, ⟨2, [0, 3, 0, 0], [12, 7, 0, 0, 0, 0, 0, 0, 0, 6]⟩]⟩,
        ⟨1, [⟨1, [], launchLabEventData⟩]⟩], [], [], []⟩
    txInfo := ⟨[[1, 2, 3]], [sampleSigner], [⟨1, [], launchLabBuyData⟩, ⟨1, [], [1, 2, 3]⟩]⟩
    allAccountKeys :=
      [sampleSigner, sampleConsts.RAYDIUM_LAUNCHLAB_PROGRAM_ID, TokenProgramID, usdcMint]
    splTokenInfoMap := fun _ => none
    splDecimalsMap := fun _ => none }

/-- The event that `processRaydiumLaunchLabSwaps` returns for the outer instruction 0 of
`launchLabParser`: the amounts of the instruction, enriched with the TransferChecked. -/
def sampleOuterEvent : RaydiumLaunchLabBuyEvent :=
  { PoolState := PublicKey.zero
    TotalBaseSell := 0
    VirtualBase := 0
    VirtualQuote := 0
    RealBaseBefore := 0
    RealQuoteBefore := 0
    RealBaseAfter := 0
    RealQuoteAfter := 0
    AmountIn := 100
    AmountOut := 7
    MinimumAmountOut := 90
    ProtocolFee := 0
    PlatformFee := 0
    ShareFee := 1
    TradeDirection := ⟨false⟩
    PoolStatus := ⟨false⟩
    TokenMint := usdcMint
    TokenDecimals := 6
    IsBuy := true }

/-- A transaction with a Boop.fun buy of decodable payload (outer 0), a Boop.fun instruction
of 3 data bytes (outer 1) and an Orca instruction (outer 2); each has an inner Transfer of
257 units and an inner TransferChecked of 7 units. -/
def tierParser : Parser :=
  { txResult := none
    txMeta :=
      ⟨[⟨0, [⟨3, [0, 4, 0], [3, 1, 1, 0, 0, 0, 0, 0, 0]⟩,
            ⟨3, [0, 4, 0, 0], [12, 7, 0, 0, 0, 0, 0, 0, 0, 6]⟩]⟩,
        ⟨1, [⟨3, [0, 4, 0], [3, 1, 1, 0, 0, 0, 0, 0, 0]⟩,
            ⟨3, [0, 4, 0, 0], [12, 7, 0, 0, 0, 0, 0, 0, 0, 6]⟩]⟩,
        ⟨2, [⟨3, [0, 4, 0], [3, 1, 1, 0, 0, 0, 0, 0, 0]⟩,
            ⟨3, [0, 4, 0, 0], [12, 7, 0, 0, 0, 0, 0, 0, 0, 6]⟩]⟩], [], [], []⟩
    txInfo :=
      ⟨[[1, 2, 3]], [sampleSigner],
        [⟨1, [], BoopFunBuyTokenDiscriminator ++
            [100, 0, 0, 0, 0, 0, 0, 0, 90, 0, 0, 0, 0, 0, 0, 0]⟩,
          ⟨1, [], [1, 2, 3]⟩, ⟨2, [], []⟩]⟩
    allAccountKeys :=
      [sampleSigner, sampleConsts.BOOPFUN_PROGRAM_ID, sampleConsts.ORCA_PROGRAM_ID,
        TokenProgramID, usdcMint]
    splTokenInfoMap := fun _ => none
    splDecimalsMap := fun _ => none }

/-- The record of the inner Transfer of `tierParser`; the token map is empty, so the mint
is `Unknown`. -/
def tierTransferRecord : TransferData :=
  { Info :=
      { Amount := 257
        Authority := PublicKey.String sampleSigner
        Destination := PublicKey.String usdcMint
        Source := PublicKey.String sampleSigner }
    Kind := "transfer"
    Mint := "Unknown"
    Decimals := 0 }

/-- The record that `sampleTransferHelpers` gives for the inner TransferChecked of
`tierParser`. -/
def tierTransferCheck : TransferCheck := ⟨"authority", "destination", usdcText, "source", "7", 6⟩

/-! ## A Meteora DBC decoder of two tiers -/

/-- A decoder for Meteora DBC that has two tiers only: the payload of the outer instruction,
enriched from the inner TransferChecked, and then the inner transfers;
`processMeteoraDBCSwaps` is compared with it. -/
def Parser.dbcInstructionThenTransfers (c : Consts) (x : TransferHelpers) (p : Parser)
    (instructionIndex : Nat) : Outcome (List SwapData) :=
  (indexAt p.txInfo.Instructions instructionIndex).bind fun mainInstruction =>
    if mainInstruction.ProgramIDIndex ≥ p.allAccountKeys.length then .ok []
    else
      (indexAt p.allAccountKeys mainInstruction.ProgramIDIndex).bind fun programID =>
        match (if programID = c.METEORA_DBC_PROGRAM_ID then
            parseMeteoraDBCInstruction mainInstruction else none) with
        | some instructionData =>
          (enrichMeteoraDBCEventFromTransfers x p (dbcEventOfInstruction instructionData)
            instructionIndex).bind fun event => .ok [⟨c.METEORA, .meteoraDBC event⟩]
        | none => transferTier c.METEORA x p instructionIndex

/-! ## The program IDs of the dispatch tables -/

/-- The check that the keys of a list are pairwise different. -/
def pairwiseDistinct : List PublicKey → Bool
  | [] => true
  | a :: l => l.all (fun b => decide (a ≠ b)) && pairwiseDistinct l

/-- The fifteen program IDs of the second loop of `ParseTransaction`, in the order of its
cases. -/
def Consts.ammIDs (c : Consts) : List PublicKey :=
  [c.RAYDIUM_V4_PROGRAM_ID, c.RAYDIUM_CPMM_PROGRAM_ID, c.RAYDIUM_AMM_PROGRAM_ID,
    c.RAYDIUM_CONCENTRATED_LIQUIDITY_PROGRAM_ID, RAYDIUM_LEGACY_PROGRAM_ID,
    c.RAYDIUM_LAUNCHLAB_PROGRAM_ID, c.ORCA_PROGRAM_ID, c.METEORA_DAMM_V2_PROGRAM_ID,
    c.METEORA_DBC_PROGRAM_ID, c.METEORA_PROGRAM_ID, c.METEORA_POOLS_PROGRAM_ID,
    c.METEORA_DLMM_PROGRAM_ID, c.PUMPFUN_AMM_PROGRAM_ID, c.PUMP_FUN_PROGRAM_ID,
    PUMP_FUN_LEGACY_PROGRAM_ID]

/-- The fifteen program IDs of the second loop of `ParseTransaction` are pairwise
different. -/
@[reducible] def Consts.ammIDsDistinct (c : Consts) : Prop :=
  pairwiseDistinct c.ammIDs = true

/-! ## Concrete data for the instances of the last properties -/

/-- Decoders for the instances: each returns one entry whose tag is the name of the
method. -/
def namedDecoders : Decoders :=
  { processJupiterSwaps := fun _ _ => [⟨"processJupiterSwaps", .other⟩]
    processMoonshotSwaps := fun _ => [⟨"processMoonshotSwaps", .other⟩]
    processBoopFunSwaps := fun _ _ => [⟨"processBoopFunSwaps", .other⟩]
    processOKXSwaps := fun _ _ => [⟨"processOKXSwaps", .other⟩]
    processRaydSwaps := fun _ _ => [⟨"processRaydSwaps", .other⟩]
    processRaydiumLaunchLabSwaps := fun _ _ => [⟨"processRaydiumLaunchLabSwaps", .other⟩]
    processOrcaSwaps := fun _ _ => [⟨"processOrcaSwaps", .other⟩]
    processMeteoraDAMMv2Swaps := fun _ _ => [⟨"processMeteoraDAMMv2Swaps", .other⟩]
    processMeteoraDBCSwaps := fun _ _ => [⟨"processMeteoraDBCSwaps", .other⟩]
    processMeteoraSwaps := fun _ _ => [⟨"processMeteoraSwaps", .other⟩]
    processPumpfunAMMSwaps := fun _ _ => [⟨"processPumpfunAMMSwaps", .other⟩]
    processPumpfunSwaps := fun _ _ => [⟨"processPumpfunSwaps", .other⟩] }

/-- A transaction with five Banana Gun outer instructions; the only inner instruction of
each runs, in this order, Meteora DAMM v2, Raydium LaunchLab, Meteora DBC, the legacy
Raydium program and Orca. -/
def redispatchParser : Parser :=
  { txResult := none
    txMeta :=
      ⟨[⟨0, [⟨2, [], []⟩]⟩, ⟨1, [⟨3, [], []⟩]⟩, ⟨2, [⟨4, [], []⟩]⟩, ⟨3, [⟨5, [], []⟩]⟩,
        ⟨4, [⟨6, [], []⟩]⟩], [], [], []⟩
    txInfo :=
      ⟨[[1, 2, 3]], [sampleSigner],
        [⟨1, [], []⟩, ⟨1, [], []⟩, ⟨1, [], []⟩, ⟨1, [], []⟩, ⟨1, [], []⟩]⟩
    allAccountKeys :=
      [sampleSigner, sampleConsts.BANANA_GUN_PROGRAM_ID,
        sampleConsts.METEORA_DAMM_V2_PROGRAM_ID, sampleConsts.RAYDIUM_LAUNCHLAB_PROGRAM_ID,
        sampleConsts.METEORA_DBC_PROGRAM_ID, RAYDIUM_LEGACY_PROGRAM_ID,
        sampleConsts.ORCA_PROGRAM_ID]
    splTokenInfoMap := fun _ => none
    splDecimalsMap := fun _ => none }

/-- A sample decoder of TransferChecked: an instruction with at least 4 accounts decodes to
a record whose mint is the text of the key of its account 1, whose amount is that of its data
bytes 1 to 8 and whose decimals are its data byte 9; the decimals map is empty. -/
def keyedTransferHelpers : TransferHelpers :=
  { processTransferCheck := fun p instr =>
      if instr.Accounts.length ≥ 4 then
        some ⟨"authority", "destination", PublicKey.String (p.keyAt (instr.Accounts.getD 1 0)),
          "source", fmtDecimal (leUint64 (instr.Data.drop 1)), instr.Data.getD 9 0⟩
      else none
    extractSPLDecimals := fun _ => .ok fun _ => none }

/-- A swap payload of Meteora with the amounts 100 and 90. -/
def meteoraSwapData : List Nat :=
  MeteoraDAMMv2SwapDiscriminator ++ [100, 0, 0, 0, 0, 0, 0, 0, 90, 0, 0, 0, 0, 0, 0, 0]

/-- A transaction whose outer instruction 0 runs Meteora DAMM v2 and whose outer instruction
1 runs Meteora DBC, both with the payload `meteoraSwapData`; under each, three inner
TransferChecked: 7 units of USDC (6 decimals), 8 units of SOL (9 decimals) and 9 units of
the mint `accountA` (2 decimals); under the outer instruction 1 they follow an inner
instruction of the DBC program. -/
def meteoraParser : Parser :=
  { txResult := none
    txMeta :=
      ⟨[⟨0, [⟨3, [0, 4, 0, 0], [12, 7, 0, 0, 0, 0, 0, 0, 0, 6]⟩,
            ⟨3, [0, 5, 0, 0], [12, 8, 0, 0, 0, 0, 0, 0, 0, 9]⟩,
            ⟨3, [0, 6, 0, 0], [12, 9, 0, 0, 0, 0, 0, 0, 0, 2]⟩]⟩,
        ⟨1, [⟨2, [], [1, 2, 3]⟩,
            ⟨3, [0, 4, 0, 0], [12, 7, 0, 0, 0, 0, 0, 0, 0, 6]⟩,
            ⟨3, [0, 5, 0, 0], [12, 8, 0, 0, 0, 0, 0, 0, 0, 9]⟩,
            ⟨3, [0, 6, 0, 0], [12, 9, 0, 0, 0, 0, 0, 0, 0, 2]⟩]⟩], [], [], []⟩
    txInfo :=
      ⟨[[1, 2, 3]], [sampleSigner], [⟨1, [], meteoraSwapData⟩, ⟨2, [], meteoraSwapData⟩]⟩
    allAccountKeys :=
      [sampleSigner, sampleConsts.METEORA_DAMM_V2_PROGRAM_ID,
        sampleConsts.METEORA_DBC_PROGRAM_ID, TokenProgramID, usdcMint,
        NATIVE_SOL_MINT_PROGRAM_ID, accountA]
    splTokenInfoMap := fun _ => none
    splDecimalsMap := fun _ => none }

/-- The three records that `keyedTransferHelpers` decodes under each outer instruction of
`meteoraParser`. -/
def meteoraTransferChecks : List TransferCheck :=
  [⟨"authority", "destination", usdcText, "source", "7", 6⟩,
    ⟨"authority", "destination", solText, "source", "8", 9⟩,
    ⟨"authority", "destination", PublicKey.String accountA, "source", "9", 2⟩]

/-- The DAMM v2 event of the outer instruction 0 of `meteoraParser`. -/
def sampleDAMMv2Event : MeteoraDAMMv2SwapEvent :=
  { AmountIn := 100
    MinimumAmountOut := 90
    Direction := 0
    TokenInMint := usdcMint
    TokenInDecimals := 6
    TokenOutMint := NATIVE_SOL_MINT_PROGRAM_ID
    TokenOutDecimals := 9
    ActualAmountOut := 8 }

/-- The DBC event of the outer instruction 1 of `meteoraParser`. -/
def sampleDBCEvent : MeteoraDBCSwapEvent :=
  { dbcEventOfInstruction ⟨100, 90⟩ with
    AmountIn := 7
    ActualInputAmount := 7
    OutputAmount := 8
    TokenInMint := usdcMint
    TokenInDecimals := 6
    TokenOutMint := NATIVE_SOL_MINT_PROGRAM_ID
    TokenOutDecimals := 9 }

/-- The Boop.fun event of the outer instruction 0 of `tierParser`. -/
def tierBoopFunEvent : BoopFunSwapEvent :=
  { BuyAmount := 100
    AmountOutMin := 90
    TokenOut := 7
    TokenMint := usdcMint
    TokenDecimals := 6
    IsBuy := true }

/-! ## The dispatcher with the aborts of the decoder calls

`ParseTransaction` does not recover a panic: when a decoder call aborts, so does the call of
`ParseTransaction`. The definitions of this section follow `parser.go` as those over
`Decoders` do, with every decoder call as a call that returns a list or aborts. -/

/-- The per-protocol decoder methods as calls that can abort: each field gives the outcome
of the call for a parser and an outer index, the returned list or the abort. -/
structure Aborting.Decoders where
  processJupiterSwaps : Parser → Nat → Outcome (List SwapData)
  processMoonshotSwaps : Parser → Outcome (List SwapData)
  processBoopFunSwaps : Parser → Nat → Outcome (List SwapData)
  processOKXSwaps : Parser → Nat → Outcome (List SwapData)
  processRaydSwaps : Parser → Nat → Outcome (List SwapData)
  processRaydiumLaunchLabSwaps : Parser → Nat → Outcome (List SwapData)
  processOrcaSwaps : Parser → Nat → Outcome (List SwapData)
  processMeteoraDAMMv2Swaps : Parser → Nat → Outcome (List SwapData)
  processMeteoraDBCSwaps : Parser → Nat → Outcome (List SwapData)
  processMeteoraSwaps : Parser → Nat → Outcome (List SwapData)
  processPumpfunAMMSwaps : Parser → Nat → Outcome (List SwapData)
  processPumpfunSwaps : Parser → Nat → Outcome (List SwapData)

/-- Decoders that always return, as calls that can abort. -/
def Decoders.returning (d : Decoders) : Aborting.Decoders :=
  { processJupiterSwaps := fun p i => .ok (d.processJupiterSwaps p i)
    processMoonshotSwaps := fun p => .ok (d.processMoonshotSwaps p)
    processBoopFunSwaps := fun p i => .ok (d.processBoopFunSwaps p i)
    processOKXSwaps := fun p i => .ok (d.processOKXSwaps p i)
    processRaydSwaps := fun p i => .ok (d.processRaydSwaps p i)
    processRaydiumLaunchLabSwaps := fun p i => .ok (d.processRaydiumLaunchLabSwaps p i)
    processOrcaSwaps := fun p i => .ok (d.processOrcaSwaps p i)
    processMeteoraDAMMv2Swaps := fun p i => .ok (d.processMeteoraDAMMv2Swaps p i)
    processMeteoraDBCSwaps := fun p i => .ok (d.processMeteoraDBCSwaps p i)
    processMeteoraSwaps := fun p i => .ok (d.processMeteoraSwaps p i)
    processPumpfunAMMSwaps := fun p i => .ok (d.processPumpfunAMMSwaps p i)
    processPumpfunSwaps := fun p i => .ok (d.processPumpfunSwaps p i) }

/-- The decoder calls of the parser: the six methods of the listed sources
(`processBoopFunSwaps`, `processRaydSwaps`, `processRaydiumLaunchLabSwaps`,
`processOrcaSwaps`, `processMeteoraDAMMv2Swaps`, `processMeteoraDBCSwaps`) as embedded
above, the six others taken from `d`. -/
def Aborting.sourceDecoders (c : Consts) (x : TransferHelpers) (d : Aborting.Decoders) :
    Aborting.Decoders :=
  { d with
    processBoopFunSwaps := fun p i => p.processBoopFunSwaps c x i
    processRaydSwaps := fun p i => p.processRaydSwaps c x i
    processRaydiumLaunchLabSwaps := fun p i => p.processRaydiumLaunchLabSwaps c x i
    processOrcaSwaps := fun p i => p.processOrcaSwaps c i
    processMeteoraDAMMv2Swaps := fun p i => p.processMeteoraDAMMv2Swaps c x i
    processMeteoraDBCSwaps := fun p i => p.processMeteoraDBCSwaps c x i }

/-- Calls made one after the other, each returning a list: the lists are appended in the
order of the calls, and the first call that does not return ends the sequence with its
outcome. -/
def Outcome.concat {α : Type} : List (Outcome (List α)) → Outcome (List α)
  | [] => .ok []
  | o :: rest => o.bind fun l => (Outcome.concat rest).bind fun ls => .ok (l ++ ls)

/-- One round of the loop of `processRouterSwaps`, with the abort of the decoder call. -/
def Aborting.routerStep (c : Consts) (d : Aborting.Decoders) (p : Parser)
    (instructionIndex : Nat) (st : List SwapData × List String) (inner : CompiledInstruction) :
    Outcome (List SwapData × List String) :=
  if inner.ProgramIDIndex ≥ p.allAccountKeys.length then .ok st
  else
    let progID := p.keyAt inner.ProgramIDIndex
    if (progID = c.RAYDIUM_V4_PROGRAM_ID ∨ progID = c.RAYDIUM_CPMM_PROGRAM_ID ∨
        progID = c.RAYDIUM_AMM_PROGRAM_ID ∨
        progID = c.RAYDIUM_CONCENTRATED_LIQUIDITY_PROGRAM_ID) ∧ PROTOCOL_RAYDIUM ∉ st.2 then
      (d.processRaydSwaps p instructionIndex).bind fun raydSwaps =>
        .ok (st.1 ++ raydSwaps, PROTOCOL_RAYDIUM :: st.2)
    else if progID = c.ORCA_PROGRAM_ID ∧ PROTOCOL_ORCA ∉ st.2 then
      (d.processOrcaSwaps p instructionIndex).bind fun orcaSwaps =>
        .ok (st.1 ++ orcaSwaps, PROTOCOL_ORCA :: st.2)
    else if (progID = c.METEORA_PROGRAM_ID ∨ progID = c.METEORA_POOLS_PROGRAM_ID ∨
        progID = c.METEORA_DLMM_PROGRAM_ID ∨ progID = c.METEORA_DAMM_V2_PROGRAM_ID ∨
        progID = c.METEORA_DBC_PROGRAM_ID) ∧ PROTOCOL_METEORA ∉ st.2 then
      (d.processMeteoraSwaps p instructionIndex).bind fun meteoraSwaps =>
        .ok (st.1 ++ meteoraSwaps, PROTOCOL_METEORA :: st.2)
    else if progID = c.PUMPFUN_AMM_PROGRAM_ID ∧ PROTOCOL_PUMPFUN ∉ st.2 then
      (d.processPumpfunAMMSwaps p instructionIndex).bind fun pumpfunAMMSwaps =>
        .ok (st.1 ++ pumpfunAMMSwaps, PROTOCOL_PUMPFUN :: st.2)
    else if (progID = c.PUMP_FUN_PROGRAM_ID ∨ progID = PUMP_FUN_LEGACY_PROGRAM_ID) ∧
        PROTOCOL_PUMPFUN ∉ st.2 then
      (d.processPumpfunSwaps p instructionIndex).bind fun pumpfunSwaps =>
        .ok (st.1 ++ pumpfunSwaps, PROTOCOL_PUMPFUN :: st.2)
    else .ok st

/-- Method `processRouterSwaps`, with the aborts of the decoder calls. -/
def Aborting.processRouterSwaps (c : Consts) (d : Aborting.Decoders) (p : Parser)
    (instructionIndex : Nat) : Outcome (List SwapData) :=
  let innerInstructions := p.getInnerInstructions instructionIndex
  if innerInstructions.length = 0 then .ok []
  else
    (Outcome.foldl (Aborting.routerStep c d p instructionIndex) ([], [])
      innerInstructions).bind fun st => .ok st.1

/-- One round of the first loop of `ParseTransaction`, with the abort of the decoder call;
the state is `skip` and `parsedSwaps`. -/
def Aborting.pass1Step (c : Consts) (d : Aborting.Decoders) (p : Parser)
    (st : Bool × List SwapData) (io : Nat × CompiledInstruction) :
    Outcome (Bool × List SwapData) :=
  if io.2.ProgramIDIndex ≥ p.allAccountKeys.length then .ok st
  else
    let progID := p.keyAt io.2.ProgramIDIndex
    if progID = c.JUPITER_PROGRAM_ID then
      (d.processJupiterSwaps p io.1).bind fun swaps => .ok (true, st.2 ++ swaps)
    else if progID = c.MOONSHOT_PROGRAM_ID then
      (d.processMoonshotSwaps p).bind fun swaps => .ok (true, st.2 ++ swaps)
    else if progID = c.BOOPFUN_PROGRAM_ID then
      (d.processBoopFunSwaps p io.1).bind fun swaps => .ok (true, st.2 ++ swaps)
    else if progID = c.BANANA_GUN_PROGRAM_ID ∨ progID = c.MINTECH_PROGRAM_ID ∨
        progID = c.BLOOM_PROGRAM_ID ∨ progID = c.NOVA_PROGRAM_ID ∨
        progID = c.MAESTRO_PROGRAM_ID then
      (Aborting.processRouterSwaps c d p io.1).bind fun innerSwaps =>
        .ok (st.1, st.2 ++ innerSwaps)
    else if progID = c.OKX_DEX_ROUTER_PROGRAM_ID then
      (d.processOKXSwaps p io.1).bind fun swaps => .ok (true, st.2 ++ swaps)
    else .ok st

/-- One round of the second loop of `ParseTransaction`, with the abort of the decoder call;
the state is `parsedSwaps`. -/
def Aborting.pass2Step (c : Consts) (d : Aborting.Decoders) (p : Parser)
    (parsedSwaps : List SwapData) (io : Nat × CompiledInstruction) : Outcome (List SwapData) :=
  if io.2.ProgramIDIndex ≥ p.allAccountKeys.length then .ok parsedSwaps
  else
    let progID := p.keyAt io.2.ProgramIDIndex
    if progID = c.RAYDIUM_V4_PROGRAM_ID ∨ progID = c.RAYDIUM_CPMM_PROGRAM_ID ∨
        progID = c.RAYDIUM_AMM_PROGRAM_ID ∨
        progID = c.RAYDIUM_CONCENTRATED_LIQUIDITY_PROGRAM_ID ∨
        progID = RAYDIUM_LEGACY_PROGRAM_ID then
      (d.processRaydSwaps p io.1).bind fun swaps => .ok (parsedSwaps ++ swaps)
    else if progID = c.RAYDIUM_LAUNCHLAB_PROGRAM_ID then
      (d.processRaydiumLaunchLabSwaps p io.1).bind fun swaps => .ok (parsedSwaps ++ swaps)
    else if progID = c.ORCA_PROGRAM_ID then
      (d.processOrcaSwaps p io.1).bind fun swaps => .ok (parsedSwaps ++ swaps)
    else if progID = c.METEORA_DAMM_V2_PROGRAM_ID then
      (d.processMeteoraDAMMv2Swaps p io.1).bind fun swaps => .ok (parsedSwaps ++ swaps)
    else if progID = c.METEORA_DBC_PROGRAM_ID then
      (d.processMeteoraDBCSwaps p io.1).bind fun swaps => .ok (parsedSwaps ++ swaps)
    else if progID = c.METEORA_PROGRAM_ID ∨ progID = c.METEORA_POOLS_PROGRAM_ID ∨
        progID = c.METEORA_DLMM_PROGRAM_ID then
      (d.processMeteoraSwaps p io.1).bind fun swaps => .ok (parsedSwaps ++ swaps)
    else if progID = c.PUMPFUN_AMM_PROGRAM_ID then
      (d.processPumpfunAMMSwaps p io.1).bind fun swaps => .ok (parsedSwaps ++ swaps)
    else if progID = c.PUMP_FUN_PROGRAM_ID ∨ progID = PUMP_FUN_LEGACY_PROGRAM_ID then
      (d.processPumpfunSwaps p io.1).bind fun swaps => .ok (parsedSwaps ++ swaps)
    else .ok parsedSwaps

/-- Method `ParseTransaction`, with the aborts of the decoder calls; its error result is
always `nil` and is left out. -/
def Aborting.ParseTransaction (c : Consts) (d : Aborting.Decoders) (p : Parser) :
    Outcome (List SwapData) :=
  (Outcome.foldl (Aborting.pass1Step c d p) (false, []) p.txInfo.Instructions.enum).bind
    fun st =>
      if st.1 then .ok st.2
      else Outcome.foldl (Aborting.pass2Step c d p) st.2 p.txInfo.Instructions.enum

/-- The call that the first loop of `ParseTransaction` makes for an outer instruction that
is not one of Jupiter, Moonshot, Boop.fun or the OKX router: `processRouterSwaps` for a
router wrapper, no call otherwise. -/
def Aborting.routerOutput (c : Consts) (d : Aborting.Decoders) (p : Parser)
    (io : Nat × CompiledInstruction) : Outcome (List SwapData) :=
  if io.2.ProgramIDIndex ≥ p.allAccountKeys.length then .ok []
  else if isRouterWrapper c (p.keyAt io.2.ProgramIDIndex) then
    Aborting.processRouterSwaps c d p io.1
  else .ok []

/-- The call that the second loop of `ParseTransaction` makes for one outer instruction,
given with its index. -/
def Aborting.pass2Output (c : Consts) (d : Aborting.Decoders) (p : Parser)
    (io : Nat × CompiledInstruction) : Outcome (List SwapData) :=
  if io.2.ProgramIDIndex ≥ p.allAccountKeys.length then .ok []
  else
    let progID := p.keyAt io.2.ProgramIDIndex
    if progID = c.RAYDIUM_V4_PROGRAM_ID ∨ progID = c.RAYDIUM_CPMM_PROGRAM_ID ∨
        progID = c.RAYDIUM_AMM_PROGRAM_ID ∨
        progID = c.RAYDIUM_CONCENTRATED_LIQUIDITY_PROGRAM_ID ∨
        progID = RAYDIUM_LEGACY_PROGRAM_ID then d.processRaydSwaps p io.1
    else if progID = c.RAYDIUM_LAUNCHLAB_PROGRAM_ID then d.processRaydiumLaunchLabSwaps p io.1
    else if progID = c.ORCA_PROGRAM_ID then d.processOrcaSwaps p io.1
    else if progID = c.METEORA_DAMM_V2_PROGRAM_ID then d.processMeteoraDAMMv2Swaps p io.1
    else if progID = c.METEORA_DBC_PROGRAM_ID then d.processMeteoraDBCSwaps p io.1
    else if progID = c.METEORA_PROGRAM_ID ∨ progID = c.METEORA_POOLS_PROGRAM_ID ∨
        progID = c.METEORA_DLMM_PROGRAM_ID then d.processMeteoraSwaps p io.1
    else if progID = c.PUMPFUN_AMM_PROGRAM_ID then d.processPumpfunAMMSwaps p io.1
    else if progID = c.PUMP_FUN_PROGRAM_ID ∨ progID = PUMP_FUN_LEGACY_PROGRAM_ID then
      d.processPumpfunSwaps p io.1
    else .ok []

/-- A transaction whose only outer instruction runs Raydium LaunchLab with 3 data bytes, a
payload that does not decode, and has one inner instruction, whose program index 9 is out of
range of the two account keys. -/
def launchLabAbortParser : Parser :=
  { txResult := none
    txMeta := ⟨[⟨0, [⟨9, [], []⟩]⟩], [], [], []⟩
    txInfo := ⟨[[1, 2, 3]], [sampleSigner], [⟨1, [], [1, 2, 3]⟩]⟩
    allAccountKeys := [sampleSigner, sampleConsts.RAYDIUM_LAUNCHLAB_PROGRAM_ID]
    splTokenInfoMap := fun _ => none
    splDecimalsMap := fun _ => none }

/-! ## Lemmas on digits and on the base58 text -/

theorem digitsLE_eq_digits (b : Nat) (hb : 1 < b) :
    ∀ (fuel n : Nat), n < b ^ fuel → digitsLE b fuel n = Nat.digits b n := by
  intro fuel
  induction fuel with
  | zero =>
    intro n hn
    have h0 : n = 0 := by simpa using hn
    subst h0
    simp [digitsLE]
  | succ fuel ih =>
    intro n hn
    by_cases h0 : n = 0
    · subst h0; simp [digitsLE]
    · have hpos : 0 < n := Nat.pos_of_ne_zero h0
      rw [Nat.digits_def' hb hpos]
      simp only [digitsLE, h0, if_false]
      congr 1
      apply ih
      apply Nat.div_lt_of_lt_mul
      rw [pow_succ] at hn
      rw [Nat.mul_comm]
      exact hn

theorem digitsLE_self (b : Nat) (hb : 1 < b) (n : Nat) :
    digitsLE b (n + 1) n = Nat.digits b n := by
  apply digitsLE_eq_digits b hb
  calc n < b ^ n := Nat.lt_pow_self hb n
    _ ≤ b ^ (n + 1) := Nat.pow_le_pow_right (by omega) (by omega)

theorem valueBE_append (b : Nat) (ds : List Nat) (d : Nat) :
    valueBE b (ds ++ [d]) = valueBE b ds * b + d := by
  simp [valueBE, List.foldl_append]

theorem valueBE_eq_ofDigits (b : Nat) (ds : List Nat) :
    valueBE b ds = Nat.ofDigits b ds.reverse := by
  induction ds using List.reverseRecOn with
  | nil => simp [valueBE]
  | append_singleton ds d ih =>
    rw [valueBE_append, ih, List.reverse_append]
    simp [Nat.ofDigits_cons]
    ring

theorem valueBE_zero_cons (b : Nat) (ds : List Nat) : valueBE b (0 :: ds) = valueBE b ds := by
  simp [valueBE]

theorem b58Alphabet_length : b58Alphabet.length = 58 := by decide

theorem b58Digit_some {c : Char} {d : Nat} (h : b58Digit c = some d) :
    d < 58 ∧ b58Char d = c := by
  unfold b58Digit at h
  split at h
  · rename_i hlt
    injection h with h
    subst h
    refine ⟨hlt, ?_⟩
    have hlen : List.indexOf c b58Alphabet < b58Alphabet.length := by
      rw [b58Alphabet_length]; exact hlt
    unfold b58Char
    rw [List.getD_eq_getElem _ _ hlen]
    exact List.indexOf_get hlen
  · exact absurd h (by simp)

theorem b58Digits_some : ∀ {cs : List Char} {ds : List Nat}, b58Digits cs = some ds →
    cs = ds.map b58Char ∧ ∀ d ∈ ds, d < 58 := by
  intro cs
  induction cs with
  | nil =>
    intro ds h
    simp [b58Digits] at h
    subst h
    simp
  | cons c cs ih =>
    intro ds h
    unfold b58Digits at h
    cases hc : b58Digit c with
    | none => simp [hc] at h
    | some d =>
      cases hcs : b58Digits cs with
      | none => simp [hc, hcs] at h
      | some ds0 =>
        simp [hc, hcs] at h
        subst h
        obtain ⟨h1, h2⟩ := ih hcs
        obtain ⟨h3, h4⟩ := b58Digit_some hc
        refine ⟨?_, ?_⟩
        · simp [h4, ← h1]
        · intro x hx
          rcases List.mem_cons.mp hx with hx | hx
          · subst hx; exact h3
          · exact h2 x hx

theorem leadingZeros_split : ∀ (ds : List Nat), ∃ rest : List Nat,
    ds = List.replicate (leadingZeros ds) 0 ++ rest ∧ (∀ h : rest ≠ [], rest.head h ≠ 0) := by
  intro ds
  induction ds with
  | nil => exact ⟨[], by simp [leadingZeros], by simp⟩
  | cons d ds ih =>
    by_cases hd : d = 0
    · subst hd
      obtain ⟨rest, h1, h2⟩ := ih
      refine ⟨rest, ?_, h2⟩
      simp only [leadingZeros, List.replicate_succ, List.cons_append]
      rw [← h1]
    · refine ⟨d :: ds, ?_, ?_⟩
      · cases d with
        | zero => exact absurd rfl hd
        | succ d => simp [leadingZeros]
      · intro _; simpa using hd

theorem valueBE_replicate_zero (b z : Nat) (rest : List Nat) :
    valueBE b (List.replicate z 0 ++ rest) = valueBE b rest := by
  induction z with
  | zero => simp
  | succ z ih => rw [List.replicate_succ, List.cons_append, valueBE_zero_cons, ih]

theorem digits_of_canonical (rest : List Nat) (hlt : ∀ d ∈ rest, d < 58)
    (hhead : ∀ h : rest ≠ [], rest.head h ≠ 0) :
    (Nat.digits 58 (valueBE 58 rest)).reverse = rest := by
  rw [valueBE_eq_ofDigits, Nat.digits_ofDigits 58 (by decide)]
  · simp
  · intro l hl; exact hlt l (List.mem_reverse.mp hl)
  · intro h
    have hne : rest ≠ [] := by simpa using h
    rw [List.getLast_reverse]
    exact hhead hne

/-- A text accepted by `PublicKeyFromBase58` is the text of the key it gives. -/
theorem PublicKeyFromBase58_canonical {s : String} {k : PublicKey}
    (h : PublicKeyFromBase58 s = some k) : PublicKey.String k = s := by
  unfold PublicKeyFromBase58 at h
  split at h
  · exact absurd h (by simp)
  · rename_i cs hcs
    split at h
    · exact absurd h (by simp)
    · rename_i ds hds
      split at h
      · rename_i hval
        split at h
        · rename_i hlen
          injection h with h
          obtain ⟨hmap, hlt⟩ := b58Digits_some hds
          obtain ⟨rest, hsplit, hhead⟩ := leadingZeros_split ds
          have hkv : k.val = valueBE 58 ds := by rw [← h]
          have hrest : valueBE 58 ds = valueBE 58 rest := by
            conv_lhs => rw [hsplit]
            exact valueBE_replicate_zero 58 _ rest
          have hlt' : ∀ d ∈ rest, d < 58 := by
            intro d hd
            apply hlt
            rw [hsplit]
            exact List.mem_append_right _ hd
          have hdig : digitsLE 58 45 k.val = Nat.digits 58 k.val := by
            apply digitsLE_eq_digits 58 (by decide)
            exact lt_trans k.isLt (by decide)
          have hcanon := digits_of_canonical rest hlt' hhead
          unfold PublicKey.String
          rw [hdig, hkv, hrest, hcanon, ← hrest]
          have hz : 32 - byteLen (valueBE 58 ds) = leadingZeros ds := by omega
          rw [hz]
          have hchars : List.replicate (leadingZeros ds) (Char.ofNat 49) ++ List.map b58Char rest
              = s.data := by
            rw [hmap]
            conv_rhs => rw [hsplit]
            simp [b58Char, b58Alphabet]
          show String.mk _ = s
          rw [hchars]
        · exact absurd h (by simp)
      · exact absurd h (by simp)

/-- Two different texts are never the text of one key. -/
theorem PublicKeyFromBase58_injective {s t : String} {k : PublicKey}
    (hs : PublicKeyFromBase58 s = some k) (ht : PublicKeyFromBase58 t = some k) : s = t := by
  rw [← PublicKeyFromBase58_canonical hs, ← PublicKeyFromBase58_canonical ht]

theorem decDigit_decChar (d : Nat) (h : d < 10) : decDigit (decChar d) = some d := by
  interval_cases d <;> decide

theorem map_decChar_injective : ∀ (l1 l2 : List Nat), (∀ d ∈ l1, d < 10) → (∀ d ∈ l2, d < 10) →
    l1.map decChar = l2.map decChar → l1 = l2 := by
  intro l1
  induction l1 with
  | nil =>
    intro l2 _ _ h
    cases l2 with
    | nil => rfl
    | cons b l2 => simp at h
  | cons a l1 ih =>
    intro l2 h1 h2 h
    cases l2 with
    | nil => simp at h
    | cons b l2 =>
      simp only [List.map_cons, List.cons.injEq] at h
      have ha := decDigit_decChar a (h1 a (List.mem_cons_self _ _))
      have hb := decDigit_decChar b (h2 b (List.mem_cons_self _ _))
      rw [h.1, hb] at ha
      injection ha with ha
      subst ha
      congr 1
      exact ih l2 (fun d hd => h1 d (List.mem_cons_of_mem _ hd))
        (fun d hd => h2 d (List.mem_cons_of_mem _ hd)) h.2

theorem fmtDecimal_pos (n : Nat) (hn : n ≠ 0) :
    fmtDecimal n = String.mk ((Nat.digits 10 n).reverse.map decChar) := by
  simp [fmtDecimal, hn, digitsLE_self 10 (by decide) n]

theorem fmtDecimal_ne_zero_text (n : Nat) (hn : n ≠ 0) : fmtDecimal n ≠ "0" := by
  intro h
  rw [fmtDecimal_pos n hn] at h
  have hd : (Nat.digits 10 n).reverse.map decChar = [0].map decChar := by
    have := congrArg String.data h
    simpa [decChar] using this
  have hlt : ∀ d ∈ (Nat.digits 10 n).reverse, d < 10 := by
    intro d hd
    exact Nat.digits_lt_base (by decide) (List.mem_reverse.mp hd)
  have h0 := map_decChar_injective _ _ hlt (by simp) hd
  have h1 : Nat.digits 10 n = [0] := by
    have := congrArg List.reverse h0
    simpa using this
  have h2 := Nat.getLast_digit_ne_zero 10 hn
  simp [h1] at h2

/-- The decimal text determines the number. -/
theorem fmtDecimal_injective {a b : Nat} (h : fmtDecimal a = fmtDecimal b) : a = b := by
  by_cases ha : a = 0
  · by_cases hb : b = 0
    · rw [ha, hb]
    · subst ha
      exact absurd h.symm (fmtDecimal_ne_zero_text b hb)
  · by_cases hb : b = 0
    · subst hb
      exact absurd h (fmtDecimal_ne_zero_text a ha)
    · rw [fmtDecimal_pos a ha, fmtDecimal_pos b hb] at h
      have hd : (Nat.digits 10 a).reverse.map decChar = (Nat.digits 10 b).reverse.map decChar := by
        injection h
      have hlt : ∀ n : Nat, ∀ d ∈ (Nat.digits 10 n).reverse, d < 10 := by
        intro n d hd
        exact Nat.digits_lt_base (by decide) (List.mem_reverse.mp hd)
      have h0 := map_decChar_injective _ _ (hlt a) (hlt b) hd
      have h1 : Nat.digits 10 a = Nat.digits 10 b := by
        have := congrArg List.reverse h0
        simpa using this
      exact Nat.digits_inj_iff.mp h1

/-- Two records of one mint have the same key exactly when they have the same amount. -/
theorem amountStr_eq_iff {t1 t2 : TokenTransfer} (hm : t1.mint = t2.mint) :
    amountStr t1 = amountStr t2 ↔ t1.amount = t2.amount := by
  constructor
  · intro h
    unfold amountStr at h
    rw [hm] at h
    have hd := congrArg String.data h
    simp only [String.data_append, List.append_left_inj] at hd
    exact fmtDecimal_injective (String.ext hd)
  · intro h
    unfold amountStr
    rw [hm, h]

/-! ## The sorting loop -/

theorem classify_get (c : Consts) (b : Buckets) (sd : SwapData) (k : SwapClass) :
    (classify c b sd).get k = if classOf c sd = k then b.get k ++ [sd] else b.get k := by
  unfold classify classOf
  by_cases h1 : sd.Typ = c.JUPITER
  · rw [if_pos h1, if_pos h1]; cases k <;> simp [Buckets.get]
  · rw [if_neg h1, if_neg h1]
    by_cases h2 : sd.Typ = c.PUMP_FUN
    · rw [if_pos h2, if_pos h2]; cases k <;> simp [Buckets.get]
    · rw [if_neg h2, if_neg h2]
      by_cases h3 : sd.Typ = c.RAYDIUM_LAUNCHLAB
      · rw [if_pos h3, if_pos h3]; cases k <;> simp [Buckets.get]
      · rw [if_neg h3, if_neg h3]
        by_cases h4 : sd.Typ = c.METEORA
        · rw [if_pos h4, if_pos h4]
          cases hd : sd.Data <;> cases k <;> simp [Buckets.get, Payload.isMeteoraEvent]
        · rw [if_neg h4, if_neg h4]
          by_cases h5 : sd.Typ = c.BOOPFUN
          · rw [if_pos h5, if_pos h5]; cases k <;> simp [Buckets.get]
          · rw [if_neg h5, if_neg h5]; cases k <;> simp [Buckets.get]

theorem classify_foldl_get (c : Consts) (k : SwapClass) (xs : List SwapData) : ∀ b : Buckets,
    (xs.foldl (classify c) b).get k = b.get k ++ xs.filter (fun sd => classOf c sd = k) := by
  induction xs with
  | nil => intro b; simp
  | cons sd xs ih =>
    intro b
    rw [List.foldl_cons, ih, classify_get]
    by_cases h : classOf c sd = k
    · simp [h, List.filter_cons]
    · simp [h, List.filter_cons]

theorem buckets_get (c : Consts) (k : SwapClass) (xs : List SwapData) :
    (xs.foldl (classify c) Buckets.empty).get k = xs.filter (fun sd => classOf c sd = k) := by
  rw [classify_foldl_get]
  cases k <;> simp [Buckets.get, Buckets.empty]

theorem buckets_entriesOf (c : Consts) (k : SwapClass) (xs : List SwapData) :
    (xs.foldl (classify c) Buckets.empty).get k = entriesOf c k xs :=
  buckets_get c k xs

theorem entriesOf_entriesOf (c : Consts) (k k2 : SwapClass) (xs : List SwapData) :
    entriesOf c k2 (entriesOf c k xs) = if k2 = k then entriesOf c k xs else [] := by
  unfold entriesOf
  rw [List.filter_filter]
  by_cases h : k2 = k
  · subst h
    simp
  · rw [if_neg h]
    apply List.filter_eq_nil_iff.mpr
    intro a _ ha
    simp only [Bool.and_eq_true, decide_eq_true_eq] at ha
    exact h (ha.1.symm.trans ha.2)

/-! ## The blocks of the summariser -/

theorem ProcessSwapData_eq (c : Consts) (x : Helpers) (p : Parser) (now : Int)
    (xs : List SwapData) (hne : xs ≠ []) :
    ProcessSwapData c x p now xs =
      if (entriesOf c .jupiter xs).length > 0 then
        jupiterStage x p now (initSwapInfo x p) (entriesOf c .jupiter xs)
      else
        pumpfunStage p now (initSwapInfo x p) (entriesOf c .pumpfun xs)
          (entriesOf c .raydiumLaunchLab xs) (entriesOf c .boopFun xs)
          (entriesOf c .meteoraDAMMv2 xs) (entriesOf c .other xs) := by
  unfold ProcessSwapData
  have hlen : ¬ xs.length = 0 := by
    intro h; exact hne (List.length_eq_zero.mp h)
  rw [if_neg hlen]
  simp only []
  rw [← buckets_entriesOf c .jupiter, ← buckets_entriesOf c .pumpfun,
    ← buckets_entriesOf c .raydiumLaunchLab, ← buckets_entriesOf c .boopFun,
    ← buckets_entriesOf c .meteoraDAMMv2, ← buckets_entriesOf c .other]
  rfl

theorem meteoraStage_nil (p : Parser) (now : Int) (info : SwapInfo) (other : List SwapData) :
    meteoraStage p now info [] other = genericReduction p now info other := rfl

theorem boopFunStage_demote (p : Parser) (now : Int) (info : SwapInfo)
    (boop met other : List SwapData)
    (h : boop.head?.all (fun sd => !sd.Data.isBoopFun) = true) :
    boopFunStage p now info boop met other = meteoraStage p now info met (other ++ boop) := by
  cases boop with
  | nil => simp [boopFunStage]
  | cons first rest =>
    simp only [List.head?_cons, Option.all_some, Bool.not_eq_true'] at h
    unfold boopFunStage
    cases hd : first.Data <;> simp [hd, Payload.isBoopFun] at h ⊢

theorem raydiumLaunchLabStage_demote (p : Parser) (now : Int) (info : SwapInfo)
    (ll boop met other : List SwapData)
    (h : ll.head?.all (fun sd => !sd.Data.isRaydiumLaunchLab) = true) :
    raydiumLaunchLabStage p now info ll boop met other =
      boopFunStage p now info boop met (other ++ ll) := by
  cases ll with
  | nil => simp [raydiumLaunchLabStage]
  | cons first rest =>
    simp only [List.head?_cons, Option.all_some, Bool.not_eq_true'] at h
    unfold raydiumLaunchLabStage
    cases hd : first.Data <;> simp [hd, Payload.isRaydiumLaunchLab] at h ⊢

theorem pumpfunStage_demote (p : Parser) (now : Int) (info : SwapInfo)
    (pump ll boop met other : List SwapData)
    (h : pump.head?.all (fun sd => !sd.Data.isPumpfunTrade) = true) :
    pumpfunStage p now info pump ll boop met other =
      raydiumLaunchLabStage p now info ll boop met (other ++ pump) := by
  cases pump with
  | nil => simp [pumpfunStage]
  | cons first rest =>
    simp only [List.head?_cons, Option.all_some, Bool.not_eq_true'] at h
    unfold pumpfunStage
    cases hd : first.Data <;> simp [hd, Payload.isPumpfunTrade] at h ⊢

/-! ## Lists of first occurrences -/

theorem firstSeen_sublist {α κ : Type} [DecidableEq κ] (key : α → κ) :
    ∀ l : List α, (firstSeen key l).Sublist l := by
  intro l
  induction l with
  | nil => simp [firstSeen]
  | cons a l ih =>
    simp only [firstSeen]
    exact List.Sublist.cons₂ a ((List.filter_sublist _).trans ih)

theorem firstSeen_key_mem {α κ : Type} [DecidableEq κ] (key : α → κ) (k : κ) :
    ∀ l : List α, k ∈ (firstSeen key l).map key ↔ k ∈ l.map key := by
  intro l
  induction l with
  | nil => simp [firstSeen]
  | cons a l ih =>
    simp only [firstSeen, List.map_cons, List.mem_cons]
    by_cases hk : k = key a
    · simp [hk]
    · simp only [hk, false_or]
      rw [← ih]
      simp only [List.mem_map, List.mem_filter]
      constructor
      · rintro ⟨b, ⟨hb, _⟩, rfl⟩
        exact ⟨b, hb, rfl⟩
      · rintro ⟨b, hb, rfl⟩
        exact ⟨b, ⟨hb, by simpa using hk⟩, rfl⟩

theorem firstSeen_nodup {α κ : Type} [DecidableEq κ] (key : α → κ) :
    ∀ l : List α, ((firstSeen key l).map key).Nodup := by
  intro l
  induction l with
  | nil => simp [firstSeen]
  | cons a l ih =>
    simp only [firstSeen, List.map_cons, List.nodup_cons]
    constructor
    · simp only [List.mem_map, List.mem_filter, not_exists, not_and]
      rintro b ⟨_, hb⟩ h
      simp [h] at hb
    · exact (ih.sublist ((List.filter_sublist _).map key))

theorem firstSeen_pairwise {α κ : Type} [DecidableEq κ] (key : α → κ) :
    ∀ l : List α, (firstSeen key l).Pairwise
      (fun a b => (l.map key).indexOf (key a) < (l.map key).indexOf (key b)) := by
  intro l
  induction l with
  | nil => simp [firstSeen]
  | cons a l ih =>
    simp only [firstSeen, List.map_cons, List.pairwise_cons]
    constructor
    · intro b hb
      have hne : key b ≠ key a := by
        have := (List.mem_filter.mp hb).2
        simpa using this
      rw [List.indexOf_cons_self, List.indexOf_cons_ne _ (Ne.symm hne)]
      exact Nat.succ_pos _
    · have h0 : ((firstSeen key l).filter (fun b => decide (key b ≠ key a))).Pairwise
          (fun a b => (l.map key).indexOf (key a) < (l.map key).indexOf (key b)) :=
        ih.sublist (List.filter_sublist _)
      have h1 := List.Pairwise.and_mem.mp h0
      refine h1.imp ?_
      rintro b1 b2 ⟨hb1, hb2, hlt⟩
      have hne1 : key b1 ≠ key a := by
        have := (List.mem_filter.mp hb1).2
        simpa using this
      have hne2 : key b2 ≠ key a := by
        have := (List.mem_filter.mp hb2).2
        simpa using this
      rw [List.indexOf_cons_ne _ (Ne.symm hne1), List.indexOf_cons_ne _ (Ne.symm hne2)]
      exact Nat.succ_lt_succ hlt

theorem firstSeen_length {α κ : Type} [DecidableEq κ] (key : α → κ) (l : List α) :
    (firstSeen key l).length = (l.map key).dedup.length := by
  have h1 := firstSeen_nodup key l
  have h2 := List.nodup_dedup (l.map key)
  have hp : ((firstSeen key l).map key).Perm (l.map key).dedup := by
    rw [List.perm_ext_iff_of_nodup h1 h2]
    intro k
    rw [firstSeen_key_mem, List.mem_dedup]
  simpa using hp.length_eq

theorem firstSeen_head {α κ : Type} [DecidableEq κ] (key : α → κ) (l : List α) :
    (firstSeen key l).head? = l.head? := by
  cases l <;> simp [firstSeen]

/-- The last first occurrence is the one that comes latest. -/
theorem firstSeen_getLast {α κ : Type} [DecidableEq κ] (key : α → κ) (l : List α) (z : α)
    (hz : (firstSeen key l).getLast? = some z) :
    z ∈ l ∧ ∀ k ∈ l.map key, (l.map key).indexOf k ≤ (l.map key).indexOf (key z) := by
  obtain ⟨init, hinit⟩ : ∃ init, firstSeen key l = init ++ [z] := by
    rcases List.eq_nil_or_concat (firstSeen key l) with h | ⟨init, b, h⟩
    · simp [h] at hz
    · rw [h] at hz
      simp at hz
      exact ⟨init, by rw [h, hz]; simp⟩
  have hzmem : z ∈ firstSeen key l := by rw [hinit]; simp
  refine ⟨(firstSeen_sublist key l).subset hzmem, ?_⟩
  intro k hk
  rw [← firstSeen_key_mem, hinit] at hk
  have hpw := firstSeen_pairwise key l
  rw [hinit, List.pairwise_append] at hpw
  simp only [List.map_append, List.map_cons, List.map_nil, List.mem_append, List.mem_map,
    List.mem_singleton] at hk
  rcases hk with ⟨a, ha, rfl⟩ | hk
  · exact Nat.le_of_lt (hpw.2.2 a ha z (by simp))
  · rcases hk with ⟨a, rfl, rfl⟩
    exact Nat.le_refl _

/-! ## The loops of the generic reduction -/

theorem uniqueStep_none {sd : SwapData} (st : List TokenTransfer × List String)
    (h : getTransferFromSwapData sd = none) : uniqueStep st sd = st := by
  simp [uniqueStep, h]

theorem uniqueStep_some {sd : SwapData} {t : TokenTransfer}
    (st : List TokenTransfer × List String) (h : getTransferFromSwapData sd = some t) :
    uniqueStep st sd = if t.mint ∈ st.2 then st else (st.1 ++ [t], t.mint :: st.2) := by
  simp [uniqueStep, h]

theorem ammStep_def (st : List String × List String) (sd : SwapData) :
    ammStep st sd = if sd.Typ ∈ st.2 then st else (st.1 ++ [sd.Typ], sd.Typ :: st.2) := rfl

theorem uniqueStep_foldl (other : List SwapData) :
    ∀ (acc : List TokenTransfer) (seen : List String),
      (other.foldl uniqueStep (acc, seen)).1 =
        acc ++ (firstSeen (fun t => t.mint) (transferRecords other)).filter
          (fun t => t.mint ∉ seen) := by
  induction other with
  | nil => intro acc seen; simp [transferRecords, firstSeen]
  | cons sd other ih =>
    intro acc seen
    rw [List.foldl_cons]
    cases hg : getTransferFromSwapData sd with
    | none =>
      rw [uniqueStep_none _ hg, ih]
      simp [transferRecords, List.filterMap_cons, hg]
    | some t =>
      rw [uniqueStep_some _ hg]
      have hts : transferRecords (sd :: other) = t :: transferRecords other := by
        simp [transferRecords, List.filterMap_cons, hg]
      rw [hts]
      simp only [firstSeen]
      by_cases hm : t.mint ∈ seen
      · rw [if_pos hm, ih, List.filter_cons]
        simp only [hm, not_true_eq_false, decide_False, Bool.false_eq_true, if_false,
          List.filter_filter]
        congr 1
        apply List.filter_congr
        intro b _
        by_cases hb : b.mint ∈ seen
        · simp [hb]
        · have : b.mint ≠ t.mint := fun h => hb (h ▸ hm)
          simp [hb, this]
      · rw [if_neg hm, ih, List.filter_cons]
        simp only [hm, not_false_eq_true, decide_True, if_true, List.filter_filter,
          List.append_assoc, List.singleton_append]
        congr 2
        apply List.filter_congr
        intro b _
        by_cases hb : b.mint = t.mint
        · simp [hb]
        · by_cases hb2 : b.mint ∈ seen
          · simp [hb, hb2]
          · simp [hb, hb2]

/-- The list `uniqueTokens` holds, for every mint of the transfer records, the first record
of that mint, in the order of the list. -/
theorem uniqueTokens_eq (other : List SwapData) :
    (other.foldl uniqueStep ([], [])).1 =
      firstSeen (fun t => t.mint) (transferRecords other) := by
  rw [uniqueStep_foldl]
  simp

theorem ammStep_foldl (other : List SwapData) :
    ∀ (acc : List String) (seen : List String),
      (other.foldl ammStep (acc, seen)).1 =
        acc ++ (firstSeen id (other.map (fun sd => sd.Typ))).filter (fun t => t ∉ seen) := by
  induction other with
  | nil => intro acc seen; simp [firstSeen]
  | cons sd other ih =>
    intro acc seen
    rw [List.foldl_cons, ammStep_def]
    simp only [List.map_cons, firstSeen, id]
    by_cases hm : sd.Typ ∈ seen
    · rw [if_pos hm, ih, List.filter_cons]
      simp only [hm, not_true_eq_false, decide_False, Bool.false_eq_true, if_false,
        List.filter_filter]
      congr 1
      apply List.filter_congr
      intro b _
      by_cases hb : b ∈ seen
      · simp [hb]
      · have : b ≠ sd.Typ := fun h => hb (h ▸ hm)
        simp [hb, this]
    · rw [if_neg hm, ih, List.filter_cons]
      simp only [hm, not_false_eq_true, decide_True, if_true, List.filter_filter,
        List.append_assoc, List.singleton_append]
      congr 2
      apply List.filter_congr
      intro b _
      by_cases hb : b = sd.Typ
      · simp [hb]
      · by_cases hb2 : b ∈ seen
        · simp [hb, hb2]
        · simp [hb, hb2]

/-- The AMM tags collected by the generic reduction are the first occurrences of the tags of
its entries. -/
theorem amms_eq (other : List SwapData) :
    (other.foldl ammStep ([], [])).1 = firstSeen id (other.map (fun sd => sd.Typ)) := by
  rw [ammStep_foldl]
  simp

theorem sumStep_none {sd : SwapData} (mi mo : String) (st : SumState)
    (h : getTransferFromSwapData sd = none) : sumStep mi mo st sd = st := by
  simp [sumStep, h]

theorem sumStep_input {sd : SwapData} {t : TokenTransfer} (mi mo : String) (st : SumState)
    (h : getTransferFromSwapData sd = some t) :
    (sumStep mi mo st sd).totalInputAmount =
        (if t.mint = mi ∧ amountStr t ∉ st.seenInputs
          then (st.totalInputAmount + t.amount) % 2 ^ 64 else st.totalInputAmount) ∧
      (sumStep mi mo st sd).seenInputs =
        (if t.mint = mi ∧ amountStr t ∉ st.seenInputs
          then amountStr t :: st.seenInputs else st.seenInputs) := by
  simp only [sumStep, h]
  split_ifs <;> simp

theorem sumStep_output {sd : SwapData} {t : TokenTransfer} (mi mo : String) (st : SumState)
    (h : getTransferFromSwapData sd = some t) :
    (sumStep mi mo st sd).totalOutputAmount =
        (if t.mint = mo ∧ amountStr t ∉ st.seenOutputs
          then (st.totalOutputAmount + t.amount) % 2 ^ 64 else st.totalOutputAmount) ∧
      (sumStep mi mo st sd).seenOutputs =
        (if t.mint = mo ∧ amountStr t ∉ st.seenOutputs
          then amountStr t :: st.seenOutputs else st.seenOutputs) := by
  simp only [sumStep, h]
  split_ifs <;> simp

/-- The finite set of the amounts of the records of a mint. -/
theorem amounts_cons (t : TokenTransfer) (ts : List TokenTransfer) (m : String) :
    (((t :: ts).filter (fun t => t.mint = m)).map (fun t => t.amount)).toFinset =
      if t.mint = m then
        insert t.amount ((ts.filter (fun t => t.mint = m)).map (fun t => t.amount)).toFinset
      else ((ts.filter (fun t => t.mint = m)).map (fun t => t.amount)).toFinset := by
  by_cases h : t.mint = m <;> simp [List.filter_cons, h]

theorem sum_foldl_input (mi mo : String) (other : List SwapData) :
    ∀ (st : SumState) (S : Finset Nat),
      st.totalInputAmount = (∑ a ∈ S, a) % 2 ^ 64 →
      (∀ t : TokenTransfer, t.mint = mi → (amountStr t ∈ st.seenInputs ↔ t.amount ∈ S)) →
      (other.foldl (sumStep mi mo) st).totalInputAmount =
        (∑ a ∈ S ∪ (((transferRecords other).filter (fun t => t.mint = mi)).map
          (fun t => t.amount)).toFinset, a) % 2 ^ 64 := by
  induction other with
  | nil => intro st S h1 _; simpa [transferRecords] using h1
  | cons sd other ih =>
    intro st S h1 h2
    rw [List.foldl_cons]
    cases hg : getTransferFromSwapData sd with
    | none =>
      rw [sumStep_none _ _ _ hg, ih st S h1 h2]
      simp [transferRecords, List.filterMap_cons, hg]
    | some t =>
      have hts : transferRecords (sd :: other) = t :: transferRecords other := by
        simp [transferRecords, List.filterMap_cons, hg]
      obtain ⟨e1, e2⟩ := sumStep_input mi mo st hg
      rw [hts, amounts_cons]
      by_cases hm : t.mint = mi
      · by_cases hs : amountStr t ∈ st.seenInputs
        · have hin : t.amount ∈ S := (h2 t hm).mp hs
          rw [ih (sumStep mi mo st sd) S]
          · rw [if_pos hm]
            congr 2
            ext a
            simp only [Finset.mem_union, Finset.mem_insert]
            constructor
            · rintro (h | h)
              · exact Or.inl h
              · exact Or.inr (Or.inr h)
            · rintro (h | h | h)
              · exact Or.inl h
              · exact Or.inl (h ▸ hin)
              · exact Or.inr h
          · rw [e1, if_neg (by simp [hs])]; exact h1
          · intro t' ht'
            rw [e2, if_neg (by simp [hs])]
            exact h2 t' ht'
        · have hnin : t.amount ∉ S := fun h => hs ((h2 t hm).mpr h)
          rw [ih (sumStep mi mo st sd) (insert t.amount S)]
          · rw [if_pos hm]
            congr 2
            ext a
            simp only [Finset.mem_union, Finset.mem_insert]
            tauto
          · rw [e1, if_pos ⟨hm, hs⟩, Finset.sum_insert hnin, h1]
            rw [Nat.add_comm]
            exact (Nat.add_mod_mod _ _ _).symm ▸ rfl
          · intro t' ht'
            rw [e2, if_pos ⟨hm, hs⟩]
            simp only [List.mem_cons, Finset.mem_insert]
            rw [amountStr_eq_iff (ht'.trans hm.symm), h2 t' ht']
      · rw [if_neg hm, ih (sumStep mi mo st sd) S]
        · rw [e1, if_neg (by simp [hm])]; exact h1
        · intro t' ht'
          rw [e2, if_neg (by simp [hm])]
          exact h2 t' ht'

theorem sum_foldl_output (mi mo : String) (other : List SwapData) :
    ∀ (st : SumState) (S : Finset Nat),
      st.totalOutputAmount = (∑ a ∈ S, a) % 2 ^ 64 →
      (∀ t : TokenTransfer, t.mint = mo → (amountStr t ∈ st.seenOutputs ↔ t.amount ∈ S)) →
      (other.foldl (sumStep mi mo) st).totalOutputAmount =
        (∑ a ∈ S ∪ (((transferRecords other).filter (fun t => t.mint = mo)).map
          (fun t => t.amount)).toFinset, a) % 2 ^ 64 := by
  induction other with
  | nil => intro st S h1 _; simpa [transferRecords] using h1
  | cons sd other ih =>
    intro st S h1 h2
    rw [List.foldl_cons]
    cases hg : getTransferFromSwapData sd with
    | none =>
      rw [sumStep_none _ _ _ hg, ih st S h1 h2]
      simp [transferRecords, List.filterMap_cons, hg]
    | some t =>
      have hts : transferRecords (sd :: other) = t :: transferRecords other := by
        simp [transferRecords, List.filterMap_cons, hg]
      obtain ⟨e1, e2⟩ := sumStep_output mi mo st hg
      rw [hts, amounts_cons]
      by_cases hm : t.mint = mo
      · by_cases hs : amountStr t ∈ st.seenOutputs
        · have hin : t.amount ∈ S := (h2 t hm).mp hs
          rw [ih (sumStep mi mo st sd) S]
          · rw [if_pos hm]
            congr 2
            ext a
            simp only [Finset.mem_union, Finset.mem_insert]
            constructor
            · rintro (h | h)
              · exact Or.inl h
              · exact Or.inr (Or.inr h)
            · rintro (h | h | h)
              · exact Or.inl h
              · exact Or.inl (h ▸ hin)
              · exact Or.inr h
          · rw [e1, if_neg (by simp [hs])]; exact h1
          · intro t' ht'
            rw [e2, if_neg (by simp [hs])]
            exact h2 t' ht'
        · have hnin : t.amount ∉ S := fun h => hs ((h2 t hm).mpr h)
          rw [ih (sumStep mi mo st sd) (insert t.amount S)]
          · rw [if_pos hm]
            congr 2
            ext a
            simp only [Finset.mem_union, Finset.mem_insert]
            tauto
          · rw [e1, if_pos ⟨hm, hs⟩, Finset.sum_insert hnin, h1]
            rw [Nat.add_comm]
            exact (Nat.add_mod_mod _ _ _).symm ▸ rfl
          · intro t' ht'
            rw [e2, if_pos ⟨hm, hs⟩]
            simp only [List.mem_cons, Finset.mem_insert]
            rw [amountStr_eq_iff (ht'.trans hm.symm), h2 t' ht']
      · rw [if_neg hm, ih (sumStep mi mo st sd) S]
        · rw [e1, if_neg (by simp [hm])]; exact h1
        · intro t' ht'
          rw [e2, if_neg (by simp [hm])]
          exact h2 t' ht'

/-- The totals of the summing loop: for each of the two mints, the sum modulo `2 ^ 64` of
the set of the distinct amounts of its records. -/
theorem sums_eq (mi mo : String) (other : List SwapData) :
    (other.foldl (sumStep mi mo) ⟨0, 0, [], []⟩).totalInputAmount =
        distinctAmountSum (transferRecords other) mi ∧
      (other.foldl (sumStep mi mo) ⟨0, 0, [], []⟩).totalOutputAmount =
        distinctAmountSum (transferRecords other) mo := by
  constructor
  · rw [sum_foldl_input mi mo other ⟨0, 0, [], []⟩ ∅ (by simp) (by simp)]
    simp [distinctAmountSum]
  · rw [sum_foldl_output mi mo other ⟨0, 0, [], []⟩ ∅ (by simp) (by simp)]
    simp [distinctAmountSum]

/-- What the generic reduction returns, in terms of the transfer records of its entries. -/
theorem genericReduction_eq (p : Parser) (now : Int) (info : SwapInfo)
    (other : List SwapData) :
    genericReduction p now info other =
      if 2 ≤ (firstSeen (fun t => t.mint) (transferRecords other)).length then
        match MustPublicKeyFromBase58
            ((firstSeen (fun t => t.mint) (transferRecords other)).headD ⟨"", 0, 0⟩).mint,
          MustPublicKeyFromBase58
            ((firstSeen (fun t => t.mint) (transferRecords other)).getLastD ⟨"", 0, 0⟩).mint with
        | some tokenInMint, some tokenOutMint =>
          .ok { info with
                TokenInMint := tokenInMint
                TokenInAmount := distinctAmountSum (transferRecords other)
                  ((firstSeen (fun t => t.mint) (transferRecords other)).headD ⟨"", 0, 0⟩).mint
                TokenInDecimals :=
                  ((firstSeen (fun t => t.mint) (transferRecords other)).headD ⟨"", 0, 0⟩).decimals
                TokenOutMint := tokenOutMint
                TokenOutAmount := distinctAmountSum (transferRecords other)
                  ((firstSeen (fun t => t.mint) (transferRecords other)).getLastD ⟨"", 0, 0⟩).mint
                TokenOutDecimals :=
                  ((firstSeen (fun t => t.mint) (transferRecords other)).getLastD
                    ⟨"", 0, 0⟩).decimals
                AMMs := info.AMMs ++ firstSeen id (other.map (fun sd => sd.Typ))
                Timestamp := p.blockTimeOrNow now }
        | _, _ => .abort
      else .error "no valid swaps found" := by
  unfold genericReduction
  rw [uniqueTokens_eq, amms_eq]
  by_cases hlen : other.length > 0
  · rw [if_pos hlen]
    by_cases h2 : 2 ≤ (firstSeen (fun t => t.mint) (transferRecords other)).length
    · rw [if_pos h2, if_pos h2]
      simp only []
      rw [(sums_eq _ _ other).1, (sums_eq _ _ other).2]
      cases MustPublicKeyFromBase58
          ((firstSeen (fun t => t.mint) (transferRecords other)).headD ⟨"", 0, 0⟩).mint with
      | none => rfl
      | some ki =>
        cases MustPublicKeyFromBase58
            ((firstSeen (fun t => t.mint) (transferRecords other)).getLastD ⟨"", 0, 0⟩).mint with
        | none => rfl
        | some ko => rfl
    · rw [if_neg h2, if_neg h2]
  · have hnil : other = [] := by
      cases other with
      | nil => rfl
      | cons a l => simp at hlen
    subst hnil
    simp [transferRecords, firstSeen]

/-! ## The class of an entry -/

theorem classOf_jupiter_iff (c : Consts) (sd : SwapData) :
    classOf c sd = .jupiter ↔ sd.Typ = c.JUPITER := by
  unfold classOf
  constructor
  · intro h
    by_contra h1
    rw [if_neg h1] at h
    split_ifs at h
  · intro h; rw [if_pos h]

theorem classOf_pumpfun_iff (c : Consts) (sd : SwapData) (hJ : sd.Typ ≠ c.JUPITER) :
    classOf c sd = .pumpfun ↔ sd.Typ = c.PUMP_FUN := by
  unfold classOf
  rw [if_neg hJ]
  constructor
  · intro h
    by_contra h1
    rw [if_neg h1] at h
    split_ifs at h
  · intro h; rw [if_pos h]

theorem tagsDistinct_ne (c : Consts) (hd : c.tagsDistinct) :
    c.PUMP_FUN ≠ c.RAYDIUM_LAUNCHLAB ∧ c.PUMP_FUN ≠ c.METEORA ∧ c.PUMP_FUN ≠ c.BOOPFUN ∧
    c.RAYDIUM_LAUNCHLAB ≠ c.METEORA ∧ c.RAYDIUM_LAUNCHLAB ≠ c.BOOPFUN ∧
    c.METEORA ≠ c.BOOPFUN := by
  unfold Consts.tagsDistinct at hd
  simp only [List.nodup_cons, List.mem_cons, List.mem_singleton, not_or] at hd
  tauto

theorem classOf_raydiumLaunchLab_iff (c : Consts) (hd : c.tagsDistinct) (sd : SwapData)
    (hJ : sd.Typ ≠ c.JUPITER) :
    classOf c sd = .raydiumLaunchLab ↔ sd.Typ = c.RAYDIUM_LAUNCHLAB := by
  obtain ⟨h1, -, -, -, -, -⟩ := tagsDistinct_ne c hd
  unfold classOf
  rw [if_neg hJ]
  constructor
  · intro h
    by_contra h3
    rw [if_neg h3] at h
    split_ifs at h
  · intro h
    rw [if_neg (by rw [h]; exact Ne.symm h1), if_pos h]

theorem classOf_boopFun_iff (c : Consts) (hd : c.tagsDistinct) (sd : SwapData)
    (hJ : sd.Typ ≠ c.JUPITER) :
    classOf c sd = .boopFun ↔ sd.Typ = c.BOOPFUN := by
  obtain ⟨-, -, h3, -, h5, h6⟩ := tagsDistinct_ne c hd
  unfold classOf
  rw [if_neg hJ]
  constructor
  · intro h
    by_contra h3
    rw [if_neg h3] at h
    split_ifs at h
  · intro h
    rw [if_neg (by rw [h]; exact Ne.symm h3), if_neg (by rw [h]; exact Ne.symm h5),
      if_neg (by rw [h]; exact Ne.symm h6), if_pos h]

theorem classOf_meteora_iff (c : Consts) (hd : c.tagsDistinct) (sd : SwapData)
    (hJ : sd.Typ ≠ c.JUPITER) :
    classOf c sd = .meteoraDAMMv2 ↔ sd.Typ = c.METEORA ∧ sd.Data.isMeteoraEvent = true := by
  obtain ⟨-, h2, -, h4, -, -⟩ := tagsDistinct_ne c hd
  unfold classOf
  rw [if_neg hJ]
  constructor
  · intro h
    split_ifs at h with a1 a2 a3 a4
    exact ⟨a3, a4⟩
  · rintro ⟨h, he⟩
    rw [if_neg (by rw [h]; exact Ne.symm h2), if_neg (by rw [h]; exact Ne.symm h4),
      if_pos h, if_pos he]

theorem classOf_other_iff (c : Consts) (hd : c.tagsDistinct) (sd : SwapData)
    (hJ : sd.Typ ≠ c.JUPITER) (hM : sd.Typ = c.METEORA → sd.Data.isMeteoraEvent = false) :
    classOf c sd = .other ↔ sd.Typ ∉ [c.PUMP_FUN, c.RAYDIUM_LAUNCHLAB, c.BOOPFUN] := by
  obtain ⟨-, h2, -, h4, -, h6⟩ := tagsDistinct_ne c hd
  unfold classOf
  rw [if_neg hJ]
  simp only [List.mem_cons, List.mem_singleton, List.not_mem_nil, or_false, not_or]
  constructor
  · intro h
    split_ifs at h with a1 a2 a3 a4 a5
    · refine ⟨a1, a2, ?_⟩
      rw [a3]; exact h6
    · exact ⟨a1, a2, a5⟩
  · rintro ⟨a1, a2, a5⟩
    rw [if_neg a1, if_neg a2]
    by_cases a3 : sd.Typ = c.METEORA
    · rw [if_pos a3, if_neg (by rw [hM a3]; simp)]
    · rw [if_neg a3, if_neg a5]

/-! ## The dispatcher skips its second loop -/

theorem pass1Step_eq (c : Consts) (d : Decoders) (p : Parser)
    (hokx : isRouterWrapper c c.OKX_DEX_ROUTER_PROGRAM_ID = false)
    (st : Bool × List SwapData) (io : Nat × CompiledInstruction) :
    pass1Step c d p st io =
      (st.1 || (decide (io.2.ProgramIDIndex < p.allAccountKeys.length) &&
          isSkipProgram c (p.keyAt io.2.ProgramIDIndex)),
        st.2 ++ pass1Output c d p io) := by
  unfold pass1Step pass1Output
  simp only []
  generalize p.keyAt io.2.ProgramIDIndex = g
  by_cases hr : io.2.ProgramIDIndex ≥ p.allAccountKeys.length
  · rw [if_pos hr, if_pos hr]
    have : ¬ io.2.ProgramIDIndex < p.allAccountKeys.length := by omega
    simp [this]
  · rw [if_neg hr, if_neg hr]
    have hlt : io.2.ProgramIDIndex < p.allAccountKeys.length := by omega
    simp only [hlt, decide_True, Bool.true_and]
    by_cases h1 : g = c.JUPITER_PROGRAM_ID
    · rw [if_pos h1, if_pos h1]
      simp [isSkipProgram, h1]
    · rw [if_neg h1, if_neg h1]
      by_cases h2 : g = c.MOONSHOT_PROGRAM_ID
      · rw [if_pos h2, if_pos h2]
        simp [isSkipProgram, h2]
      · rw [if_neg h2, if_neg h2]
        by_cases h3 : g = c.BOOPFUN_PROGRAM_ID
        · rw [if_pos h3, if_pos h3]
          simp [isSkipProgram, h3]
        · rw [if_neg h3, if_neg h3]
          by_cases h4 : isRouterWrapper c g = true
          · have h5 : g ≠ c.OKX_DEX_ROUTER_PROGRAM_ID := by
              intro h
              rw [h, hokx] at h4
              exact absurd h4 (by simp)
            have h4' := h4
            simp only [isRouterWrapper, decide_eq_true_eq] at h4'
            rw [if_pos h4', if_pos h4]
            have hs : isSkipProgram c g = false := by
              simp [isSkipProgram, h1, h2, h3, h5]
            rw [hs]
            simp
          · have h4' := h4
            simp only [isRouterWrapper, decide_eq_true_eq] at h4'
            rw [if_neg h4', if_neg h4]
            by_cases h5 : g = c.OKX_DEX_ROUTER_PROGRAM_ID
            · rw [if_pos h5, if_pos h5]
              simp [isSkipProgram, h5]
            · rw [if_neg h5, if_neg h5]
              have hs : isSkipProgram c g = false := by
                simp [isSkipProgram, h1, h2, h3, h5]
              rw [hs]
              simp

theorem pass1_foldl (c : Consts) (d : Decoders) (p : Parser)
    (hokx : isRouterWrapper c c.OKX_DEX_ROUTER_PROGRAM_ID = false)
    (l : List (Nat × CompiledInstruction)) : ∀ st : Bool × List SwapData,
    l.foldl (pass1Step c d p) st =
      (st.1 || l.any (fun io => decide (io.2.ProgramIDIndex < p.allAccountKeys.length) &&
          isSkipProgram c (p.keyAt io.2.ProgramIDIndex)),
        st.2 ++ (l.map (pass1Output c d p)).flatten) := by
  induction l with
  | nil => intro st; simp
  | cons io l ih =>
    intro st
    rw [List.foldl_cons, pass1Step_eq c d p hokx, ih]
    simp [Bool.or_assoc]

theorem any_skipping (c : Consts) (p : Parser) (h : hasSkippingInstruction c p) :
    p.txInfo.Instructions.enum.any
      (fun io => decide (io.2.ProgramIDIndex < p.allAccountKeys.length) &&
          isSkipProgram c (p.keyAt io.2.ProgramIDIndex)) = true := by
  obtain ⟨ins, hmem, hlt, hskip⟩ := h
  have h1 : (p.txInfo.Instructions.enum.map Prod.snd).any
      (fun ins => decide (ins.ProgramIDIndex < p.allAccountKeys.length) &&
          isSkipProgram c (p.keyAt ins.ProgramIDIndex)) = true := by
    rw [List.enum_map_snd]
    exact List.any_eq_true.mpr ⟨ins, hmem, by simp [hlt, hskip]⟩
  rw [List.any_eq_true] at h1 ⊢
  obtain ⟨a, ha, hp⟩ := h1
  obtain ⟨io, hio, rfl⟩ := List.mem_map.mp ha
  exact ⟨io, hio, hp⟩

/-! ## The event blocks -/

theorem pumpfunStage_event (p : Parser) (now : Int) (info : SwapInfo) (first : SwapData)
    (rest ll boop met other : List SwapData) (e : PumpfunTradeEvent)
    (h : first.Data = .pumpfunTrade e) :
    pumpfunStage p now info (first :: rest) ll boop met other =
      .ok { info with
            TokenInMint := if e.IsBuy then NATIVE_SOL_MINT_PROGRAM_ID else e.Mint
            TokenInAmount := if e.IsBuy then e.SolAmount else e.TokenAmount
            TokenInDecimals :=
              if e.IsBuy then 9 else (p.splDecimalsMap (PublicKey.String e.Mint)).getD 0
            TokenOutMint := if e.IsBuy then e.Mint else NATIVE_SOL_MINT_PROGRAM_ID
            TokenOutAmount := if e.IsBuy then e.TokenAmount else e.SolAmount
            TokenOutDecimals :=
              if e.IsBuy then (p.splDecimalsMap (PublicKey.String e.Mint)).getD 0 else 9
            AMMs := info.AMMs ++ [first.Typ]
            Timestamp := e.Timestamp } := by
  unfold pumpfunStage
  simp only [h]
  cases e.IsBuy <;> simp

theorem pumpfunStage_of_event (p : Parser) (now : Int) (info : SwapInfo) (first : SwapData)
    (rest : List SwapData) (h : first.Data.isPumpfunTrade = true) :
    ∃ s : SwapInfo, s.AMMs = info.AMMs ++ [first.Typ] ∧
      ∀ ll boop met other, pumpfunStage p now info (first :: rest) ll boop met other = .ok s := by
  cases hd : first.Data with
  | pumpfunTrade e =>
    exact ⟨_, rfl, fun ll boop met other => pumpfunStage_event p now info first rest ll boop met
      other e hd⟩
  | _ => simp [hd, Payload.isPumpfunTrade] at h

theorem raydiumLaunchLabStage_event (p : Parser) (now : Int) (info : SwapInfo)
    (first : SwapData) (rest boop met other : List SwapData) (e : RaydiumLaunchLabBuyEvent)
    (h : first.Data = .raydiumLaunchLab e) :
    raydiumLaunchLabStage p now info (first :: rest) boop met other =
      .ok { info with
            TokenInMint := if e.IsBuy then NATIVE_SOL_MINT_PROGRAM_ID else e.TokenMint
            TokenInAmount := e.AmountIn
            TokenInDecimals := if e.IsBuy then 9 else e.TokenDecimals
            TokenOutMint := if e.IsBuy then e.TokenMint else NATIVE_SOL_MINT_PROGRAM_ID
            TokenOutAmount := e.AmountOut
            TokenOutDecimals := if e.IsBuy then e.TokenDecimals else 9
            AMMs := info.AMMs ++ [first.Typ]
            Timestamp := p.blockTimeOrNow now } := by
  unfold raydiumLaunchLabStage
  simp only [h]
  cases e.IsBuy <;> simp

theorem boopFunStage_event (p : Parser) (now : Int) (info : SwapInfo)
    (first : SwapData) (rest met other : List SwapData) (e : BoopFunSwapEvent)
    (h : first.Data = .boopFun e) :
    boopFunStage p now info (first :: rest) met other =
      .ok { info with
            TokenInMint := NATIVE_SOL_MINT_PROGRAM_ID
            TokenInAmount := e.BuyAmount
            TokenInDecimals := 9
            TokenOutMint := e.TokenMint
            TokenOutAmount := e.TokenOut
            TokenOutDecimals := e.TokenDecimals
            AMMs := info.AMMs ++ [first.Typ]
            Timestamp := p.blockTimeOrNow now } := by
  unfold boopFunStage
  simp only [h]

theorem meteoraStage_eventDAMMv2 (p : Parser) (now : Int) (info : SwapInfo)
    (first : SwapData) (rest other : List SwapData) (e : MeteoraDAMMv2SwapEvent)
    (h : first.Data = .meteoraDAMMv2 e) :
    meteoraStage p now info (first :: rest) other =
      .ok { info with
            TokenInMint := e.TokenInMint
            TokenInAmount := e.AmountIn
            TokenInDecimals := e.TokenInDecimals
            TokenOutMint := e.TokenOutMint
            TokenOutAmount := e.ActualAmountOut
            TokenOutDecimals := e.TokenOutDecimals
            AMMs := info.AMMs ++ [first.Typ]
            Timestamp := p.blockTimeOrNow now } := by
  unfold meteoraStage
  simp only [h]

theorem meteoraStage_eventDBC (p : Parser) (now : Int) (info : SwapInfo)
    (first : SwapData) (rest other : List SwapData) (e : MeteoraDBCSwapEvent)
    (h : first.Data = .meteoraDBC e) :
    meteoraStage p now info (first :: rest) other =
      .ok { info with
            TokenInMint := e.TokenInMint
            TokenInAmount := e.AmountIn
            TokenInDecimals := e.TokenInDecimals
            TokenOutMint := e.TokenOutMint
            TokenOutAmount := e.OutputAmount
            TokenOutDecimals := e.TokenOutDecimals
            AMMs := info.AMMs ++ [first.Typ]
            Timestamp := p.blockTimeOrNow now } := by
  unfold meteoraStage
  simp only [h]

theorem raydiumLaunchLabStage_of_event (p : Parser) (now : Int) (info : SwapInfo)
    (first : SwapData) (rest : List SwapData) (h : first.Data.isRaydiumLaunchLab = true) :
    ∃ s : SwapInfo, s.AMMs = info.AMMs ++ [first.Typ] ∧
      ∀ boop met other,
        raydiumLaunchLabStage p now info (first :: rest) boop met other = .ok s := by
  cases hd : first.Data with
  | raydiumLaunchLab e =>
    exact ⟨_, rfl, fun boop met other =>
      raydiumLaunchLabStage_event p now info first rest boop met other e hd⟩
  | _ => simp [hd, Payload.isRaydiumLaunchLab] at h

theorem boopFunStage_of_event (p : Parser) (now : Int) (info : SwapInfo)
    (first : SwapData) (rest : List SwapData) (h : first.Data.isBoopFun = true) :
    ∃ s : SwapInfo, s.AMMs = info.AMMs ++ [first.Typ] ∧
      ∀ met other, boopFunStage p now info (first :: rest) met other = .ok s := by
  cases hd : first.Data with
  | boopFun e =>
    exact ⟨_, rfl, fun met other => boopFunStage_event p now info first rest met other e hd⟩
  | _ => simp [hd, Payload.isBoopFun] at h

theorem meteoraStage_of_event (p : Parser) (now : Int) (info : SwapInfo)
    (first : SwapData) (rest : List SwapData) (h : first.Data.isMeteoraEvent = true) :
    ∃ s : SwapInfo, s.AMMs = info.AMMs ++ [first.Typ] ∧
      ∀ other, meteoraStage p now info (first :: rest) other = .ok s := by
  cases hd : first.Data with
  | meteoraDAMMv2 e =>
    exact ⟨_, rfl, fun other => meteoraStage_eventDAMMv2 p now info first rest other e hd⟩
  | meteoraDBC e =>
    exact ⟨_, rfl, fun other => meteoraStage_eventDBC p now info first rest other e hd⟩
  | _ => simp [hd, Payload.isMeteoraEvent] at h

/-! ## Lists without a Jupiter entry -/

theorem entriesOf_jupiter_nil (c : Consts) (xs : List SwapData)
    (hJ : ∀ sd ∈ xs, sd.Typ ≠ c.JUPITER) : entriesOf c .jupiter xs = [] := by
  unfold entriesOf
  apply List.filter_eq_nil_iff.mpr
  intro sd hsd h
  simp only [decide_eq_true_eq] at h
  exact hJ sd hsd ((classOf_jupiter_iff c sd).mp h)

theorem entriesOf_pumpfun (c : Consts) (xs : List SwapData)
    (hJ : ∀ sd ∈ xs, sd.Typ ≠ c.JUPITER) :
    entriesOf c .pumpfun xs = xs.filter (fun sd => sd.Typ = c.PUMP_FUN) := by
  unfold entriesOf
  apply List.filter_congr
  intro sd hsd
  simp only [classOf_pumpfun_iff c sd (hJ sd hsd)]

theorem entriesOf_raydiumLaunchLab (c : Consts) (hd : c.tagsDistinct) (xs : List SwapData)
    (hJ : ∀ sd ∈ xs, sd.Typ ≠ c.JUPITER) :
    entriesOf c .raydiumLaunchLab xs = xs.filter (fun sd => sd.Typ = c.RAYDIUM_LAUNCHLAB) := by
  unfold entriesOf
  apply List.filter_congr
  intro sd hsd
  simp only [classOf_raydiumLaunchLab_iff c hd sd (hJ sd hsd)]

theorem entriesOf_boopFun (c : Consts) (hd : c.tagsDistinct) (xs : List SwapData)
    (hJ : ∀ sd ∈ xs, sd.Typ ≠ c.JUPITER) :
    entriesOf c .boopFun xs = xs.filter (fun sd => sd.Typ = c.BOOPFUN) := by
  unfold entriesOf
  apply List.filter_congr
  intro sd hsd
  simp only [classOf_boopFun_iff c hd sd (hJ sd hsd)]

theorem entriesOf_meteora_nil (c : Consts) (hd : c.tagsDistinct) (xs : List SwapData)
    (hJ : ∀ sd ∈ xs, sd.Typ ≠ c.JUPITER)
    (hM : ∀ sd ∈ xs, sd.Typ = c.METEORA → sd.Data.isMeteoraEvent = false) :
    entriesOf c .meteoraDAMMv2 xs = [] := by
  unfold entriesOf
  apply List.filter_eq_nil_iff.mpr
  intro sd hsd h
  simp only [decide_eq_true_eq] at h
  obtain ⟨h1, h2⟩ := (classOf_meteora_iff c hd sd (hJ sd hsd)).mp h
  rw [hM sd hsd h1] at h2
  exact absurd h2 (by simp)

theorem entriesOf_other (c : Consts) (hd : c.tagsDistinct) (xs : List SwapData)
    (hJ : ∀ sd ∈ xs, sd.Typ ≠ c.JUPITER)
    (hM : ∀ sd ∈ xs, sd.Typ = c.METEORA → sd.Data.isMeteoraEvent = false) :
    entriesOf c .other xs =
      xs.filter (fun sd => sd.Typ ∉ [c.PUMP_FUN, c.RAYDIUM_LAUNCHLAB, c.BOOPFUN]) := by
  unfold entriesOf
  apply List.filter_congr
  intro sd hsd
  simp only [classOf_other_iff c hd sd (hJ sd hsd) (hM sd hsd)]

/-- When no class matches, the summariser is the generic reduction of the reduced list. -/
theorem ProcessSwapData_generic (c : Consts) (x : Helpers) (p : Parser) (now : Int)
    (xs : List SwapData) (hd : c.tagsDistinct) (hn : noClassMatches c xs) (hne : xs ≠ []) :
    ProcessSwapData c x p now xs =
      genericReduction p now (initSwapInfo x p) (reducedList c xs) := by
  obtain ⟨hJ, hP, hL, hB, hM⟩ := hn
  rw [ProcessSwapData_eq c x p now xs hne, entriesOf_jupiter_nil c xs hJ,
    entriesOf_pumpfun c xs hJ, entriesOf_raydiumLaunchLab c hd xs hJ,
    entriesOf_boopFun c hd xs hJ, entriesOf_meteora_nil c hd xs hJ hM,
    entriesOf_other c hd xs hJ hM]
  rw [if_neg (by simp)]
  rw [pumpfunStage_demote _ _ _ _ _ _ _ _ (by rw [List.filter_head?]; exact hP),
    raydiumLaunchLabStage_demote _ _ _ _ _ _ _ (by rw [List.filter_head?]; exact hL),
    boopFunStage_demote _ _ _ _ _ _ (by rw [List.filter_head?]; exact hB),
    meteoraStage_nil]
  rfl

/-! ## The reduced list -/

theorem count_filter_of_not {α : Type} [DecidableEq α] (q : α → Bool) (a : α) (l : List α)
    (h : q a = false) : List.count a (l.filter q) = 0 := by
  rw [List.count_eq_zero]
  intro hmem
  have := (List.mem_filter.mp hmem).2
  rw [h] at this
  exact absurd this (by simp)

/-- With pairwise different tags the reduced list holds the entries of the list, each
once. -/
theorem reducedList_perm (c : Consts) (hd : c.tagsDistinct) (xs : List SwapData) :
    (reducedList c xs).Perm xs := by
  obtain ⟨h1, -, h3, -, h5, -⟩ := tagsDistinct_ne c hd
  rw [List.perm_iff_count]
  intro a
  unfold reducedList
  simp only [List.count_append]
  by_cases hP : a.Typ = c.PUMP_FUN
  · rw [count_filter_of_not _ a xs (by simp [hP]),
      List.count_filter (by simpa using hP),
      count_filter_of_not _ a xs (by simp [hP, h1]),
      count_filter_of_not _ a xs (by simp [hP, h3])]
    omega
  · by_cases hL : a.Typ = c.RAYDIUM_LAUNCHLAB
    · rw [count_filter_of_not _ a xs (by simp [hL]),
        count_filter_of_not _ a xs (by simp [hP]),
        List.count_filter (by simpa using hL),
        count_filter_of_not _ a xs (by simp [hL, h5])]
      omega
    · by_cases hB : a.Typ = c.BOOPFUN
      · rw [count_filter_of_not _ a xs (by simp [hB]),
          count_filter_of_not _ a xs (by simp [hP]),
          count_filter_of_not _ a xs (by simp [hL]),
          List.count_filter (by simpa using hB)]
        omega
      · rw [List.count_filter (by simp [hP, hL, hB]),
          count_filter_of_not _ a xs (by simp [hP]),
          count_filter_of_not _ a xs (by simp [hL]),
          count_filter_of_not _ a xs (by simp [hB])]
        omega

/-- A list without PUMP_FUN, RAYDIUM_LAUNCHLAB and BOOPFUN entries is its own reduced
list. -/
theorem reducedList_self (c : Consts) (xs : List SwapData)
    (h : ∀ sd ∈ xs, sd.Typ ∉ [c.PUMP_FUN, c.RAYDIUM_LAUNCHLAB, c.BOOPFUN]) :
    reducedList c xs = xs := by
  unfold reducedList
  have e0 : xs.filter (fun sd => sd.Typ ∉ [c.PUMP_FUN, c.RAYDIUM_LAUNCHLAB, c.BOOPFUN]) = xs := by
    apply List.filter_eq_self.mpr
    intro sd hsd
    simpa using h sd hsd
  have e1 : xs.filter (fun sd => sd.Typ = c.PUMP_FUN) = [] := by
    apply List.filter_eq_nil_iff.mpr
    intro sd hsd hp
    have := h sd hsd
    simp only [List.mem_cons, List.mem_singleton, List.not_mem_nil, or_false, not_or] at this
    exact this.1 (by simpa using hp)
  have e2 : xs.filter (fun sd => sd.Typ = c.RAYDIUM_LAUNCHLAB) = [] := by
    apply List.filter_eq_nil_iff.mpr
    intro sd hsd hp
    have := h sd hsd
    simp only [List.mem_cons, List.mem_singleton, List.not_mem_nil, or_false, not_or] at this
    exact this.2.1 (by simpa using hp)
  have e3 : xs.filter (fun sd => sd.Typ = c.BOOPFUN) = [] := by
    apply List.filter_eq_nil_iff.mpr
    intro sd hsd hp
    have := h sd hsd
    simp only [List.mem_cons, List.mem_singleton, List.not_mem_nil, or_false, not_or] at this
    exact this.2.2 (by simpa using hp)
  rw [e0, e1, e2, e3]
  simp

theorem transferRecords_perm {l1 l2 : List SwapData} (h : l1.Perm l2) :
    (transferRecords l1).Perm (transferRecords l2) :=
  h.filterMap _

theorem distinctAmountSum_perm {l1 l2 : List TokenTransfer} (h : l1.Perm l2) (m : String) :
    distinctAmountSum l1 m = distinctAmountSum l2 m := by
  unfold distinctAmountSum
  congr 2
  apply List.toFinset_eq_of_perm
  exact (h.filter _).map _

theorem distinct_mints_perm {l1 l2 : List TokenTransfer} (h : l1.Perm l2) :
    (l1.map (fun t => t.mint)).dedup.length = (l2.map (fun t => t.mint)).dedup.length :=
  ((h.map _).dedup).length_eq

/-! ## What a summary of the generic reduction looks like -/

theorem nodup_head_ne_getLast {α κ : Type} (key : α → κ) (l : List α) (a z : α)
    (hn : (l.map key).Nodup) (h2 : 2 ≤ l.length) (ha : l.head? = some a)
    (hz : l.getLast? = some z) : key a ≠ key z := by
  cases l with
  | nil => simp at h2
  | cons x l =>
    cases l with
    | nil => simp at h2
    | cons y l =>
      simp only [List.head?_cons, Option.some.injEq] at ha
      subst ha
      rw [List.getLast?_cons_cons] at hz
      have hzmem : z ∈ y :: l := List.mem_of_getLast?_eq_some hz
      simp only [List.map_cons, List.nodup_cons] at hn
      intro heq
      apply hn.1
      rw [heq]
      exact List.mem_map.mpr ⟨z, hzmem, rfl⟩

/-- A summary returned by the generic reduction: the two records it chose, and every field
in terms of them. -/
theorem genericReduction_ok (p : Parser) (now : Int) (info : SwapInfo)
    (other : List SwapData) (s : SwapInfo) (h : genericReduction p now info other = .ok s) :
    ∃ ti tz : TokenTransfer,
      (firstSeen (fun t => t.mint) (transferRecords other)).head? = some ti ∧
      (firstSeen (fun t => t.mint) (transferRecords other)).getLast? = some tz ∧
      ti.mint ≠ tz.mint ∧
      PublicKeyFromBase58 ti.mint = some s.TokenInMint ∧
      PublicKeyFromBase58 tz.mint = some s.TokenOutMint ∧
      s.TokenInAmount = distinctAmountSum (transferRecords other) ti.mint ∧
      s.TokenOutAmount = distinctAmountSum (transferRecords other) tz.mint ∧
      s.TokenInDecimals = ti.decimals ∧ s.TokenOutDecimals = tz.decimals ∧
      s.AMMs = info.AMMs ++ firstSeen id (other.map (fun sd => sd.Typ)) ∧
      s.Timestamp = p.blockTimeOrNow now ∧
      s.Signers = info.Signers ∧ s.Signatures = info.Signatures := by
  rw [genericReduction_eq] at h
  by_cases h2 : 2 ≤ (firstSeen (fun t => t.mint) (transferRecords other)).length
  · rw [if_pos h2] at h
    obtain ⟨ti, hti⟩ : ∃ ti, (firstSeen (fun t => t.mint) (transferRecords other)).head?
        = some ti := by
      cases hl : firstSeen (fun t => t.mint) (transferRecords other) with
      | nil => rw [hl] at h2; simp at h2
      | cons a l => exact ⟨a, rfl⟩
    obtain ⟨tz, htz⟩ : ∃ tz, (firstSeen (fun t => t.mint) (transferRecords other)).getLast?
        = some tz := by
      cases hl : firstSeen (fun t => t.mint) (transferRecords other) with
      | nil => rw [hl] at h2; simp at h2
      | cons a l => exact ⟨_, List.getLast?_eq_getLast _ (by simp)⟩
    have hhd : (firstSeen (fun t => t.mint) (transferRecords other)).headD ⟨"", 0, 0⟩ = ti := by
      rw [List.headD_eq_head?, hti]; rfl
    have hld : (firstSeen (fun t => t.mint) (transferRecords other)).getLastD ⟨"", 0, 0⟩
        = tz := by
      rw [List.getLastD_eq_getLast?, htz]; rfl
    rw [hhd, hld] at h
    refine ⟨ti, tz, hti, htz, ?_⟩
    have hne := nodup_head_ne_getLast (fun t : TokenTransfer => t.mint) _ ti tz
      (firstSeen_nodup _ _) h2 hti htz
    refine ⟨hne, ?_⟩
    unfold MustPublicKeyFromBase58 at h
    cases hki : PublicKeyFromBase58 ti.mint with
    | none => simp [hki] at h
    | some ki =>
      cases hko : PublicKeyFromBase58 tz.mint with
      | none => simp [hki, hko] at h
      | some ko =>
        simp only [hki, hko, Outcome.ok.injEq] at h
        subst h
        simp
  · rw [if_neg h2] at h
    exact absurd h (by simp)

/-! ## The AMM tags of a summary -/

theorem firstSeen_id_ne_nil (l : List String) (h : l ≠ []) : firstSeen id l ≠ [] := by
  cases l with
  | nil => exact absurd rfl h
  | cons a l => simp [firstSeen]

theorem genericReduction_amms (p : Parser) (now : Int) (info : SwapInfo)
    (other : List SwapData) (s : SwapInfo) (hi : info.AMMs = [])
    (h : genericReduction p now info other = .ok s) : s.AMMs.Nodup ∧ s.AMMs ≠ [] := by
  obtain ⟨ti, tz, hti, -, -, -, -, -, -, -, -, hamm, -⟩ := genericReduction_ok p now info other s h
  rw [hamm, hi, List.nil_append]
  constructor
  · have := firstSeen_nodup (id : String → String) (other.map (fun sd => sd.Typ))
    simpa using this
  · apply firstSeen_id_ne_nil
    intro hnil
    have : other = [] := by simpa using hnil
    subst this
    simp [transferRecords, firstSeen] at hti

theorem meteoraStage_amms (p : Parser) (now : Int) (info : SwapInfo)
    (met other : List SwapData) (s : SwapInfo) (hi : info.AMMs = [])
    (h : meteoraStage p now info met other = .ok s) : s.AMMs.Nodup ∧ s.AMMs ≠ [] := by
  cases met with
  | nil => exact genericReduction_amms p now info other s hi (by rw [← meteoraStage_nil]; exact h)
  | cons first rest =>
    by_cases he : first.Data.isMeteoraEvent = true
    · obtain ⟨s0, hs0, hall⟩ := meteoraStage_of_event p now info first rest he
      rw [hall other] at h
      injection h with h
      subst h
      rw [hs0, hi]
      simp
    · have hgen : meteoraStage p now info (first :: rest) other =
          genericReduction p now info (other ++ first :: rest) := by
        unfold meteoraStage
        cases hd : first.Data <;> simp [hd, Payload.isMeteoraEvent] at he ⊢
      rw [hgen] at h
      exact genericReduction_amms p now info _ s hi h

theorem boopFunStage_amms (p : Parser) (now : Int) (info : SwapInfo)
    (boop met other : List SwapData) (s : SwapInfo) (hi : info.AMMs = [])
    (h : boopFunStage p now info boop met other = .ok s) : s.AMMs.Nodup ∧ s.AMMs ≠ [] := by
  by_cases he : boop.head?.all (fun sd => !sd.Data.isBoopFun) = true
  · rw [boopFunStage_demote p now info boop met other he] at h
    exact meteoraStage_amms p now info met _ s hi h
  · cases boop with
    | nil => simp at he
    | cons first rest =>
      have he2 : first.Data.isBoopFun = true := by simpa using he
      obtain ⟨s0, hs0, hall⟩ := boopFunStage_of_event p now info first rest he2
      rw [hall met other] at h
      injection h with h
      subst h
      rw [hs0, hi]
      simp

theorem raydiumLaunchLabStage_amms (p : Parser) (now : Int) (info : SwapInfo)
    (ll boop met other : List SwapData) (s : SwapInfo) (hi : info.AMMs = [])
    (h : raydiumLaunchLabStage p now info ll boop met other = .ok s) :
    s.AMMs.Nodup ∧ s.AMMs ≠ [] := by
  by_cases he : ll.head?.all (fun sd => !sd.Data.isRaydiumLaunchLab) = true
  · rw [raydiumLaunchLabStage_demote p now info ll boop met other he] at h
    exact boopFunStage_amms p now info boop met _ s hi h
  · cases ll with
    | nil => simp at he
    | cons first rest =>
      have he2 : first.Data.isRaydiumLaunchLab = true := by simpa using he
      obtain ⟨s0, hs0, hall⟩ := raydiumLaunchLabStage_of_event p now info first rest he2
      rw [hall boop met other] at h
      injection h with h
      subst h
      rw [hs0, hi]
      simp

theorem pumpfunStage_amms (p : Parser) (now : Int) (info : SwapInfo)
    (pump ll boop met other : List SwapData) (s : SwapInfo) (hi : info.AMMs = [])
    (h : pumpfunStage p now info pump ll boop met other = .ok s) :
    s.AMMs.Nodup ∧ s.AMMs ≠ [] := by
  by_cases he : pump.head?.all (fun sd => !sd.Data.isPumpfunTrade) = true
  · rw [pumpfunStage_demote p now info pump ll boop met other he] at h
    exact raydiumLaunchLabStage_amms p now info ll boop met _ s hi h
  · cases pump with
    | nil => simp at he
    | cons first rest =>
      have he2 : first.Data.isPumpfunTrade = true := by simpa using he
      obtain ⟨s0, hs0, hall⟩ := pumpfunStage_of_event p now info first rest he2
      rw [hall ll boop met other] at h
      injection h with h
      subst h
      rw [hs0, hi]
      simp

theorem ProcessSwapData_ne_nil (c : Consts) (x : Helpers) (p : Parser) (now : Int)
    (xs : List SwapData) (s : SwapInfo) (h : ProcessSwapData c x p now xs = .ok s) :
    xs ≠ [] := by
  intro hnil
  subst hnil
  simp [ProcessSwapData] at h

theorem ProcessSwapData_amms (c : Consts) (x : Helpers) (p : Parser) (now : Int)
    (xs : List SwapData) (s : SwapInfo) (hJ : ∀ sd ∈ xs, sd.Typ ≠ c.JUPITER)
    (h : ProcessSwapData c x p now xs = .ok s) : s.AMMs.Nodup ∧ s.AMMs ≠ [] := by
  have hne := ProcessSwapData_ne_nil c x p now xs s h
  rw [ProcessSwapData_eq c x p now xs hne, entriesOf_jupiter_nil c xs hJ,
    if_neg (by simp)] at h
  exact pumpfunStage_amms p now _ _ _ _ _ _ s rfl h

/-! ## The order of the classes -/

theorem entriesOf_nil_of_rank (c : Consts) (k k2 : SwapClass) (xs : List SwapData)
    (htop : ∀ sd ∈ xs, k.rank ≤ (classOf c sd).rank) (hlt : k2.rank < k.rank) :
    entriesOf c k2 xs = [] := by
  unfold entriesOf
  apply List.filter_eq_nil_iff.mpr
  intro sd hsd h
  simp only [decide_eq_true_eq] at h
  have := htop sd hsd
  rw [h] at this
  omega

theorem entriesOf_ne_nil (c : Consts) (k : SwapClass) (xs : List SwapData) (first : SwapData)
    (h : (entriesOf c k xs).head? = some first) :
    xs ≠ [] ∧ ∃ rest, entriesOf c k xs = first :: rest := by
  constructor
  · intro hnil
    subst hnil
    simp [entriesOf] at h
  · cases hl : entriesOf c k xs with
    | nil => rw [hl] at h; simp at h
    | cons a l =>
      rw [hl] at h
      simp only [List.head?_cons, Option.some.injEq] at h
      exact ⟨l, by rw [h]⟩

/-! ## The recognisers in closed form -/

theorem indexAt_eq_ok {α : Type} (xs : List α) (i : Nat) (a : α) (h : xs[i]? = some a) :
    indexAt xs i = .ok a := by
  simp [indexAt, h]

theorem indexAt_abort {α : Type} (xs : List α) (i : Nat) (h : xs.length ≤ i) :
    indexAt xs i = .abort := by
  have : xs[i]? = none := List.getElem?_eq_none h
  simp [indexAt, this]

theorem indexAt_cases {α : Type} (xs : List α) (i : Nat) (h : i < xs.length) :
    ∃ a, xs[i]? = some a ∧ indexAt xs i = .ok a := by
  cases hx : xs[i]? with
  | none =>
    have := List.getElem?_eq_none_iff.mp hx
    omega
  | some a => exact ⟨a, rfl, indexAt_eq_ok xs i a hx⟩

theorem accountLoop_eq (p : Parser) (accounts : List Nat) :
    ∀ (n i : Nat), i + n ≤ accounts.length →
      accountLoop p accounts i n =
        .ok (decide (∀ a ∈ (accounts.drop i).take n, a < p.allAccountKeys.length)) := by
  intro n
  induction n with
  | zero => intro i _; simp [accountLoop]
  | succ n ih =>
    intro i h
    have hi : i < accounts.length := by omega
    obtain ⟨a, ha, hia⟩ := indexAt_cases accounts i hi
    have hdrop : accounts.drop i = a :: accounts.drop (i + 1) := by
      rw [List.drop_eq_getElem_cons hi]
      congr 1
      have := List.getElem?_eq_getElem hi
      rw [ha] at this
      exact (Option.some.inj this).symm
    unfold accountLoop
    rw [hia, hdrop]
    simp only [Outcome.bind, List.take_succ_cons, List.forall_mem_cons]
    by_cases hr : a ≥ p.allAccountKeys.length
    · rw [if_pos hr]
      have : ¬ a < p.allAccountKeys.length := by omega
      simp [this]
    · rw [if_neg hr, ih (i + 1) (by omega)]
      have : a < p.allAccountKeys.length := by omega
      simp [this]

/-- Method `isTransfer` always returns, and returns the conjunction of its six tests. -/
theorem isTransfer_eq (p : Parser) (instr : CompiledInstruction) :
    p.isTransfer instr =
      .ok (decide (instr.ProgramIDIndex < p.allAccountKeys.length ∧
        p.allAccountKeys[instr.ProgramIDIndex]? = some TokenProgramID ∧
        3 ≤ instr.Accounts.length ∧ 9 ≤ instr.Data.length ∧ instr.Data[0]? = some 3 ∧
        ∀ a ∈ instr.Accounts.take 3, a < p.allAccountKeys.length)) := by
  unfold Parser.isTransfer
  by_cases hr : instr.ProgramIDIndex ≥ p.allAccountKeys.length
  · rw [if_pos hr]
    have : ¬ instr.ProgramIDIndex < p.allAccountKeys.length := by omega
    simp [this]
  · rw [if_neg hr]
    have hlt : instr.ProgramIDIndex < p.allAccountKeys.length := by omega
    obtain ⟨progID, hk, hik⟩ := indexAt_cases _ _ hlt
    rw [hik]
    simp only [Outcome.bind, hk, hlt, true_and, Option.some.injEq]
    by_cases hp : progID = TokenProgramID
    · rw [if_neg (by simp [hp])]
      by_cases hl : instr.Accounts.length < 3 ∨ instr.Data.length < 9
      · rw [if_pos hl]
        have : ¬ (3 ≤ instr.Accounts.length ∧ 9 ≤ instr.Data.length) := by omega
        congr 1
        symm
        rw [decide_eq_false_iff_not]
        intro h
        exact this ⟨h.2.1, h.2.2.1⟩
      · rw [if_neg hl]
        have h3 : 3 ≤ instr.Accounts.length := by omega
        have h9 : 9 ≤ instr.Data.length := by omega
        have hd0 : 0 < instr.Data.length := by omega
        obtain ⟨opcode, hd, hid⟩ := indexAt_cases instr.Data 0 hd0
        rw [hid]
        simp only [Outcome.bind, hp, h3, h9, hd, true_and, Option.some.injEq]
        by_cases ho : opcode = 3
        · rw [if_neg (by simp [ho]), accountLoop_eq p instr.Accounts 3 0 (by omega)]
          simp [ho]
        · rw [if_pos ho]
          simp [ho]
    · rw [if_pos hp]
      simp [hp]

/-- Method `isTransferCheck` always returns, and returns the conjunction of its six
tests. -/
theorem isTransferCheck_eq (p : Parser) (instr : CompiledInstruction) :
    p.isTransferCheck instr =
      .ok (decide (instr.ProgramIDIndex < p.allAccountKeys.length ∧
        (p.allAccountKeys[instr.ProgramIDIndex]? = some TokenProgramID ∨
          p.allAccountKeys[instr.ProgramIDIndex]? = some Token2022ProgramID) ∧
        4 ≤ instr.Accounts.length ∧ 9 ≤ instr.Data.length ∧ instr.Data[0]? = some 12 ∧
        ∀ a ∈ instr.Accounts.take 4, a < p.allAccountKeys.length)) := by
  unfold Parser.isTransferCheck
  by_cases hr : instr.ProgramIDIndex ≥ p.allAccountKeys.length
  · rw [if_pos hr]
    have : ¬ instr.ProgramIDIndex < p.allAccountKeys.length := by omega
    simp [this]
  · rw [if_neg hr]
    have hlt : instr.ProgramIDIndex < p.allAccountKeys.length := by omega
    obtain ⟨progID, hk, hik⟩ := indexAt_cases _ _ hlt
    rw [hik]
    simp only [Outcome.bind, hk, hlt, true_and, Option.some.injEq]
    by_cases hp : progID = TokenProgramID ∨ progID = Token2022ProgramID
    · rw [if_neg (by intro h; rcases hp with hp | hp; exact h.1 hp; exact h.2 hp)]
      by_cases hl : instr.Accounts.length < 4 ∨ instr.Data.length < 9
      · rw [if_pos hl]
        have : ¬ (4 ≤ instr.Accounts.length ∧ 9 ≤ instr.Data.length) := by omega
        congr 1
        symm
        rw [decide_eq_false_iff_not]
        intro h
        exact this ⟨h.2.1, h.2.2.1⟩
      · rw [if_neg hl]
        have h3 : 4 ≤ instr.Accounts.length := by omega
        have h9 : 9 ≤ instr.Data.length := by omega
        have hd0 : 0 < instr.Data.length := by omega
        obtain ⟨opcode, hd, hid⟩ := indexAt_cases instr.Data 0 hd0
        rw [hid]
        simp only [Outcome.bind, hp, h3, h9, hd, true_and, Option.some.injEq]
        by_cases ho : opcode = 12
        · rw [if_neg (by simp [ho]), accountLoop_eq p instr.Accounts 4 0 (by omega)]
          simp [ho]
        · rw [if_pos ho]
          simp [ho]
    · rw [if_pos (by push_neg at hp; exact hp)]
      simp [hp]

/-! ## Signer, signatures and timestamp of a summary -/

theorem genericReduction_frame (p : Parser) (now : Int) (info : SwapInfo)
    (other : List SwapData) (s : SwapInfo) (h : genericReduction p now info other = .ok s) :
    s.Signers = info.Signers ∧ s.Signatures = info.Signatures ∧
      s.Timestamp = p.blockTimeOrNow now := by
  obtain ⟨ti, tz, -, -, -, -, -, -, -, -, -, -, hts, hsg, hsig⟩ :=
    genericReduction_ok p now info other s h
  exact ⟨hsg, hsig, hts⟩

theorem meteoraStage_frame (p : Parser) (now : Int) (info : SwapInfo)
    (met other : List SwapData) (s : SwapInfo)
    (h : meteoraStage p now info met other = .ok s) :
    s.Signers = info.Signers ∧ s.Signatures = info.Signatures ∧
      s.Timestamp = p.blockTimeOrNow now := by
  unfold meteoraStage at h
  split at h
  · exact genericReduction_frame p now info _ s h
  · split at h
    · injection h with h; subst h; exact ⟨rfl, rfl, rfl⟩
    · injection h with h; subst h; exact ⟨rfl, rfl, rfl⟩
    · exact genericReduction_frame p now info _ s h

theorem boopFunStage_frame (p : Parser) (now : Int) (info : SwapInfo)
    (boop met other : List SwapData) (s : SwapInfo)
    (h : boopFunStage p now info boop met other = .ok s) :
    s.Signers = info.Signers ∧ s.Signatures = info.Signatures ∧
      s.Timestamp = p.blockTimeOrNow now := by
  unfold boopFunStage at h
  split at h
  · exact meteoraStage_frame p now info _ _ s h
  · split at h
    · injection h with h; subst h; exact ⟨rfl, rfl, rfl⟩
    · exact meteoraStage_frame p now info _ _ s h

theorem raydiumLaunchLabStage_frame (p : Parser) (now : Int) (info : SwapInfo)
    (ll boop met other : List SwapData) (s : SwapInfo)
    (h : raydiumLaunchLabStage p now info ll boop met other = .ok s) :
    s.Signers = info.Signers ∧ s.Signatures = info.Signatures ∧
      s.Timestamp = p.blockTimeOrNow now := by
  unfold raydiumLaunchLabStage at h
  split at h
  · exact boopFunStage_frame p now info _ _ _ s h
  · split at h
    · split at h
      · injection h with h; subst h; exact ⟨rfl, rfl, rfl⟩
      · injection h with h; subst h; exact ⟨rfl, rfl, rfl⟩
    · exact boopFunStage_frame p now info _ _ _ s h

theorem pumpfunStage_frame (p : Parser) (now : Int) (info : SwapInfo)
    (pump ll boop met other : List SwapData) (s : SwapInfo)
    (h : pumpfunStage p now info pump ll boop met other = .ok s) :
    s.Signers = info.Signers ∧ s.Signatures = info.Signatures := by
  unfold pumpfunStage at h
  split at h
  · exact ⟨(raydiumLaunchLabStage_frame p now info _ _ _ _ s h).1,
      (raydiumLaunchLabStage_frame p now info _ _ _ _ s h).2.1⟩
  · split at h
    · split at h
      · injection h with h; subst h; exact ⟨rfl, rfl⟩
      · injection h with h; subst h; exact ⟨rfl, rfl⟩
    · exact ⟨(raydiumLaunchLabStage_frame p now info _ _ _ _ s h).1,
        (raydiumLaunchLabStage_frame p now info _ _ _ _ s h).2.1⟩

theorem jupiterStage_frame (x : Helpers) (p : Parser) (now : Int) (info : SwapInfo)
    (jup : List SwapData) (s : SwapInfo) (h : jupiterStage x p now info jup = .ok s) :
    s.Signers = info.Signers ∧ s.Signatures = info.Signatures ∧
      s.Timestamp = p.blockTimeOrNow now := by
  unfold jupiterStage at h
  split at h
  · exact absurd h (by simp)
  · injection h with h; subst h; exact ⟨rfl, rfl, rfl⟩

theorem ProcessSwapData_frame (c : Consts) (x : Helpers) (p : Parser) (now : Int)
    (xs : List SwapData) (s : SwapInfo) (h : ProcessSwapData c x p now xs = .ok s) :
    s.Signers = signersOf x p ∧ s.Signatures = p.txInfo.Signatures := by
  have hne := ProcessSwapData_ne_nil c x p now xs s h
  rw [ProcessSwapData_eq c x p now xs hne] at h
  split at h
  · exact ⟨(jupiterStage_frame x p now _ _ s h).1, (jupiterStage_frame x p now _ _ s h).2.1⟩
  · exact pumpfunStage_frame p now _ _ _ _ _ _ s h

/-! ## Two calls at two readings of the clock -/

theorem genericReduction_now (p : Parser) (now1 now2 : Int) (info : SwapInfo)
    (other : List SwapData) (h : p.blockTimeOrNow now1 = p.blockTimeOrNow now2) :
    genericReduction p now1 info other = genericReduction p now2 info other := by
  unfold genericReduction
  simp only [h]

theorem meteoraStage_now (p : Parser) (now1 now2 : Int) (info : SwapInfo)
    (met other : List SwapData) (h : p.blockTimeOrNow now1 = p.blockTimeOrNow now2) :
    meteoraStage p now1 info met other = meteoraStage p now2 info met other := by
  unfold meteoraStage
  simp only [h, genericReduction_now p now1 now2 info _ h]

theorem boopFunStage_now (p : Parser) (now1 now2 : Int) (info : SwapInfo)
    (boop met other : List SwapData) (h : p.blockTimeOrNow now1 = p.blockTimeOrNow now2) :
    boopFunStage p now1 info boop met other = boopFunStage p now2 info boop met other := by
  unfold boopFunStage
  simp only [h, meteoraStage_now p now1 now2 info _ _ h]

theorem raydiumLaunchLabStage_now (p : Parser) (now1 now2 : Int) (info : SwapInfo)
    (ll boop met other : List SwapData) (h : p.blockTimeOrNow now1 = p.blockTimeOrNow now2) :
    raydiumLaunchLabStage p now1 info ll boop met other =
      raydiumLaunchLabStage p now2 info ll boop met other := by
  unfold raydiumLaunchLabStage
  simp only [h, boopFunStage_now p now1 now2 info _ _ _ h]

theorem pumpfunStage_now (p : Parser) (now1 now2 : Int) (info : SwapInfo)
    (pump ll boop met other : List SwapData)
    (h : p.blockTimeOrNow now1 = p.blockTimeOrNow now2) :
    pumpfunStage p now1 info pump ll boop met other =
      pumpfunStage p now2 info pump ll boop met other := by
  unfold pumpfunStage
  simp only [raydiumLaunchLabStage_now p now1 now2 info _ _ _ _ h]

theorem ProcessSwapData_now (c : Consts) (x : Helpers) (p : Parser) (now1 now2 : Int)
    (xs : List SwapData) (h : p.blockTimeOrNow now1 = p.blockTimeOrNow now2) :
    ProcessSwapData c x p now1 xs = ProcessSwapData c x p now2 xs := by
  unfold ProcessSwapData jupiterStage
  simp only [h, pumpfunStage_now p now1 now2 _ _ _ _ _ _ h]

theorem genericReduction_forget (p : Parser) (now1 now2 : Int) (info : SwapInfo)
    (other : List SwapData) :
    (genericReduction p now1 info other).forgetTimestamp =
      (genericReduction p now2 info other).forgetTimestamp := by
  rw [genericReduction_eq, genericReduction_eq]
  split
  · split <;> rfl
  · rfl

theorem meteoraStage_forget (p : Parser) (now1 now2 : Int) (info : SwapInfo)
    (met other : List SwapData) :
    (meteoraStage p now1 info met other).forgetTimestamp =
      (meteoraStage p now2 info met other).forgetTimestamp := by
  cases met with
  | nil => exact genericReduction_forget p now1 now2 info other
  | cons first rest =>
    unfold meteoraStage
    cases hd : first.Data <;> simp only [hd] <;>
      first | rfl | exact genericReduction_forget p now1 now2 info _

theorem boopFunStage_forget (p : Parser) (now1 now2 : Int) (info : SwapInfo)
    (boop met other : List SwapData) :
    (boopFunStage p now1 info boop met other).forgetTimestamp =
      (boopFunStage p now2 info boop met other).forgetTimestamp := by
  cases boop with
  | nil => exact meteoraStage_forget p now1 now2 info met other
  | cons first rest =>
    unfold boopFunStage
    cases hd : first.Data <;> simp only [hd] <;>
      first | rfl | exact meteoraStage_forget p now1 now2 info _ _

theorem raydiumLaunchLabStage_forget (p : Parser) (now1 now2 : Int) (info : SwapInfo)
    (ll boop met other : List SwapData) :
    (raydiumLaunchLabStage p now1 info ll boop met other).forgetTimestamp =
      (raydiumLaunchLabStage p now2 info ll boop met other).forgetTimestamp := by
  cases ll with
  | nil => exact boopFunStage_forget p now1 now2 info boop met other
  | cons first rest =>
    unfold raydiumLaunchLabStage
    cases hd : first.Data with
    | raydiumLaunchLab e => simp only [hd]; split <;> rfl
    | _ => simp only [hd]; exact boopFunStage_forget p now1 now2 info _ _ _

theorem pumpfunStage_forget (p : Parser) (now1 now2 : Int) (info : SwapInfo)
    (pump ll boop met other : List SwapData) :
    (pumpfunStage p now1 info pump ll boop met other).forgetTimestamp =
      (pumpfunStage p now2 info pump ll boop met other).forgetTimestamp := by
  cases pump with
  | nil => exact raydiumLaunchLabStage_forget p now1 now2 info ll boop met other
  | cons first rest =>
    unfold pumpfunStage
    cases hd : first.Data with
    | pumpfunTrade e => simp only [hd]
    | _ => simp only [hd]; exact raydiumLaunchLabStage_forget p now1 now2 info _ _ _ _

theorem ProcessSwapData_forget (c : Consts) (x : Helpers) (p : Parser) (now1 now2 : Int)
    (xs : List SwapData) :
    (ProcessSwapData c x p now1 xs).forgetTimestamp =
      (ProcessSwapData c x p now2 xs).forgetTimestamp := by
  unfold ProcessSwapData
  split
  · rfl
  · simp only []
    split
    · unfold jupiterStage
      split <;> rfl
    · exact pumpfunStage_forget p now1 now2 _ _ _ _ _ _

theorem blockTimeOrNow_of_some (p : Parser) (now1 now2 : Int)
    (h : p.GetBlockTime.isSome = true) : p.blockTimeOrNow now1 = p.blockTimeOrNow now2 := by
  unfold Parser.blockTimeOrNow
  cases hb : p.GetBlockTime with
  | none => rw [hb] at h; simp at h
  | some t => rfl

/-! ## The event recognisers in closed form -/

theorem eventCheck_eq (keys : List PublicKey) (target : PublicKey) (index : Nat)
    (data disc : List Nat) (n : Nat) (hn : 0 < n) :
    (if index ≥ keys.length then Outcome.ok false
      else
        (indexAt keys index).bind fun progID =>
          if progID ≠ target ∨ data.length < n then Outcome.ok false
          else
            match decodeDataText data with
            | none => Outcome.ok false
            | some decodedBytes =>
              (sliceTo decodedBytes n).bind fun head => Outcome.ok (decide (head = disc))) =
      .ok (decide (index < keys.length ∧ keys[index]? = some target ∧ n ≤ data.length ∧
        data.take n = disc)) := by
  by_cases hr : index ≥ keys.length
  · rw [if_pos hr]
    have : ¬ index < keys.length := by omega
    simp [this]
  · rw [if_neg hr]
    have hlt : index < keys.length := by omega
    obtain ⟨progID, hk, hik⟩ := indexAt_cases keys index hlt
    rw [hik]
    simp only [Outcome.bind, hk, hlt, true_and, Option.some.injEq]
    by_cases hc : progID ≠ target ∨ data.length < n
    · rw [if_pos hc]
      congr 1
      symm
      rw [decide_eq_false_iff_not]
      rintro ⟨h1, h2, -⟩
      rcases hc with hc | hc
      · exact hc h1
      · omega
    · rw [if_neg hc]
      have h1 : progID = target := by
        by_contra h; exact hc (Or.inl h)
      have h2 : n ≤ data.length := by omega
      have hdec : decodeDataText data = some data := by
        unfold decodeDataText
        rw [if_neg (by omega)]
      rw [hdec]
      simp only [sliceTo, h2, if_true, h1, true_and]

theorem isPumpFunTradeEventInstruction_eq (c : Consts) (k : EventDiscriminators) (p : Parser)
    (inst : CompiledInstruction) :
    p.isPumpFunTradeEventInstruction c k inst =
      .ok (decide (inst.ProgramIDIndex < p.allAccountKeys.length ∧
        p.allAccountKeys[inst.ProgramIDIndex]? = some c.PUMP_FUN_PROGRAM_ID ∧
        16 ≤ inst.Data.length ∧ inst.Data.take 16 = k.PumpfunTradeEventDiscriminator)) :=
  eventCheck_eq p.allAccountKeys c.PUMP_FUN_PROGRAM_ID inst.ProgramIDIndex inst.Data
    k.PumpfunTradeEventDiscriminator 16 (by decide)

theorem isJupiterRouteEventInstruction_eq (c : Consts) (k : EventDiscriminators) (p : Parser)
    (inst : CompiledInstruction) :
    p.isJupiterRouteEventInstruction c k inst =
      .ok (decide (inst.ProgramIDIndex < p.allAccountKeys.length ∧
        p.allAccountKeys[inst.ProgramIDIndex]? = some c.JUPITER_PROGRAM_ID ∧
        16 ≤ inst.Data.length ∧ inst.Data.take 16 = k.JupiterRouteEventDiscriminator)) :=
  eventCheck_eq p.allAccountKeys c.JUPITER_PROGRAM_ID inst.ProgramIDIndex inst.Data
    k.JupiterRouteEventDiscriminator 16 (by decide)

theorem isMeteoraDBCEventInstruction_eq (c : Consts) (p : Parser)
    (inst : CompiledInstruction) :
    p.isMeteoraDBCEventInstruction c inst =
      .ok (decide (inst.ProgramIDIndex < p.allAccountKeys.length ∧
        p.allAccountKeys[inst.ProgramIDIndex]? = some c.METEORA_DBC_PROGRAM_ID)) := by
  unfold Parser.isMeteoraDBCEventInstruction
  by_cases hr : inst.ProgramIDIndex ≥ p.allAccountKeys.length
  · rw [if_pos hr]
    have : ¬ inst.ProgramIDIndex < p.allAccountKeys.length := by omega
    simp [this]
  · rw [if_neg hr]
    have hlt : inst.ProgramIDIndex < p.allAccountKeys.length := by omega
    obtain ⟨progID, hk, hik⟩ := indexAt_cases _ _ hlt
    rw [hik]
    simp only [Outcome.bind, hk, hlt, true_and, Option.some.injEq]

/-- Method `isRaydiumLaunchLabEvent` aborts exactly on a program index that is out of
range. -/
theorem isRaydiumLaunchLabEvent_abort_iff (c : Consts) (p : Parser)
    (inst : CompiledInstruction) :
    p.isRaydiumLaunchLabEvent c inst = .abort ↔
      p.allAccountKeys.length ≤ inst.ProgramIDIndex := by
  unfold Parser.isRaydiumLaunchLabEvent
  constructor
  · intro h
    by_contra hlt
    have hlt : inst.ProgramIDIndex < p.allAccountKeys.length := by omega
    obtain ⟨progID, hk, hik⟩ := indexAt_cases _ _ hlt
    rw [hik] at h
    simp only [Outcome.bind] at h
    split at h
    · exact absurd h (by simp)
    · split at h
      · exact absurd h (by simp)
      · rename_i h8
        have hdec : decodeDataText inst.Data = some inst.Data := by
          unfold decodeDataText
          rw [if_neg (by omega)]
        rw [hdec] at h
        simp only [sliceTo] at h
        rw [if_pos (by omega)] at h
        exact absurd h (by simp)
  · intro h
    rw [indexAt_abort _ _ h]
    rfl

/-! ## The event branches of `ProcessSwapData`, from the first entry of a tag -/

theorem firstOfType_ne_nil (tag : SwapType) (xs : List SwapData) (sd : SwapData)
    (h : firstOfType tag xs = some sd) : xs ≠ [] := by
  intro hnil
  subst hnil
  simp [firstOfType] at h

theorem filter_head_firstOfType (tag : SwapType) (xs : List SwapData) :
    (xs.filter (fun sd => sd.Typ = tag)).head? = firstOfType tag xs := by
  rw [List.filter_head?]
  rfl

theorem filter_cons_of_firstOfType (tag : SwapType) (xs : List SwapData) (sd : SwapData)
    (h : firstOfType tag xs = some sd) :
    ∃ rest, xs.filter (fun sd => sd.Typ = tag) = sd :: rest := by
  have hhead := filter_head_firstOfType tag xs
  rw [h] at hhead
  cases hl : xs.filter (fun sd => sd.Typ = tag) with
  | nil => rw [hl] at hhead; simp at hhead
  | cons first rest =>
    rw [hl] at hhead
    simp only [List.head?_cons, Option.some.injEq] at hhead
    exact ⟨rest, by rw [hhead]⟩

theorem firstOfType_append_cons (tag : SwapType) (pre post : List SwapData) (sd : SwapData)
    (hpre : ∀ y ∈ pre, y.Typ ≠ tag) (hsd : sd.Typ = tag) :
    firstOfType tag (pre ++ sd :: post) = some sd := by
  unfold firstOfType
  induction pre with
  | nil => simp [hsd]
  | cons y ys ih =>
    have hy : y.Typ ≠ tag := hpre y (List.mem_cons_self _ _)
    simp only [List.cons_append, List.find?_cons, hy, decide_False]
    exact ih (fun z hz => hpre z (List.mem_cons_of_mem _ hz))

theorem ProcessSwapData_pumpfun_event (c : Consts) (x : Helpers) (p : Parser) (now : Int)
    (xs : List SwapData) (e : PumpfunTradeEvent)
    (hJ : ∀ sd ∈ xs, sd.Typ ≠ c.JUPITER)
    (hfirst : firstOfType c.PUMP_FUN xs = some ⟨c.PUMP_FUN, .pumpfunTrade e⟩) :
    ProcessSwapData c x p now xs =
      .ok { Signers := signersOf x p
            Signatures := p.txInfo.Signatures
            AMMs := [c.PUMP_FUN]
            Timestamp := e.Timestamp
            TokenInMint := if e.IsBuy then NATIVE_SOL_MINT_PROGRAM_ID else e.Mint
            TokenInAmount := if e.IsBuy then e.SolAmount else e.TokenAmount
            TokenInDecimals :=
              if e.IsBuy then 9 else (p.splDecimalsMap (PublicKey.String e.Mint)).getD 0
            TokenOutMint := if e.IsBuy then e.Mint else NATIVE_SOL_MINT_PROGRAM_ID
            TokenOutAmount := if e.IsBuy then e.TokenAmount else e.SolAmount
            TokenOutDecimals :=
              if e.IsBuy then (p.splDecimalsMap (PublicKey.String e.Mint)).getD 0 else 9 } := by
  rw [ProcessSwapData_eq c x p now xs (firstOfType_ne_nil _ _ _ hfirst),
    entriesOf_jupiter_nil c xs hJ, if_neg (by simp), entriesOf_pumpfun c xs hJ]
  obtain ⟨rest, hl⟩ := filter_cons_of_firstOfType _ _ _ hfirst
  rw [hl, pumpfunStage_event p now _ _ rest _ _ _ _ e rfl]
  rfl

theorem no_jupiter_of_entriesOf_nil (c : Consts) (xs : List SwapData)
    (h : ¬ (entriesOf c .jupiter xs).length > 0) : ∀ sd ∈ xs, sd.Typ ≠ c.JUPITER := by
  intro sd hsd hT
  apply h
  have hmem : sd ∈ entriesOf c .jupiter xs := by
    unfold entriesOf
    rw [List.mem_filter]
    exact ⟨hsd, by simpa using (classOf_jupiter_iff c sd).mpr hT⟩
  exact List.length_pos_of_mem hmem

/-- A summary that does not come from a Pump.fun trade event is stamped by the timestamp
block. -/
theorem ProcessSwapData_timestamp (c : Consts) (x : Helpers) (p : Parser) (now : Int)
    (xs : List SwapData) (s : SwapInfo) (h : ProcessSwapData c x p now xs = .ok s)
    (hnp : (∃ sd ∈ xs, sd.Typ = c.JUPITER) ∨
      (firstOfType c.PUMP_FUN xs).all (fun sd => !sd.Data.isPumpfunTrade) = true) :
    s.Timestamp = p.blockTimeOrNow now := by
  have hne : xs ≠ [] := by
    intro hnil
    subst hnil
    simp [ProcessSwapData] at h
  rw [ProcessSwapData_eq c x p now xs hne] at h
  by_cases hj : (entriesOf c .jupiter xs).length > 0
  · rw [if_pos hj] at h
    exact (jupiterStage_frame x p now _ _ s h).2.2
  · rw [if_neg hj] at h
    have hJ := no_jupiter_of_entriesOf_nil c xs hj
    rcases hnp with ⟨sd, hsd, hT⟩ | hP
    · exact absurd hT (hJ sd hsd)
    · rw [entriesOf_pumpfun c xs hJ, pumpfunStage_demote p now _ _ _ _ _ _
        (by rw [filter_head_firstOfType]; exact hP)] at h
      exact (raydiumLaunchLabStage_frame p now _ _ _ _ _ s h).2.2

theorem signersOf_length (x : Helpers) (p : Parser) : (signersOf x p).length ≤ 1 := by
  unfold signersOf
  split <;> split <;> simp

theorem signersOf_dca (x : Helpers) (p : Parser) (hx : x.containsDCAProgram p = true)
    (h2 : 2 < p.allAccountKeys.length) : signersOf x p = [p.allAccountKeys[2]] := by
  unfold signersOf
  rw [if_pos hx, if_pos h2, List.getD_eq_getElem _ _ h2]

theorem signersOf_plain (x : Helpers) (p : Parser) (hx : x.containsDCAProgram p = false)
    (h0 : 0 < p.allAccountKeys.length) : signersOf x p = [p.allAccountKeys[0]] := by
  unfold signersOf
  rw [if_neg (by simp [hx]), if_pos h0, List.getD_eq_getElem _ _ h0]

theorem signersOf_nil (x : Helpers) (p : Parser)
    (h : (x.containsDCAProgram p = true ∧ p.allAccountKeys.length ≤ 2) ∨
      (x.containsDCAProgram p = false ∧ p.allAccountKeys.length = 0)) :
    signersOf x p = [] := by
  unfold signersOf
  rcases h with ⟨hx, hl⟩ | ⟨hx, hl⟩
  · rw [if_pos hx, if_neg (by omega)]
  · rw [if_neg (by simp [hx]), if_neg (by omega)]

/-! ## `processTransfer` on a recognised Transfer -/

theorem someAccountOutOfRange_eq_false (p : Parser) (accounts : List Nat)
    (h : ∀ a ∈ accounts, a < p.allAccountKeys.length) :
    p.someAccountOutOfRange accounts = false := by
  unfold Parser.someAccountOutOfRange
  rw [List.any_eq_false]
  intro a ha
  have := h a ha
  simp only [ge_iff_le, decide_eq_true_eq, not_le]
  exact this

theorem mem_take_of_getElem? {α : Type} (xs : List α) (i n : Nat) (a : α)
    (h : xs[i]? = some a) (hi : i < n) : a ∈ xs.take n := by
  rw [List.mem_iff_getElem?]
  exact ⟨i, by rw [List.getElem?_take_of_lt hi]; exact h⟩

theorem leUint64_slice (data : List Nat) (h : 9 ≤ data.length) :
    sliceFromTo data 1 9 = .ok ((data.take 9).drop 1) ∧
    leUint64 ((data.take 9).drop 1) =
      ∑ i ∈ Finset.range 8, (data.getD (i + 1) 0 % 256) * 256 ^ i := by
  constructor
  · unfold sliceFromTo
    rw [if_pos ⟨by omega, h⟩]
  · match data, h with
    | d0 :: d1 :: d2 :: d3 :: d4 :: d5 :: d6 :: d7 :: d8 :: rest, _ =>
      simp only [leUint64, leBytes, List.take_succ_cons, List.take_zero, List.drop_succ_cons,
        List.drop_zero, Finset.sum_range_succ, Finset.sum_range_zero, List.getD_cons_succ,
        List.getD_cons_zero]
      ring

/-- The decoded record of an instruction that `isTransfer` accepts. -/
theorem processTransfer_of_isTransfer (p : Parser) (instr : CompiledInstruction)
    (h : p.isTransfer instr = .ok true) :
    ∃ a0 a1 a2 source destination authority,
      instr.Accounts[0]? = some a0 ∧ instr.Accounts[1]? = some a1 ∧
      instr.Accounts[2]? = some a2 ∧ p.allAccountKeys[a0]? = some source ∧
      p.allAccountKeys[a1]? = some destination ∧ p.allAccountKeys[a2]? = some authority ∧
      p.processTransfer instr = .ok (some
        { Info :=
            { Amount := leUint64 ((instr.Data.take 9).drop 1)
              Source := PublicKey.String source
              Destination := PublicKey.String destination
              Authority := PublicKey.String authority }
          Kind := "transfer"
          Mint :=
            if ((p.splTokenInfoMap (PublicKey.String destination)).getD ⟨"", 0⟩).Mint = "" then
              "Unknown"
            else ((p.splTokenInfoMap (PublicKey.String destination)).getD ⟨"", 0⟩).Mint
          Decimals := ((p.splTokenInfoMap (PublicKey.String destination)).getD ⟨"", 0⟩).Decimals }) := by
  rw [isTransfer_eq, Outcome.ok.injEq, decide_eq_true_iff] at h
  obtain ⟨-, -, h3, h9, -, hall⟩ := h
  obtain ⟨a0, ha0, hi0⟩ := indexAt_cases instr.Accounts 0 (by omega)
  obtain ⟨a1, ha1, hi1⟩ := indexAt_cases instr.Accounts 1 (by omega)
  obtain ⟨a2, ha2, hi2⟩ := indexAt_cases instr.Accounts 2 (by omega)
  obtain ⟨source, hk0, hj0⟩ := indexAt_cases p.allAccountKeys a0
    (hall a0 (mem_take_of_getElem? _ 0 3 a0 ha0 (by omega)))
  obtain ⟨destination, hk1, hj1⟩ := indexAt_cases p.allAccountKeys a1
    (hall a1 (mem_take_of_getElem? _ 1 3 a1 ha1 (by omega)))
  obtain ⟨authority, hk2, hj2⟩ := indexAt_cases p.allAccountKeys a2
    (hall a2 (mem_take_of_getElem? _ 2 3 a2 ha2 (by omega)))
  refine ⟨a0, a1, a2, source, destination, authority, ha0, ha1, ha2, hk0, hk1, hk2, ?_⟩
  unfold Parser.processTransfer
  rw [(leUint64_slice instr.Data h9).1]
  simp only [Outcome.bind]
  rw [if_neg (by omega), someAccountOutOfRange_eq_false p _ hall]
  simp only [Bool.false_eq_true, if_false, hi0, hi1, hi2, hj0, hj1, hj2]

/-! ## The token-account index in closed form -/

theorem b58Char_ne_nil_aux (n : Nat) (hn : n ≠ 0) : digitsLE 58 45 n ≠ [] := by
  show digitsLE 58 (44 + 1) n ≠ []
  unfold digitsLE
  rw [if_neg hn]
  exact List.cons_ne_nil _ _

theorem PublicKey.String_ne_empty (k : PublicKey) : PublicKey.String k ≠ "" := by
  unfold PublicKey.String
  intro h
  have hd := congrArg String.data h
  simp only [List.append_eq_nil, List.replicate_eq_nil_iff, List.map_eq_nil_iff,
    List.reverse_eq_nil_iff] at hd
  obtain ⟨h1, h2⟩ := hd
  by_cases hz : k.val = 0
  · rw [hz] at h1
    revert h1
    decide
  · exact b58Char_ne_nil_aux k.val hz h2

theorem keyAt_eq (p : Parser) (i : Nat) (key : PublicKey) (h : p.allAccountKeys[i]? = some key) :
    p.keyAt i = key := by
  unfold Parser.keyAt
  rw [List.getD_eq_getElem?_getD, h]
  rfl

theorem getD_of_getElem? {α : Type} (xs : List α) (i : Nat) (a d : α) (h : xs[i]? = some a) :
    xs.getD i d = a := by
  rw [List.getD_eq_getElem?_getD, h]
  rfl

theorem balances_foldl (p : Parser) (k : String) (l : List TokenBalance) :
    ∀ m : String → Option TokenInfo,
    (l.foldl (balanceStep p) m) k =
      match (l.filter (p.writesEntry k)).getLast? with
      | some b => some ⟨PublicKey.String b.Mint, b.Decimals⟩
      | none => m k := by
  induction l with
  | nil => intro m; rfl
  | cons b l ih =>
    intro m
    rw [List.foldl_cons, ih]
    by_cases hb : p.writesEntry k b = true
    · rw [List.filter_cons_of_pos hb]
      unfold Parser.writesEntry at hb
      simp only [Bool.and_eq_true, Bool.not_eq_true', decide_eq_true_eq] at hb
      obtain ⟨⟨hz, hr⟩, hk⟩ := hb
      cases hl : l.filter (p.writesEntry k) with
      | nil =>
        simp only [List.getLast?_nil, List.getLast?_singleton]
        unfold balanceStep
        simp only [hz, Bool.not_false, if_true]
        rw [if_neg (by omega)]
        unfold mapSet
        rw [if_pos hk.symm]
      | cons b2 l2 =>
        rw [List.getLast?_cons_cons, List.getLast?_eq_getLast (b2 :: l2) (List.cons_ne_nil _ _)]
    · rw [List.filter_cons_of_neg hb]
      cases hl : (l.filter (p.writesEntry k)).getLast? with
      | some b2 => rfl
      | none =>
        simp only []
        unfold balanceStep
        by_cases hz : b.Mint.IsZero = true
        · simp [hz]
        · simp only [Bool.not_eq_true] at hz
          simp only [hz, Bool.not_false, if_true]
          by_cases hr : b.AccountIndex ≥ p.allAccountKeys.length
          · rw [if_pos hr]
          · rw [if_neg hr]
            unfold mapSet
            have hk : ¬ k = PublicKey.String (p.keyAt b.AccountIndex) := by
              intro hk
              apply hb
              unfold Parser.writesEntry
              simp only [Bool.and_eq_true, Bool.not_eq_true', decide_eq_true_eq]
              exact ⟨⟨hz, by omega⟩, hk.symm⟩
            rw [if_neg hk]

theorem processInstruction_apply (p : Parser) (m : String → Option TokenInfo)
    (instr : CompiledInstruction) (k : String) :
    processInstruction p m instr k =
      match m k with
      | some v => some v
      | none => if p.movesAccount instr k then some ⟨"", 0⟩ else none := by
  unfold processInstruction Parser.movesAccount
  by_cases hr : instr.ProgramIDIndex ≥ p.allAccountKeys.length
  · rw [if_pos hr]
    have hnone : p.allAccountKeys[instr.ProgramIDIndex]? = none :=
      List.getElem?_eq_none hr
    simp only [hnone]
    cases m k <;> simp
  rw [if_neg hr]
  obtain ⟨prog, hprog, -⟩ := indexAt_cases p.allAccountKeys instr.ProgramIDIndex (by omega)
  rw [keyAt_eq p _ prog hprog, hprog]
  by_cases hp : prog ≠ TokenProgramID
  · rw [if_pos hp]
    have : ¬ (some prog = some TokenProgramID) := by
      intro h; exact hp (Option.some.inj h)
    simp only [this, decide_False, Bool.false_and]
    cases m k <;> simp
  rw [if_neg hp]
  have hp2 : prog = TokenProgramID := by
    by_contra h; exact hp h
  simp only [hp2, decide_True, Bool.true_and]
  by_cases hd : instr.Data.length = 0 ∨ (instr.Data.getD 0 0 ≠ 3 ∧ instr.Data.getD 0 0 ≠ 12)
  · rw [if_pos hd]
    have : ¬ (instr.Data[0]? = some 3 ∨ instr.Data[0]? = some 12) := by
      rcases hd with hd | ⟨h3, h12⟩
      · have hnil : instr.Data = [] := List.eq_nil_of_length_eq_zero hd
        rw [hnil]; simp
      · rintro (h | h)
        · exact h3 (getD_of_getElem? _ _ _ _ h)
        · exact h12 (getD_of_getElem? _ _ _ _ h)
    simp only [this, decide_False, Bool.false_and]
    cases m k <;> simp
  rw [if_neg hd]
  have hop : instr.Data[0]? = some 3 ∨ instr.Data[0]? = some 12 := by
    have hlen : 0 < instr.Data.length := by
      rcases Nat.eq_zero_or_pos instr.Data.length with h | h
      · exact absurd (Or.inl h) hd
      · exact h
    obtain ⟨op, hop, -⟩ := indexAt_cases instr.Data 0 hlen
    have hg := getD_of_getElem? _ _ _ 0 hop
    rw [hop]
    by_contra hne
    apply hd
    right
    rw [hg]
    constructor
    · intro h; exact hne (Or.inl (by rw [h]))
    · intro h; exact hne (Or.inr (by rw [h]))
  simp only [hop, decide_True, Bool.true_and]
  by_cases h3 : instr.Accounts.length < 3
  · rw [if_pos h3]
    have : ¬ 3 ≤ instr.Accounts.length := by omega
    simp only [this, decide_False, Bool.false_and]
    cases m k <;> simp
  rw [if_neg h3]
  have h3b : 3 ≤ instr.Accounts.length := by omega
  simp only [h3b, decide_True, Bool.true_and]
  obtain ⟨a0, ha0, -⟩ := indexAt_cases instr.Accounts 0 (by omega)
  obtain ⟨a1, ha1, -⟩ := indexAt_cases instr.Accounts 1 (by omega)
  rw [getD_of_getElem? _ _ _ 0 ha0, getD_of_getElem? _ _ _ 0 ha1, ha0, ha1]
  simp only []
  by_cases hr0 : a0 ≥ p.allAccountKeys.length
  · rw [if_pos hr0]
    have hnone : p.allAccountKeys[a0]? = none := List.getElem?_eq_none hr0
    simp only [hnone]
    cases m k <;> simp
  rw [if_neg hr0]
  obtain ⟨k0, hk0, -⟩ := indexAt_cases p.allAccountKeys a0 (by omega)
  by_cases hr1 : a1 ≥ p.allAccountKeys.length
  · rw [if_pos hr1]
    have hnone : p.allAccountKeys[a1]? = none := List.getElem?_eq_none hr1
    simp only [hk0, hnone]
    cases m k <;> simp
  rw [if_neg hr1]
  obtain ⟨k1, hk1, -⟩ := indexAt_cases p.allAccountKeys a1 (by omega)
  rw [keyAt_eq p _ k0 hk0, keyAt_eq p _ k1 hk1]
  simp only [hk0, hk1]
  cases hmk : m k with
  | some v =>
    simp only []
    by_cases hs : (m (PublicKey.String k0)).isNone = true
    · rw [if_pos hs]
      have hne0 : k ≠ PublicKey.String k0 := by
        intro h; rw [h] at hmk; rw [hmk] at hs; simp at hs
      by_cases hdn : (mapSet m (PublicKey.String k0) ⟨"", 0⟩ (PublicKey.String k1)).isNone = true
      · rw [if_pos hdn]
        have hne1 : k ≠ PublicKey.String k1 := by
          intro h
          rw [← h] at hdn
          unfold mapSet at hdn
          rw [if_neg hne0, hmk] at hdn
          simp at hdn
        unfold mapSet
        rw [if_neg hne1, if_neg hne0, hmk]
      · rw [if_neg hdn]
        unfold mapSet
        rw [if_neg hne0, hmk]
    · rw [if_neg hs]
      by_cases hdn : (m (PublicKey.String k1)).isNone = true
      · rw [if_pos hdn]
        have hne1 : k ≠ PublicKey.String k1 := by
          intro h; rw [h] at hmk; rw [hmk] at hdn; simp at hdn
        unfold mapSet
        rw [if_neg hne1, hmk]
      · rw [if_neg hdn, hmk]
  | none =>
    simp only []
    by_cases hk0e : k = PublicKey.String k0
    · have hs : (m (PublicKey.String k0)).isNone = true := by
        rw [← hk0e, hmk]; rfl
      rw [if_pos hs]
      have hmem : (decide (k = PublicKey.String k0 ∨ k = PublicKey.String k1)) = true := by
        simp [hk0e]
      rw [hmem, if_pos rfl]
      by_cases hdn : (mapSet m (PublicKey.String k0) ⟨"", 0⟩ (PublicKey.String k1)).isNone = true
      · rw [if_pos hdn]
        unfold mapSet
        by_cases hk1e : k = PublicKey.String k1
        · rw [if_pos hk1e]
        · rw [if_neg hk1e, if_pos hk0e]
      · rw [if_neg hdn]
        unfold mapSet
        rw [if_pos hk0e]
    · by_cases hk1e : k = PublicKey.String k1
      · have hmem : (decide (k = PublicKey.String k0 ∨ k = PublicKey.String k1)) = true := by
          simp [hk1e]
        rw [hmem, if_pos rfl]
        by_cases hs : (m (PublicKey.String k0)).isNone = true
        · rw [if_pos hs]
          have hdn : (mapSet m (PublicKey.String k0) ⟨"", 0⟩ (PublicKey.String k1)).isNone =
              true := by
            unfold mapSet
            rw [← hk1e, if_neg hk0e, hmk]; rfl
          rw [if_pos hdn]
          unfold mapSet
          rw [if_pos hk1e]
        · rw [if_neg hs]
          have hdn : (m (PublicKey.String k1)).isNone = true := by
            rw [← hk1e, hmk]; rfl
          rw [if_pos hdn]
          unfold mapSet
          rw [if_pos hk1e]
      · have hmem : (decide (k = PublicKey.String k0 ∨ k = PublicKey.String k1)) = false := by
          simp [hk0e, hk1e]
        rw [hmem]
        simp only [Bool.false_eq_true, if_false]
        by_cases hs : (m (PublicKey.String k0)).isNone = true
        · rw [if_pos hs]
          by_cases hdn : (mapSet m (PublicKey.String k0) ⟨"", 0⟩ (PublicKey.String k1)).isNone =
              true
          · rw [if_pos hdn]
            unfold mapSet
            rw [if_neg hk1e, if_neg hk0e, hmk]
          · rw [if_neg hdn]
            unfold mapSet
            rw [if_neg hk0e, hmk]
        · rw [if_neg hs]
          by_cases hdn : (m (PublicKey.String k1)).isNone = true
          · rw [if_pos hdn]
            unfold mapSet
            rw [if_neg hk1e, hmk]
          · rw [if_neg hdn, hmk]

theorem instructions_foldl (p : Parser) (k : String) (l : List CompiledInstruction) :
    ∀ m : String → Option TokenInfo,
    (l.foldl (processInstruction p) m) k =
      match m k with
      | some v => some v
      | none => if l.any (fun instr => p.movesAccount instr k) then some ⟨"", 0⟩ else none := by
  induction l with
  | nil => intro m; cases h : m k <;> simp [h]
  | cons instr l ih =>
    intro m
    rw [List.foldl_cons, ih, processInstruction_apply]
    cases m k with
    | some v => rfl
    | none =>
      simp only [List.any_cons]
      by_cases h : p.movesAccount instr k = true
      · simp [h]
      · simp only [Bool.not_eq_true] at h
        simp [h]

theorem inner_foldl (p : Parser) (k : String) (sets : List InnerInstruction) :
    ∀ m : String → Option TokenInfo,
    (sets.foldl (fun m innerSet => innerSet.Instructions.foldl (processInstruction p) m) m) k =
      match m k with
      | some v => some v
      | none =>
        if (sets.flatMap fun innerSet => innerSet.Instructions).any
            (fun instr => p.movesAccount instr k) then some ⟨"", 0⟩
        else none := by
  induction sets with
  | nil => intro m; cases h : m k <;> simp [h]
  | cons innerSet sets ih =>
    intro m
    rw [List.foldl_cons, ih, instructions_foldl]
    cases m k with
    | some v => rfl
    | none =>
      simp only [List.flatMap_cons, List.any_append]
      by_cases h : innerSet.Instructions.any (fun instr => p.movesAccount instr k) = true
      · simp [h]
      · simp only [Bool.not_eq_true] at h
        simp [h]

/-- The token map that `extractSPLTokenInfo` stores, in closed form. -/
theorem extractSPLTokenInfo_apply (p : Parser) (k : String) :
    p.extractSPLTokenInfo.splTokenInfoMap k =
      match (p.balancesOf k).getLast? with
      | some b => some ⟨PublicKey.String b.Mint, b.Decimals⟩
      | none =>
        if p.allInstructions.any (fun instr => p.movesAccount instr k) then
          some ⟨PublicKey.String NATIVE_SOL_MINT_PROGRAM_ID, 9⟩
        else none := by
  show fillPlaceholders _ k = _
  unfold fillPlaceholders
  rw [inner_foldl, instructions_foldl, balances_foldl]
  unfold Parser.balancesOf Parser.allInstructions
  cases (p.txMeta.PostTokenBalances.filter (p.writesEntry k)).getLast? with
  | some b =>
    simp only [Option.map_some']
    rw [if_neg (PublicKey.String_ne_empty b.Mint)]
  | none =>
    simp only [List.any_append]
    by_cases h1 : p.txInfo.Instructions.any (fun instr => p.movesAccount instr k) = true
    · simp [h1]
    · simp only [Bool.not_eq_true] at h1
      by_cases h2 : (p.txMeta.InnerInstructions.flatMap fun innerSet =>
          innerSet.Instructions).any (fun instr => p.movesAccount instr k) = true
      · simp [h1, h2]
      · simp only [Bool.not_eq_true] at h2
        simp [h1, h2]

theorem extractSPLTokenInfo_keys (p : Parser) :
    p.extractSPLTokenInfo.allAccountKeys = p.allAccountKeys ∧
    p.extractSPLTokenInfo.txMeta = p.txMeta ∧ p.extractSPLTokenInfo.txInfo = p.txInfo ∧
    p.extractSPLTokenInfo.txResult = p.txResult ∧
    p.extractSPLTokenInfo.splDecimalsMap = p.splDecimalsMap :=
  ⟨rfl, rfl, rfl, rfl, rfl⟩

/-- Every entry of the token map has the mint of a post-token-balance or the native SOL
mint, and no entry has the empty mint. -/
theorem extractSPLTokenInfo_mint (p : Parser) (k : String) (info : TokenInfo)
    (h : p.extractSPLTokenInfo.splTokenInfoMap k = some info) :
    info.Mint ≠ "" ∧
    ((∃ b ∈ p.txMeta.PostTokenBalances, info = ⟨PublicKey.String b.Mint, b.Decimals⟩) ∨
      info = ⟨PublicKey.String NATIVE_SOL_MINT_PROGRAM_ID, 9⟩) := by
  rw [extractSPLTokenInfo_apply] at h
  cases hb : (p.balancesOf k).getLast? with
  | some b =>
    rw [hb] at h
    simp only [Option.some.injEq] at h
    subst h
    refine ⟨PublicKey.String_ne_empty _, Or.inl ⟨b, ?_, rfl⟩⟩
    have hmem : b ∈ p.balancesOf k := List.mem_of_mem_getLast? (by rw [hb]; rfl)
    unfold Parser.balancesOf at hmem
    exact (List.mem_filter.mp hmem).1
  | none =>
    rw [hb] at h
    simp only [] at h
    split at h
    · simp only [Option.some.injEq] at h
      subst h
      exact ⟨PublicKey.String_ne_empty _, Or.inr rfl⟩
    · exact absurd h (by simp)

/-! ## The transfer loops in closed form -/

theorem Outcome.foldl_emit {α β : Type} (f : List β → α → Outcome (List β))
    (g : α → Option β) (hf : ∀ s a, f s a = .ok (s ++ (g a).toList)) :
    ∀ (l : List α) (s : List β), Outcome.foldl f s l = .ok (s ++ l.filterMap g) := by
  intro l
  induction l with
  | nil => intro s; simp [Outcome.foldl]
  | cons a l ih =>
    intro s
    rw [Outcome.foldl, hf, Outcome.bind, ih]
    cases hg : g a with
    | none => simp [List.filterMap_cons, hg]
    | some b => simp [List.filterMap_cons, hg]

theorem ok_decide_total (P : Prop) [Decidable P] :
    (Outcome.ok (decide P) : Outcome Bool) = .ok true ∨
      (Outcome.ok (decide P) : Outcome Bool) = .ok false := by
  by_cases h : P <;> simp [h]

theorem isTransfer_total (p : Parser) (instr : CompiledInstruction) :
    p.isTransfer instr = .ok true ∨ p.isTransfer instr = .ok false := by
  rw [isTransfer_eq]
  exact ok_decide_total _

theorem isTransferCheck_total (p : Parser) (instr : CompiledInstruction) :
    p.isTransferCheck instr = .ok true ∨ p.isTransferCheck instr = .ok false := by
  rw [isTransferCheck_eq]
  exact ok_decide_total _

/-- No instruction is both a Transfer and a TransferChecked. -/
theorem isTransfer_of_isTransferCheck (p : Parser) (instr : CompiledInstruction)
    (h : p.isTransferCheck instr = .ok true) : p.isTransfer instr = .ok false := by
  rw [isTransferCheck_eq, Outcome.ok.injEq, decide_eq_true_iff] at h
  rw [isTransfer_eq, Outcome.ok.injEq, decide_eq_false_iff_not]
  rintro ⟨-, -, -, -, h3, -⟩
  rw [h.2.2.2.2.1] at h3
  simp at h3

theorem emitsTransfer_of_true (p : Parser) (instr : CompiledInstruction)
    (h : p.isTransfer instr = .ok true) :
    ∃ t, p.processTransfer instr = .ok (some t) ∧ p.emitsTransfer instr = some (.transferData t) := by
  obtain ⟨a0, a1, a2, s, d, a, -, -, -, -, -, -, hp⟩ := processTransfer_of_isTransfer p instr h
  refine ⟨_, hp, ?_⟩
  unfold Parser.emitsTransfer
  rw [if_pos h, hp]

theorem emitsTransfer_of_false (p : Parser) (instr : CompiledInstruction)
    (h : p.isTransfer instr = .ok false) : p.emitsTransfer instr = none := by
  unfold Parser.emitsTransfer
  rw [if_neg (by rw [h]; simp)]

theorem orcaStep_eq (c : Consts) (p : Parser) (swaps : List SwapData)
    (instr : CompiledInstruction) :
    orcaStep c p swaps instr =
      .ok (swaps ++ ((p.emitsTransfer instr).map fun d => (⟨c.ORCA, d⟩ : SwapData)).toList) := by
  unfold orcaStep
  rcases isTransfer_total p instr with h | h
  · obtain ⟨t, hp, he⟩ := emitsTransfer_of_true p instr h
    rw [h, he, hp]
    rfl
  · rw [h, emitsTransfer_of_false p instr h]
    simp [Outcome.bind]

theorem processOrcaSwaps_eq (c : Consts) (p : Parser) (instructionIndex : Nat) :
    p.processOrcaSwaps c instructionIndex =
      .ok ((p.innerUnder instructionIndex).filterMap fun instr =>
        (p.emitsTransfer instr).map fun d => (⟨c.ORCA, d⟩ : SwapData)) := by
  unfold Parser.processOrcaSwaps
  rw [Outcome.foldl_emit _ _ (orcaStep_eq c p)]
  simp

theorem emitsEither_of_check (x : TransferHelpers) (p : Parser) (instr : CompiledInstruction)
    (h : p.isTransferCheck instr = .ok true) :
    p.emitsEither x instr = (x.processTransferCheck p instr).map .transferCheck := by
  unfold Parser.emitsEither Parser.emitsTransferCheck
  rw [if_pos h, emitsTransfer_of_false p instr (isTransfer_of_isTransferCheck p instr h)]
  cases x.processTransferCheck p instr <;> rfl

theorem emitsEither_of_not_check (x : TransferHelpers) (p : Parser)
    (instr : CompiledInstruction) (h : p.isTransferCheck instr = .ok false) :
    p.emitsEither x instr = p.emitsTransfer instr := by
  unfold Parser.emitsEither Parser.emitsTransferCheck
  rw [if_neg (by rw [h]; simp)]

theorem transferStep_eq (tag : SwapType) (x : TransferHelpers) (p : Parser)
    (swaps : List SwapData) (instr : CompiledInstruction) :
    transferStep tag x p swaps instr =
      .ok (swaps ++ ((p.emitsEither x instr).map fun d => (⟨tag, d⟩ : SwapData)).toList) := by
  unfold transferStep
  rcases isTransferCheck_total p instr with hc | hc
  · rw [hc, emitsEither_of_check x p instr hc]
    simp only [Outcome.bind, if_true]
    cases x.processTransferCheck p instr <;> simp
  · rw [hc, emitsEither_of_not_check x p instr hc]
    simp only [Outcome.bind, Bool.false_eq_true, if_false]
    rcases isTransfer_total p instr with h | h
    · obtain ⟨t, hp, he⟩ := emitsTransfer_of_true p instr h
      rw [h, he, hp]
      rfl
    · rw [h, emitsTransfer_of_false p instr h]
      simp

theorem transferTier_eq (tag : SwapType) (x : TransferHelpers) (p : Parser)
    (instructionIndex : Nat) :
    transferTier tag x p instructionIndex =
      .ok ((p.innerUnder instructionIndex).filterMap fun instr =>
        (p.emitsEither x instr).map fun d => (⟨tag, d⟩ : SwapData)) := by
  unfold transferTier
  rw [Outcome.foldl_emit _ _ (transferStep_eq tag x p)]
  simp

theorem raydStep_eq (c : Consts) (x : TransferHelpers) (p : Parser)
    (swaps : List SwapData) (instr : CompiledInstruction) :
    raydStep c x p swaps instr =
      .ok (swaps ++ ((p.emitsEither x instr).map fun d => (⟨c.RAYDIUM, d⟩ : SwapData)).toList) := by
  unfold raydStep
  rcases isTransferCheck_total p instr with hc | hc
  · rw [isTransfer_of_isTransferCheck p instr hc, hc, emitsEither_of_check x p instr hc]
    simp only [Outcome.bind, if_true, Bool.false_eq_true, if_false]
    cases x.processTransferCheck p instr <;> simp
  · rw [hc, emitsEither_of_not_check x p instr hc]
    rcases isTransfer_total p instr with h | h
    · obtain ⟨t, hp, he⟩ := emitsTransfer_of_true p instr h
      rw [h, he, hp]
      rfl
    · rw [h, emitsTransfer_of_false p instr h]
      simp [Outcome.bind]

theorem processRaydSwaps_eq (c : Consts) (x : TransferHelpers) (p : Parser)
    (instructionIndex : Nat) :
    p.processRaydSwaps c x instructionIndex =
      .ok ((p.innerUnder instructionIndex).filterMap fun instr =>
        (p.emitsEither x instr).map fun d => (⟨c.RAYDIUM, d⟩ : SwapData)) := by
  unfold Parser.processRaydSwaps
  rw [Outcome.foldl_emit _ _ (raydStep_eq c x p)]
  simp

theorem collectStep_eq (x : TransferHelpers) (p : Parser) (transfers : List TransferCheck)
    (instr : CompiledInstruction) :
    collectStep x p transfers instr =
      .ok (transfers ++
        (if p.isTransferCheck instr = .ok true then x.processTransferCheck p instr
          else none).toList) := by
  unfold collectStep
  rcases isTransferCheck_total p instr with hc | hc
  · rw [hc]
    simp only [Outcome.bind, if_true]
    cases x.processTransferCheck p instr <;> simp
  · rw [hc]
    simp [Outcome.bind]

theorem collectTransferChecks_eq (x : TransferHelpers) (p : Parser) (instructionIndex : Nat) :
    collectTransferChecks x p instructionIndex =
      .ok ((p.innerUnder instructionIndex).filterMap fun instr =>
        if p.isTransferCheck instr = .ok true then x.processTransferCheck p instr else none) := by
  unfold collectTransferChecks
  rw [Outcome.foldl_emit _ _ (collectStep_eq x p)]
  simp

theorem collectTransferChecks_mem (x : TransferHelpers) (p : Parser) (instructionIndex : Nat)
    (ts : List TransferCheck) (h : collectTransferChecks x p instructionIndex = .ok ts)
    (t : TransferCheck) (ht : t ∈ ts) : ∃ instr, x.processTransferCheck p instr = some t := by
  rw [collectTransferChecks_eq, Outcome.ok.injEq] at h
  subst h
  obtain ⟨instr, -, hi⟩ := List.mem_filterMap.mp ht
  refine ⟨instr, ?_⟩
  split at hi
  · exact hi
  · exact absurd hi (by simp)

/-! ## The instruction tier of the decoders -/

theorem Outcome.foldl_ok {σ α : Type} (f : σ → α → Outcome σ)
    (hf : ∀ s a, ∃ s2, f s a = .ok s2) :
    ∀ (l : List α) (s : σ), ∃ s2, Outcome.foldl f s l = .ok s2 := by
  intro l
  induction l with
  | nil => intro s; exact ⟨s, rfl⟩
  | cons a l ih =>
    intro s
    obtain ⟨s1, h1⟩ := hf s a
    obtain ⟨s2, h2⟩ := ih s1
    exact ⟨s2, by rw [Outcome.foldl, h1]; exact h2⟩

theorem decodeDataText_of_pos (data : List Nat) (h : 0 < data.length) :
    decodeDataText data = some data := by
  unfold decodeDataText
  rw [if_neg (by omega)]

theorem decodeDataText_nil (data : List Nat) (h : data.length = 0) :
    decodeDataText data = none := by
  unfold decodeDataText
  rw [if_pos h]

theorem borshTwoUint64_of_le (bytes : List Nat) (h : 16 ≤ bytes.length) :
    borshTwoUint64 bytes = some (leUint64 bytes, leUint64 (bytes.drop 8)) := by
  unfold borshTwoUint64
  rw [if_neg (by omega)]

theorem parseBoopFunInstruction_eq (instruction : CompiledInstruction) :
    parseBoopFunInstruction instruction =
      if instruction.Data.length < 24 ∨
          instruction.Data.take 8 ≠ BoopFunBuyTokenDiscriminator then none
      else some ⟨leUint64 (instruction.Data.drop 8), leUint64 (instruction.Data.drop 16)⟩ := by
  unfold parseBoopFunInstruction
  by_cases h0 : instruction.Data.length = 0
  · rw [decodeDataText_nil _ h0, if_pos (Or.inl (by omega))]
  · rw [decodeDataText_of_pos _ (by omega)]
    simp only []
    by_cases h24 : instruction.Data.length < 24
    · rw [if_pos h24, if_pos (Or.inl h24)]
    · rw [if_neg h24]
      by_cases hd : instruction.Data.take 8 ≠ BoopFunBuyTokenDiscriminator
      · rw [if_pos hd, if_pos (Or.inr hd)]
      · rw [if_neg hd, if_neg (by rintro (h | h); exact h24 h; exact hd h),
          borshTwoUint64_of_le _ (by rw [List.length_drop]; omega)]
        simp only [List.drop_drop]

theorem parseMeteoraDAMMv2Instruction_eq (instruction : CompiledInstruction) :
    parseMeteoraDAMMv2Instruction instruction =
      if instruction.Data.length < 24 ∨
          instruction.Data.take 8 ≠ MeteoraDAMMv2SwapDiscriminator then none
      else some ⟨leUint64 (instruction.Data.drop 8), leUint64 (instruction.Data.drop 16)⟩ := by
  unfold parseMeteoraDAMMv2Instruction
  by_cases h0 : instruction.Data.length = 0
  · rw [decodeDataText_nil _ h0, if_pos (Or.inl (by omega))]
  · rw [decodeDataText_of_pos _ (by omega)]
    simp only []
    by_cases h8 : instruction.Data.length < 8
    · rw [if_pos h8, if_pos (Or.inl (by omega))]
    · rw [if_neg h8]
      by_cases hd : instruction.Data.take 8 ≠ MeteoraDAMMv2SwapDiscriminator
      · rw [if_pos hd, if_pos (Or.inr hd)]
      · rw [if_neg hd]
        by_cases h16 : (instruction.Data.drop 8).length < 16
        · rw [if_pos h16, if_pos (Or.inl (by rw [List.length_drop] at h16; omega))]
        · rw [if_neg h16, borshTwoUint64_of_le _ (by omega),
            if_neg (by
              rintro (h | h)
              · rw [List.length_drop] at h16; omega
              · exact hd h)]
          simp only [List.drop_drop]

theorem parseMeteoraDBCInstruction_eq (instruction : CompiledInstruction) :
    parseMeteoraDBCInstruction instruction =
      if instruction.Data.length < 24 ∨
          instruction.Data.take 8 ≠ MeteoraDBCSwapDiscriminator then none
      else some ⟨leUint64 (instruction.Data.drop 8), leUint64 (instruction.Data.drop 16)⟩ := by
  unfold parseMeteoraDBCInstruction
  by_cases h0 : instruction.Data.length = 0
  · rw [decodeDataText_nil _ h0, if_pos (Or.inl (by omega))]
  · rw [decodeDataText_of_pos _ (by omega)]
    simp only []
    by_cases h24 : instruction.Data.length < 24
    · rw [if_pos h24, if_pos (Or.inl h24)]
    · rw [if_neg h24]
      by_cases hd : instruction.Data.take 8 ≠ MeteoraDBCSwapDiscriminator
      · rw [if_pos hd, if_pos (Or.inr hd)]
      · rw [if_neg hd, if_neg (by rintro (h | h); exact h24 h; exact hd h),
          borshTwoUint64_of_le _ (by rw [List.length_drop]; omega)]
        simp only [List.drop_drop]

theorem must_of_mintsDecode (x : TransferHelpers) (p : Parser) (hm : x.mintsDecode p)
    (instr : CompiledInstruction) (t : TransferCheck)
    (ht : x.processTransferCheck p instr = some t) (h1 : t.Mint ≠ "Unknown") (h2 : t.Mint ≠ "") :
    ∃ mint, MustPublicKeyFromBase58 t.Mint = some mint := by
  have := hm instr t ht h1 h2
  unfold MustPublicKeyFromBase58
  exact Option.isSome_iff_exists.mp this

theorem enrichBoopFunEventFromTransfers_ok (x : TransferHelpers) (p : Parser)
    (hm : x.mintsDecode p) (event : BoopFunSwapEvent) (instructionIndex : Nat) :
    ∃ e, enrichBoopFunEventFromTransfers x p event instructionIndex = .ok e ∧
      e.BuyAmount = event.BuyAmount ∧ e.AmountOutMin = event.AmountOutMin ∧
      e.IsBuy = event.IsBuy := by
  unfold enrichBoopFunEventFromTransfers
  cases hc : collectTransferChecks x p instructionIndex with
  | error msg => rw [collectTransferChecks_eq] at hc; exact absurd hc (by simp)
  | abort => rw [collectTransferChecks_eq] at hc; exact absurd hc (by simp)
  | ok transfers =>
    simp only [Outcome.bind]
    cases hf : transfers.find? (fun transfer =>
        transfer.Mint ≠ "So11111111111111111111111111111111111111112" ∧
          transfer.Mint ≠ "Unknown" ∧ transfer.Mint ≠ "") with
    | none => exact ⟨event, rfl, rfl, rfl, rfl⟩
    | some transfer =>
      have hmem := List.mem_of_find?_eq_some hf
      have hp := List.find?_some hf
      simp only [decide_eq_true_eq] at hp
      obtain ⟨instr, hi⟩ := collectTransferChecks_mem x p instructionIndex transfers hc _ hmem
      obtain ⟨mint, hmint⟩ := must_of_mintsDecode x p hm instr transfer hi hp.2.1 hp.2.2
      simp only [hmint]
      exact ⟨_, rfl, rfl, rfl, rfl⟩

theorem enrichMeteoraDAMMv2EventFromTransfers_ok (x : TransferHelpers) (p : Parser)
    (hm : x.mintsDecode p) (event : MeteoraDAMMv2SwapEvent) (instructionIndex : Nat) :
    ∃ e, enrichMeteoraDAMMv2EventFromTransfers x p event instructionIndex = .ok e ∧
      e.AmountIn = event.AmountIn ∧ e.MinimumAmountOut = event.MinimumAmountOut := by
  unfold enrichMeteoraDAMMv2EventFromTransfers
  cases hc : collectTransferChecks x p instructionIndex with
  | error msg => rw [collectTransferChecks_eq] at hc; exact absurd hc (by simp)
  | abort => rw [collectTransferChecks_eq] at hc; exact absurd hc (by simp)
  | ok transfers =>
    simp only [Outcome.bind]
    match transfers, hc with
    | [], _ => exact ⟨event, rfl, rfl, rfl⟩
    | [_], _ => exact ⟨event, rfl, rfl, rfl⟩
    | t1 :: t2 :: rest, hc =>
      simp only []
      obtain ⟨i1, hi1⟩ := collectTransferChecks_mem x p instructionIndex _ hc t1 (by simp)
      obtain ⟨i2, hi2⟩ := collectTransferChecks_mem x p instructionIndex _ hc t2 (by simp)
      by_cases h1 : t1.Mint ≠ "Unknown" ∧ t1.Mint ≠ ""
      · obtain ⟨m1, hm1⟩ := must_of_mintsDecode x p hm i1 t1 hi1 h1.1 h1.2
        rw [if_pos h1]
        simp only [hm1]
        by_cases h2 : t2.Mint ≠ "Unknown" ∧ t2.Mint ≠ ""
        · obtain ⟨m2, hm2⟩ := must_of_mintsDecode x p hm i2 t2 hi2 h2.1 h2.2
          rw [if_pos h2]
          simp only [hm2]
          exact ⟨_, rfl, rfl, rfl⟩
        · rw [if_neg h2]
          exact ⟨_, rfl, rfl, rfl⟩
      · rw [if_neg h1]
        simp only []
        by_cases h2 : t2.Mint ≠ "Unknown" ∧ t2.Mint ≠ ""
        · obtain ⟨m2, hm2⟩ := must_of_mintsDecode x p hm i2 t2 hi2 h2.1 h2.2
          rw [if_pos h2]
          simp only [hm2]
          exact ⟨_, rfl, rfl, rfl⟩
        · rw [if_neg h2]
          exact ⟨_, rfl, rfl, rfl⟩

theorem enrichMeteoraDBCEventFromTransfers_ok (x : TransferHelpers) (p : Parser)
    (hm : x.mintsDecode p) (event : MeteoraDBCSwapEvent) (instructionIndex : Nat) :
    ∃ e, enrichMeteoraDBCEventFromTransfers x p event instructionIndex = .ok e ∧
      e.MinimumAmountOut = event.MinimumAmountOut := by
  unfold enrichMeteoraDBCEventFromTransfers
  cases hc : collectTransferChecks x p instructionIndex with
  | error msg => rw [collectTransferChecks_eq] at hc; exact absurd hc (by simp)
  | abort => rw [collectTransferChecks_eq] at hc; exact absurd hc (by simp)
  | ok transfers =>
    simp only [Outcome.bind]
    match transfers, hc with
    | [], _ => exact ⟨event, rfl, rfl⟩
    | [_], _ => exact ⟨event, rfl, rfl⟩
    | t1 :: t2 :: rest, hc =>
      simp only []
      obtain ⟨i1, hi1⟩ := collectTransferChecks_mem x p instructionIndex _ hc t1 (by simp)
      obtain ⟨i2, hi2⟩ := collectTransferChecks_mem x p instructionIndex _ hc t2 (by simp)
      by_cases h1 : t1.Mint ≠ "Unknown" ∧ t1.Mint ≠ ""
      · obtain ⟨m1, hm1⟩ := must_of_mintsDecode x p hm i1 t1 hi1 h1.1 h1.2
        rw [if_pos h1]
        simp only [hm1]
        by_cases h2 : t2.Mint ≠ "Unknown" ∧ t2.Mint ≠ ""
        · obtain ⟨m2, hm2⟩ := must_of_mintsDecode x p hm i2 t2 hi2 h2.1 h2.2
          rw [if_pos h2]
          simp only [hm2]
          exact ⟨_, rfl, rfl⟩
        · rw [if_neg h2]
          exact ⟨_, rfl, rfl⟩
      · rw [if_neg h1]
        simp only []
        by_cases h2 : t2.Mint ≠ "Unknown" ∧ t2.Mint ≠ ""
        · obtain ⟨m2, hm2⟩ := must_of_mintsDecode x p hm i2 t2 hi2 h2.1 h2.2
          rw [if_pos h2]
          simp only [hm2]
          exact ⟨_, rfl, rfl⟩
        · rw [if_neg h2]
          exact ⟨_, rfl, rfl⟩

theorem parseMeteoraDBCEventLoop_none (c : Consts) (p : Parser)
    (l : List CompiledInstruction) : parseMeteoraDBCEventLoop c p l = .ok none := by
  induction l with
  | nil => rfl
  | cons instr l ih =>
    unfold parseMeteoraDBCEventLoop
    rw [isMeteoraDBCEventInstruction_eq, ih]
    simp only [Outcome.bind]
    split <;> rfl

/-! ## The decoders by tier -/

theorem indexAt_of_getElem? {α : Type} (xs : List α) (i : Nat) (a : α) (h : xs[i]? = some a) :
    indexAt xs i = .ok a := by
  unfold indexAt
  rw [h]

theorem lt_length_of_getElem? {α : Type} (xs : List α) (i : Nat) (a : α) (h : xs[i]? = some a) :
    i < xs.length := by
  by_contra hlt
  rw [List.getElem?_eq_none (by omega)] at h
  exact absurd h (by simp)

theorem processBoopFunSwaps_transfers (c : Consts) (x : TransferHelpers) (p : Parser)
    (instructionIndex : Nat) (mainInstruction : CompiledInstruction) (programID : PublicKey)
    (hmain : p.txInfo.Instructions[instructionIndex]? = some mainInstruction)
    (hprog : p.allAccountKeys[mainInstruction.ProgramIDIndex]? = some programID)
    (hfail : programID ≠ c.BOOPFUN_PROGRAM_ID ∨ mainInstruction.Data.length < 24 ∨
      mainInstruction.Data.take 8 ≠ BoopFunBuyTokenDiscriminator) :
    p.processBoopFunSwaps c x instructionIndex =
      .ok ((p.innerUnder instructionIndex).filterMap fun instr =>
        (p.emitsEither x instr).map fun d => (⟨c.BOOPFUN, d⟩ : SwapData)) := by
  unfold Parser.processBoopFunSwaps
  rw [indexAt_of_getElem? _ _ _ hmain, Outcome.bind, indexAt_of_getElem? _ _ _ hprog,
    Outcome.bind, parseBoopFunInstruction_eq]
  have hnone : (if programID = c.BOOPFUN_PROGRAM_ID then
      (if mainInstruction.Data.length < 24 ∨
          mainInstruction.Data.take 8 ≠ BoopFunBuyTokenDiscriminator then none
        else some (⟨leUint64 (mainInstruction.Data.drop 8),
          leUint64 (mainInstruction.Data.drop 16)⟩ : BoopFunInstructionData))
      else none) = none := by
    rcases hfail with h | h
    · rw [if_neg h]
    · rw [if_pos h]; split <;> rfl
  rw [hnone]
  exact transferTier_eq c.BOOPFUN x p instructionIndex

theorem processBoopFunSwaps_event (c : Consts) (x : TransferHelpers) (p : Parser)
    (instructionIndex : Nat) (mainInstruction : CompiledInstruction)
    (hmain : p.txInfo.Instructions[instructionIndex]? = some mainInstruction)
    (hprog : p.allAccountKeys[mainInstruction.ProgramIDIndex]? = some c.BOOPFUN_PROGRAM_ID)
    (hok : ¬ (mainInstruction.Data.length < 24 ∨
      mainInstruction.Data.take 8 ≠ BoopFunBuyTokenDiscriminator))
    (hm : x.mintsDecode p) :
    ∃ e, p.processBoopFunSwaps c x instructionIndex = .ok [⟨c.BOOPFUN, .boopFun e⟩] ∧
      e.BuyAmount = leUint64 (mainInstruction.Data.drop 8) ∧
      e.AmountOutMin = leUint64 (mainInstruction.Data.drop 16) ∧ e.IsBuy = true := by
  unfold Parser.processBoopFunSwaps
  rw [indexAt_of_getElem? _ _ _ hmain, Outcome.bind, indexAt_of_getElem? _ _ _ hprog,
    Outcome.bind, parseBoopFunInstruction_eq, if_pos rfl, if_neg hok]
  simp only []
  obtain ⟨e, he, h1, h2, h3⟩ := enrichBoopFunEventFromTransfers_ok x p hm
    { BuyAmount := leUint64 (mainInstruction.Data.drop 8)
      AmountOutMin := leUint64 (mainInstruction.Data.drop 16)
      TokenOut := 0
      TokenMint := PublicKey.zero
      TokenDecimals := 0
      IsBuy := true } instructionIndex
  rw [he]
  exact ⟨e, rfl, h1, h2, h3⟩

theorem processMeteoraDAMMv2Swaps_transfers (c : Consts) (x : TransferHelpers) (p : Parser)
    (instructionIndex : Nat) (mainInstruction : CompiledInstruction) (programID : PublicKey)
    (hmain : p.txInfo.Instructions[instructionIndex]? = some mainInstruction)
    (hprog : p.allAccountKeys[mainInstruction.ProgramIDIndex]? = some programID)
    (hfail : programID ≠ c.METEORA_DAMM_V2_PROGRAM_ID ∨ mainInstruction.Data.length < 24 ∨
      mainInstruction.Data.take 8 ≠ MeteoraDAMMv2SwapDiscriminator) :
    p.processMeteoraDAMMv2Swaps c x instructionIndex =
      .ok ((p.innerUnder instructionIndex).filterMap fun instr =>
        (p.emitsEither x instr).map fun d => (⟨c.METEORA, d⟩ : SwapData)) := by
  unfold Parser.processMeteoraDAMMv2Swaps
  have hlt := lt_length_of_getElem? _ _ _ hprog
  rw [indexAt_of_getElem? _ _ _ hmain, Outcome.bind, if_neg (by omega),
    indexAt_of_getElem? _ _ _ hprog, Outcome.bind, parseMeteoraDAMMv2Instruction_eq]
  have hnone : (if programID = c.METEORA_DAMM_V2_PROGRAM_ID then
      (if mainInstruction.Data.length < 24 ∨
          mainInstruction.Data.take 8 ≠ MeteoraDAMMv2SwapDiscriminator then none
        else some (⟨leUint64 (mainInstruction.Data.drop 8),
          leUint64 (mainInstruction.Data.drop 16)⟩ : MeteoraDAMMv2InstructionData))
      else none) = none := by
    rcases hfail with h | h
    · rw [if_neg h]
    · rw [if_pos h]; split <;> rfl
  rw [hnone]
  exact transferTier_eq c.METEORA x p instructionIndex

theorem processMeteoraDAMMv2Swaps_event (c : Consts) (x : TransferHelpers) (p : Parser)
    (instructionIndex : Nat) (mainInstruction : CompiledInstruction)
    (hmain : p.txInfo.Instructions[instructionIndex]? = some mainInstruction)
    (hprog : p.allAccountKeys[mainInstruction.ProgramIDIndex]? =
      some c.METEORA_DAMM_V2_PROGRAM_ID)
    (hok : ¬ (mainInstruction.Data.length < 24 ∨
      mainInstruction.Data.take 8 ≠ MeteoraDAMMv2SwapDiscriminator))
    (hm : x.mintsDecode p) :
    ∃ e, p.processMeteoraDAMMv2Swaps c x instructionIndex =
        .ok [⟨c.METEORA, .meteoraDAMMv2 e⟩] ∧
      e.AmountIn = leUint64 (mainInstruction.Data.drop 8) ∧
      e.MinimumAmountOut = leUint64 (mainInstruction.Data.drop 16) := by
  unfold Parser.processMeteoraDAMMv2Swaps
  have hlt := lt_length_of_getElem? _ _ _ hprog
  rw [indexAt_of_getElem? _ _ _ hmain, Outcome.bind, if_neg (by omega),
    indexAt_of_getElem? _ _ _ hprog, Outcome.bind, parseMeteoraDAMMv2Instruction_eq,
    if_pos rfl, if_neg hok]
  simp only []
  obtain ⟨e, he, h1, h2⟩ := enrichMeteoraDAMMv2EventFromTransfers_ok x p hm
    { AmountIn := leUint64 (mainInstruction.Data.drop 8)
      MinimumAmountOut := leUint64 (mainInstruction.Data.drop 16)
      Direction := 0
      TokenInMint := PublicKey.zero
      TokenInDecimals := 0
      TokenOutMint := PublicKey.zero
      TokenOutDecimals := 0
      ActualAmountOut := 0 } instructionIndex
  rw [he]
  exact ⟨e, rfl, h1, h2⟩

theorem processMeteoraDBCSwaps_transfers (c : Consts) (x : TransferHelpers) (p : Parser)
    (instructionIndex : Nat) (mainInstruction : CompiledInstruction) (programID : PublicKey)
    (hmain : p.txInfo.Instructions[instructionIndex]? = some mainInstruction)
    (hprog : p.allAccountKeys[mainInstruction.ProgramIDIndex]? = some programID)
    (hfail : programID ≠ c.METEORA_DBC_PROGRAM_ID ∨ mainInstruction.Data.length < 24 ∨
      mainInstruction.Data.take 8 ≠ MeteoraDBCSwapDiscriminator) :
    p.processMeteoraDBCSwaps c x instructionIndex =
      .ok ((p.innerUnder instructionIndex).filterMap fun instr =>
        (p.emitsEither x instr).map fun d => (⟨c.METEORA, d⟩ : SwapData)) := by
  unfold Parser.processMeteoraDBCSwaps
  have hlt := lt_length_of_getElem? _ _ _ hprog
  rw [indexAt_of_getElem? _ _ _ hmain, Outcome.bind, if_neg (by omega),
    indexAt_of_getElem? _ _ _ hprog, Outcome.bind]
  by_cases hp : programID = c.METEORA_DBC_PROGRAM_ID
  · rw [if_pos hp]
    unfold Parser.parseMeteoraDBCEvent
    rw [parseMeteoraDBCEventLoop_none, Outcome.bind, parseMeteoraDBCInstruction_eq]
    simp only []
    rcases hfail with h | h
    · exact absurd hp h
    · rw [if_pos h]
      exact transferTier_eq c.METEORA x p instructionIndex
  · rw [if_neg hp]
    exact transferTier_eq c.METEORA x p instructionIndex

theorem processMeteoraDBCSwaps_event (c : Consts) (x : TransferHelpers) (p : Parser)
    (instructionIndex : Nat) (mainInstruction : CompiledInstruction)
    (hmain : p.txInfo.Instructions[instructionIndex]? = some mainInstruction)
    (hprog : p.allAccountKeys[mainInstruction.ProgramIDIndex]? = some c.METEORA_DBC_PROGRAM_ID)
    (hok : ¬ (mainInstruction.Data.length < 24 ∨
      mainInstruction.Data.take 8 ≠ MeteoraDBCSwapDiscriminator))
    (hm : x.mintsDecode p) :
    ∃ e, p.processMeteoraDBCSwaps c x instructionIndex = .ok [⟨c.METEORA, .meteoraDBC e⟩] ∧
      e.MinimumAmountOut = leUint64 (mainInstruction.Data.drop 16) := by
  unfold Parser.processMeteoraDBCSwaps
  have hlt := lt_length_of_getElem? _ _ _ hprog
  rw [indexAt_of_getElem? _ _ _ hmain, Outcome.bind, if_neg (by omega),
    indexAt_of_getElem? _ _ _ hprog, Outcome.bind, if_pos rfl]
  unfold Parser.parseMeteoraDBCEvent
  rw [parseMeteoraDBCEventLoop_none, Outcome.bind, parseMeteoraDBCInstruction_eq, if_neg hok]
  simp only []
  obtain ⟨e, he, h1⟩ := enrichMeteoraDBCEventFromTransfers_ok x p hm
    (dbcEventOfInstruction ⟨leUint64 (mainInstruction.Data.drop 8),
      leUint64 (mainInstruction.Data.drop 16)⟩) instructionIndex
  rw [he]
  exact ⟨e, rfl, h1⟩

/-! ### Raydium LaunchLab -/

theorem parseRaydiumLaunchLabInstruction_eq (instruction : CompiledInstruction) :
    parseRaydiumLaunchLabInstruction instruction =
      if instruction.Data.length < 32 ∨
          (instruction.Data.take 8 ≠ RaydiumLaunchLabBuyEventDiscriminator ∧
            instruction.Data.take 8 ≠ RaydiumLaunchLabSellEventDiscriminator) then none
      else
        some (⟨leUint64 (instruction.Data.drop 8), leUint64 (instruction.Data.drop 16),
            leUint64 (instruction.Data.drop 24)⟩,
          decide (instruction.Data.take 8 = RaydiumLaunchLabBuyEventDiscriminator)) := by
  unfold parseRaydiumLaunchLabInstruction
  by_cases h0 : instruction.Data.length = 0
  · rw [decodeDataText_nil _ h0, if_pos (Or.inl (by omega))]
  · rw [decodeDataText_of_pos _ (by omega)]
    simp only []
    by_cases h32 : instruction.Data.length < 32
    · rw [if_pos h32, if_pos (Or.inl h32)]
    · rw [if_neg h32]
      by_cases hd : instruction.Data.take 8 ≠ RaydiumLaunchLabBuyEventDiscriminator ∧
          instruction.Data.take 8 ≠ RaydiumLaunchLabSellEventDiscriminator
      · have hb : (!decide (instruction.Data.take 8 = RaydiumLaunchLabBuyEventDiscriminator) &&
            !decide (instruction.Data.take 8 = RaydiumLaunchLabSellEventDiscriminator)) =
              true := by
          simp only [Bool.and_eq_true, Bool.not_eq_true', decide_eq_false_iff_not]
          exact hd
        have hr : instruction.Data.length < 32 ∨
            (instruction.Data.take 8 ≠ RaydiumLaunchLabBuyEventDiscriminator ∧
              instruction.Data.take 8 ≠ RaydiumLaunchLabSellEventDiscriminator) := Or.inr hd
        rw [if_pos hb, if_pos hr]
      · have hb : ¬ ((!decide (instruction.Data.take 8 = RaydiumLaunchLabBuyEventDiscriminator) &&
            !decide (instruction.Data.take 8 = RaydiumLaunchLabSellEventDiscriminator)) =
              true) := by
          simp only [Bool.and_eq_true, Bool.not_eq_true', decide_eq_false_iff_not]
          exact hd
        have hr : ¬ (instruction.Data.length < 32 ∨
            (instruction.Data.take 8 ≠ RaydiumLaunchLabBuyEventDiscriminator ∧
              instruction.Data.take 8 ≠ RaydiumLaunchLabSellEventDiscriminator)) := by
          rintro (h | h)
          · exact h32 h
          · exact hd h
        rw [if_neg hb, if_neg hr]
        unfold borshThreeUint64
        rw [if_neg (by rw [List.length_drop]; omega)]
        simp only [List.drop_drop]

theorem launchLabAmountStep_ok (x : TransferHelpers) (p : Parser) (hm : x.mintsDecode p)
    (st : LaunchLabAmounts) (instr : CompiledInstruction) :
    ∃ st2, launchLabAmountStep x p st instr = .ok st2 := by
  unfold launchLabAmountStep
  rcases isTransferCheck_total p instr with hc | hc
  · rw [hc]
    simp only [Outcome.bind, if_true]
    cases ht : x.processTransferCheck p instr with
    | none => exact ⟨st, rfl⟩
    | some t =>
      simp only []
      by_cases hs : t.Mint = PublicKey.String NATIVE_SOL_MINT_PROGRAM_ID
      · rw [if_pos hs]; exact ⟨_, rfl⟩
      · rw [if_neg hs]
        by_cases hu : t.Mint ≠ "Unknown" ∧ t.Mint ≠ ""
        · rw [if_pos hu]
          obtain ⟨mint, hmint⟩ := must_of_mintsDecode x p hm instr t ht hu.1 hu.2
          simp only [hmint]
          exact ⟨_, rfl⟩
        · rw [if_neg hu]; exact ⟨_, rfl⟩
  · rw [hc]
    exact ⟨st, by simp [Outcome.bind]⟩

theorem applyLaunchLabAmounts_frame (event : RaydiumLaunchLabBuyEvent) (st : LaunchLabAmounts) :
    (applyLaunchLabAmounts event st).PoolState = event.PoolState ∧
    (applyLaunchLabAmounts event st).MinimumAmountOut = event.MinimumAmountOut ∧
    (applyLaunchLabAmounts event st).ShareFee = event.ShareFee ∧
    (applyLaunchLabAmounts event st).IsBuy = event.IsBuy := by
  unfold applyLaunchLabAmounts
  simp only []
  refine ⟨?_, ?_, ?_, ?_⟩ <;> (repeat' split) <;> rfl

theorem processRaydiumLaunchLabSwaps_instruction (c : Consts) (x : TransferHelpers)
    (p : Parser) (instructionIndex : Nat) (mainInstruction : CompiledInstruction)
    (hmain : p.txInfo.Instructions[instructionIndex]? = some mainInstruction)
    (hok : ¬ (mainInstruction.Data.length < 32 ∨
      (mainInstruction.Data.take 8 ≠ RaydiumLaunchLabBuyEventDiscriminator ∧
        mainInstruction.Data.take 8 ≠ RaydiumLaunchLabSellEventDiscriminator)))
    (hm : x.mintsDecode p) :
    ∃ e, p.processRaydiumLaunchLabSwaps c x instructionIndex =
        .ok [⟨c.RAYDIUM_LAUNCHLAB, .raydiumLaunchLab e⟩] ∧
      e.PoolState = PublicKey.zero ∧
      e.MinimumAmountOut = leUint64 (mainInstruction.Data.drop 16) ∧
      e.ShareFee = leUint64 (mainInstruction.Data.drop 24) ∧
      e.IsBuy = decide (mainInstruction.Data.take 8 = RaydiumLaunchLabBuyEventDiscriminator) := by
  unfold Parser.processRaydiumLaunchLabSwaps
  rw [indexAt_of_getElem? _ _ _ hmain, Outcome.bind, parseRaydiumLaunchLabInstruction_eq,
    if_neg hok]
  simp only []
  unfold enrichRaydiumLaunchLabEventFromTransfers
  obtain ⟨st, hst⟩ := Outcome.foldl_ok (launchLabAmountStep x p)
    (launchLabAmountStep_ok x p hm) (p.innerUnder instructionIndex) ⟨0, 0, PublicKey.zero, 6⟩
  rw [hst]
  simp only [Outcome.bind]
  obtain ⟨h1, h2, h3, h4⟩ := applyLaunchLabAmounts_frame
    (launchLabEventOfInstruction ⟨leUint64 (mainInstruction.Data.drop 8),
      leUint64 (mainInstruction.Data.drop 16), leUint64 (mainInstruction.Data.drop 24)⟩
      (decide (mainInstruction.Data.take 8 = RaydiumLaunchLabBuyEventDiscriminator))) st
  exact ⟨_, rfl, h1, h2, h3, h4⟩

theorem processRaydiumLaunchLabSwaps_events (c : Consts) (x : TransferHelpers)
    (p : Parser) (instructionIndex : Nat) (mainInstruction : CompiledInstruction)
    (hmain : p.txInfo.Instructions[instructionIndex]? = some mainInstruction)
    (hfail : mainInstruction.Data.length < 32 ∨
      (mainInstruction.Data.take 8 ≠ RaydiumLaunchLabBuyEventDiscriminator ∧
        mainInstruction.Data.take 8 ≠ RaydiumLaunchLabSellEventDiscriminator)) :
    p.processRaydiumLaunchLabSwaps c x instructionIndex =
      (Outcome.foldl (launchLabEventStep c p instructionIndex) []
        (p.innerUnder instructionIndex)).bind fun swaps =>
        if swaps.length = 0 then
          .ok ((p.innerUnder instructionIndex).filterMap fun instr =>
            (p.emitsEither x instr).map fun d => (⟨c.RAYDIUM_LAUNCHLAB, d⟩ : SwapData))
        else .ok swaps := by
  unfold Parser.processRaydiumLaunchLabSwaps
  rw [indexAt_of_getElem? _ _ _ hmain, Outcome.bind, parseRaydiumLaunchLabInstruction_eq,
    if_pos hfail]
  simp only []
  unfold Parser.processRaydiumLaunchLabTransfers
  rw [transferTier_eq]

/-! ## The dispatcher without a skipping instruction, and the router wrappers -/

theorem pass2Step_eq (c : Consts) (d : Decoders) (p : Parser) (parsedSwaps : List SwapData)
    (io : Nat × CompiledInstruction) :
    pass2Step c d p parsedSwaps io = parsedSwaps ++ pass2Output c d p io := by
  unfold pass2Step pass2Output
  simp only []
  generalize p.keyAt io.2.ProgramIDIndex = g
  split
  · simp
  · repeat' split
    all_goals simp

theorem pass2_foldl (c : Consts) (d : Decoders) (p : Parser)
    (l : List (Nat × CompiledInstruction)) : ∀ st : List SwapData,
    l.foldl (pass2Step c d p) st = st ++ (l.map (pass2Output c d p)).flatten := by
  induction l with
  | nil => intro st; simp
  | cons io l ih =>
    intro st
    rw [List.foldl_cons, pass2Step_eq, ih]
    simp

theorem pass1Step_noskip (c : Consts) (d : Decoders) (p : Parser)
    (st : Bool × List SwapData) (io : Nat × CompiledInstruction)
    (h : ¬ (io.2.ProgramIDIndex < p.allAccountKeys.length ∧
      isSkipProgram c (p.keyAt io.2.ProgramIDIndex) = true)) :
    pass1Step c d p st io = (st.1, st.2 ++ routerOutput c d p io) := by
  unfold pass1Step routerOutput
  simp only []
  by_cases hr : io.2.ProgramIDIndex ≥ p.allAccountKeys.length
  · rw [if_pos hr, if_pos hr]
    simp
  · rw [if_neg hr, if_neg hr]
    have hs : ¬ isSkipProgram c (p.keyAt io.2.ProgramIDIndex) = true := by
      intro hs; exact h ⟨by omega, hs⟩
    unfold isSkipProgram at hs
    unfold isRouterWrapper
    generalize p.keyAt io.2.ProgramIDIndex = g at hs ⊢
    simp only [decide_eq_true_eq, not_or] at hs
    obtain ⟨h1, h2, h3, h4⟩ := hs
    rw [if_neg h1, if_neg h2, if_neg h3]
    by_cases hw : g = c.BANANA_GUN_PROGRAM_ID ∨ g = c.MINTECH_PROGRAM_ID ∨
        g = c.BLOOM_PROGRAM_ID ∨ g = c.NOVA_PROGRAM_ID ∨ g = c.MAESTRO_PROGRAM_ID
    · rw [if_pos hw, if_pos (by simpa using hw)]
    · rw [if_neg hw, if_neg h4, if_neg (by simpa using hw)]
      simp

theorem pass1_foldl_noskip (c : Consts) (d : Decoders) (p : Parser)
    (l : List (Nat × CompiledInstruction))
    (h : ∀ io ∈ l, ¬ (io.2.ProgramIDIndex < p.allAccountKeys.length ∧
      isSkipProgram c (p.keyAt io.2.ProgramIDIndex) = true)) :
    ∀ st : Bool × List SwapData,
    l.foldl (pass1Step c d p) st = (st.1, st.2 ++ (l.map (routerOutput c d p)).flatten) := by
  induction l with
  | nil => intro st; simp
  | cons io l ih =>
    intro st
    rw [List.foldl_cons, pass1Step_noskip c d p st io (h io (List.mem_cons_self _ _)),
      ih (fun io2 hio2 => h io2 (List.mem_cons_of_mem _ hio2))]
    simp

theorem ParseTransaction_noskip (c : Consts) (d : Decoders) (p : Parser)
    (hns : ¬ hasSkippingInstruction c p) :
    ParseTransaction c d p =
      (p.txInfo.Instructions.enum.map (routerOutput c d p)).flatten ++
        (p.txInfo.Instructions.enum.map (pass2Output c d p)).flatten := by
  have hall : ∀ io ∈ p.txInfo.Instructions.enum,
      ¬ (io.2.ProgramIDIndex < p.allAccountKeys.length ∧
        isSkipProgram c (p.keyAt io.2.ProgramIDIndex) = true) := by
    intro io hio hc
    apply hns
    refine ⟨io.2, ?_, hc.1, hc.2⟩
    have := List.mem_map_of_mem Prod.snd hio
    rwa [List.enum_map_snd] at this
  unfold ParseTransaction
  simp only []
  rw [pass1_foldl_noskip c d p _ hall]
  simp only [Bool.false_eq_true, if_false, List.nil_append]
  rw [pass2_foldl]

theorem mem_raydiumRouterIDs (c : Consts) (g : PublicKey) :
    g ∈ c.raydiumRouterIDs ↔
      (g = c.RAYDIUM_V4_PROGRAM_ID ∨ g = c.RAYDIUM_CPMM_PROGRAM_ID ∨
        g = c.RAYDIUM_AMM_PROGRAM_ID ∨ g = c.RAYDIUM_CONCENTRATED_LIQUIDITY_PROGRAM_ID) := by
  simp [Consts.raydiumRouterIDs]

theorem mem_meteoraRouterIDs (c : Consts) (g : PublicKey) :
    g ∈ c.meteoraRouterIDs ↔
      (g = c.METEORA_PROGRAM_ID ∨ g = c.METEORA_POOLS_PROGRAM_ID ∨
        g = c.METEORA_DLMM_PROGRAM_ID ∨ g = c.METEORA_DAMM_V2_PROGRAM_ID ∨
        g = c.METEORA_DBC_PROGRAM_ID) := by
  simp [Consts.meteoraRouterIDs]

theorem mem_pumpfunRouterIDs (c : Consts) (g : PublicKey) :
    g ∈ c.pumpfunRouterIDs ↔
      (g = c.PUMPFUN_AMM_PROGRAM_ID ∨ g = c.PUMP_FUN_PROGRAM_ID ∨
        g = PUMP_FUN_LEGACY_PROGRAM_ID) := by
  simp [Consts.pumpfunRouterIDs]

theorem familiesDisjoint_spec (c : Consts) (hdis : c.familiesDisjoint) :
    (∀ a ∈ c.raydiumRouterIDs,
      a ∉ c.ORCA_PROGRAM_ID :: (c.meteoraRouterIDs ++ c.pumpfunRouterIDs)) ∧
    c.ORCA_PROGRAM_ID ∉ c.meteoraRouterIDs ++ c.pumpfunRouterIDs ∧
    ∀ a ∈ c.meteoraRouterIDs, a ∉ c.pumpfunRouterIDs := by
  unfold Consts.familiesDisjoint Consts.familiesDisjointCheck at hdis
  simp only [Bool.and_eq_true, List.all_eq_true, decide_eq_true_eq] at hdis
  obtain ⟨⟨h1, h2⟩, h3⟩ := hdis
  refine ⟨?_, ?_, ?_⟩
  · intro a ha hmem
    exact h1 a ha a hmem rfl
  · intro hmem
    exact h2 _ hmem rfl
  · intro a ha hmem
    exact h3 a ha a hmem rfl

theorem routerStep_eq (c : Consts) (d : Decoders) (p : Parser) (hdis : c.familiesDisjoint)
    (instructionIndex : Nat) (st : List SwapData × List String) (inner : CompiledInstruction) :
    routerStep c d p instructionIndex st inner =
      match routerCall c d p instructionIndex inner with
      | none => st
      | some (family, out) => if family ∈ st.2 then st else (st.1 ++ out, family :: st.2) := by
  obtain ⟨hR, hO, hM⟩ := familiesDisjoint_spec c hdis
  unfold routerStep routerCall
  simp only []
  by_cases hr : inner.ProgramIDIndex ≥ p.allAccountKeys.length
  · rw [if_pos hr, if_pos hr]
  rw [if_neg hr, if_neg hr]
  generalize p.keyAt inner.ProgramIDIndex = g
  by_cases h1 : g ∈ c.raydiumRouterIDs
  · have hno := hR g h1
    simp only [List.mem_cons, List.mem_append, not_or] at hno
    obtain ⟨hno1, hno2, hno3⟩ := hno
    rw [mem_meteoraRouterIDs] at hno2
    rw [mem_pumpfunRouterIDs] at hno3
    rw [if_pos h1]
    simp only []
    rw [mem_raydiumRouterIDs] at h1
    by_cases hs : PROTOCOL_RAYDIUM ∈ st.2
    · rw [if_pos hs, if_neg (by tauto), if_neg (by tauto), if_neg (by tauto),
        if_neg (by tauto), if_neg (by tauto)]
    · rw [if_neg hs, if_pos ⟨h1, hs⟩]
  · rw [if_neg h1]
    rw [mem_raydiumRouterIDs] at h1
    rw [if_neg (by tauto)]
    by_cases h2 : g = c.ORCA_PROGRAM_ID
    · have hno : g ∉ c.meteoraRouterIDs ++ c.pumpfunRouterIDs := by rw [h2]; exact hO
      simp only [List.mem_append, not_or] at hno
      obtain ⟨hno2, hno3⟩ := hno
      rw [mem_meteoraRouterIDs] at hno2
      rw [mem_pumpfunRouterIDs] at hno3
      rw [if_pos h2]
      simp only []
      by_cases hs : PROTOCOL_ORCA ∈ st.2
      · rw [if_pos hs, if_neg (by tauto), if_neg (by tauto), if_neg (by tauto),
          if_neg (by tauto)]
      · rw [if_neg hs, if_pos ⟨h2, hs⟩]
    · rw [if_neg h2, if_neg (by tauto)]
      by_cases h3 : g ∈ c.meteoraRouterIDs
      · have hno3 := hM g h3
        rw [mem_pumpfunRouterIDs] at hno3
        rw [if_pos h3]
        simp only []
        rw [mem_meteoraRouterIDs] at h3
        by_cases hs : PROTOCOL_METEORA ∈ st.2
        · rw [if_pos hs, if_neg (by tauto), if_neg (by tauto), if_neg (by tauto)]
        · rw [if_neg hs, if_pos ⟨h3, hs⟩]
      · rw [if_neg h3]
        rw [mem_meteoraRouterIDs] at h3
        rw [if_neg (by tauto)]
        by_cases h4 : g = c.PUMPFUN_AMM_PROGRAM_ID
        · rw [if_pos h4]
          simp only []
          by_cases hs : PROTOCOL_PUMPFUN ∈ st.2
          · rw [if_pos hs, if_neg (by tauto), if_neg (by tauto)]
          · rw [if_neg hs, if_pos ⟨h4, hs⟩]
        · rw [if_neg h4, if_neg (by tauto)]
          by_cases h5 : g = c.PUMP_FUN_PROGRAM_ID ∨ g = PUMP_FUN_LEGACY_PROGRAM_ID
          · rw [if_pos h5]
            simp only []
            by_cases hs : PROTOCOL_PUMPFUN ∈ st.2
            · rw [if_pos hs, if_neg (by tauto)]
            · rw [if_neg hs, if_pos ⟨h5, hs⟩]
          · rw [if_neg h5, if_neg (by tauto)]

theorem router_foldl (c : Consts) (d : Decoders) (p : Parser) (hdis : c.familiesDisjoint)
    (instructionIndex : Nat) (l : List CompiledInstruction) :
    ∀ st : List SwapData × List String,
    (l.foldl (routerStep c d p instructionIndex) st).1 =
      st.1 ++ (((firstSeen (fun e : String × List SwapData => e.1)
        (l.filterMap (routerCall c d p instructionIndex))).filter
          (fun e => decide (e.1 ∉ st.2))).map (fun e => e.2)).flatten := by
  induction l with
  | nil => intro st; simp [firstSeen]
  | cons inner l ih =>
    intro st
    rw [List.foldl_cons]
    cases hcall : routerCall c d p instructionIndex inner with
    | none =>
      have hstep : routerStep c d p instructionIndex st inner = st := by
        rw [routerStep_eq c d p hdis, hcall]
      rw [hstep, ih]
      simp only [List.filterMap_cons, hcall]
    | some e =>
      obtain ⟨family, out⟩ := e
      simp only [List.filterMap_cons, hcall, firstSeen]
      by_cases hs : family ∈ st.2
      · have hstep : routerStep c d p instructionIndex st inner = st := by
          rw [routerStep_eq c d p hdis, hcall]
          simp only []
          rw [if_pos hs]
        rw [hstep, ih, List.filter_cons_of_neg (by simpa using hs), List.filter_filter]
        congr 3
        apply List.filter_congr
        intro e2 _
        by_cases he : e2.1 = family
        · simp [he, hs]
        · simp [he]
      · have hstep : routerStep c d p instructionIndex st inner =
            (st.1 ++ out, family :: st.2) := by
          rw [routerStep_eq c d p hdis, hcall]
          simp only []
          rw [if_neg hs]
        rw [hstep, ih, List.filter_cons_of_pos (by simpa using hs), List.filter_filter]
        simp only [List.map_cons, List.flatten_cons, List.append_assoc]
        congr 4
        apply List.filter_congr
        intro e2 _
        by_cases he : e2.1 = family
        · simp [he]
        · simp [he]

theorem processRouterSwaps_eq (c : Consts) (d : Decoders) (p : Parser)
    (hdis : c.familiesDisjoint) (instructionIndex : Nat) :
    processRouterSwaps c d p instructionIndex =
      ((firstSeen (fun e : String × List SwapData => e.1)
        ((p.getInnerInstructions instructionIndex).filterMap
          (routerCall c d p instructionIndex))).map (fun e => e.2)).flatten := by
  unfold processRouterSwaps
  simp only []
  by_cases h0 : (p.getInnerInstructions instructionIndex).length = 0
  · rw [if_pos h0, List.eq_nil_of_length_eq_zero h0]
    simp [firstSeen]
  · rw [if_neg h0, router_foldl c d p hdis]
    simp

/-! ## Recognised transfers and the token-account index; the constructors -/

theorem movesAccount_of_accounts (p : Parser) (instr : CompiledInstruction)
    (a0 a1 : Nat) (k0 k1 : PublicKey)
    (hprog : p.allAccountKeys[instr.ProgramIDIndex]? = some TokenProgramID)
    (hop : instr.Data[0]? = some 3 ∨ instr.Data[0]? = some 12)
    (h3 : 3 ≤ instr.Accounts.length)
    (ha0 : instr.Accounts[0]? = some a0) (ha1 : instr.Accounts[1]? = some a1)
    (hk0 : p.allAccountKeys[a0]? = some k0) (hk1 : p.allAccountKeys[a1]? = some k1) :
    p.movesAccount instr (PublicKey.String k0) = true ∧
      p.movesAccount instr (PublicKey.String k1) = true := by
  unfold Parser.movesAccount
  simp only [hprog, hop, h3, ha0, ha1, hk0, hk1, decide_True, Bool.and_self, true_or, or_true]
  exact ⟨trivial, trivial⟩

theorem index_isSome_of_moves (p : Parser) (k : String) (instr : CompiledInstruction)
    (hmem : instr ∈ p.allInstructions) (h : p.movesAccount instr k = true) :
    (p.extractSPLTokenInfo.splTokenInfoMap k).isSome = true := by
  rw [extractSPLTokenInfo_apply]
  cases (p.balancesOf k).getLast? with
  | some b => rfl
  | none =>
    simp only []
    rw [if_pos (List.any_eq_true.mpr ⟨instr, hmem, h⟩)]
    rfl

/-- The first two accounts of a recognised Transfer, and of a recognised TransferChecked of
the SPL Token program, are keys of the token map. -/
theorem recognised_accounts_indexed (p : Parser) (instr : CompiledInstruction)
    (hmem : instr ∈ p.allInstructions)
    (h : p.isTransfer instr = .ok true ∨
      (p.isTransferCheck instr = .ok true ∧
        p.allAccountKeys[instr.ProgramIDIndex]? = some TokenProgramID)) :
    ∃ a0 a1 k0 k1, instr.Accounts[0]? = some a0 ∧ instr.Accounts[1]? = some a1 ∧
      p.allAccountKeys[a0]? = some k0 ∧ p.allAccountKeys[a1]? = some k1 ∧
      (p.extractSPLTokenInfo.splTokenInfoMap (PublicKey.String k0)).isSome = true ∧
      (p.extractSPLTokenInfo.splTokenInfoMap (PublicKey.String k1)).isSome = true := by
  have key : ∃ (n : Nat), 3 ≤ n ∧ n ≤ instr.Accounts.length ∧
      p.allAccountKeys[instr.ProgramIDIndex]? = some TokenProgramID ∧
      (instr.Data[0]? = some 3 ∨ instr.Data[0]? = some 12) ∧
      ∀ a ∈ instr.Accounts.take n, a < p.allAccountKeys.length := by
    rcases h with h | ⟨h, hprog⟩
    · rw [isTransfer_eq, Outcome.ok.injEq, decide_eq_true_iff] at h
      exact ⟨3, le_refl _, h.2.2.1, h.2.1, Or.inl h.2.2.2.2.1, h.2.2.2.2.2⟩
    · rw [isTransferCheck_eq, Outcome.ok.injEq, decide_eq_true_iff] at h
      exact ⟨4, by omega, h.2.2.1, hprog, Or.inr h.2.2.2.2.1, h.2.2.2.2.2⟩
  obtain ⟨n, hn3, hn, hprog, hop, hall⟩ := key
  obtain ⟨a0, ha0, -⟩ := indexAt_cases instr.Accounts 0 (by omega)
  obtain ⟨a1, ha1, -⟩ := indexAt_cases instr.Accounts 1 (by omega)
  obtain ⟨k0, hk0, -⟩ := indexAt_cases p.allAccountKeys a0
    (hall a0 (mem_take_of_getElem? _ 0 n a0 ha0 (by omega)))
  obtain ⟨k1, hk1, -⟩ := indexAt_cases p.allAccountKeys a1
    (hall a1 (mem_take_of_getElem? _ 1 n a1 ha1 (by omega)))
  obtain ⟨hm0, hm1⟩ := movesAccount_of_accounts p instr a0 a1 k0 k1 hprog hop (by omega)
    ha0 ha1 hk0 hk1
  exact ⟨a0, a1, k0, k1, ha0, ha1, hk0, hk1, index_isSome_of_moves p _ instr hmem hm0,
    index_isSome_of_moves p _ instr hmem hm1⟩

theorem isTransfer_congr (p q : Parser) (h : q.allAccountKeys = p.allAccountKeys)
    (instr : CompiledInstruction) : q.isTransfer instr = p.isTransfer instr := by
  rw [isTransfer_eq, isTransfer_eq, h]

theorem isTransferCheck_congr (p q : Parser) (h : q.allAccountKeys = p.allAccountKeys)
    (instr : CompiledInstruction) : q.isTransferCheck instr = p.isTransferCheck instr := by
  rw [isTransferCheck_eq, isTransferCheck_eq, h]

theorem NewTransactionParserFromTransactionResult_eq (x : TransferHelpers)
    (txResult : Option GetTransactionResult) (tx : Transaction) (txMeta : TransactionMeta) :
    NewTransactionParserFromTransactionResult x txResult tx txMeta =
      match x.extractSPLDecimals (baseParser txResult tx txMeta).extractSPLTokenInfo with
      | .error err => .error ("failed to extract SPL decimals: " ++ err)
      | .ok decimals =>
        .ok { (baseParser txResult tx txMeta).extractSPLTokenInfo with
              splDecimalsMap := decimals } := rfl

theorem NewTransactionParserFromTransaction_eq (x : TransferHelpers) (tx : Transaction)
    (txMeta : TransactionMeta) :
    NewTransactionParserFromTransaction x tx txMeta =
      NewTransactionParserFromTransactionResult x none tx txMeta := rfl

/-- A parser returned by a constructor is the base record with the extracted token map and
the decimals map of `extractSPLDecimals`. -/
theorem constructor_ok (x : TransferHelpers) (txResult : Option GetTransactionResult)
    (tx : Transaction) (txMeta : TransactionMeta) (p : Parser)
    (h : NewTransactionParserFromTransactionResult x txResult tx txMeta = .ok p) :
    p.allAccountKeys = tx.AccountKeys ++ txMeta.LoadedWritable ++ txMeta.LoadedReadOnly ∧
    p.txMeta = txMeta ∧ p.txInfo = tx ∧ p.txResult = txResult ∧
    p.splTokenInfoMap = (baseParser txResult tx txMeta).extractSPLTokenInfo.splTokenInfoMap := by
  rw [NewTransactionParserFromTransactionResult_eq] at h
  cases hd : x.extractSPLDecimals (baseParser txResult tx txMeta).extractSPLTokenInfo with
  | error err => rw [hd] at h; exact absurd h (by simp)
  | ok decimals =>
    rw [hd] at h
    simp only [Outcome.ok.injEq] at h
    subst h
    exact ⟨rfl, rfl, rfl, rfl, rfl⟩

theorem processTransfer_knownMint (p : Parser) (balances : List TokenBalance)
    (hidx : ∀ k info, p.splTokenInfoMap k = some info →
      info.Mint ≠ "" ∧ ((∃ b ∈ balances, info = ⟨PublicKey.String b.Mint, b.Decimals⟩) ∨
        info = ⟨PublicKey.String NATIVE_SOL_MINT_PROGRAM_ID, 9⟩))
    (instr : CompiledInstruction) (h : p.isTransfer instr = .ok true) :
    ∃ t, p.processTransfer instr = .ok (some t) ∧ knownMint balances t.Mint := by
  obtain ⟨a0, a1, a2, source, destination, authority, -, -, -, -, -, -, hp⟩ :=
    processTransfer_of_isTransfer p instr h
  refine ⟨_, hp, ?_⟩
  simp only []
  cases hm : p.splTokenInfoMap (PublicKey.String destination) with
  | none => exact Or.inl (by simp)
  | some info =>
    obtain ⟨hne, hcase⟩ := hidx _ info hm
    simp only [Option.getD_some]
    rw [if_neg hne]
    rcases hcase with ⟨b, hb, rfl⟩ | rfl
    · exact Or.inr (Or.inr ⟨b, hb, rfl⟩)
    · exact Or.inr (Or.inl rfl)

theorem constructor_index (x : TransferHelpers) (txResult : Option GetTransactionResult)
    (tx : Transaction) (txMeta : TransactionMeta) (p : Parser)
    (h : NewTransactionParserFromTransactionResult x txResult tx txMeta = .ok p) :
    ∀ k info, p.splTokenInfoMap k = some info →
      info.Mint ≠ "" ∧
        ((∃ b ∈ txMeta.PostTokenBalances, info = ⟨PublicKey.String b.Mint, b.Decimals⟩) ∨
          info = ⟨PublicKey.String NATIVE_SOL_MINT_PROGRAM_ID, 9⟩) := by
  obtain ⟨-, -, -, -, hmap⟩ := constructor_ok x txResult tx txMeta p h
  intro k info hk
  rw [hmap] at hk
  exact extractSPLTokenInfo_mint (baseParser txResult tx txMeta) k info hk

theorem emitsTransfer_knownMint (p : Parser) (balances : List TokenBalance)
    (hidx : ∀ k info, p.splTokenInfoMap k = some info →
      info.Mint ≠ "" ∧ ((∃ b ∈ balances, info = ⟨PublicKey.String b.Mint, b.Decimals⟩) ∨
        info = ⟨PublicKey.String NATIVE_SOL_MINT_PROGRAM_ID, 9⟩))
    (instr : CompiledInstruction) (t : TransferData)
    (h : p.emitsTransfer instr = some (.transferData t)) : knownMint balances t.Mint := by
  unfold Parser.emitsTransfer at h
  split at h
  · rename_i ht
    obtain ⟨t2, hp, hk⟩ := processTransfer_knownMint p balances hidx instr ht
    rw [hp] at h
    simp only [Option.some.injEq, Payload.transferData.injEq] at h
    rw [← h]
    exact hk
  · exact absurd h (by simp)

theorem emitsEither_transferData (x : TransferHelpers) (p : Parser)
    (instr : CompiledInstruction) (t : TransferData)
    (h : p.emitsEither x instr = some (.transferData t)) :
    p.emitsTransfer instr = some (.transferData t) := by
  unfold Parser.emitsEither at h
  cases hc : p.emitsTransferCheck x instr with
  | none => rw [hc] at h; exact h
  | some d =>
    rw [hc] at h
    simp only [Option.some.injEq] at h
    subst h
    unfold Parser.emitsTransferCheck at hc
    split at hc
    · cases hx : x.processTransferCheck p instr with
      | none => rw [hx] at hc; exact absurd hc (by simp)
      | some tc => rw [hx] at hc; simp at hc
    · exact absurd hc (by simp)

theorem usdcText_decodes : (PublicKeyFromBase58 usdcText).isSome = true := by decide

theorem sampleTransferHelpers_mintsDecode (p : Parser) : sampleTransferHelpers.mintsDecode p := by
  intro instr t ht _ _
  unfold sampleTransferHelpers at ht
  simp only [] at ht
  split at ht
  · simp only [Option.some.injEq] at ht
    subst ht
    exact usdcText_decodes
  · exact absurd ht (by simp)

/-! ## Little-endian reads at an offset -/

theorem leBytes_take_sum (n : Nat) : ∀ l : List Nat,
    leBytes (l.take n) = ∑ i ∈ Finset.range n, (l.getD i 0 % 256) * 256 ^ i := by
  induction n with
  | zero => intro l; simp [leBytes]
  | succ n ih =>
    intro l
    cases l with
    | nil => simp [leBytes]
    | cons b bs =>
      rw [List.take_succ_cons, leBytes, ih, Finset.sum_range_succ', Finset.mul_sum]
      simp only [List.getD_cons_succ, List.getD_cons_zero, pow_zero, mul_one, pow_succ]
      rw [add_comm]
      congr 1
      apply Finset.sum_congr rfl
      intro i _
      ring

/-- The `uint64` read at a byte offset is the little-endian number of the 8 bytes there. -/
theorem leUint64_drop (data : List Nat) (off : Nat) :
    leUint64 (data.drop off) =
      ∑ i ∈ Finset.range 8, (data.getD (off + i) 0 % 256) * 256 ^ i := by
  unfold leUint64
  rw [leBytes_take_sum]
  apply Finset.sum_congr rfl
  intro i _
  rw [List.getD_eq_getElem?_getD, List.getD_eq_getElem?_getD, List.getElem?_drop]

/-! ## The text of a key decodes to the key -/

theorem b58Digit_b58Char : ∀ d : Fin 58, b58Digit (b58Char d.val) = some d.val := by decide

theorem b58Digits_map_b58Char : ∀ ds : List Nat, (∀ d ∈ ds, d < 58) →
    b58Digits (ds.map b58Char) = some ds := by
  intro ds
  induction ds with
  | nil => intro _; simp [b58Digits]
  | cons d ds ih =>
    intro h
    have hd : d < 58 := h d (List.mem_cons_self _ _)
    have h1 : b58Digit (b58Char d) = some d := b58Digit_b58Char ⟨d, hd⟩
    have h2 : b58Digits (ds.map b58Char) = some ds :=
      ih (fun x hx => h x (List.mem_cons_of_mem _ hx))
    simp [b58Digits, h1, h2]

theorem leadingZeros_replicate (z : Nat) (rest : List Nat)
    (hhead : ∀ h : rest ≠ [], rest.head h ≠ 0) :
    leadingZeros (List.replicate z 0 ++ rest) = z := by
  induction z with
  | zero =>
    cases rest with
    | nil => simp [leadingZeros]
    | cons d rest =>
      have hd : d ≠ 0 := by simpa using hhead (List.cons_ne_nil _ _)
      cases d with
      | zero => exact absurd rfl hd
      | succ d => simp [leadingZeros]
  | succ z ih =>
    rw [List.replicate_succ, List.cons_append]
    simp [leadingZeros, ih]

theorem byteLen_le (n : Nat) (h : n < 2 ^ 256) : byteLen n ≤ 32 := by
  unfold byteLen
  rw [digitsLE_self 256 (by decide)]
  by_cases h0 : n = 0
  · subst h0; simp
  · rw [Nat.digits_len 256 n (by decide) h0]
    have hlog : Nat.log 256 n < 32 := by
      apply Nat.log_lt_of_lt_pow h0
      calc n < 2 ^ 256 := h
        _ = 256 ^ 32 := by norm_num
    omega

/-- The text of a key is decoded to that key. -/
theorem PublicKeyFromBase58_String (k : PublicKey) :
    PublicKeyFromBase58 (PublicKey.String k) = some k := by
  have hdig : digitsLE 58 45 k.val = Nat.digits 58 k.val := by
    apply digitsLE_eq_digits 58 (by decide)
    exact lt_trans k.isLt (by decide)
  have hlt : ∀ d ∈ (Nat.digits 58 k.val).reverse, d < 58 := by
    intro d hd
    exact Nat.digits_lt_base (by decide) (List.mem_reverse.mp hd)
  have hhead : ∀ h : (Nat.digits 58 k.val).reverse ≠ [],
      (Nat.digits 58 k.val).reverse.head h ≠ 0 := by
    intro h
    rw [List.head_reverse]
    exact Nat.getLast_digit_ne_zero 58 (by
      intro h0
      apply h
      rw [h0]; simp)
  have hdata : (PublicKey.String k).data =
      (List.replicate (32 - byteLen k.val) 0 ++ (Nat.digits 58 k.val).reverse).map b58Char := by
    unfold PublicKey.String
    rw [hdig]
    simp [b58Char, b58Alphabet]
  have hds : b58Digits (PublicKey.String k).data =
      some (List.replicate (32 - byteLen k.val) 0 ++ (Nat.digits 58 k.val).reverse) := by
    rw [hdata]
    apply b58Digits_map_b58Char
    intro d hd
    rcases List.mem_append.mp hd with hd | hd
    · rw [(List.mem_replicate.mp hd).2]; decide
    · exact hlt d hd
  have hval : valueBE 58 (List.replicate (32 - byteLen k.val) 0 ++ (Nat.digits 58 k.val).reverse)
      = k.val := by
    rw [valueBE_replicate_zero, valueBE_eq_ofDigits, List.reverse_reverse, Nat.ofDigits_digits]
  have hz : leadingZeros (List.replicate (32 - byteLen k.val) 0 ++ (Nat.digits 58 k.val).reverse)
      = 32 - byteLen k.val := leadingZeros_replicate _ _ hhead
  have hne : (PublicKey.String k).data ≠ [] := by
    intro h
    exact PublicKey.String_ne_empty k (by
      cases hs : PublicKey.String k
      rw [hs] at h
      simp at h
      rw [h])
  have hb := byteLen_le k.val k.isLt
  unfold PublicKeyFromBase58
  split
  · rename_i h0; exact absurd h0 hne
  · rw [hds]
    simp only [hval, hz]
    have hsum : 32 - byteLen k.val + byteLen k.val = 32 := by omega
    simp [hsum]

theorem Unknown_not_key : PublicKeyFromBase58 "Unknown" = none := by decide

theorem PublicKey.String_ne_Unknown (k : PublicKey) : PublicKey.String k ≠ "Unknown" := by
  intro h
  have h1 := PublicKeyFromBase58_String k
  rw [h, Unknown_not_key] at h1
  exact absurd h1 (by simp)

/-! ## First occurrences in a list that repeats itself -/

theorem firstSeen_append {α κ : Type} [DecidableEq κ] (key : α → κ) :
    ∀ l m : List α, firstSeen key (l ++ m) =
      firstSeen key l ++ (firstSeen key m).filter (fun b => key b ∉ l.map key) := by
  intro l
  induction l with
  | nil => intro m; simp [firstSeen]
  | cons a l ih =>
    intro m
    rw [List.cons_append]
    simp only [firstSeen]
    rw [ih, List.filter_append, List.filter_filter, List.cons_append]
    congr 2
    apply List.filter_congr
    intro b _
    by_cases hb : key b = key a
    · simp [hb]
    · simp [hb]

theorem firstSeen_mem_key {α κ : Type} [DecidableEq κ] (key : α → κ) (l : List α) (b : α)
    (hb : b ∈ firstSeen key l) : key b ∈ l.map key :=
  List.mem_map_of_mem key ((firstSeen_sublist key l).subset hb)

/-- A segment whose keys all occur before it adds no first occurrence. -/
theorem firstSeen_absorb {α κ : Type} [DecidableEq κ] (key : α → κ) (l m r : List α)
    (h : ∀ a ∈ m, key a ∈ l.map key) :
    firstSeen key (l ++ m ++ r) = firstSeen key (l ++ r) := by
  rw [List.append_assoc, firstSeen_append key l (m ++ r), firstSeen_append key l r,
    firstSeen_append key m r, List.filter_append, List.filter_filter]
  have h1 : (firstSeen key m).filter (fun b => key b ∉ l.map key) = [] := by
    apply List.filter_eq_nil_iff.mpr
    intro b hb
    have hm : b ∈ m := (firstSeen_sublist key m).subset hb
    simpa using h b hm
  rw [h1, List.nil_append]
  congr 1
  apply List.filter_congr
  intro b _
  by_cases hb : key b ∈ l.map key
  · simp [hb]
  · have hm : key b ∉ m.map key := by
      intro hm
      obtain ⟨a, ha, hka⟩ := List.mem_map.mp hm
      exact hb (hka ▸ h a ha)
    simp only [hb, hm, not_false_eq_true, decide_True, Bool.and_self]

theorem firstSeen_double {α κ : Type} [DecidableEq κ] (key : α → κ) (l m r : List α) :
    firstSeen key (l ++ (m ++ m) ++ r) = firstSeen key (l ++ m ++ r) := by
  have h := firstSeen_absorb key (l ++ m) m r (by
    intro a ha
    rw [List.map_append]
    exact List.mem_append_right _ (List.mem_map_of_mem key ha))
  rw [← h]
  simp only [List.append_assoc]

/-- The first occurrences of four segments that are each given twice. -/
theorem firstSeen_four_double {α κ : Type} [DecidableEq κ] (key : α → κ) (a b c d : List α) :
    firstSeen key ((a ++ a) ++ (b ++ b) ++ (c ++ c) ++ (d ++ d)) =
      firstSeen key (a ++ b ++ c ++ d) := by
  have h1 := firstSeen_double key [] a ((b ++ b) ++ (c ++ c) ++ (d ++ d))
  have h2 := firstSeen_double key a b ((c ++ c) ++ (d ++ d))
  have h3 := firstSeen_double key (a ++ b) c (d ++ d)
  have h4 := firstSeen_double key (a ++ b ++ c) d []
  simp only [List.nil_append, List.append_nil, List.append_assoc] at h1 h2 h3 h4 ⊢
  rw [h1, h2, h3, h4]

/-- An element of the first occurrences is the first element of the list with its key. -/
theorem firstSeen_find {α κ : Type} [DecidableEq κ] (key : α → κ) :
    ∀ (l : List α) (t : α), t ∈ firstSeen key l →
      l.find? (fun b => key b = key t) = some t := by
  intro l
  induction l with
  | nil => intro t ht; simp [firstSeen] at ht
  | cons a l ih =>
    intro t ht
    simp only [firstSeen, List.mem_cons, List.mem_filter] at ht
    rcases ht with rfl | ⟨ht, hne⟩
    · simp
    · have hne2 : key a ≠ key t := by
        intro h
        simp [h] at hne
      rw [List.find?_cons_of_neg _ (by simpa using hne2)]
      exact ih t ht

theorem distinctAmountSum_congr (ts us : List TokenTransfer) (mint : String)
    (h : ∀ t, t ∈ ts ↔ t ∈ us) : distinctAmountSum ts mint = distinctAmountSum us mint := by
  unfold distinctAmountSum
  congr 2
  ext a
  simp only [List.mem_toFinset, List.mem_map, List.mem_filter, h]

theorem reducedList_double (c : Consts) (xs : List SwapData) :
    reducedList c (xs ++ xs) =
      (xs.filter (fun sd => sd.Typ ∉ [c.PUMP_FUN, c.RAYDIUM_LAUNCHLAB, c.BOOPFUN]) ++
        xs.filter (fun sd => sd.Typ ∉ [c.PUMP_FUN, c.RAYDIUM_LAUNCHLAB, c.BOOPFUN])) ++
      (xs.filter (fun sd => sd.Typ = c.PUMP_FUN) ++ xs.filter (fun sd => sd.Typ = c.PUMP_FUN)) ++
      (xs.filter (fun sd => sd.Typ = c.RAYDIUM_LAUNCHLAB) ++
        xs.filter (fun sd => sd.Typ = c.RAYDIUM_LAUNCHLAB)) ++
      (xs.filter (fun sd => sd.Typ = c.BOOPFUN) ++ xs.filter (fun sd => sd.Typ = c.BOOPFUN)) := by
  unfold reducedList
  simp only [List.filter_append]

theorem reducedList_double_mem (c : Consts) (xs : List SwapData) (sd : SwapData) :
    sd ∈ reducedList c (xs ++ xs) ↔ sd ∈ reducedList c xs := by
  unfold reducedList
  simp only [List.mem_append, List.mem_filter]
  tauto

theorem noClassMatches_double (c : Consts) (xs : List SwapData) (hn : noClassMatches c xs) :
    noClassMatches c (xs ++ xs) := by
  obtain ⟨hJ, hP, hL, hB, hM⟩ := hn
  have hf : ∀ tag, firstOfType tag (xs ++ xs) = firstOfType tag xs := by
    intro tag
    unfold firstOfType
    rw [List.find?_append]
    cases xs.find? (fun sd => sd.Typ = tag) <;> rfl
  refine ⟨?_, ?_, ?_, ?_, ?_⟩
  · intro sd hsd
    exact hJ sd (by simpa using hsd)
  · rw [hf]; exact hP
  · rw [hf]; exact hL
  · rw [hf]; exact hB
  · intro sd hsd
    exact hM sd (by simpa using hsd)

/-- The generic reduction returns the same on a list and on the list observed twice. -/
theorem genericReduction_double (c : Consts) (p : Parser) (now : Int) (info : SwapInfo)
    (xs : List SwapData) :
    genericReduction p now info (reducedList c (xs ++ xs)) =
      genericReduction p now info (reducedList c xs) := by
  have hmint : firstSeen (fun t : TokenTransfer => t.mint)
      (transferRecords (reducedList c (xs ++ xs))) =
      firstSeen (fun t : TokenTransfer => t.mint) (transferRecords (reducedList c xs)) := by
    rw [reducedList_double]
    unfold reducedList transferRecords
    simp only [List.filterMap_append]
    exact firstSeen_four_double _ _ _ _ _
  have hamm : firstSeen id ((reducedList c (xs ++ xs)).map (fun sd => sd.Typ)) =
      firstSeen id ((reducedList c xs).map (fun sd => sd.Typ)) := by
    rw [reducedList_double]
    unfold reducedList
    simp only [List.map_append]
    exact firstSeen_four_double _ _ _ _ _
  have hsum : ∀ mint, distinctAmountSum (transferRecords (reducedList c (xs ++ xs))) mint =
      distinctAmountSum (transferRecords (reducedList c xs)) mint := by
    intro mint
    apply distinctAmountSum_congr
    intro t
    unfold transferRecords
    simp only [List.mem_filterMap, reducedList_double_mem]
  rw [genericReduction_eq, genericReduction_eq, hmint, hamm]
  simp only [hsum]

/-- A list that reaches the generic reduction gives the same result when every entry is
observed twice. -/
theorem ProcessSwapData_double (c : Consts) (x : Helpers) (p : Parser) (now : Int)
    (xs : List SwapData) (hd : c.tagsDistinct) (hn : noClassMatches c xs) :
    ProcessSwapData c x p now (xs ++ xs) = ProcessSwapData c x p now xs := by
  by_cases hne : xs = []
  · subst hne; rfl
  · rw [ProcessSwapData_generic c x p now (xs ++ xs) hd (noClassMatches_double c xs hn)
        (by simpa using hne),
      ProcessSwapData_generic c x p now xs hd hn hne]
    exact genericReduction_double c p now _ xs

/-! ## The legs of the Meteora events and the mint of the Boop.fun event -/

theorem collectTransferChecks_decode (x : TransferHelpers) (p : Parser) (hm : x.mintsDecode p)
    (instructionIndex : Nat) (ts : List TransferCheck)
    (hc : collectTransferChecks x p instructionIndex = .ok ts) (t : TransferCheck) (ht : t ∈ ts)
    (h1 : t.Mint ≠ "Unknown") (h2 : t.Mint ≠ "") :
    ∃ mint, PublicKeyFromBase58 t.Mint = some mint := by
  obtain ⟨instr, hi⟩ := collectTransferChecks_mem x p instructionIndex ts hc t ht
  exact must_of_mintsDecode x p hm instr t hi h1 h2

theorem enrichMeteoraDAMMv2EventFromTransfers_two (x : TransferHelpers) (p : Parser)
    (event : MeteoraDAMMv2SwapEvent) (instructionIndex : Nat) (t1 t2 : TransferCheck)
    (rest : List TransferCheck) (m1 m2 : PublicKey)
    (hc : collectTransferChecks x p instructionIndex = .ok (t1 :: t2 :: rest))
    (h1 : t1.Mint ≠ "Unknown" ∧ t1.Mint ≠ "") (h2 : t2.Mint ≠ "Unknown" ∧ t2.Mint ≠ "")
    (hm1 : PublicKeyFromBase58 t1.Mint = some m1) (hm2 : PublicKeyFromBase58 t2.Mint = some m2) :
    enrichMeteoraDAMMv2EventFromTransfers x p event instructionIndex =
      .ok { event with
            TokenInMint := m1
            TokenInDecimals := t1.Decimals
            TokenOutMint := m2
            TokenOutDecimals := t2.Decimals
            ActualAmountOut := parseUint64 t2.Amount } := by
  unfold enrichMeteoraDAMMv2EventFromTransfers
  rw [hc]
  simp only [Outcome.bind, MustPublicKeyFromBase58]
  rw [if_pos h1]
  simp only [hm1]
  rw [if_pos h2]
  simp only [hm2]

theorem enrichMeteoraDBCEventFromTransfers_two (x : TransferHelpers) (p : Parser)
    (event : MeteoraDBCSwapEvent) (instructionIndex : Nat) (t1 t2 : TransferCheck)
    (rest : List TransferCheck) (m1 m2 : PublicKey)
    (hc : collectTransferChecks x p instructionIndex = .ok (t1 :: t2 :: rest))
    (h1 : t1.Mint ≠ "Unknown" ∧ t1.Mint ≠ "") (h2 : t2.Mint ≠ "Unknown" ∧ t2.Mint ≠ "")
    (hm1 : PublicKeyFromBase58 t1.Mint = some m1) (hm2 : PublicKeyFromBase58 t2.Mint = some m2) :
    enrichMeteoraDBCEventFromTransfers x p event instructionIndex =
      .ok { event with
            TokenInMint := m1
            TokenInDecimals := t1.Decimals
            AmountIn := parseUint64 t1.Amount
            ActualInputAmount := parseUint64 t1.Amount
            TokenOutMint := m2
            TokenOutDecimals := t2.Decimals
            OutputAmount := parseUint64 t2.Amount } := by
  unfold enrichMeteoraDBCEventFromTransfers
  rw [hc]
  simp only [Outcome.bind, MustPublicKeyFromBase58]
  rw [if_pos h1]
  simp only [hm1]
  rw [if_pos h2]
  simp only [hm2]

/-- The DAMM v2 event of an outer instruction with a decodable payload and at least two
decoded inner TransferChecked of known mints. -/
theorem processMeteoraDAMMv2Swaps_two (c : Consts) (x : TransferHelpers) (p : Parser)
    (instructionIndex : Nat) (mainInstruction : CompiledInstruction)
    (t1 t2 : TransferCheck) (rest : List TransferCheck) (m1 m2 : PublicKey)
    (hmain : p.txInfo.Instructions[instructionIndex]? = some mainInstruction)
    (hprog : p.allAccountKeys[mainInstruction.ProgramIDIndex]? =
      some c.METEORA_DAMM_V2_PROGRAM_ID)
    (hok : ¬ (mainInstruction.Data.length < 24 ∨
      mainInstruction.Data.take 8 ≠ MeteoraDAMMv2SwapDiscriminator))
    (hc : collectTransferChecks x p instructionIndex = .ok (t1 :: t2 :: rest))
    (h1 : t1.Mint ≠ "Unknown" ∧ t1.Mint ≠ "") (h2 : t2.Mint ≠ "Unknown" ∧ t2.Mint ≠ "")
    (hm1 : PublicKeyFromBase58 t1.Mint = some m1) (hm2 : PublicKeyFromBase58 t2.Mint = some m2) :
    p.processMeteoraDAMMv2Swaps c x instructionIndex =
      .ok [⟨c.METEORA, .meteoraDAMMv2
        { AmountIn := leUint64 (mainInstruction.Data.drop 8)
          MinimumAmountOut := leUint64 (mainInstruction.Data.drop 16)
          Direction := 0
          TokenInMint := m1
          TokenInDecimals := t1.Decimals
          TokenOutMint := m2
          TokenOutDecimals := t2.Decimals
          ActualAmountOut := parseUint64 t2.Amount }⟩] := by
  unfold Parser.processMeteoraDAMMv2Swaps
  have hlt := lt_length_of_getElem? _ _ _ hprog
  rw [indexAt_of_getElem? _ _ _ hmain, Outcome.bind, if_neg (by omega),
    indexAt_of_getElem? _ _ _ hprog, Outcome.bind, parseMeteoraDAMMv2Instruction_eq,
    if_pos rfl, if_neg hok]
  simp only []
  rw [enrichMeteoraDAMMv2EventFromTransfers_two x p _ instructionIndex t1 t2 rest m1 m2 hc h1 h2
    hm1 hm2]
  rfl

/-- The DBC event of an outer instruction with a decodable payload and at least two decoded
inner TransferChecked of known mints. -/
theorem processMeteoraDBCSwaps_two (c : Consts) (x : TransferHelpers) (p : Parser)
    (instructionIndex : Nat) (mainInstruction : CompiledInstruction)
    (t1 t2 : TransferCheck) (rest : List TransferCheck) (m1 m2 : PublicKey)
    (hmain : p.txInfo.Instructions[instructionIndex]? = some mainInstruction)
    (hprog : p.allAccountKeys[mainInstruction.ProgramIDIndex]? = some c.METEORA_DBC_PROGRAM_ID)
    (hok : ¬ (mainInstruction.Data.length < 24 ∨
      mainInstruction.Data.take 8 ≠ MeteoraDBCSwapDiscriminator))
    (hc : collectTransferChecks x p instructionIndex = .ok (t1 :: t2 :: rest))
    (h1 : t1.Mint ≠ "Unknown" ∧ t1.Mint ≠ "") (h2 : t2.Mint ≠ "Unknown" ∧ t2.Mint ≠ "")
    (hm1 : PublicKeyFromBase58 t1.Mint = some m1) (hm2 : PublicKeyFromBase58 t2.Mint = some m2) :
    p.processMeteoraDBCSwaps c x instructionIndex =
      .ok [⟨c.METEORA, .meteoraDBC
        { dbcEventOfInstruction ⟨leUint64 (mainInstruction.Data.drop 8),
            leUint64 (mainInstruction.Data.drop 16)⟩ with
          TokenInMint := m1
          TokenInDecimals := t1.Decimals
          AmountIn := parseUint64 t1.Amount
          ActualInputAmount := parseUint64 t1.Amount
          TokenOutMint := m2
          TokenOutDecimals := t2.Decimals
          OutputAmount := parseUint64 t2.Amount }⟩] := by
  unfold Parser.processMeteoraDBCSwaps
  have hlt := lt_length_of_getElem? _ _ _ hprog
  rw [indexAt_of_getElem? _ _ _ hmain, Outcome.bind, if_neg (by omega),
    indexAt_of_getElem? _ _ _ hprog, Outcome.bind, if_pos rfl]
  unfold Parser.parseMeteoraDBCEvent
  rw [parseMeteoraDBCEventLoop_none, Outcome.bind, parseMeteoraDBCInstruction_eq, if_neg hok]
  simp only []
  rw [enrichMeteoraDBCEventFromTransfers_two x p _ instructionIndex t1 t2 rest m1 m2 hc h1 h2
    hm1 hm2]
  rfl

/-- The decoder of Meteora DBC is its instruction tier followed by its transfer tier. -/
theorem processMeteoraDBCSwaps_two_tier (c : Consts) (x : TransferHelpers) (p : Parser)
    (instructionIndex : Nat) :
    p.processMeteoraDBCSwaps c x instructionIndex =
      p.dbcInstructionThenTransfers c x instructionIndex := by
  unfold Parser.processMeteoraDBCSwaps Parser.dbcInstructionThenTransfers
    Parser.parseMeteoraDBCEvent
  cases indexAt p.txInfo.Instructions instructionIndex with
  | error msg => rfl
  | abort => rfl
  | ok mainInstruction =>
    simp only [Outcome.bind]
    split
    · rfl
    · cases indexAt p.allAccountKeys mainInstruction.ProgramIDIndex with
      | error msg => rfl
      | abort => rfl
      | ok programID =>
        simp only []
        by_cases hp : programID = c.METEORA_DBC_PROGRAM_ID
        · rw [if_pos hp, if_pos hp, parseMeteoraDBCEventLoop_none]
        · rw [if_neg hp, if_neg hp]

theorem solText_is_native : PublicKey.String NATIVE_SOL_MINT_PROGRAM_ID = solText := by decide

theorem zero_ne_native : PublicKey.zero ≠ NATIVE_SOL_MINT_PROGRAM_ID := by decide

theorem ne_native_of_decode (s : String) (k : PublicKey) (hs : s ≠ solText)
    (hk : PublicKeyFromBase58 s = some k) : k ≠ NATIVE_SOL_MINT_PROGRAM_ID := by
  intro h
  apply hs
  rw [← PublicKeyFromBase58_canonical hk, h, solText_is_native]

/-- The event that `enrichBoopFunEventFromTransfers` returns: the mint is decoded from the
first decoded TransferChecked whose mint text is not that of SOL, not `Unknown` and not
empty, and the event is unchanged when there is none. -/
theorem enrichBoopFunEventFromTransfers_mint (x : TransferHelpers) (p : Parser)
    (hm : x.mintsDecode p) (event : BoopFunSwapEvent) (instructionIndex : Nat) :
    ∃ e ts, enrichBoopFunEventFromTransfers x p event instructionIndex = .ok e ∧
      collectTransferChecks x p instructionIndex = .ok ts ∧
      ((∃ t ∈ ts, t.Mint ≠ solText ∧ PublicKeyFromBase58 t.Mint = some e.TokenMint ∧
          e.TokenDecimals = t.Decimals ∧ e.TokenOut = parseUint64 t.Amount) ∨
        ((∀ t ∈ ts, t.Mint = solText ∨ t.Mint = "Unknown" ∨ t.Mint = "") ∧ e = event)) := by
  unfold enrichBoopFunEventFromTransfers
  cases hc : collectTransferChecks x p instructionIndex with
  | error msg => rw [collectTransferChecks_eq] at hc; exact absurd hc (by simp)
  | abort => rw [collectTransferChecks_eq] at hc; exact absurd hc (by simp)
  | ok transfers =>
    simp only [Outcome.bind]
    cases hf : transfers.find? (fun transfer =>
        transfer.Mint ≠ "So11111111111111111111111111111111111111112" ∧
          transfer.Mint ≠ "Unknown" ∧ transfer.Mint ≠ "") with
    | none =>
      refine ⟨event, transfers, rfl, rfl, Or.inr ⟨?_, rfl⟩⟩
      intro t ht
      have := List.find?_eq_none.mp hf t ht
      simp only [decide_eq_true_eq, not_and, not_not] at this
      by_cases h1 : t.Mint = solText
      · exact Or.inl h1
      · by_cases h2 : t.Mint = "Unknown"
        · exact Or.inr (Or.inl h2)
        · exact Or.inr (Or.inr (this h1 h2))
    | some transfer =>
      have hmem := List.mem_of_find?_eq_some hf
      have hp := List.find?_some hf
      simp only [decide_eq_true_eq] at hp
      obtain ⟨mint, hmint⟩ := collectTransferChecks_decode x p hm instructionIndex transfers hc
        transfer hmem hp.2.1 hp.2.2
      simp only [MustPublicKeyFromBase58, hmint]
      exact ⟨_, transfers, rfl, rfl, Or.inl ⟨transfer, hmem, hp.1, hmint, rfl, rfl⟩⟩

/-- The Boop.fun event of an outer instruction with a decodable payload has a mint that is
not the native SOL mint. -/
theorem processBoopFunSwaps_mint (c : Consts) (x : TransferHelpers) (p : Parser)
    (instructionIndex : Nat) (mainInstruction : CompiledInstruction)
    (hmain : p.txInfo.Instructions[instructionIndex]? = some mainInstruction)
    (hprog : p.allAccountKeys[mainInstruction.ProgramIDIndex]? = some c.BOOPFUN_PROGRAM_ID)
    (hok : ¬ (mainInstruction.Data.length < 24 ∨
      mainInstruction.Data.take 8 ≠ BoopFunBuyTokenDiscriminator))
    (hm : x.mintsDecode p) :
    ∃ e ts, p.processBoopFunSwaps c x instructionIndex = .ok [⟨c.BOOPFUN, .boopFun e⟩] ∧
      collectTransferChecks x p instructionIndex = .ok ts ∧
      e.TokenMint ≠ NATIVE_SOL_MINT_PROGRAM_ID ∧
      ((∃ t ∈ ts, t.Mint ≠ solText ∧ PublicKeyFromBase58 t.Mint = some e.TokenMint) ∨
        ((∀ t ∈ ts, t.Mint = solText ∨ t.Mint = "Unknown" ∨ t.Mint = "") ∧
          e.TokenMint = PublicKey.zero)) := by
  unfold Parser.processBoopFunSwaps
  rw [indexAt_of_getElem? _ _ _ hmain, Outcome.bind, indexAt_of_getElem? _ _ _ hprog,
    Outcome.bind, parseBoopFunInstruction_eq, if_pos rfl, if_neg hok]
  simp only []
  obtain ⟨e, ts, he, hts, hcase⟩ := enrichBoopFunEventFromTransfers_mint x p hm
    { BuyAmount := leUint64 (mainInstruction.Data.drop 8)
      AmountOutMin := leUint64 (mainInstruction.Data.drop 16)
      TokenOut := 0
      TokenMint := PublicKey.zero
      TokenDecimals := 0
      IsBuy := true } instructionIndex
  rw [he]
  refine ⟨e, ts, rfl, hts, ?_, ?_⟩
  · rcases hcase with ⟨t, -, hne, hdec, -, -⟩ | ⟨-, he2⟩
    · exact ne_native_of_decode t.Mint e.TokenMint hne hdec
    · rw [he2]
      exact zero_ne_native
  · rcases hcase with ⟨t, ht, hne, hdec, -, -⟩ | ⟨hall, he2⟩
    · exact Or.inl ⟨t, ht, hne, hdec⟩
    · exact Or.inr ⟨hall, by rw [he2]⟩

/-- The summary of a list whose first BOOPFUN entry carries an event and that has no
JUPITER entry, no Pump.fun event and no LaunchLab event in front. -/
theorem ProcessSwapData_boopFun_event (c : Consts) (x : Helpers) (p : Parser) (now : Int)
    (xs : List SwapData) (e : BoopFunSwapEvent) (hd : c.tagsDistinct)
    (hJ : ∀ sd ∈ xs, sd.Typ ≠ c.JUPITER)
    (hP : (firstOfType c.PUMP_FUN xs).all (fun sd => !sd.Data.isPumpfunTrade) = true)
    (hL : (firstOfType c.RAYDIUM_LAUNCHLAB xs).all
      (fun sd => !sd.Data.isRaydiumLaunchLab) = true)
    (hfirst : firstOfType c.BOOPFUN xs = some ⟨c.BOOPFUN, .boopFun e⟩) :
    ProcessSwapData c x p now xs =
      .ok { Signers := signersOf x p
            Signatures := p.txInfo.Signatures
            AMMs := [c.BOOPFUN]
            Timestamp := p.blockTimeOrNow now
            TokenInMint := NATIVE_SOL_MINT_PROGRAM_ID
            TokenInAmount := e.BuyAmount
            TokenInDecimals := 9
            TokenOutMint := e.TokenMint
            TokenOutAmount := e.TokenOut
            TokenOutDecimals := e.TokenDecimals } := by
  rw [ProcessSwapData_eq c x p now xs (firstOfType_ne_nil _ _ _ hfirst),
    entriesOf_jupiter_nil c xs hJ, if_neg (by simp), entriesOf_pumpfun c xs hJ,
    entriesOf_raydiumLaunchLab c hd xs hJ, entriesOf_boopFun c hd xs hJ]
  rw [pumpfunStage_demote p now _ _ _ _ _ _
    (by rw [filter_head_firstOfType]; exact hP)]
  rw [raydiumLaunchLabStage_demote p now _ _ _ _ _
    (by rw [filter_head_firstOfType]; exact hL)]
  obtain ⟨rest, hl⟩ := filter_cons_of_firstOfType _ _ _ hfirst
  rw [hl, boopFunStage_event p now _ _ rest _ _ e rfl]
  rfl

/-- The summary of the list that holds one Boop.fun event. -/
theorem ProcessSwapData_boopFun_single (c : Consts) (x : Helpers) (p : Parser) (now : Int)
    (e : BoopFunSwapEvent) (hd : c.tagsDistinct) :
    ProcessSwapData c x p now [⟨c.BOOPFUN, .boopFun e⟩] =
      .ok { Signers := signersOf x p
            Signatures := p.txInfo.Signatures
            AMMs := [c.BOOPFUN]
            Timestamp := p.blockTimeOrNow now
            TokenInMint := NATIVE_SOL_MINT_PROGRAM_ID
            TokenInAmount := e.BuyAmount
            TokenInDecimals := 9
            TokenOutMint := e.TokenMint
            TokenOutAmount := e.TokenOut
            TokenOutDecimals := e.TokenDecimals } := by
  have hd2 := hd
  unfold Consts.tagsDistinct at hd2
  simp only [List.nodup_cons, List.mem_cons, List.mem_singleton, List.not_mem_nil, not_or,
    or_false, List.nodup_nil, and_true, not_false_eq_true] at hd2
  obtain ⟨⟨-, -, -, hJB⟩, ⟨-, -, hPB⟩, ⟨-, hLB⟩, -⟩ := hd2
  apply ProcessSwapData_boopFun_event c x p now _ e hd
  · intro sd hsd
    simp only [List.mem_singleton] at hsd
    subst hsd
    exact fun h => hJB h.symm
  · have : firstOfType c.PUMP_FUN [(⟨c.BOOPFUN, .boopFun e⟩ : SwapData)] = none := by
      simp [firstOfType, Ne.symm hPB]
    rw [this]; rfl
  · have : firstOfType c.RAYDIUM_LAUNCHLAB [(⟨c.BOOPFUN, .boopFun e⟩ : SwapData)] = none := by
      simp [firstOfType, Ne.symm hLB]
    rw [this]; rfl
  · simp [firstOfType]

/-! ## The two dispatch tables and the mints of the recognised transfers -/

theorem pairwiseDistinct_nodup : ∀ l : List PublicKey, pairwiseDistinct l = true → l.Nodup := by
  intro l
  induction l with
  | nil => intro _; exact List.nodup_nil
  | cons a l ih =>
    intro h
    unfold pairwiseDistinct at h
    simp only [Bool.and_eq_true, List.all_eq_true, decide_eq_true_eq] at h
    rw [List.nodup_cons]
    exact ⟨fun hmem => h.1 a hmem rfl, ih h.2⟩

theorem routerStep_prefix (c : Consts) (d : Decoders) (p : Parser) (instructionIndex : Nat)
    (st : List SwapData × List String) (inner : CompiledInstruction) :
    ∃ out, (routerStep c d p instructionIndex st inner).1 = st.1 ++ out := by
  unfold routerStep
  simp only []
  split
  · exact ⟨[], by simp⟩
  · split
    · exact ⟨_, rfl⟩
    · split
      · exact ⟨_, rfl⟩
      · split
        · exact ⟨_, rfl⟩
        · split
          · exact ⟨_, rfl⟩
          · split
            · exact ⟨_, rfl⟩
            · exact ⟨[], by simp⟩

theorem router_foldl_prefix (c : Consts) (d : Decoders) (p : Parser) (instructionIndex : Nat)
    (l : List CompiledInstruction) :
    ∀ st : List SwapData × List String,
      ∃ out, (l.foldl (routerStep c d p instructionIndex) st).1 = st.1 ++ out := by
  induction l with
  | nil => intro st; exact ⟨[], by simp⟩
  | cons inner l ih =>
    intro st
    rw [List.foldl_cons]
    obtain ⟨out1, h1⟩ := routerStep_prefix c d p instructionIndex st inner
    obtain ⟨out2, h2⟩ := ih (routerStep c d p instructionIndex st inner)
    exact ⟨out1 ++ out2, by rw [h2, h1, List.append_assoc]⟩

/-- The result of `processRouterSwaps` starts with what the round of its loop at the first
inner instruction appends. -/
theorem processRouterSwaps_head (c : Consts) (d : Decoders) (p : Parser)
    (instructionIndex : Nat) (inner : CompiledInstruction) (rest : List CompiledInstruction)
    (h : p.getInnerInstructions instructionIndex = inner :: rest) :
    ∃ tail, processRouterSwaps c d p instructionIndex =
      (routerStep c d p instructionIndex ([], []) inner).1 ++ tail := by
  unfold processRouterSwaps
  simp only [h, List.length_cons, Nat.succ_ne_zero, if_false, List.foldl_cons]
  exact router_foldl_prefix c d p instructionIndex rest _

/-- The decoder that the loop of `processRouterSwaps` calls at the first inner instruction,
against the decoder that the second loop of `ParseTransaction` calls for the same program
ID. -/
theorem dispatch_tables (c : Consts) (d : Decoders) (p : Parser) (instructionIndex : Nat)
    (inner : CompiledInstruction) (hdis : c.ammIDsDistinct)
    (hr : inner.ProgramIDIndex < p.allAccountKeys.length) :
    (p.keyAt inner.ProgramIDIndex ∈
        [c.RAYDIUM_V4_PROGRAM_ID, c.RAYDIUM_CPMM_PROGRAM_ID, c.RAYDIUM_AMM_PROGRAM_ID,
          c.RAYDIUM_CONCENTRATED_LIQUIDITY_PROGRAM_ID, c.ORCA_PROGRAM_ID, c.METEORA_PROGRAM_ID,
          c.METEORA_POOLS_PROGRAM_ID, c.METEORA_DLMM_PROGRAM_ID, c.PUMPFUN_AMM_PROGRAM_ID,
          c.PUMP_FUN_PROGRAM_ID, PUMP_FUN_LEGACY_PROGRAM_ID] →
      (routerStep c d p instructionIndex ([], []) inner).1 =
        pass2Step c d p [] (instructionIndex, inner)) ∧
    (p.keyAt inner.ProgramIDIndex = c.METEORA_DAMM_V2_PROGRAM_ID →
      (routerStep c d p instructionIndex ([], []) inner).1 =
          d.processMeteoraSwaps p instructionIndex ∧
        pass2Step c d p [] (instructionIndex, inner) =
          d.processMeteoraDAMMv2Swaps p instructionIndex) ∧
    (p.keyAt inner.ProgramIDIndex = c.METEORA_DBC_PROGRAM_ID →
      (routerStep c d p instructionIndex ([], []) inner).1 =
          d.processMeteoraSwaps p instructionIndex ∧
        pass2Step c d p [] (instructionIndex, inner) =
          d.processMeteoraDBCSwaps p instructionIndex) ∧
    (p.keyAt inner.ProgramIDIndex = c.RAYDIUM_LAUNCHLAB_PROGRAM_ID →
      (routerStep c d p instructionIndex ([], []) inner).1 = [] ∧
        pass2Step c d p [] (instructionIndex, inner) =
          d.processRaydiumLaunchLabSwaps p instructionIndex) ∧
    (p.keyAt inner.ProgramIDIndex = RAYDIUM_LEGACY_PROGRAM_ID →
      (routerStep c d p instructionIndex ([], []) inner).1 = [] ∧
        pass2Step c d p [] (instructionIndex, inner) = d.processRaydSwaps p instructionIndex) ∧
    (p.keyAt inner.ProgramIDIndex ∉ c.ammIDs →
      (routerStep c d p instructionIndex ([], []) inner).1 = [] ∧
        pass2Step c d p [] (instructionIndex, inner) = []) := by
  have hn := pairwiseDistinct_nodup _ hdis
  have hn2 := List.nodup_reverse.mpr hn
  simp only [Consts.ammIDs, List.reverse_cons, List.reverse_nil, List.nil_append,
    List.cons_append, List.nodup_cons, List.mem_cons, List.mem_singleton, List.not_mem_nil,
    not_or, or_false, List.nodup_nil, and_true, not_false_eq_true] at hn hn2
  have hr2 : ¬ inner.ProgramIDIndex ≥ p.allAccountKeys.length := by omega
  unfold routerStep pass2Step
  simp only [hr2, if_false]
  generalize p.keyAt inner.ProgramIDIndex = g
  refine ⟨?_, ?_, ?_, ?_, ?_, ?_⟩
  · intro hk
    simp only [List.mem_cons, List.mem_singleton, List.not_mem_nil, or_false] at hk
    rcases hk with rfl | rfl | rfl | rfl | rfl | rfl | rfl | rfl | rfl | rfl | rfl <;>
      simp [hn, hn2]
  · rintro rfl
    simp [hn, hn2]
  · rintro rfl
    simp [hn, hn2]
  · rintro rfl
    simp [hn, hn2]
  · rintro rfl
    simp [hn, hn2]
  · intro hk
    simp only [Consts.ammIDs, List.mem_cons, List.mem_singleton, List.not_mem_nil, not_or,
      or_false] at hk
    simp [hk]

/-- On a parser returned by a constructor, a Transfer of the transaction has a destination
that is a key of the token map, and its record carries the mint of that entry. -/
theorem processTransfer_constructed (x : TransferHelpers)
    (txResult : Option GetTransactionResult) (tx : Transaction) (txMeta : TransactionMeta)
    (p : Parser) (h : NewTransactionParserFromTransactionResult x txResult tx txMeta = .ok p)
    (instr : CompiledInstruction) (hmem : instr ∈ p.allInstructions)
    (ht : p.isTransfer instr = .ok true) :
    ∃ t info, p.processTransfer instr = .ok (some t) ∧
      p.splTokenInfoMap t.Info.Destination = some info ∧ info.Mint ≠ "" ∧
      t.Mint = info.Mint ∧ t.Decimals = info.Decimals ∧ t.Mint ≠ "Unknown" ∧
      ((∃ b ∈ txMeta.PostTokenBalances, info = ⟨PublicKey.String b.Mint, b.Decimals⟩) ∨
        info = ⟨PublicKey.String NATIVE_SOL_MINT_PROGRAM_ID, 9⟩) := by
  obtain ⟨hkeys, hmeta, hinfo, -, hmap⟩ := constructor_ok x txResult tx txMeta p h
  have hkeys2 : p.allAccountKeys = (baseParser txResult tx txMeta).allAccountKeys := hkeys
  have hmem2 : instr ∈ (baseParser txResult tx txMeta).allInstructions := by
    unfold Parser.allInstructions at hmem ⊢
    rw [hinfo, hmeta] at hmem
    exact hmem
  have ht2 : (baseParser txResult tx txMeta).isTransfer instr = .ok true := by
    rw [← isTransfer_congr (baseParser txResult tx txMeta) p hkeys2]
    exact ht
  obtain ⟨a0, a1, k0, k1, -, ha1, -, hk1, -, hs1⟩ :=
    recognised_accounts_indexed (baseParser txResult tx txMeta) instr hmem2 (Or.inl ht2)
  obtain ⟨b0, b1, b2, source, destination, authority, -, hb1, -, -, hdst, -, hp⟩ :=
    processTransfer_of_isTransfer p instr ht
  have e1 : a1 = b1 := by
    rw [ha1] at hb1
    exact Option.some.inj hb1
  subst e1
  have e2 : k1 = destination := by
    rw [hkeys2, hk1] at hdst
    exact Option.some.inj hdst
  subst e2
  rw [← hmap] at hs1
  obtain ⟨info, hi⟩ := Option.isSome_iff_exists.mp hs1
  obtain ⟨hne, hcase⟩ := constructor_index x txResult tx txMeta p h _ info hi
  have hunk : info.Mint ≠ "Unknown" := by
    rcases hcase with ⟨b, -, rfl⟩ | rfl
    · exact PublicKey.String_ne_Unknown _
    · exact PublicKey.String_ne_Unknown _
  refine ⟨_, info, hp, hi, hne, ?_, ?_, ?_, hcase⟩
  · simp only [hi, Option.getD_some]
    rw [if_neg hne]
  · simp only [hi, Option.getD_some]
  · simp only [hi, Option.getD_some]
    rw [if_neg hne]
    exact hunk

theorem keyedTransferHelpers_mintsDecode (p : Parser) : keyedTransferHelpers.mintsDecode p := by
  intro instr t ht _ _
  unfold keyedTransferHelpers at ht
  simp only [] at ht
  split at ht
  · injection ht with ht
    subst ht
    simp only [PublicKeyFromBase58_String, Option.isSome_some]
  · exact absurd ht (by simp)

/-! ## The dispatcher with the aborts of the decoder calls -/

theorem Outcome.concat_map_ok {α β : Type} (g : α → Outcome (List β)) (h : α → List β) :
    ∀ l : List α, (∀ a ∈ l, g a = .ok (h a)) →
      Outcome.concat (l.map g) = .ok (l.map h).flatten := by
  intro l
  induction l with
  | nil => intro _; rfl
  | cons a l ih =>
    intro hl
    rw [List.map_cons, Outcome.concat, hl a (List.mem_cons_self _ _),
      ih (fun b hb => hl b (List.mem_cons_of_mem _ hb))]
    simp [Outcome.bind]

theorem Outcome.concat_ok_inv {α : Type} :
    ∀ (l : List (Outcome (List α))) (r : List α), Outcome.concat l = .ok r →
      ∀ o ∈ l, ∃ v, o = .ok v := by
  intro l
  induction l with
  | nil => intro r _ o ho; simp at ho
  | cons a l ih =>
    intro r hr o ho
    rw [Outcome.concat] at hr
    cases ha : a with
    | error msg => rw [ha] at hr; exact absurd hr (by simp [Outcome.bind])
    | abort => rw [ha] at hr; exact absurd hr (by simp [Outcome.bind])
    | ok v =>
      rw [ha] at hr
      simp only [Outcome.bind] at hr
      cases hc : Outcome.concat l with
      | error msg => rw [hc] at hr; exact absurd hr (by simp)
      | abort => rw [hc] at hr; exact absurd hr (by simp)
      | ok r2 =>
        rcases List.mem_cons.mp ho with rfl | ho
        · exact ⟨v, ha⟩
        · exact ih r2 hc o ho

/-- A loop whose rounds each append the list of one call to the state. -/
theorem Outcome.foldl_concat {σ α β : Type} (f : σ → α → Outcome σ)
    (g : α → Outcome (List β)) (app : σ → List β → σ)
    (happ : ∀ s l1 l2, app (app s l1) l2 = app s (l1 ++ l2)) (hnil : ∀ s, app s [] = s) :
    ∀ (l : List α), (∀ s, ∀ a ∈ l, f s a = (g a).bind fun r => .ok (app s r)) →
      ∀ s, Outcome.foldl f s l = (Outcome.concat (l.map g)).bind fun r => .ok (app s r) := by
  intro l
  induction l with
  | nil => intro _ s; simp [Outcome.foldl, Outcome.concat, Outcome.bind, hnil]
  | cons a l ih =>
    intro hf s
    rw [Outcome.foldl, hf s a (List.mem_cons_self _ _), List.map_cons, Outcome.concat]
    cases g a with
    | error msg => rfl
    | abort => rfl
    | ok v =>
      simp only [Outcome.bind]
      rw [ih (fun s b hb => hf s b (List.mem_cons_of_mem _ hb))]
      cases Outcome.concat (l.map g) with
      | error msg => rfl
      | abort => rfl
      | ok r => simp only [Outcome.bind, happ]

theorem Outcome.foldl_returning {σ α : Type} (f : σ → α → Outcome σ) (g : σ → α → σ)
    (hf : ∀ s a, f s a = .ok (g s a)) :
    ∀ (l : List α) (s : σ), Outcome.foldl f s l = .ok (l.foldl g s) := by
  intro l
  induction l with
  | nil => intro s; rfl
  | cons a l ih =>
    intro s
    rw [Outcome.foldl, hf, Outcome.bind, ih, List.foldl_cons]

theorem aborting_pass1Step_noskip (c : Consts) (d : Aborting.Decoders) (p : Parser)
    (st : Bool × List SwapData) (io : Nat × CompiledInstruction)
    (h : ¬ (io.2.ProgramIDIndex < p.allAccountKeys.length ∧
      isSkipProgram c (p.keyAt io.2.ProgramIDIndex) = true)) :
    Aborting.pass1Step c d p st io =
      (Aborting.routerOutput c d p io).bind fun r => .ok (st.1, st.2 ++ r) := by
  unfold Aborting.pass1Step Aborting.routerOutput
  simp only []
  by_cases hr : io.2.ProgramIDIndex ≥ p.allAccountKeys.length
  · rw [if_pos hr, if_pos hr]
    simp [Outcome.bind]
  · rw [if_neg hr, if_neg hr]
    have hs : ¬ isSkipProgram c (p.keyAt io.2.ProgramIDIndex) = true := by
      intro hs; exact h ⟨by omega, hs⟩
    unfold isSkipProgram at hs
    unfold isRouterWrapper
    generalize p.keyAt io.2.ProgramIDIndex = g at hs ⊢
    simp only [decide_eq_true_eq, not_or] at hs
    obtain ⟨h1, h2, h3, h4⟩ := hs
    rw [if_neg h1, if_neg h2, if_neg h3]
    by_cases hw : g = c.BANANA_GUN_PROGRAM_ID ∨ g = c.MINTECH_PROGRAM_ID ∨
        g = c.BLOOM_PROGRAM_ID ∨ g = c.NOVA_PROGRAM_ID ∨ g = c.MAESTRO_PROGRAM_ID
    · rw [if_pos hw, if_pos (by simpa using hw)]
    · rw [if_neg hw, if_neg h4, if_neg (by simpa using hw)]
      simp [Outcome.bind]

theorem aborting_pass2Step_eq (c : Consts) (d : Aborting.Decoders) (p : Parser)
    (parsedSwaps : List SwapData) (io : Nat × CompiledInstruction) :
    Aborting.pass2Step c d p parsedSwaps io =
      (Aborting.pass2Output c d p io).bind fun r => .ok (parsedSwaps ++ r) := by
  unfold Aborting.pass2Step Aborting.pass2Output
  simp only []
  generalize p.keyAt io.2.ProgramIDIndex = g
  split
  · simp [Outcome.bind]
  · repeat' split
    all_goals first | rfl | simp [Outcome.bind]

/-- Without an outer instruction of Jupiter, Moonshot, Boop.fun or the OKX router,
`ParseTransaction` makes the calls of the router wrappers in outer order, then the calls of
the second loop in outer order, and returns the lists appended. -/
theorem aborting_ParseTransaction_noskip (c : Consts) (d : Aborting.Decoders) (p : Parser)
    (hns : ¬ hasSkippingInstruction c p) :
    Aborting.ParseTransaction c d p =
      (Outcome.concat (p.txInfo.Instructions.enum.map (Aborting.routerOutput c d p))).bind
        fun routed =>
          (Outcome.concat (p.txInfo.Instructions.enum.map (Aborting.pass2Output c d p))).bind
            fun collected => .ok (routed ++ collected) := by
  have hno : ∀ io ∈ p.txInfo.Instructions.enum,
      ¬ (io.2.ProgramIDIndex < p.allAccountKeys.length ∧
        isSkipProgram c (p.keyAt io.2.ProgramIDIndex) = true) := by
    intro io hio hskip
    apply hns
    refine ⟨io.2, ?_, hskip⟩
    have hmem := List.mem_map_of_mem Prod.snd hio
    rw [List.enum_map_snd] at hmem
    exact hmem
  unfold Aborting.ParseTransaction
  rw [Outcome.foldl_concat (Aborting.pass1Step c d p) (Aborting.routerOutput c d p)
    (fun st r => (st.1, st.2 ++ r)) (by intro s l1 l2; simp) (by intro s; simp)
    p.txInfo.Instructions.enum
    (fun st io hio => aborting_pass1Step_noskip c d p st io (hno io hio))]
  cases Outcome.concat (p.txInfo.Instructions.enum.map (Aborting.routerOutput c d p)) with
  | error msg => rfl
  | abort => rfl
  | ok routed =>
    simp only [Outcome.bind, List.nil_append, Bool.false_eq_true, if_false]
    rw [Outcome.foldl_concat (Aborting.pass2Step c d p) (Aborting.pass2Output c d p)
      (fun s r => s ++ r) (by intro s l1 l2; simp) (by intro s; simp)
      p.txInfo.Instructions.enum
      (fun s io _ => aborting_pass2Step_eq c d p s io)]
    rfl

theorem aborting_routerStep_returning (c : Consts) (d : Decoders) (p : Parser)
    (instructionIndex : Nat) (st : List SwapData × List String) (inner : CompiledInstruction) :
    Aborting.routerStep c d.returning p instructionIndex st inner =
      .ok (routerStep c d p instructionIndex st inner) := by
  unfold Aborting.routerStep routerStep Decoders.returning
  simp only []
  split
  · rfl
  · repeat' split
    all_goals rfl

theorem aborting_processRouterSwaps_returning (c : Consts) (d : Decoders) (p : Parser)
    (instructionIndex : Nat) :
    Aborting.processRouterSwaps c d.returning p instructionIndex =
      .ok (processRouterSwaps c d p instructionIndex) := by
  unfold Aborting.processRouterSwaps processRouterSwaps
  simp only []
  split
  · rfl
  · rw [Outcome.foldl_returning _ _ (aborting_routerStep_returning c d p instructionIndex)]
    rfl

theorem aborting_pass1Step_returning (c : Consts) (d : Decoders) (p : Parser)
    (st : Bool × List SwapData) (io : Nat × CompiledInstruction) :
    Aborting.pass1Step c d.returning p st io = .ok (pass1Step c d p st io) := by
  unfold Aborting.pass1Step pass1Step
  simp only [aborting_processRouterSwaps_returning]
  unfold Decoders.returning
  simp only []
  split
  · rfl
  · repeat' split
    all_goals rfl

theorem aborting_pass2Step_returning (c : Consts) (d : Decoders) (p : Parser)
    (parsedSwaps : List SwapData) (io : Nat × CompiledInstruction) :
    Aborting.pass2Step c d.returning p parsedSwaps io = .ok (pass2Step c d p parsedSwaps io) := by
  unfold Aborting.pass2Step pass2Step Decoders.returning
  simp only []
  split
  · rfl
  · repeat' split
    all_goals rfl

/-- When every decoder call returns, `ParseTransaction` returns, and what it returns is the
list of the definition over `Decoders`. -/
theorem aborting_ParseTransaction_returning (c : Consts) (d : Decoders) (p : Parser) :
    Aborting.ParseTransaction c d.returning p = .ok (ParseTransaction c d p) := by
  unfold Aborting.ParseTransaction ParseTransaction
  rw [Outcome.foldl_returning _ _ (aborting_pass1Step_returning c d p)]
  simp only [Outcome.bind]
  split
  · rfl
  · rw [Outcome.foldl_returning _ _ (aborting_pass2Step_returning c d p)]

/-! ## The properties -/

/-- C1. When an outer instruction with an in-range program index runs Jupiter, Moonshot,
Boop.fun or the OKX router (the OKX router not being one of the router wrappers),
`ParseTransaction` returns exactly what its first loop collected, whatever the other outer
instructions are; the second loop contributes nothing, so that decoders with the same
first-loop outputs give the same list whatever they would return in the second loop. -/
theorem ParseTransaction_skip (c : Consts) (d : Decoders) (p : Parser)
    (hokx : isRouterWrapper c c.OKX_DEX_ROUTER_PROGRAM_ID = false)
    (h : hasSkippingInstruction c p) :
    ParseTransaction c d p = pass1Collected c d p ∧
      ∀ d2 : Decoders, (∀ io, pass1Output c d2 p io = pass1Output c d p io) →
        ParseTransaction c d2 p = ParseTransaction c d p := by
  have key : ∀ d0 : Decoders, ParseTransaction c d0 p = pass1Collected c d0 p := by
    intro d0
    unfold ParseTransaction
    simp only []
    rw [pass1_foldl c d0 p hokx, any_skipping c p h]
    simp [pass1Collected]
  refine ⟨key d, ?_⟩
  intro d2 hsame
  rw [key d2, key d]
  unfold pass1Collected
  congr 1
  apply List.map_congr_left
  intro io _
  exact hsame io

/-- Instance of C1: a Raydium instruction, then a Jupiter instruction, then an instruction
with an out-of-range program index. -/
theorem ParseTransaction_skip_witness :
    isRouterWrapper sampleConsts sampleConsts.OKX_DEX_ROUTER_PROGRAM_ID = false ∧
    hasSkippingInstruction sampleConsts dispatchParser ∧
    (ParseTransaction sampleConsts sampleDecoders dispatchParser =
        pass1Collected sampleConsts sampleDecoders dispatchParser ∧
      ∀ d2 : Decoders,
        (∀ io, pass1Output sampleConsts d2 dispatchParser io =
          pass1Output sampleConsts sampleDecoders dispatchParser io) →
        ParseTransaction sampleConsts d2 dispatchParser =
          ParseTransaction sampleConsts sampleDecoders dispatchParser) :=
  ⟨by decide, by decide,
    ParseTransaction_skip sampleConsts sampleDecoders dispatchParser (by decide) (by decide)⟩

/-- C2. The summariser tries the classes in the order Jupiter, Pump.fun, Raydium LaunchLab,
Boop.fun, Meteora DAMM v2 / DBC, generic reduction: when `k` is the first class in this
order that has an entry in the list, and the first entry of `k` carries the event of `k`,
the result is the result for the entries of `k` alone, wherever they stand among the
others; for the four event classes it is a summary whose AMMs list is the tag of that first
entry. -/
theorem class_priority (c : Consts) (x : Helpers) (p : Parser) (now : Int)
    (xs : List SwapData) (k : SwapClass) (first : SwapData)
    (hfirst : (entriesOf c k xs).head? = some first)
    (hev : k.carriesEvent first.Data = true)
    (htop : ∀ sd ∈ xs, k.rank ≤ (classOf c sd).rank) :
    ProcessSwapData c x p now xs = ProcessSwapData c x p now (entriesOf c k xs) ∧
      (k ≠ .jupiter → k ≠ .other →
        ∃ s, ProcessSwapData c x p now xs = .ok s ∧ s.AMMs = [first.Typ]) := by
  obtain ⟨hne, rest, hys⟩ := entriesOf_ne_nil c k xs first hfirst
  have hne2 : entriesOf c k xs ≠ [] := by rw [hys]; simp
  rw [ProcessSwapData_eq c x p now xs hne, ProcessSwapData_eq c x p now _ hne2]
  simp only [entriesOf_entriesOf]
  cases k with
  | jupiter =>
    refine ⟨?_, fun h => absurd rfl h⟩
    simp only [if_true]
    rw [if_pos (by rw [hys]; simp), if_pos (by rw [hys]; simp)]
  | pumpfun =>
    have e0 := entriesOf_nil_of_rank c .pumpfun .jupiter xs htop (by decide)
    obtain ⟨s0, hs0, hall⟩ := pumpfunStage_of_event p now (initSwapInfo x p) first rest hev
    simp only [e0, hys, if_true, hall, List.length_nil, gt_iff_lt, Nat.lt_irrefl, if_false,
      reduceCtorEq]
    exact ⟨trivial, fun _ _ => ⟨s0, rfl, by rw [hs0]; rfl⟩⟩
  | raydiumLaunchLab =>
    have e0 := entriesOf_nil_of_rank c .raydiumLaunchLab .jupiter xs htop (by decide)
    have e1 := entriesOf_nil_of_rank c .raydiumLaunchLab .pumpfun xs htop (by decide)
    obtain ⟨s0, hs0, hall⟩ :=
      raydiumLaunchLabStage_of_event p now (initSwapInfo x p) first rest hev
    have hp : ∀ boop met other, pumpfunStage p now (initSwapInfo x p) [] (first :: rest)
        boop met other = .ok s0 := by
      intro boop met other
      rw [pumpfunStage_demote _ _ _ _ _ _ _ _ (by simp), hall]
    simp only [e0, e1, hys, if_true, hp, List.length_nil, gt_iff_lt, Nat.lt_irrefl, if_false,
      reduceCtorEq]
    exact ⟨trivial, fun _ _ => ⟨s0, rfl, by rw [hs0]; rfl⟩⟩
  | boopFun =>
    have e0 := entriesOf_nil_of_rank c .boopFun .jupiter xs htop (by decide)
    have e1 := entriesOf_nil_of_rank c .boopFun .pumpfun xs htop (by decide)
    have e2 := entriesOf_nil_of_rank c .boopFun .raydiumLaunchLab xs htop (by decide)
    obtain ⟨s0, hs0, hall⟩ := boopFunStage_of_event p now (initSwapInfo x p) first rest hev
    have hp : ∀ met other, pumpfunStage p now (initSwapInfo x p) [] [] (first :: rest)
        met other = .ok s0 := by
      intro met other
      rw [pumpfunStage_demote _ _ _ _ _ _ _ _ (by simp),
        raydiumLaunchLabStage_demote _ _ _ _ _ _ _ (by simp), hall]
    simp only [e0, e1, e2, hys, if_true, hp, List.length_nil, gt_iff_lt, Nat.lt_irrefl,
      if_false, reduceCtorEq]
    exact ⟨trivial, fun _ _ => ⟨s0, rfl, by rw [hs0]; rfl⟩⟩
  | meteoraDAMMv2 =>
    have e0 := entriesOf_nil_of_rank c .meteoraDAMMv2 .jupiter xs htop (by decide)
    have e1 := entriesOf_nil_of_rank c .meteoraDAMMv2 .pumpfun xs htop (by decide)
    have e2 := entriesOf_nil_of_rank c .meteoraDAMMv2 .raydiumLaunchLab xs htop (by decide)
    have e3 := entriesOf_nil_of_rank c .meteoraDAMMv2 .boopFun xs htop (by decide)
    obtain ⟨s0, hs0, hall⟩ := meteoraStage_of_event p now (initSwapInfo x p) first rest hev
    have hp : ∀ other, pumpfunStage p now (initSwapInfo x p) [] [] [] (first :: rest)
        other = .ok s0 := by
      intro other
      rw [pumpfunStage_demote _ _ _ _ _ _ _ _ (by simp),
        raydiumLaunchLabStage_demote _ _ _ _ _ _ _ (by simp),
        boopFunStage_demote _ _ _ _ _ _ (by simp), hall]
    simp only [e0, e1, e2, e3, hys, if_true, hp, List.length_nil, gt_iff_lt, Nat.lt_irrefl,
      if_false, reduceCtorEq]
    exact ⟨trivial, fun _ _ => ⟨s0, rfl, by rw [hs0]; rfl⟩⟩
  | other =>
    have e0 := entriesOf_nil_of_rank c .other .jupiter xs htop (by decide)
    have e1 := entriesOf_nil_of_rank c .other .pumpfun xs htop (by decide)
    have e2 := entriesOf_nil_of_rank c .other .raydiumLaunchLab xs htop (by decide)
    have e3 := entriesOf_nil_of_rank c .other .boopFun xs htop (by decide)
    have e4 := entriesOf_nil_of_rank c .other .meteoraDAMMv2 xs htop (by decide)
    simp only [e0, e1, e2, e3, e4, if_true, List.length_nil, gt_iff_lt, Nat.lt_irrefl,
      if_false, reduceCtorEq]
    exact ⟨trivial, fun _ h => absurd rfl h⟩

/-- Instance of C2: entries of the Meteora, generic, Boop.fun and Pump.fun classes, each
event class with its event; the Pump.fun entry stands last and decides. -/
theorem class_priority_witness :
    (entriesOf sampleConsts .pumpfun mixedClassList).head? =
        some ⟨"pumpfun", .pumpfunTrade samplePumpfunEvent⟩ ∧
    SwapClass.carriesEvent .pumpfun (Payload.pumpfunTrade samplePumpfunEvent) = true ∧
    (∀ sd ∈ mixedClassList, SwapClass.rank .pumpfun ≤ (classOf sampleConsts sd).rank) ∧
    (ProcessSwapData sampleConsts sampleHelpers sampleParser 5 mixedClassList =
        ProcessSwapData sampleConsts sampleHelpers sampleParser 5
          (entriesOf sampleConsts .pumpfun mixedClassList) ∧
      (SwapClass.pumpfun ≠ .jupiter → SwapClass.pumpfun ≠ .other →
        ∃ s, ProcessSwapData sampleConsts sampleHelpers sampleParser 5 mixedClassList = .ok s ∧
          s.AMMs = ["pumpfun"])) :=
  ⟨by decide, by decide, by decide,
    class_priority sampleConsts sampleHelpers sampleParser 5 mixedClassList .pumpfun
      ⟨"pumpfun", .pumpfunTrade samplePumpfunEvent⟩ (by decide) (by decide) (by decide)⟩

/-- C3, as stated, fails: the summary of a Meteora DAMM v2 event whose two mints were left
zero has equal input and output mints. -/
theorem summary_mints_counterexample :
    ProcessSwapData sampleConsts sampleHelpers sampleParser 5 bareMeteoraList =
        .ok bareMeteoraSummary ∧
      bareMeteoraSummary.TokenInMint = bareMeteoraSummary.TokenOutMint :=
  ⟨by decide, by decide⟩

/-- C3, amended. When no class matches, so that the generic reduction decides, a summary
returned by `ProcessSwapData` has different input and output mints. -/
theorem generic_mints_differ (c : Consts) (x : Helpers) (p : Parser) (now : Int)
    (xs : List SwapData) (s : SwapInfo) (hd : c.tagsDistinct) (hn : noClassMatches c xs)
    (h : ProcessSwapData c x p now xs = .ok s) : s.TokenInMint ≠ s.TokenOutMint := by
  have hne := ProcessSwapData_ne_nil c x p now xs s h
  rw [ProcessSwapData_generic c x p now xs hd hn hne] at h
  obtain ⟨ti, tz, -, -, hmint, hki, hko, -⟩ := genericReduction_ok p now _ _ s h
  intro heq
  rw [heq] at hki
  exact hmint (PublicKeyFromBase58_injective hki hko)

/-- Instance of C3, amended: four transfers of USDC and SOL. -/
theorem generic_mints_differ_witness :
    sampleConsts.tagsDistinct ∧ noClassMatches sampleConsts plainList ∧
    ProcessSwapData sampleConsts sampleHelpers sampleParser 5 plainList = .ok plainSummary ∧
    plainSummary.TokenInMint ≠ plainSummary.TokenOutMint :=
  ⟨by decide, by decide, by decide,
    generic_mints_differ sampleConsts sampleHelpers sampleParser 5 plainList plainSummary
      (by decide) (by decide) (by decide)⟩

/-- C4. The empty list gives the error "no swap data provided"; a non-empty list in which
no class matches and whose transfer records have fewer than 2 distinct mints gives the
error "no valid swaps found". -/
theorem ProcessSwapData_failures (c : Consts) (x : Helpers) (p : Parser) (now : Int)
    (xs : List SwapData) (hd : c.tagsDistinct) (hn : noClassMatches c xs) (hne : xs ≠ [])
    (hfew : ((transferRecords xs).map (fun t => t.mint)).dedup.length < 2) :
    ProcessSwapData c x p now [] = .error "no swap data provided" ∧
      ProcessSwapData c x p now xs = .error "no valid swaps found" := by
  constructor
  · simp [ProcessSwapData]
  · rw [ProcessSwapData_generic c x p now xs hd hn hne, genericReduction_eq]
    have hlen : ¬ 2 ≤ (firstSeen (fun t => t.mint)
        (transferRecords (reducedList c xs))).length := by
      rw [firstSeen_length,
        distinct_mints_perm (transferRecords_perm (reducedList_perm c hd xs))]
      omega
    rw [if_neg hlen]

/-- Instance of C4: one transfer of SOL and an entry without transfer. -/
theorem ProcessSwapData_failures_witness :
    sampleConsts.tagsDistinct ∧ noClassMatches sampleConsts singleMintList ∧
    singleMintList ≠ [] ∧
    ((transferRecords singleMintList).map (fun t => t.mint)).dedup.length < 2 ∧
    (ProcessSwapData sampleConsts sampleHelpers sampleParser 5 [] =
        .error "no swap data provided" ∧
      ProcessSwapData sampleConsts sampleHelpers sampleParser 5 singleMintList =
        .error "no valid swaps found") :=
  ⟨by decide, by decide, by decide, by decide,
    ProcessSwapData_failures sampleConsts sampleHelpers sampleParser 5 singleMintList
      (by decide) (by decide) (by decide) (by decide)⟩

/-- C5, at the failing input: on a list whose first transfer has the mint `Unknown` and
whose second transfer has the native SOL mint, `ProcessSwapData` aborts in
`MustPublicKeyFromBase58` and returns neither a summary nor an error. -/
theorem ProcessSwapData_aborts_on_unknown_mint :
    ProcessSwapData sampleConsts sampleHelpers sampleParser 5 unknownMintList = .abort := by
  decide

/-- C6, as stated, fails: the list reaches the generic reduction with two distinct mints
and its first transfer record has the USDC mint, but the input mint of the summary is the
native SOL mint, because the LaunchLab entry is moved behind the Raydium entry. -/
theorem generic_mint_order_counterexample :
    noClassMatches sampleConsts demotedList ∧
    2 ≤ ((transferRecords demotedList).map (fun t => t.mint)).dedup.length ∧
    ((transferRecords demotedList).map (fun t => t.mint)).head? = some usdcText ∧
    PublicKeyFromBase58 usdcText = some usdcMint ∧
    ProcessSwapData sampleConsts sampleHelpers sampleParser 5 demotedList =
      .ok demotedSummary ∧
    demotedSummary.TokenInMint ≠ usdcMint ∧
    demotedSummary.TokenInMint = NATIVE_SOL_MINT_PROGRAM_ID :=
  ⟨by decide, by decide, by decide, by decide, by decide, by decide, by decide⟩

/-- C6, amended. The input and output mints follow the first-seen order of the reduced list
(the entries with none of the tags PUMP_FUN, RAYDIUM_LAUNCHLAB, BOOPFUN in the order of the
list, then the PUMP_FUN, the RAYDIUM_LAUNCHLAB and the BOOPFUN entries): when no class
matches, the transfer records have at least 2 distinct mints, `mi` is the mint of the first
transfer record of the reduced list, `mo` is the mint whose first occurrence comes latest in
it, and both are the base58 text of a key, `ProcessSwapData` returns a summary whose input
mint is the key of `mi` and whose output mint is the key of `mo`. A list without PUMP_FUN,
RAYDIUM_LAUNCHLAB and BOOPFUN entries is its own reduced list. -/
theorem generic_mint_order (c : Consts) (x : Helpers) (p : Parser) (now : Int)
    (xs : List SwapData) (mi mo : String) (ki ko : PublicKey)
    (hd : c.tagsDistinct) (hn : noClassMatches c xs)
    (h2 : 2 ≤ ((transferRecords xs).map (fun t => t.mint)).dedup.length)
    (hmi : ((transferRecords (reducedList c xs)).map (fun t => t.mint)).head? = some mi)
    (hmo : mo ∈ (transferRecords (reducedList c xs)).map (fun t => t.mint))
    (hlast : ∀ m ∈ (transferRecords (reducedList c xs)).map (fun t => t.mint),
      ((transferRecords (reducedList c xs)).map (fun t => t.mint)).indexOf m ≤
        ((transferRecords (reducedList c xs)).map (fun t => t.mint)).indexOf mo)
    (hki : PublicKeyFromBase58 mi = some ki) (hko : PublicKeyFromBase58 mo = some ko) :
    (∃ s, ProcessSwapData c x p now xs = .ok s ∧ s.TokenInMint = ki ∧ s.TokenOutMint = ko) ∧
      ((∀ sd ∈ xs, sd.Typ ∉ [c.PUMP_FUN, c.RAYDIUM_LAUNCHLAB, c.BOOPFUN]) →
        reducedList c xs = xs) := by
  refine ⟨?_, reducedList_self c xs⟩
  have hne : xs ≠ [] := by
    intro hnil
    subst hnil
    simp [transferRecords] at h2
  rw [ProcessSwapData_generic c x p now xs hd hn hne, genericReduction_eq]
  have hlen : 2 ≤ (firstSeen (fun t => t.mint)
      (transferRecords (reducedList c xs))).length := by
    rw [firstSeen_length,
      distinct_mints_perm (transferRecords_perm (reducedList_perm c hd xs))]
    exact h2
  rw [if_pos hlen]
  obtain ⟨ti, hti, htim⟩ : ∃ ti, (transferRecords (reducedList c xs)).head? = some ti ∧
      ti.mint = mi := by
    cases hl : transferRecords (reducedList c xs) with
    | nil => rw [hl] at hmi; simp at hmi
    | cons a l =>
      rw [hl] at hmi
      simp only [List.map_cons, List.head?_cons, Option.some.injEq] at hmi
      exact ⟨a, rfl, hmi⟩
  have hhd : (firstSeen (fun t => t.mint) (transferRecords (reducedList c xs))).headD
      ⟨"", 0, 0⟩ = ti := by
    rw [List.headD_eq_head?, firstSeen_head, hti]; rfl
  obtain ⟨tz, htz⟩ : ∃ tz, (firstSeen (fun t => t.mint)
      (transferRecords (reducedList c xs))).getLast? = some tz := by
    cases hl : firstSeen (fun t => t.mint) (transferRecords (reducedList c xs)) with
    | nil => rw [hl] at hlen; simp at hlen
    | cons a l => exact ⟨_, List.getLast?_eq_getLast _ (by simp)⟩
  have hld : (firstSeen (fun t => t.mint) (transferRecords (reducedList c xs))).getLastD
      ⟨"", 0, 0⟩ = tz := by
    rw [List.getLastD_eq_getLast?, htz]; rfl
  obtain ⟨hzmem, hzmax⟩ := firstSeen_getLast (fun t : TokenTransfer => t.mint) _ tz htz
  have hzm : tz.mint ∈ (transferRecords (reducedList c xs)).map (fun t => t.mint) :=
    List.mem_map.mpr ⟨tz, hzmem, rfl⟩
  have hmoz : tz.mint = mo := by
    apply (List.indexOf_inj hzm hmo).mp
    exact Nat.le_antisymm (hlast _ hzm) (hzmax _ hmo)
  rw [hhd, hld, htim, hmoz]
  unfold MustPublicKeyFromBase58
  rw [hki, hko]
  exact ⟨_, rfl, rfl, rfl⟩

/-- Instance of C6, amended: the LaunchLab transfer of USDC is moved behind the Raydium
transfer of SOL, so that SOL is the input and USDC the output. -/
theorem generic_mint_order_witness :
    sampleConsts.tagsDistinct ∧ noClassMatches sampleConsts demotedList ∧
    2 ≤ ((transferRecords demotedList).map (fun t => t.mint)).dedup.length ∧
    ((transferRecords (reducedList sampleConsts demotedList)).map (fun t => t.mint)).head? =
      some solText ∧
    usdcText ∈ (transferRecords (reducedList sampleConsts demotedList)).map (fun t => t.mint) ∧
    (∀ m ∈ (transferRecords (reducedList sampleConsts demotedList)).map (fun t => t.mint),
      ((transferRecords (reducedList sampleConsts demotedList)).map
          (fun t => t.mint)).indexOf m ≤
        ((transferRecords (reducedList sampleConsts demotedList)).map
          (fun t => t.mint)).indexOf usdcText) ∧
    PublicKeyFromBase58 solText = some NATIVE_SOL_MINT_PROGRAM_ID ∧
    PublicKeyFromBase58 usdcText = some usdcMint ∧
    ((∃ s, ProcessSwapData sampleConsts sampleHelpers sampleParser 5 demotedList = .ok s ∧
        s.TokenInMint = NATIVE_SOL_MINT_PROGRAM_ID ∧ s.TokenOutMint = usdcMint) ∧
      ((∀ sd ∈ demotedList, sd.Typ ∉ [sampleConsts.PUMP_FUN, sampleConsts.RAYDIUM_LAUNCHLAB,
          sampleConsts.BOOPFUN]) → reducedList sampleConsts demotedList = demotedList)) :=
  ⟨by decide, by decide, by decide, by decide, by decide, by decide, by decide, by decide,
    generic_mint_order sampleConsts sampleHelpers sampleParser 5 demotedList solText usdcText
      NATIVE_SOL_MINT_PROGRAM_ID usdcMint (by decide) (by decide) (by decide) (by decide)
      (by decide) (by decide) (by decide) (by decide)⟩

/-- C7. In a summary of the generic reduction, the input amount is the sum modulo `2 ^ 64`
of the set of the distinct amounts of the transfer records that have the input mint, and
the output amount is the same sum for the output mint. -/
theorem generic_amounts (c : Consts) (x : Helpers) (p : Parser) (now : Int)
    (xs : List SwapData) (s : SwapInfo) (hd : c.tagsDistinct) (hn : noClassMatches c xs)
    (h : ProcessSwapData c x p now xs = .ok s) :
    s.TokenInAmount = distinctAmountSum (transferRecords xs) (PublicKey.String s.TokenInMint) ∧
      s.TokenOutAmount =
        distinctAmountSum (transferRecords xs) (PublicKey.String s.TokenOutMint) := by
  have hne := ProcessSwapData_ne_nil c x p now xs s h
  rw [ProcessSwapData_generic c x p now xs hd hn hne] at h
  obtain ⟨ti, tz, -, -, -, hki, hko, hin, hout, -⟩ := genericReduction_ok p now _ _ s h
  have hperm := transferRecords_perm (reducedList_perm c hd xs)
  rw [PublicKeyFromBase58_canonical hki, PublicKeyFromBase58_canonical hko, hin, hout,
    distinctAmountSum_perm hperm, distinctAmountSum_perm hperm]
  exact ⟨rfl, rfl⟩

/-- Instance of C7: the SOL transfer of amount 7 is seen twice and counted once,
`7 + 9 = 16`. -/
theorem generic_amounts_witness :
    sampleConsts.tagsDistinct ∧ noClassMatches sampleConsts plainList ∧
    ProcessSwapData sampleConsts sampleHelpers sampleParser 5 plainList = .ok plainSummary ∧
    (plainSummary.TokenInAmount =
        distinctAmountSum (transferRecords plainList)
          (PublicKey.String plainSummary.TokenInMint) ∧
      plainSummary.TokenOutAmount =
        distinctAmountSum (transferRecords plainList)
          (PublicKey.String plainSummary.TokenOutMint)) :=
  ⟨by decide, by decide, by decide,
    generic_amounts sampleConsts sampleHelpers sampleParser 5 plainList plainSummary
      (by decide) (by decide) (by decide)⟩

/-- C8. For a list without JUPITER entry, the AMMs list of a returned summary has no
duplicate; when no class matches, it holds exactly the tags of the entries of the reduced
list, in the order of their first occurrence there. -/
theorem amms_distinct (c : Consts) (x : Helpers) (p : Parser) (now : Int)
    (xs : List SwapData) (s : SwapInfo) (hJ : ∀ sd ∈ xs, sd.Typ ≠ c.JUPITER)
    (h : ProcessSwapData c x p now xs = .ok s) :
    s.AMMs.Nodup ∧
      (c.tagsDistinct → noClassMatches c xs →
        (∀ t, t ∈ s.AMMs ↔ t ∈ (reducedList c xs).map (fun sd => sd.Typ)) ∧
        s.AMMs.Pairwise (fun a b =>
          ((reducedList c xs).map (fun sd => sd.Typ)).indexOf a <
            ((reducedList c xs).map (fun sd => sd.Typ)).indexOf b)) := by
  refine ⟨(ProcessSwapData_amms c x p now xs s hJ h).1, ?_⟩
  intro hd hn
  have hne := ProcessSwapData_ne_nil c x p now xs s h
  rw [ProcessSwapData_generic c x p now xs hd hn hne] at h
  obtain ⟨ti, tz, -, -, -, -, -, -, -, -, -, hamm, -⟩ := genericReduction_ok p now _ _ s h
  have hamm2 : s.AMMs = firstSeen id ((reducedList c xs).map (fun sd => sd.Typ)) := by
    rw [hamm]; rfl
  rw [hamm2]
  constructor
  · intro t
    have := firstSeen_key_mem (id : String → String) t
      ((reducedList c xs).map (fun sd => sd.Typ))
    simpa using this
  · have := firstSeen_pairwise (id : String → String)
      ((reducedList c xs).map (fun sd => sd.Typ))
    simpa using this

/-- Instance of C8: the tags raydium, orca, raydium, raydium give the AMMs list
raydium, orca. -/
theorem amms_distinct_witness :
    (∀ sd ∈ plainList, sd.Typ ≠ sampleConsts.JUPITER) ∧
    ProcessSwapData sampleConsts sampleHelpers sampleParser 5 plainList = .ok plainSummary ∧
    (plainSummary.AMMs.Nodup ∧
      (sampleConsts.tagsDistinct → noClassMatches sampleConsts plainList →
        (∀ t, t ∈ plainSummary.AMMs ↔
          t ∈ (reducedList sampleConsts plainList).map (fun sd => sd.Typ)) ∧
        plainSummary.AMMs.Pairwise (fun a b =>
          ((reducedList sampleConsts plainList).map (fun sd => sd.Typ)).indexOf a <
            ((reducedList sampleConsts plainList).map (fun sd => sd.Typ)).indexOf b))) :=
  ⟨by decide, by decide,
    amms_distinct sampleConsts sampleHelpers sampleParser 5 plainList plainSummary
      (by decide) (by decide)⟩

/-- C9. For a list without JUPITER entry, the AMMs list of a returned summary is not
empty. -/
theorem amms_nonempty (c : Consts) (x : Helpers) (p : Parser) (now : Int)
    (xs : List SwapData) (s : SwapInfo) (hJ : ∀ sd ∈ xs, sd.Typ ≠ c.JUPITER)
    (h : ProcessSwapData c x p now xs = .ok s) : s.AMMs ≠ [] :=
  (ProcessSwapData_amms c x p now xs s hJ h).2

/-- Instance of C9: the summary of a Meteora event has the AMMs list meteora. -/
theorem amms_nonempty_witness :
    (∀ sd ∈ bareMeteoraList, sd.Typ ≠ sampleConsts.JUPITER) ∧
    ProcessSwapData sampleConsts sampleHelpers sampleParser 5 bareMeteoraList =
      .ok bareMeteoraSummary ∧
    bareMeteoraSummary.AMMs ≠ [] :=
  ⟨by decide, by decide,
    amms_nonempty sampleConsts sampleHelpers sampleParser 5 bareMeteoraList bareMeteoraSummary
      (by decide) (by decide)⟩

/-- C10. For a list without JUPITER entry whose first PUMP_FUN entry carries the trade
event `e`, the summary is: for a buy, input (native SOL mint, 9, `e.SolAmount`) and output
(`e.Mint`, its decimals in the mint-decimals table or 0, `e.TokenAmount`); otherwise the two
legs swapped; the AMMs list is the PUMP_FUN tag alone and the timestamp is `e.Timestamp`,
not the block time. -/
theorem pumpfun_trade_summary (c : Consts) (x : Helpers) (p : Parser) (now : Int)
    (xs : List SwapData) (e : PumpfunTradeEvent)
    (hJ : ∀ sd ∈ xs, sd.Typ ≠ c.JUPITER)
    (hfirst : firstOfType c.PUMP_FUN xs = some ⟨c.PUMP_FUN, .pumpfunTrade e⟩) :
    ProcessSwapData c x p now xs =
      .ok { Signers := signersOf x p
            Signatures := p.txInfo.Signatures
            AMMs := [c.PUMP_FUN]
            Timestamp := e.Timestamp
            TokenInMint := if e.IsBuy then NATIVE_SOL_MINT_PROGRAM_ID else e.Mint
            TokenInAmount := if e.IsBuy then e.SolAmount else e.TokenAmount
            TokenInDecimals :=
              if e.IsBuy then 9 else (p.splDecimalsMap (PublicKey.String e.Mint)).getD 0
            TokenOutMint := if e.IsBuy then e.Mint else NATIVE_SOL_MINT_PROGRAM_ID
            TokenOutAmount := if e.IsBuy then e.TokenAmount else e.SolAmount
            TokenOutDecimals :=
              if e.IsBuy then (p.splDecimalsMap (PublicKey.String e.Mint)).getD 0 else 9 } := by
  have hne : xs ≠ [] := by
    intro hnil
    subst hnil
    simp [firstOfType] at hfirst
  rw [ProcessSwapData_eq c x p now xs hne, entriesOf_jupiter_nil c xs hJ, if_neg (by simp),
    entriesOf_pumpfun c xs hJ]
  have hhead : (xs.filter (fun sd => sd.Typ = c.PUMP_FUN)).head? =
      some ⟨c.PUMP_FUN, .pumpfunTrade e⟩ := by
    rw [List.filter_head?]; exact hfirst
  cases hl : xs.filter (fun sd => sd.Typ = c.PUMP_FUN) with
  | nil => rw [hl] at hhead; simp at hhead
  | cons first rest =>
    rw [hl] at hhead
    simp only [List.head?_cons, Option.some.injEq] at hhead
    subst hhead
    rw [pumpfunStage_event p now _ _ rest _ _ _ _ e rfl]
    rfl

/-- Instance of C10: a buy of 20 units of USDC for 10 lamports, stamped 1234, on a parser
whose block time is 1700000000. -/
theorem pumpfun_trade_summary_witness :
    (∀ sd ∈ pumpfunList, sd.Typ ≠ sampleConsts.JUPITER) ∧
    firstOfType sampleConsts.PUMP_FUN pumpfunList =
      some ⟨sampleConsts.PUMP_FUN, .pumpfunTrade samplePumpfunEvent⟩ ∧
    ProcessSwapData sampleConsts sampleHelpers sampleParser 5 pumpfunList =
      .ok { Signers := signersOf sampleHelpers sampleParser
            Signatures := sampleParser.txInfo.Signatures
            AMMs := [sampleConsts.PUMP_FUN]
            Timestamp := samplePumpfunEvent.Timestamp
            TokenInMint :=
              if samplePumpfunEvent.IsBuy then NATIVE_SOL_MINT_PROGRAM_ID
              else samplePumpfunEvent.Mint
            TokenInAmount :=
              if samplePumpfunEvent.IsBuy then samplePumpfunEvent.SolAmount
              else samplePumpfunEvent.TokenAmount
            TokenInDecimals :=
              if samplePumpfunEvent.IsBuy then 9
              else (sampleParser.splDecimalsMap
                (PublicKey.String samplePumpfunEvent.Mint)).getD 0
            TokenOutMint :=
              if samplePumpfunEvent.IsBuy then samplePumpfunEvent.Mint
              else NATIVE_SOL_MINT_PROGRAM_ID
            TokenOutAmount :=
              if samplePumpfunEvent.IsBuy then samplePumpfunEvent.TokenAmount
              else samplePumpfunEvent.SolAmount
            TokenOutDecimals :=
              if samplePumpfunEvent.IsBuy then
                (sampleParser.splDecimalsMap (PublicKey.String samplePumpfunEvent.Mint)).getD 0
              else 9 } :=
  ⟨by decide, by decide,
    pumpfun_trade_summary sampleConsts sampleHelpers sampleParser 5 pumpfunList
      samplePumpfunEvent (by decide) (by decide)⟩

/-! ## Claims C11 to C13: the event branches -/

/-- Counterexample to C11: the list `lateEventList` has no JUPITER entry and its second
PUMP_FUN entry carries a trade event, yet `ProcessSwapData` returns the error
"no valid swaps found": only the first PUMP_FUN entry is looked at. -/
theorem pumpfun_any_event_counterexample :
    (∀ sd ∈ lateEventList, sd.Typ ≠ sampleConsts.JUPITER) ∧
    (∃ sd ∈ lateEventList, sd.Typ = sampleConsts.PUMP_FUN ∧ sd.Data.isPumpfunTrade = true) ∧
    ProcessSwapData sampleConsts sampleHelpers sampleParser 5 lateEventList =
      .error "no valid swaps found" := by
  refine ⟨by decide, ⟨⟨"pumpfun", .pumpfunTrade samplePumpfunEvent⟩, by decide, by decide,
    by decide⟩, by decide⟩

/-- C11, amended. For a list without JUPITER entry in which a PUMP_FUN entry carrying the
trade event `e` is preceded by no other PUMP_FUN entry, `ProcessSwapData` returns what it
returns for that entry alone, the summary derived from `e`: the entries before it (of other
tags), the entries after it and the payloads of the later PUMP_FUN entries do not matter. -/
theorem pumpfun_first_event (c : Consts) (x : Helpers) (p : Parser) (now : Int)
    (pre post : List SwapData) (e : PumpfunTradeEvent)
    (hJ : ∀ sd ∈ pre ++ ⟨c.PUMP_FUN, .pumpfunTrade e⟩ :: post, sd.Typ ≠ c.JUPITER)
    (hpre : ∀ sd ∈ pre, sd.Typ ≠ c.PUMP_FUN) :
    ProcessSwapData c x p now (pre ++ ⟨c.PUMP_FUN, .pumpfunTrade e⟩ :: post) =
      ProcessSwapData c x p now [⟨c.PUMP_FUN, .pumpfunTrade e⟩] ∧
    ∃ s, ProcessSwapData c x p now (pre ++ ⟨c.PUMP_FUN, .pumpfunTrade e⟩ :: post) = .ok s ∧
      s.AMMs = [c.PUMP_FUN] ∧ s.Timestamp = e.Timestamp ∧
      s.TokenInMint = (if e.IsBuy then NATIVE_SOL_MINT_PROGRAM_ID else e.Mint) ∧
      s.TokenInAmount = (if e.IsBuy then e.SolAmount else e.TokenAmount) ∧
      s.TokenOutMint = (if e.IsBuy then e.Mint else NATIVE_SOL_MINT_PROGRAM_ID) ∧
      s.TokenOutAmount = (if e.IsBuy then e.TokenAmount else e.SolAmount) := by
  have hJ1 : ∀ sd ∈ [(⟨c.PUMP_FUN, .pumpfunTrade e⟩ : SwapData)], sd.Typ ≠ c.JUPITER := by
    intro sd hsd
    exact hJ sd (by
      rw [List.mem_singleton] at hsd
      rw [hsd]
      exact List.mem_append_right _ (List.mem_cons_self _ _))
  have h1 := ProcessSwapData_pumpfun_event c x p now _ e hJ
    (firstOfType_append_cons c.PUMP_FUN pre post _ hpre rfl)
  have h2 := ProcessSwapData_pumpfun_event c x p now _ e hJ1
    (firstOfType_append_cons c.PUMP_FUN [] [] _ (by simp) rfl)
  refine ⟨by rw [h1]; exact h2.symm, _, h1, rfl, rfl, rfl, rfl, rfl, rfl⟩

/-- Instance of C11: in `pumpfunList` the event entry comes first among the PUMP_FUN
entries. -/
theorem pumpfun_first_event_witness :
    (∀ sd ∈ ([⟨"raydium", sampleTransfer solText 1 9⟩] : List SwapData) ++
        ⟨sampleConsts.PUMP_FUN, .pumpfunTrade samplePumpfunEvent⟩ ::
          [⟨"pumpfun", .other⟩], sd.Typ ≠ sampleConsts.JUPITER) ∧
    (∀ sd ∈ ([⟨"raydium", sampleTransfer solText 1 9⟩] : List SwapData),
      sd.Typ ≠ sampleConsts.PUMP_FUN) ∧
    ProcessSwapData sampleConsts sampleHelpers sampleParser 5
        ([⟨"raydium", sampleTransfer solText 1 9⟩] ++
          ⟨sampleConsts.PUMP_FUN, .pumpfunTrade samplePumpfunEvent⟩ :: [⟨"pumpfun", .other⟩]) =
      ProcessSwapData sampleConsts sampleHelpers sampleParser 5
        [⟨sampleConsts.PUMP_FUN, .pumpfunTrade samplePumpfunEvent⟩] :=
  ⟨by decide, by decide,
    (pumpfun_first_event sampleConsts sampleHelpers sampleParser 5
      [⟨"raydium", sampleTransfer solText 1 9⟩] [⟨"pumpfun", .other⟩] samplePumpfunEvent
      (by decide) (by decide)).1⟩

/-- C12. For a list without JUPITER entry whose first PUMP_FUN entry, if any, carries no
trade event and whose first RAYDIUM_LAUNCHLAB entry carries the event `e`, the summary is:
for a buy, input (native SOL mint, 9, `e.AmountIn`) and output (`e.TokenMint`,
`e.TokenDecimals`, `e.AmountOut`); otherwise input (`e.TokenMint`, `e.TokenDecimals`,
`e.AmountIn`) and output (native SOL mint, 9, `e.AmountOut`); the AMMs list is the
RAYDIUM_LAUNCHLAB tag alone. -/
theorem launchLab_summary (c : Consts) (x : Helpers) (p : Parser) (now : Int)
    (xs : List SwapData) (e : RaydiumLaunchLabBuyEvent) (hd : c.tagsDistinct)
    (hJ : ∀ sd ∈ xs, sd.Typ ≠ c.JUPITER)
    (hP : (firstOfType c.PUMP_FUN xs).all (fun sd => !sd.Data.isPumpfunTrade) = true)
    (hfirst : firstOfType c.RAYDIUM_LAUNCHLAB xs =
      some ⟨c.RAYDIUM_LAUNCHLAB, .raydiumLaunchLab e⟩) :
    ProcessSwapData c x p now xs =
      .ok { Signers := signersOf x p
            Signatures := p.txInfo.Signatures
            AMMs := [c.RAYDIUM_LAUNCHLAB]
            Timestamp := p.blockTimeOrNow now
            TokenInMint := if e.IsBuy then NATIVE_SOL_MINT_PROGRAM_ID else e.TokenMint
            TokenInAmount := e.AmountIn
            TokenInDecimals := if e.IsBuy then 9 else e.TokenDecimals
            TokenOutMint := if e.IsBuy then e.TokenMint else NATIVE_SOL_MINT_PROGRAM_ID
            TokenOutAmount := e.AmountOut
            TokenOutDecimals := if e.IsBuy then e.TokenDecimals else 9 } := by
  rw [ProcessSwapData_eq c x p now xs (firstOfType_ne_nil _ _ _ hfirst),
    entriesOf_jupiter_nil c xs hJ, if_neg (by simp), entriesOf_pumpfun c xs hJ,
    entriesOf_raydiumLaunchLab c hd xs hJ]
  rw [pumpfunStage_demote p now _ _ _ _ _ _
    (by rw [filter_head_firstOfType]; exact hP)]
  obtain ⟨rest, hl⟩ := filter_cons_of_firstOfType _ _ _ hfirst
  rw [hl, raydiumLaunchLabStage_event p now _ _ rest _ _ _ e rfl]
  rfl

/-- Instance of C12: a sale of 50 units of USDC for 70 lamports, behind a PUMP_FUN transfer
and a Raydium transfer. -/
theorem launchLab_summary_witness :
    sampleConsts.tagsDistinct ∧
    (∀ sd ∈ launchLabList, sd.Typ ≠ sampleConsts.JUPITER) ∧
    (firstOfType sampleConsts.PUMP_FUN launchLabList).all
      (fun sd => !sd.Data.isPumpfunTrade) = true ∧
    firstOfType sampleConsts.RAYDIUM_LAUNCHLAB launchLabList =
      some ⟨sampleConsts.RAYDIUM_LAUNCHLAB, .raydiumLaunchLab sampleLaunchLabEvent⟩ ∧
    ProcessSwapData sampleConsts sampleHelpers sampleParser 5 launchLabList =
      .ok { Signers := signersOf sampleHelpers sampleParser
            Signatures := sampleParser.txInfo.Signatures
            AMMs := [sampleConsts.RAYDIUM_LAUNCHLAB]
            Timestamp := sampleParser.blockTimeOrNow 5
            TokenInMint :=
              if sampleLaunchLabEvent.IsBuy then NATIVE_SOL_MINT_PROGRAM_ID
              else sampleLaunchLabEvent.TokenMint
            TokenInAmount := sampleLaunchLabEvent.AmountIn
            TokenInDecimals :=
              if sampleLaunchLabEvent.IsBuy then 9 else sampleLaunchLabEvent.TokenDecimals
            TokenOutMint :=
              if sampleLaunchLabEvent.IsBuy then sampleLaunchLabEvent.TokenMint
              else NATIVE_SOL_MINT_PROGRAM_ID
            TokenOutAmount := sampleLaunchLabEvent.AmountOut
            TokenOutDecimals :=
              if sampleLaunchLabEvent.IsBuy then sampleLaunchLabEvent.TokenDecimals
              else 9 } :=
  ⟨by decide, by decide, by decide, by decide,
    launchLab_summary sampleConsts sampleHelpers sampleParser 5 launchLabList
      sampleLaunchLabEvent (by decide) (by decide) (by decide) (by decide)⟩

/-- C13. For a list without JUPITER entry whose first PUMP_FUN entry and first
RAYDIUM_LAUNCHLAB entry, if any, carry no event of their class and whose first BOOPFUN entry
carries the event `e`, the summary is SOL to token whatever `e.IsBuy` says: input (native SOL
mint, 9, `e.BuyAmount`), output (`e.TokenMint`, `e.TokenDecimals`, `e.TokenOut`), and the
AMMs list is the BOOPFUN tag alone. -/
theorem boopFun_summary (c : Consts) (x : Helpers) (p : Parser) (now : Int)
    (xs : List SwapData) (e : BoopFunSwapEvent) (hd : c.tagsDistinct)
    (hJ : ∀ sd ∈ xs, sd.Typ ≠ c.JUPITER)
    (hP : (firstOfType c.PUMP_FUN xs).all (fun sd => !sd.Data.isPumpfunTrade) = true)
    (hL : (firstOfType c.RAYDIUM_LAUNCHLAB xs).all
      (fun sd => !sd.Data.isRaydiumLaunchLab) = true)
    (hfirst : firstOfType c.BOOPFUN xs = some ⟨c.BOOPFUN, .boopFun e⟩) :
    ProcessSwapData c x p now xs =
      .ok { Signers := signersOf x p
            Signatures := p.txInfo.Signatures
            AMMs := [c.BOOPFUN]
            Timestamp := p.blockTimeOrNow now
            TokenInMint := NATIVE_SOL_MINT_PROGRAM_ID
            TokenInAmount := e.BuyAmount
            TokenInDecimals := 9
            TokenOutMint := e.TokenMint
            TokenOutAmount := e.TokenOut
            TokenOutDecimals := e.TokenDecimals } := by
  rw [ProcessSwapData_eq c x p now xs (firstOfType_ne_nil _ _ _ hfirst),
    entriesOf_jupiter_nil c xs hJ, if_neg (by simp), entriesOf_pumpfun c xs hJ,
    entriesOf_raydiumLaunchLab c hd xs hJ, entriesOf_boopFun c hd xs hJ]
  rw [pumpfunStage_demote p now _ _ _ _ _ _
    (by rw [filter_head_firstOfType]; exact hP)]
  rw [raydiumLaunchLabStage_demote p now _ _ _ _ _
    (by rw [filter_head_firstOfType]; exact hL)]
  obtain ⟨rest, hl⟩ := filter_cons_of_firstOfType _ _ _ hfirst
  rw [hl, boopFunStage_event p now _ _ rest _ _ e rfl]
  rfl

/-- Instance of C13: an event marked as a sale, behind a Meteora event entry and a
LaunchLab transfer, gives SOL as the input leg. -/
theorem boopFun_summary_witness :
    sampleConsts.tagsDistinct ∧
    (∀ sd ∈ boopFunList, sd.Typ ≠ sampleConsts.JUPITER) ∧
    (firstOfType sampleConsts.PUMP_FUN boopFunList).all
      (fun sd => !sd.Data.isPumpfunTrade) = true ∧
    (firstOfType sampleConsts.RAYDIUM_LAUNCHLAB boopFunList).all
      (fun sd => !sd.Data.isRaydiumLaunchLab) = true ∧
    firstOfType sampleConsts.BOOPFUN boopFunList =
      some ⟨sampleConsts.BOOPFUN, .boopFun sampleBoopFunEvent⟩ ∧
    sampleBoopFunEvent.IsBuy = false ∧
    ProcessSwapData sampleConsts sampleHelpers sampleParser 5 boopFunList =
      .ok { Signers := signersOf sampleHelpers sampleParser
            Signatures := sampleParser.txInfo.Signatures
            AMMs := [sampleConsts.BOOPFUN]
            Timestamp := sampleParser.blockTimeOrNow 5
            TokenInMint := NATIVE_SOL_MINT_PROGRAM_ID
            TokenInAmount := sampleBoopFunEvent.BuyAmount
            TokenInDecimals := 9
            TokenOutMint := sampleBoopFunEvent.TokenMint
            TokenOutAmount := sampleBoopFunEvent.TokenOut
            TokenOutDecimals := sampleBoopFunEvent.TokenDecimals } :=
  ⟨by decide, by decide, by decide, by decide, by decide, by decide,
    boopFun_summary sampleConsts sampleHelpers sampleParser 5 boopFunList
      sampleBoopFunEvent (by decide) (by decide) (by decide) (by decide) (by decide)⟩

/-! ## Claims C14 to C16: determinism, timestamp and signer -/

/-- Counterexample to C14: on a parser that holds no transaction result, two calls on the
same list made at the wall-clock times 5 and 6 return summaries with different
timestamps. -/
theorem ProcessSwapData_wall_clock_counterexample :
    dispatchParser.txResult = none ∧
    (∃ s1 s2, ProcessSwapData sampleConsts sampleHelpers dispatchParser 5 plainList = .ok s1 ∧
      ProcessSwapData sampleConsts sampleHelpers dispatchParser 6 plainList = .ok s2 ∧
      s1.Timestamp = 5 ∧ s2.Timestamp = 6) ∧
    ProcessSwapData sampleConsts sampleHelpers dispatchParser 5 plainList ≠
      ProcessSwapData sampleConsts sampleHelpers dispatchParser 6 plainList := by
  refine ⟨rfl, ⟨{ plainSummary with Timestamp := 5, Signers := [sampleSigner] },
    { plainSummary with Timestamp := 6, Signers := [sampleSigner] }, by decide, by decide, rfl,
    rfl⟩, by decide⟩

/-- C14, amended. Two calls of `ProcessSwapData` on the same parser and list, made at the
wall-clock times `now1` and `now2`, return the same error or summaries equal in every field
other than the timestamp; they return identical results when the parser holds a block time
or the two times are equal. The inputs are values of the embedding and are not changed. -/
theorem ProcessSwapData_deterministic (c : Consts) (x : Helpers) (p : Parser)
    (now1 now2 : Int) (xs : List SwapData) :
    (ProcessSwapData c x p now1 xs).forgetTimestamp =
      (ProcessSwapData c x p now2 xs).forgetTimestamp ∧
    (p.GetBlockTime.isSome = true ∨ now1 = now2 →
      ProcessSwapData c x p now1 xs = ProcessSwapData c x p now2 xs) := by
  refine ⟨ProcessSwapData_forget c x p now1 now2 xs, ?_⟩
  rintro (h | h)
  · exact ProcessSwapData_now c x p now1 now2 xs (blockTimeOrNow_of_some p now1 now2 h)
  · rw [h]

/-- Instance of C14: on a parser with block time 1700000000 the calls at the times 5 and 6
agree. -/
theorem ProcessSwapData_deterministic_witness :
    sampleParser.GetBlockTime.isSome = true ∧
    ProcessSwapData sampleConsts sampleHelpers sampleParser 5 plainList =
      ProcessSwapData sampleConsts sampleHelpers sampleParser 6 plainList :=
  ⟨by decide,
    (ProcessSwapData_deterministic sampleConsts sampleHelpers sampleParser 5 6 plainList).2
      (Or.inl (by decide))⟩

/-- C15. A summary returned by `ProcessSwapData` for a list that has a JUPITER entry, or
whose first PUMP_FUN entry, if any, carries no trade event, has the block time as timestamp
when the parser holds a transaction result with a block time, and the wall-clock time of the
call only when there is no transaction result or it has no block time. -/
theorem timestamp_is_block_time (c : Consts) (x : Helpers) (p : Parser) (now : Int)
    (xs : List SwapData) (s : SwapInfo) (h : ProcessSwapData c x p now xs = .ok s)
    (hnp : (∃ sd ∈ xs, sd.Typ = c.JUPITER) ∨
      (firstOfType c.PUMP_FUN xs).all (fun sd => !sd.Data.isPumpfunTrade) = true) :
    (∀ r t, p.txResult = some r → r.BlockTime = some t → s.Timestamp = t) ∧
    (p.txResult = none ∨ (∃ r, p.txResult = some r ∧ r.BlockTime = none) →
      s.Timestamp = now) := by
  have ht := ProcessSwapData_timestamp c x p now xs s h hnp
  rw [ht]
  refine ⟨?_, ?_⟩
  · intro r t hr hb
    simp [Parser.blockTimeOrNow, Parser.GetBlockTime, hr, hb]
  · rintro (hr | ⟨r, hr, hb⟩)
    · simp [Parser.blockTimeOrNow, Parser.GetBlockTime, hr]
    · simp [Parser.blockTimeOrNow, Parser.GetBlockTime, hr, hb]

/-- Instance of C15: the generic summary of `plainList` on a parser with block time
1700000000, at the wall-clock time 5. -/
theorem timestamp_is_block_time_witness :
    ProcessSwapData sampleConsts sampleHelpers sampleParser 5 plainList = .ok plainSummary ∧
    ((∃ sd ∈ plainList, sd.Typ = sampleConsts.JUPITER) ∨
      (firstOfType sampleConsts.PUMP_FUN plainList).all
        (fun sd => !sd.Data.isPumpfunTrade) = true) ∧
    plainSummary.Timestamp = 1700000000 :=
  ⟨by decide, Or.inr (by decide),
    (timestamp_is_block_time sampleConsts sampleHelpers sampleParser 5 plainList plainSummary
      (by decide) (Or.inr (by decide))).1 ⟨some 1700000000⟩ 1700000000 rfl rfl⟩

/-- C16. In a summary returned by `ProcessSwapData` the signers are the account key of index
2 alone when the transaction invokes the DCA program and there are more than 2 account
keys, the account key of index 0 alone when it does not invoke the DCA program and there is
an account key, and none otherwise; there is never more than one signer. -/
theorem signers_choice (c : Consts) (x : Helpers) (p : Parser) (now : Int)
    (xs : List SwapData) (s : SwapInfo) (h : ProcessSwapData c x p now xs = .ok s) :
    (x.containsDCAProgram p = true → ∀ h2 : 2 < p.allAccountKeys.length,
      s.Signers = [p.allAccountKeys[2]]) ∧
    (x.containsDCAProgram p = false → ∀ h0 : 0 < p.allAccountKeys.length,
      s.Signers = [p.allAccountKeys[0]]) ∧
    ((x.containsDCAProgram p = true ∧ p.allAccountKeys.length ≤ 2) ∨
      (x.containsDCAProgram p = false ∧ p.allAccountKeys.length = 0) → s.Signers = []) ∧
    s.Signers.length ≤ 1 := by
  rw [(ProcessSwapData_frame c x p now xs s h).1]
  exact ⟨fun hx h2 => signersOf_dca x p hx h2, fun hx h0 => signersOf_plain x p hx h0,
    signersOf_nil x p, signersOf_length x p⟩

/-- Instance of C16: a transaction that does not invoke the DCA program; the signer is the
first account key. -/
theorem signers_choice_witness :
    ProcessSwapData sampleConsts sampleHelpers sampleParser 5 plainList = .ok plainSummary ∧
    sampleHelpers.containsDCAProgram sampleParser = false ∧
    plainSummary.Signers = [sampleSigner] :=
  ⟨by decide, by decide,
    (signers_choice sampleConsts sampleHelpers sampleParser 5 plainList plainSummary
      (by decide)).2.1 (by decide) (by decide)⟩

/-! ## Claims C17 to C20: the instruction recognisers -/

/-- C17. Method `isTransfer` returns a boolean, and returns true exactly when the program
index is in range, the program is the SPL Token program, there are at least 3 accounts and
9 data bytes, the first data byte is 3 and each of the first 3 account indices is below the
number of account keys; an index equal to the number of account keys among the first 3 is
rejected, and an instruction that passes the other tests with the first 3 indices equal to
the number of account keys minus one is accepted. -/
theorem isTransfer_iff (p : Parser) (instr : CompiledInstruction) :
    (p.isTransfer instr = .ok true ↔
      instr.ProgramIDIndex < p.allAccountKeys.length ∧
      p.allAccountKeys[instr.ProgramIDIndex]? = some TokenProgramID ∧
      3 ≤ instr.Accounts.length ∧ 9 ≤ instr.Data.length ∧ instr.Data[0]? = some 3 ∧
      ∀ a ∈ instr.Accounts.take 3, a < p.allAccountKeys.length) ∧
    (p.isTransfer instr = .ok true ∨ p.isTransfer instr = .ok false) ∧
    (p.allAccountKeys.length ∈ instr.Accounts.take 3 → p.isTransfer instr = .ok false) ∧
    (instr.ProgramIDIndex < p.allAccountKeys.length ∧
      p.allAccountKeys[instr.ProgramIDIndex]? = some TokenProgramID ∧
      3 ≤ instr.Accounts.length ∧ 9 ≤ instr.Data.length ∧ instr.Data[0]? = some 3 ∧
      (∀ a ∈ instr.Accounts.take 3, a = p.allAccountKeys.length - 1) →
      p.isTransfer instr = .ok true) := by
  rw [isTransfer_eq]
  refine ⟨?_, ?_, ?_, ?_⟩
  · rw [Outcome.ok.injEq, decide_eq_true_iff]
  · by_cases h : (instr.ProgramIDIndex < p.allAccountKeys.length ∧
        p.allAccountKeys[instr.ProgramIDIndex]? = some TokenProgramID ∧
        3 ≤ instr.Accounts.length ∧ 9 ≤ instr.Data.length ∧ instr.Data[0]? = some 3 ∧
        ∀ a ∈ instr.Accounts.take 3, a < p.allAccountKeys.length)
    · exact Or.inl (by rw [decide_eq_true h])
    · exact Or.inr (by rw [decide_eq_false h])
  · intro hmem
    rw [Outcome.ok.injEq, decide_eq_false_iff_not]
    rintro ⟨-, -, -, -, -, hall⟩
    exact absurd (hall _ hmem) (by omega)
  · rintro ⟨h1, h2, h3, h4, h5, h6⟩
    rw [Outcome.ok.injEq, decide_eq_true_iff]
    refine ⟨h1, h2, h3, h4, h5, ?_⟩
    intro a ha
    rw [h6 a ha]
    omega

/-- Instance of C17: with 4 account keys, the account index 3 is accepted and the account
index 4 is rejected. -/
theorem isTransfer_iff_witness :
    tokenParser.allAccountKeys.length = 4 ∧
    tokenParser.isTransfer ⟨1, [3, 3, 3], [3, 1, 0, 0, 0, 0, 0, 0, 0]⟩ = .ok true ∧
    tokenParser.isTransfer ⟨1, [3, 4, 3], [3, 1, 0, 0, 0, 0, 0, 0, 0]⟩ = .ok false :=
  ⟨rfl,
    (isTransfer_iff tokenParser ⟨1, [3, 3, 3], [3, 1, 0, 0, 0, 0, 0, 0, 0]⟩).2.2.2
      (by decide),
    (isTransfer_iff tokenParser ⟨1, [3, 4, 3], [3, 1, 0, 0, 0, 0, 0, 0, 0]⟩).2.2.1
      (by decide)⟩

/-- C18. Method `isTransferCheck` returns a boolean, and returns true exactly when the
program index is in range, the program is the SPL Token program or the SPL Token-2022
program, there are at least 4 accounts and 9 data bytes, the first data byte is 12 and each
of the first 4 account indices is below the number of account keys. -/
theorem isTransferCheck_iff (p : Parser) (instr : CompiledInstruction) :
    (p.isTransferCheck instr = .ok true ↔
      instr.ProgramIDIndex < p.allAccountKeys.length ∧
      (p.allAccountKeys[instr.ProgramIDIndex]? = some TokenProgramID ∨
        p.allAccountKeys[instr.ProgramIDIndex]? = some Token2022ProgramID) ∧
      4 ≤ instr.Accounts.length ∧ 9 ≤ instr.Data.length ∧ instr.Data[0]? = some 12 ∧
      ∀ a ∈ instr.Accounts.take 4, a < p.allAccountKeys.length) ∧
    (p.isTransferCheck instr = .ok true ∨ p.isTransferCheck instr = .ok false) := by
  rw [isTransferCheck_eq]
  refine ⟨?_, ?_⟩
  · rw [Outcome.ok.injEq, decide_eq_true_iff]
  · by_cases h : (instr.ProgramIDIndex < p.allAccountKeys.length ∧
        (p.allAccountKeys[instr.ProgramIDIndex]? = some TokenProgramID ∨
          p.allAccountKeys[instr.ProgramIDIndex]? = some Token2022ProgramID) ∧
        4 ≤ instr.Accounts.length ∧ 9 ≤ instr.Data.length ∧ instr.Data[0]? = some 12 ∧
        ∀ a ∈ instr.Accounts.take 4, a < p.allAccountKeys.length)
    · exact Or.inl (by rw [decide_eq_true h])
    · exact Or.inr (by rw [decide_eq_false h])

/-- Instance of C18: a checked transfer of the Token-2022 program is accepted, the same
instruction with 3 accounts is not. -/
theorem isTransferCheck_iff_witness :
    tokenParser.isTransferCheck ⟨2, [0, 3, 0, 0], [12, 1, 0, 0, 0, 0, 0, 0, 0, 6]⟩ = .ok true ∧
    tokenParser.isTransferCheck ⟨2, [0, 3, 0], [12, 1, 0, 0, 0, 0, 0, 0, 0, 6]⟩ ≠ .ok true :=
  ⟨(isTransferCheck_iff tokenParser ⟨2, [0, 3, 0, 0], [12, 1, 0, 0, 0, 0, 0, 0, 0, 6]⟩).1.mpr
      (by decide),
    fun h => absurd
      ((isTransferCheck_iff tokenParser ⟨2, [0, 3, 0], [12, 1, 0, 0, 0, 0, 0, 0, 0, 6]⟩).1.mp
        h).2.2.1 (by decide)⟩

/-- C19, failing input. On a parser with 3 account keys and an instruction whose program
index is 3, the five recognisers that test the program index return false, and
`isRaydiumLaunchLabEvent`, which does not test it, aborts. -/
theorem isRaydiumLaunchLabEvent_aborts :
    eventParser.allAccountKeys.length = 3 ∧
    eventParser.isTransfer ⟨3, [], []⟩ = .ok false ∧
    eventParser.isTransferCheck ⟨3, [], []⟩ = .ok false ∧
    eventParser.isPumpFunTradeEventInstruction sampleConsts sampleDiscriminators16
      ⟨3, [], []⟩ = .ok false ∧
    eventParser.isJupiterRouteEventInstruction sampleConsts sampleDiscriminators16
      ⟨3, [], []⟩ = .ok false ∧
    eventParser.isMeteoraDBCEventInstruction sampleConsts ⟨3, [], []⟩ = .ok false ∧
    eventParser.isRaydiumLaunchLabEvent sampleConsts ⟨3, [], []⟩ = .abort := by
  decide

/-- Counterexample to C20. With discriminator constants of 16 bytes, two instructions of the
Pump.fun program whose 16 data bytes agree on the first 8 get different answers; with
constants of 8 bytes, an instruction of the Pump.fun program whose 16 data bytes start with
the constant is not recognised. -/
theorem event_discriminator_counterexample :
    eventParser.isPumpFunTradeEventInstruction sampleConsts sampleDiscriminators16
      ⟨1, [], pumpfun16⟩ = .ok true ∧
    eventParser.isPumpFunTradeEventInstruction sampleConsts sampleDiscriminators16
      ⟨1, [], pumpfun16.take 8 ++ [0, 0, 0, 0, 0, 0, 0, 0]⟩ = .ok false ∧
    eventParser.isPumpFunTradeEventInstruction sampleConsts sampleDiscriminators8
      ⟨1, [], sampleDiscriminators8.PumpfunTradeEventDiscriminator ++
        [0, 0, 0, 0, 0, 0, 0, 0]⟩ = .ok false := by
  decide

/-- C20, amended. Each of `isPumpFunTradeEventInstruction` and
`isJupiterRouteEventInstruction` returns true exactly when the program index is in range,
the program is the one of the protocol, there are at least 16 data bytes and the first 16
data bytes are the discriminator constant of the protocol; the accounts and the bytes after
the first 16 do not influence the result. -/
theorem event_recognisers_iff (c : Consts) (k : EventDiscriminators) (p : Parser)
    (inst : CompiledInstruction) :
    (p.isPumpFunTradeEventInstruction c k inst = .ok true ↔
      inst.ProgramIDIndex < p.allAccountKeys.length ∧
      p.allAccountKeys[inst.ProgramIDIndex]? = some c.PUMP_FUN_PROGRAM_ID ∧
      16 ≤ inst.Data.length ∧ inst.Data.take 16 = k.PumpfunTradeEventDiscriminator) ∧
    (p.isJupiterRouteEventInstruction c k inst = .ok true ↔
      inst.ProgramIDIndex < p.allAccountKeys.length ∧
      p.allAccountKeys[inst.ProgramIDIndex]? = some c.JUPITER_PROGRAM_ID ∧
      16 ≤ inst.Data.length ∧ inst.Data.take 16 = k.JupiterRouteEventDiscriminator) ∧
    (∀ accounts tail : List Nat, 16 ≤ inst.Data.length →
      p.isPumpFunTradeEventInstruction c k
          ⟨inst.ProgramIDIndex, accounts, inst.Data.take 16 ++ tail⟩ =
        p.isPumpFunTradeEventInstruction c k inst ∧
      p.isJupiterRouteEventInstruction c k
          ⟨inst.ProgramIDIndex, accounts, inst.Data.take 16 ++ tail⟩ =
        p.isJupiterRouteEventInstruction c k inst) := by
  refine ⟨?_, ?_, ?_⟩
  · rw [isPumpFunTradeEventInstruction_eq, Outcome.ok.injEq, decide_eq_true_iff]
  · rw [isJupiterRouteEventInstruction_eq, Outcome.ok.injEq, decide_eq_true_iff]
  · intro accounts tail h16
    have hlen : (inst.Data.take 16).length = 16 := by
      rw [List.length_take]; omega
    have htake : (inst.Data.take 16 ++ tail).take 16 = inst.Data.take 16 := by
      rw [List.take_append_of_le_length (by omega), List.take_take]
      simp
    have hl : 16 ≤ (inst.Data.take 16 ++ tail).length := by
      rw [List.length_append]; omega
    rw [isPumpFunTradeEventInstruction_eq, isPumpFunTradeEventInstruction_eq,
      isJupiterRouteEventInstruction_eq, isJupiterRouteEventInstruction_eq]
    simp only [htake, hl, h16, true_and, and_self]

/-- Instance of C20: the 16 bytes of the constant followed by a payload of 2 bytes are
recognised as a Pump.fun trade event. -/
theorem event_recognisers_iff_witness :
    eventParser.isPumpFunTradeEventInstruction sampleConsts sampleDiscriminators16
      ⟨1, [], pumpfun16 ++ [1, 2]⟩ = .ok true :=
  (event_recognisers_iff sampleConsts sampleDiscriminators16 eventParser
    ⟨1, [], pumpfun16 ++ [1, 2]⟩).1.mpr (by decide)

/-! ## Claims C21 to C25: the transfer decoder, the token-account index, the constructors -/

/-- C21. For an instruction that `isTransfer` accepts, `processTransfer` returns a record:
its amount is the little-endian number of the data bytes 1 to 8, its source, destination and
authority are the texts of the account keys at the first three account indices, and its
mint and decimals are those of the entry of the token map at the destination text (an entry
with a non-empty mint, as `extractSPLTokenInfo` makes them); when the destination has no
entry the mint is `Unknown` and the decimals are 0. -/
theorem processTransfer_record (p : Parser) (instr : CompiledInstruction)
    (h : p.isTransfer instr = .ok true) :
    ∃ a0 a1 a2 source destination authority t,
      instr.Accounts[0]? = some a0 ∧ instr.Accounts[1]? = some a1 ∧
      instr.Accounts[2]? = some a2 ∧ p.allAccountKeys[a0]? = some source ∧
      p.allAccountKeys[a1]? = some destination ∧ p.allAccountKeys[a2]? = some authority ∧
      p.processTransfer instr = .ok (some t) ∧
      t.Info.Amount = ∑ i ∈ Finset.range 8, (instr.Data.getD (i + 1) 0 % 256) * 256 ^ i ∧
      t.Info.Source = PublicKey.String source ∧
      t.Info.Destination = PublicKey.String destination ∧
      t.Info.Authority = PublicKey.String authority ∧
      (∀ info, p.splTokenInfoMap (PublicKey.String destination) = some info →
        info.Mint ≠ "" → t.Mint = info.Mint ∧ t.Decimals = info.Decimals) ∧
      (p.splTokenInfoMap (PublicKey.String destination) = none →
        t.Mint = "Unknown" ∧ t.Decimals = 0) := by
  obtain ⟨a0, a1, a2, source, destination, authority, h0, h1, h2, k0, k1, k2, hp⟩ :=
    processTransfer_of_isTransfer p instr h
  have h9 : 9 ≤ instr.Data.length := by
    rw [isTransfer_eq, Outcome.ok.injEq, decide_eq_true_iff] at h
    exact h.2.2.2.1
  refine ⟨a0, a1, a2, source, destination, authority, _, h0, h1, h2, k0, k1, k2, hp,
    (leUint64_slice instr.Data h9).2, rfl, rfl, rfl, ?_, ?_⟩
  · intro info hinfo hne
    rw [hinfo]
    simp [hne]
  · intro hnone
    rw [hnone]
    simp

/-- Instance of C21: on the parser built for `sampleTx`, the Transfer of 257 units from
account A to account B, which holds USDC. -/
theorem processTransfer_record_witness :
    indexedParser.isTransfer sampleTransferInstruction = .ok true ∧
    ∃ a0 a1 a2 source destination authority t,
      sampleTransferInstruction.Accounts[0]? = some a0 ∧
      sampleTransferInstruction.Accounts[1]? = some a1 ∧
      sampleTransferInstruction.Accounts[2]? = some a2 ∧
      indexedParser.allAccountKeys[a0]? = some source ∧
      indexedParser.allAccountKeys[a1]? = some destination ∧
      indexedParser.allAccountKeys[a2]? = some authority ∧
      indexedParser.processTransfer sampleTransferInstruction = .ok (some t) ∧
      t.Info.Amount =
        ∑ i ∈ Finset.range 8, (sampleTransferInstruction.Data.getD (i + 1) 0 % 256) * 256 ^ i ∧
      t.Info.Source = PublicKey.String source ∧
      t.Info.Destination = PublicKey.String destination ∧
      t.Info.Authority = PublicKey.String authority ∧
      (∀ info, indexedParser.splTokenInfoMap (PublicKey.String destination) = some info →
        info.Mint ≠ "" → t.Mint = info.Mint ∧ t.Decimals = info.Decimals) ∧
      (indexedParser.splTokenInfoMap (PublicKey.String destination) = none →
        t.Mint = "Unknown" ∧ t.Decimals = 0) :=
  ⟨by decide, processTransfer_record indexedParser sampleTransferInstruction (by decide)⟩

/-- C22. The token map that `extractSPLTokenInfo` stores is this one, for every account
text `k`: when some post-token-balance with non-zero mint and in-range account index is of
the account `k`, the entry is the mint text and the decimals of the last such balance,
whatever the instructions are; when there is none and `k` is account 0 or account 1 of an
outer or inner instruction of the SPL Token program with opcode 3 or 12, at least 3 accounts
and both indices in range, the entry is the native SOL mint with 9 decimals; otherwise `k`
is no key; and no entry has the empty mint. -/
theorem token_index_exact (p : Parser) (k : String) :
    (∀ b, (p.balancesOf k).getLast? = some b →
      p.extractSPLTokenInfo.splTokenInfoMap k = some ⟨PublicKey.String b.Mint, b.Decimals⟩) ∧
    (p.balancesOf k = [] → (∃ instr ∈ p.allInstructions, p.movesAccount instr k = true) →
      p.extractSPLTokenInfo.splTokenInfoMap k =
        some ⟨PublicKey.String NATIVE_SOL_MINT_PROGRAM_ID, 9⟩) ∧
    (p.balancesOf k = [] → (∀ instr ∈ p.allInstructions, p.movesAccount instr k = false) →
      p.extractSPLTokenInfo.splTokenInfoMap k = none) ∧
    (∀ info, p.extractSPLTokenInfo.splTokenInfoMap k = some info → info.Mint ≠ "") := by
  refine ⟨?_, ?_, ?_, ?_⟩
  · intro b hb
    rw [extractSPLTokenInfo_apply, hb]
  · rintro hnil ⟨instr, hmem, hmove⟩
    rw [extractSPLTokenInfo_apply, hnil]
    simp only [List.getLast?_nil]
    rw [if_pos (List.any_eq_true.mpr ⟨instr, hmem, hmove⟩)]
  · intro hnil hall
    rw [extractSPLTokenInfo_apply, hnil]
    simp only [List.getLast?_nil]
    rw [if_neg]
    intro hany
    obtain ⟨instr, hmem, hmove⟩ := List.any_eq_true.mp hany
    rw [hall instr hmem] at hmove
    exact absurd hmove (by simp)
  · intro info hinfo
    exact (extractSPLTokenInfo_mint p k info hinfo).1

/-- Instance of C22: account B, which has a post-token-balance of USDC and is the
destination of a Transfer, maps to USDC with 6 decimals. -/
theorem token_index_exact_witness :
    ((baseParser none sampleTx sampleMeta).balancesOf (PublicKey.String accountB)).getLast? =
      some ⟨3, usdcMint, 6⟩ ∧
    (∃ instr ∈ (baseParser none sampleTx sampleMeta).allInstructions,
      (baseParser none sampleTx sampleMeta).movesAccount instr (PublicKey.String accountB) =
        true) ∧
    (baseParser none sampleTx sampleMeta).extractSPLTokenInfo.splTokenInfoMap
      (PublicKey.String accountB) = some ⟨PublicKey.String usdcMint, 6⟩ :=
  ⟨by decide, ⟨sampleTransferInstruction, by decide, by decide⟩,
    (token_index_exact (baseParser none sampleTx sampleMeta) (PublicKey.String accountB)).1
      ⟨3, usdcMint, 6⟩ (by decide)⟩

/-- Counterexample to C23: on the parser built for `sampleTx`, the inner TransferChecked of
the Token-2022 program is recognised by `isTransferCheck`, and the key of its account 0,
account C, is no key of the token map. -/
theorem token2022_accounts_counterexample :
    NewTransactionParserFromTransaction sampleTransferHelpers sampleTx sampleMeta =
      .ok indexedParser ∧
    sampleToken2022Instruction ∈ indexedParser.allInstructions ∧
    indexedParser.isTransferCheck sampleToken2022Instruction = .ok true ∧
    sampleToken2022Instruction.Accounts[0]? = some 5 ∧
    indexedParser.allAccountKeys[5]? = some accountC ∧
    indexedParser.splTokenInfoMap (PublicKey.String accountC) = none :=
  ⟨rfl, by decide, by decide, by decide, by decide, by decide⟩

/-- C23, amended. After `extractSPLTokenInfo`, for every outer or inner instruction that
`isTransfer` accepts, and for every one that `isTransferCheck` accepts and whose program is
the SPL Token program, the keys at its account indices 0 and 1 are keys of the token map. -/
theorem transfer_accounts_indexed (p : Parser) (instr : CompiledInstruction)
    (hmem : instr ∈ p.allInstructions)
    (h : p.extractSPLTokenInfo.isTransfer instr = .ok true ∨
      (p.extractSPLTokenInfo.isTransferCheck instr = .ok true ∧
        p.allAccountKeys[instr.ProgramIDIndex]? = some TokenProgramID)) :
    ∃ a0 a1 k0 k1, instr.Accounts[0]? = some a0 ∧ instr.Accounts[1]? = some a1 ∧
      p.allAccountKeys[a0]? = some k0 ∧ p.allAccountKeys[a1]? = some k1 ∧
      (p.extractSPLTokenInfo.splTokenInfoMap (PublicKey.String k0)).isSome = true ∧
      (p.extractSPLTokenInfo.splTokenInfoMap (PublicKey.String k1)).isSome = true := by
  apply recognised_accounts_indexed p instr hmem
  rcases h with h | ⟨h, hprog⟩
  · exact Or.inl (by rw [← isTransfer_congr p p.extractSPLTokenInfo rfl]; exact h)
  · exact Or.inr ⟨by rw [← isTransferCheck_congr p p.extractSPLTokenInfo rfl]; exact h, hprog⟩

/-- Instance of C23: the outer Transfer of `sampleTx` from account A to account B. -/
theorem transfer_accounts_indexed_witness :
    sampleTransferInstruction ∈ (baseParser none sampleTx sampleMeta).allInstructions ∧
    (baseParser none sampleTx sampleMeta).extractSPLTokenInfo.isTransfer
      sampleTransferInstruction = .ok true ∧
    ∃ a0 a1 k0 k1, sampleTransferInstruction.Accounts[0]? = some a0 ∧
      sampleTransferInstruction.Accounts[1]? = some a1 ∧
      (baseParser none sampleTx sampleMeta).allAccountKeys[a0]? = some k0 ∧
      (baseParser none sampleTx sampleMeta).allAccountKeys[a1]? = some k1 ∧
      ((baseParser none sampleTx sampleMeta).extractSPLTokenInfo.splTokenInfoMap
        (PublicKey.String k0)).isSome = true ∧
      ((baseParser none sampleTx sampleMeta).extractSPLTokenInfo.splTokenInfoMap
        (PublicKey.String k1)).isSome = true :=
  ⟨by decide, by decide,
    transfer_accounts_indexed (baseParser none sampleTx sampleMeta) sampleTransferInstruction
      (by decide) (Or.inl (by decide))⟩

/-- C24. On a parser returned by a constructor, for every instruction that `isTransfer`
accepts, `processTransfer` returns a record whose mint is `Unknown`, the text of the native
SOL mint or the text of the mint of a post-token-balance of the transaction; so has every
`TransferData` in the lists that `processOrcaSwaps` and `processRaydSwaps` return. -/
theorem constructor_transfer_mints (c : Consts) (x : TransferHelpers)
    (txResult : Option GetTransactionResult) (tx : Transaction) (txMeta : TransactionMeta)
    (p : Parser)
    (h : NewTransactionParserFromTransactionResult x txResult tx txMeta = .ok p ∨
      NewTransactionParserFromTransaction x tx txMeta = .ok p) :
    (∀ instr, p.isTransfer instr = .ok true →
      ∃ t, p.processTransfer instr = .ok (some t) ∧
        knownMint txMeta.PostTokenBalances t.Mint) ∧
    (∀ instructionIndex, ∃ swaps, p.processOrcaSwaps c instructionIndex = .ok swaps ∧
      ∀ sd ∈ swaps, ∀ t, sd.Data = .transferData t →
        knownMint txMeta.PostTokenBalances t.Mint) ∧
    (∀ instructionIndex, ∃ swaps, p.processRaydSwaps c x instructionIndex = .ok swaps ∧
      ∀ sd ∈ swaps, ∀ t, sd.Data = .transferData t →
        knownMint txMeta.PostTokenBalances t.Mint) := by
  have hidx : ∀ k info, p.splTokenInfoMap k = some info →
      info.Mint ≠ "" ∧
        ((∃ b ∈ txMeta.PostTokenBalances, info = ⟨PublicKey.String b.Mint, b.Decimals⟩) ∨
          info = ⟨PublicKey.String NATIVE_SOL_MINT_PROGRAM_ID, 9⟩) := by
    rcases h with h | h
    · exact constructor_index x txResult tx txMeta p h
    · rw [NewTransactionParserFromTransaction_eq] at h
      exact constructor_index x none tx txMeta p h
  refine ⟨fun instr hi => processTransfer_knownMint p _ hidx instr hi, ?_, ?_⟩
  · intro instructionIndex
    refine ⟨_, processOrcaSwaps_eq c p instructionIndex, ?_⟩
    intro sd hsd t ht
    obtain ⟨instr, -, hi⟩ := List.mem_filterMap.mp hsd
    cases he : p.emitsTransfer instr with
    | none => rw [he] at hi; exact absurd hi (by simp)
    | some d =>
      rw [he] at hi
      simp only [Option.map_some', Option.some.injEq] at hi
      subst hi
      simp only [] at ht
      subst ht
      exact emitsTransfer_knownMint p _ hidx instr t he
  · intro instructionIndex
    refine ⟨_, processRaydSwaps_eq c x p instructionIndex, ?_⟩
    intro sd hsd t ht
    obtain ⟨instr, -, hi⟩ := List.mem_filterMap.mp hsd
    cases he : p.emitsEither x instr with
    | none => rw [he] at hi; exact absurd hi (by simp)
    | some d =>
      rw [he] at hi
      simp only [Option.map_some', Option.some.injEq] at hi
      subst hi
      simp only [] at ht
      subst ht
      exact emitsTransfer_knownMint p _ hidx instr t (emitsEither_transferData x p instr t he)

/-- Instance of C24: the parser built for `sampleTx` and its Transfer to account B; the
mint is that of the post-token-balance of account B. -/
theorem constructor_transfer_mints_witness :
    NewTransactionParserFromTransaction sampleTransferHelpers sampleTx sampleMeta =
      .ok indexedParser ∧
    indexedParser.isTransfer sampleTransferInstruction = .ok true ∧
    ∃ t, indexedParser.processTransfer sampleTransferInstruction = .ok (some t) ∧
      knownMint sampleMeta.PostTokenBalances t.Mint :=
  ⟨rfl, by decide,
    (constructor_transfer_mints sampleConsts sampleTransferHelpers none sampleTx sampleMeta
      indexedParser (Or.inr rfl)).1 sampleTransferInstruction (by decide)⟩

/-- C25. A parser returned by `NewTransactionParserFromTransactionResult` or by
`NewTransactionParserFromTransaction` has as account keys the static keys of the message,
then the loaded writable addresses, then the loaded read-only addresses: their number is the
sum of the three lengths and the key at an index below the number of static keys is the
static key. Each constructor returns a parser when `extractSPLDecimals` succeeds. -/
theorem constructors_allAccountKeys (x : TransferHelpers)
    (txResult : Option GetTransactionResult) (tx : Transaction) (txMeta : TransactionMeta) :
    (∀ p, (NewTransactionParserFromTransactionResult x txResult tx txMeta = .ok p ∨
        NewTransactionParserFromTransaction x tx txMeta = .ok p) →
      p.allAccountKeys = tx.AccountKeys ++ txMeta.LoadedWritable ++ txMeta.LoadedReadOnly ∧
      p.allAccountKeys.length =
        tx.AccountKeys.length + txMeta.LoadedWritable.length + txMeta.LoadedReadOnly.length ∧
      ∀ k, k < tx.AccountKeys.length → p.allAccountKeys[k]? = tx.AccountKeys[k]?) ∧
    (∀ decimals,
      x.extractSPLDecimals (baseParser txResult tx txMeta).extractSPLTokenInfo = .ok decimals →
      ∃ p, NewTransactionParserFromTransactionResult x txResult tx txMeta = .ok p) ∧
    (∀ decimals,
      x.extractSPLDecimals (baseParser none tx txMeta).extractSPLTokenInfo = .ok decimals →
      ∃ p, NewTransactionParserFromTransaction x tx txMeta = .ok p) := by
  refine ⟨?_, ?_, ?_⟩
  · intro p h
    have hkeys : p.allAccountKeys =
        tx.AccountKeys ++ txMeta.LoadedWritable ++ txMeta.LoadedReadOnly := by
      rcases h with h | h
      · exact (constructor_ok x txResult tx txMeta p h).1
      · rw [NewTransactionParserFromTransaction_eq] at h
        exact (constructor_ok x none tx txMeta p h).1
    refine ⟨hkeys, by rw [hkeys]; simp only [List.length_append], ?_⟩
    intro k hk
    rw [hkeys, List.append_assoc, List.getElem?_append_left hk]
  · intro decimals hd
    rw [NewTransactionParserFromTransactionResult_eq, hd]
    exact ⟨_, rfl⟩
  · intro decimals hd
    rw [NewTransactionParserFromTransaction_eq, NewTransactionParserFromTransactionResult_eq,
      hd]
    exact ⟨_, rfl⟩

/-- Instance of C25: the parser built for `sampleTx` has the 4 static keys, then the loaded
writable key, then the loaded read-only key. -/
theorem constructors_allAccountKeys_witness :
    NewTransactionParserFromTransaction sampleTransferHelpers sampleTx sampleMeta =
      .ok indexedParser ∧
    indexedParser.allAccountKeys =
      [sampleSigner, TokenProgramID, accountA, accountB, Token2022ProgramID, accountC] ∧
    indexedParser.allAccountKeys.length = 4 + 1 + 1 :=
  ⟨rfl,
    ((constructors_allAccountKeys sampleTransferHelpers none sampleTx sampleMeta).1
      indexedParser (Or.inr rfl)).1,
    ((constructors_allAccountKeys sampleTransferHelpers none sampleTx sampleMeta).1
      indexedParser (Or.inr rfl)).2.1⟩

/-! ## Claims C26 to C30: the router wrappers and the tiers of the decoders -/

/-- C26. When no outer instruction with an in-range program index runs Jupiter, Moonshot,
Boop.fun or the OKX router, `ParseTransaction` makes the `processRouterSwaps` calls of the
router-wrapper outer instructions in outer order and then the decoder calls of the second
loop in outer order. When all these calls return, it returns their lists appended in that
order; when one of them aborts, it returns no list. An outer instruction whose program index
is out of range makes no call in either loop. -/
theorem router_wrappers_keep_pass2 (c : Consts) (d : Aborting.Decoders) (p : Parser)
    (hns : ¬ hasSkippingInstruction c p) :
    Aborting.ParseTransaction c d p =
      ((Outcome.concat (p.txInfo.Instructions.enum.map (Aborting.routerOutput c d p))).bind
        fun routed =>
          (Outcome.concat (p.txInfo.Instructions.enum.map (Aborting.pass2Output c d p))).bind
            fun collected => .ok (routed ++ collected)) ∧
    (∀ r q : Nat × CompiledInstruction → List SwapData,
      (∀ io ∈ p.txInfo.Instructions.enum, Aborting.routerOutput c d p io = .ok (r io)) →
      (∀ io ∈ p.txInfo.Instructions.enum, Aborting.pass2Output c d p io = .ok (q io)) →
      Aborting.ParseTransaction c d p =
        .ok ((p.txInfo.Instructions.enum.map r).flatten ++
          (p.txInfo.Instructions.enum.map q).flatten)) ∧
    (∀ io ∈ p.txInfo.Instructions.enum,
      (Aborting.routerOutput c d p io = .abort ∨ Aborting.pass2Output c d p io = .abort) →
      ∀ l, Aborting.ParseTransaction c d p ≠ .ok l) ∧
    (∀ io : Nat × CompiledInstruction, io.2.ProgramIDIndex ≥ p.allAccountKeys.length →
      Aborting.routerOutput c d p io = .ok [] ∧ Aborting.pass2Output c d p io = .ok []) ∧
    (∀ io : Nat × CompiledInstruction, io.2.ProgramIDIndex < p.allAccountKeys.length →
      Aborting.routerOutput c d p io =
        if isRouterWrapper c (p.keyAt io.2.ProgramIDIndex) then
          Aborting.processRouterSwaps c d p io.1
        else .ok []) := by
  have hform := aborting_ParseTransaction_noskip c d p hns
  refine ⟨hform, ?_, ?_, ?_, ?_⟩
  · intro r q hr hq
    rw [hform, Outcome.concat_map_ok _ r _ hr, Outcome.concat_map_ok _ q _ hq]
    rfl
  · intro io hio hab l hl
    rw [hform] at hl
    cases h1 : Outcome.concat (p.txInfo.Instructions.enum.map (Aborting.routerOutput c d p)) with
    | error msg => rw [h1] at hl; exact absurd hl (by simp [Outcome.bind])
    | abort => rw [h1] at hl; exact absurd hl (by simp [Outcome.bind])
    | ok routed =>
      rw [h1] at hl
      simp only [Outcome.bind] at hl
      cases h2 : Outcome.concat
          (p.txInfo.Instructions.enum.map (Aborting.pass2Output c d p)) with
      | error msg => rw [h2] at hl; exact absurd hl (by simp)
      | abort => rw [h2] at hl; exact absurd hl (by simp)
      | ok collected =>
        rcases hab with hab | hab
        · obtain ⟨v, hv⟩ := Outcome.concat_ok_inv _ routed h1 _ (List.mem_map_of_mem _ hio)
          rw [hab] at hv
          exact absurd hv (by simp)
        · obtain ⟨v, hv⟩ := Outcome.concat_ok_inv _ collected h2 _ (List.mem_map_of_mem _ hio)
          rw [hab] at hv
          exact absurd hv (by simp)
  · intro io hr
    unfold Aborting.routerOutput Aborting.pass2Output
    rw [if_pos hr, if_pos hr]
    exact ⟨rfl, rfl⟩
  · intro io hr
    unfold Aborting.routerOutput
    rw [if_neg (by omega)]

/-- Instance of C26: the LaunchLab outer instruction of `launchLabAbortParser`, whose
payload does not decode and whose inner instruction has a program index out of range, makes
the call of `processRaydiumLaunchLabSwaps` in the second loop abort, and `ParseTransaction`
with it; and a Banana Gun instruction whose inner instructions run Orca, the Pump.fun AMM and
Raydium, followed by a Raydium V4 instruction and an instruction with an out-of-range program
index, with decoders that return. -/
theorem router_wrappers_keep_pass2_witness :
    ¬ hasSkippingInstruction sampleConsts launchLabAbortParser ∧
    launchLabAbortParser.processRaydiumLaunchLabSwaps sampleConsts sampleTransferHelpers 0 =
      .abort ∧
    (∀ l, Aborting.ParseTransaction sampleConsts
      (Aborting.sourceDecoders sampleConsts sampleTransferHelpers sampleDecoders.returning)
      launchLabAbortParser ≠ .ok l) ∧
    Aborting.ParseTransaction sampleConsts
      (Aborting.sourceDecoders sampleConsts sampleTransferHelpers sampleDecoders.returning)
      launchLabAbortParser = .abort ∧
    ¬ hasSkippingInstruction sampleConsts routerParser ∧
    Aborting.ParseTransaction sampleConsts sampleDecoders.returning routerParser =
      .ok ([⟨"orca", .other⟩, ⟨"pumpfun_amm", .other⟩, ⟨"raydium", .other⟩] ++
        [⟨"raydium", .other⟩]) :=
  ⟨by decide, by decide,
    (router_wrappers_keep_pass2 sampleConsts
      (Aborting.sourceDecoders sampleConsts sampleTransferHelpers sampleDecoders.returning)
      launchLabAbortParser (by decide)).2.2.1 (0, ⟨1, [], [1, 2, 3]⟩) (by decide)
      (Or.inr (by decide)),
    by decide, by decide,
    (router_wrappers_keep_pass2 sampleConsts sampleDecoders.returning routerParser
      (by decide)).1.trans (by decide)⟩

/-- C27. When no program ID belongs to two protocol families, the result of
`processRouterSwaps` is the concatenation of one decoder output for each family that occurs
among the inner instructions, in the order of the first inner instruction of each family:
the output of the decoder that this first instruction selects. Later inner instructions of
the family add nothing, and no family occurs twice. -/
theorem router_once_per_family (c : Consts) (d : Decoders) (p : Parser)
    (instructionIndex : Nat) (hdis : c.familiesDisjoint) :
    processRouterSwaps c d p instructionIndex =
      ((firstSeen (fun e : String × List SwapData => e.1)
        ((p.getInnerInstructions instructionIndex).filterMap
          (routerCall c d p instructionIndex))).map (fun e => e.2)).flatten ∧
    ((firstSeen (fun e : String × List SwapData => e.1)
      ((p.getInnerInstructions instructionIndex).filterMap
        (routerCall c d p instructionIndex))).map (fun e => e.1)).Nodup :=
  ⟨processRouterSwaps_eq c d p hdis instructionIndex, firstSeen_nodup _ _⟩

/-- Instance of C27: inner instructions of Orca, the Pump.fun AMM, Orca, Pump.fun and
Raydium V4 give the outputs of the Orca, Pump.fun AMM and Raydium decoders, once each. -/
theorem router_once_per_family_witness :
    sampleConsts.familiesDisjoint ∧
    processRouterSwaps sampleConsts sampleDecoders routerParser 0 =
      [⟨"orca", .other⟩, ⟨"pumpfun_amm", .other⟩, ⟨"raydium", .other⟩] :=
  ⟨by decide,
    (router_once_per_family sampleConsts sampleDecoders routerParser 0 (by decide)).1.trans
      (by decide)⟩

set_option maxRecDepth 4000 in
/-- Counterexample to C28: the outer instruction 0 of `launchLabParser` has a decodable
payload and an inner LaunchLab event instruction that decodes to `sampleInnerEvent`; the
list returned is the single event built from the payload of the outer instruction, whose
pool state and amount differ from those of the inner event. -/
theorem launchLab_event_tier_counterexample :
    launchLabParser.txInfo.Instructions[0]? = some ⟨1, [], launchLabBuyData⟩ ∧
    (⟨1, [], launchLabEventData⟩ : CompiledInstruction) ∈ launchLabParser.innerUnder 0 ∧
    launchLabParser.isRaydiumLaunchLabEvent sampleConsts ⟨1, [], launchLabEventData⟩ =
      .ok true ∧
    parseRaydiumLaunchLabEvent ⟨1, [], launchLabEventData⟩ = .ok (some sampleInnerEvent) ∧
    launchLabParser.processRaydiumLaunchLabSwaps sampleConsts sampleTransferHelpers 0 =
      .ok [⟨sampleConsts.RAYDIUM_LAUNCHLAB, .raydiumLaunchLab sampleOuterEvent⟩] ∧
    sampleOuterEvent.PoolState ≠ sampleInnerEvent.PoolState ∧
    sampleOuterEvent.AmountIn ≠ sampleInnerEvent.AmountIn := by
  refine ⟨by decide, by decide, by decide, by decide, by decide, by decide, by decide⟩

/-- C28, amended. `processRaydiumLaunchLabSwaps` applies the tiers in the order instruction,
event, transfer. When the data of the outer instruction have at least 32 bytes and start
with the buy or the sell discriminator, the result is the single event built from the
three amounts of the instruction and enriched from the inner TransferChecked, whatever the
inner instructions are: its pool state is zero and its direction is that of the
discriminator. Otherwise the result is the list of the events decoded from the inner event
instructions, and the transfer records when that list is empty. -/
theorem launchLab_tier_order (c : Consts) (x : TransferHelpers) (p : Parser)
    (instructionIndex : Nat) (mainInstruction : CompiledInstruction)
    (hmain : p.txInfo.Instructions[instructionIndex]? = some mainInstruction)
    (hm : x.mintsDecode p) :
    (¬ (mainInstruction.Data.length < 32 ∨
        (mainInstruction.Data.take 8 ≠ RaydiumLaunchLabBuyEventDiscriminator ∧
          mainInstruction.Data.take 8 ≠ RaydiumLaunchLabSellEventDiscriminator)) →
      ∃ e, p.processRaydiumLaunchLabSwaps c x instructionIndex =
          .ok [⟨c.RAYDIUM_LAUNCHLAB, .raydiumLaunchLab e⟩] ∧
        e.PoolState = PublicKey.zero ∧
        e.MinimumAmountOut = leUint64 (mainInstruction.Data.drop 16) ∧
        e.ShareFee = leUint64 (mainInstruction.Data.drop 24) ∧
        e.IsBuy =
          decide (mainInstruction.Data.take 8 = RaydiumLaunchLabBuyEventDiscriminator)) ∧
    ((mainInstruction.Data.length < 32 ∨
        (mainInstruction.Data.take 8 ≠ RaydiumLaunchLabBuyEventDiscriminator ∧
          mainInstruction.Data.take 8 ≠ RaydiumLaunchLabSellEventDiscriminator)) →
      p.processRaydiumLaunchLabSwaps c x instructionIndex =
        (Outcome.foldl (launchLabEventStep c p instructionIndex) []
          (p.innerUnder instructionIndex)).bind fun swaps =>
          if swaps.length = 0 then
            .ok ((p.innerUnder instructionIndex).filterMap fun instr =>
              (p.emitsEither x instr).map fun d => (⟨c.RAYDIUM_LAUNCHLAB, d⟩ : SwapData))
          else .ok swaps) :=
  ⟨fun hok => processRaydiumLaunchLabSwaps_instruction c x p instructionIndex mainInstruction
      hmain hok hm,
    fun hfail => processRaydiumLaunchLabSwaps_events c x p instructionIndex mainInstruction
      hmain hfail⟩

/-- Instance of C28: the outer instruction 0 of `launchLabParser`, a buy with a decodable
payload. -/
theorem launchLab_tier_order_witness :
    launchLabParser.txInfo.Instructions[0]? = some ⟨1, [], launchLabBuyData⟩ ∧
    ¬ (launchLabBuyData.length < 32 ∨
      (launchLabBuyData.take 8 ≠ RaydiumLaunchLabBuyEventDiscriminator ∧
        launchLabBuyData.take 8 ≠ RaydiumLaunchLabSellEventDiscriminator)) ∧
    ∃ e, launchLabParser.processRaydiumLaunchLabSwaps sampleConsts sampleTransferHelpers 0 =
        .ok [⟨sampleConsts.RAYDIUM_LAUNCHLAB, .raydiumLaunchLab e⟩] ∧
      e.PoolState = PublicKey.zero ∧
      e.MinimumAmountOut = leUint64 (launchLabBuyData.drop 16) ∧
      e.ShareFee = leUint64 (launchLabBuyData.drop 24) ∧
      e.IsBuy = decide (launchLabBuyData.take 8 = RaydiumLaunchLabBuyEventDiscriminator) :=
  ⟨by decide, by decide,
    (launchLab_tier_order sampleConsts sampleTransferHelpers launchLabParser 0
      ⟨1, [], launchLabBuyData⟩ (by decide)
      (sampleTransferHelpers_mintsDecode launchLabParser)).1 (by decide)⟩

/-- C29. For an outer instruction of the protocol of the decoder, each of
`processBoopFunSwaps`, `processMeteoraDAMMv2Swaps` and `processMeteoraDBCSwaps` returns,
when the data of the instruction have fewer than 24 bytes or do not start with the
discriminator, the transfer records of the inner TransferChecked and Transfer instructions
under the outer index, in their order and with the tag of the protocol; and otherwise one
entry that carries the event with the two amounts of the instruction, and no transfer
record. -/
theorem decode_failure_demotes (c : Consts) (x : TransferHelpers) (p : Parser)
    (instructionIndex : Nat) (mainInstruction : CompiledInstruction)
    (hmain : p.txInfo.Instructions[instructionIndex]? = some mainInstruction)
    (hm : x.mintsDecode p) :
    (p.allAccountKeys[mainInstruction.ProgramIDIndex]? = some c.BOOPFUN_PROGRAM_ID →
      ((mainInstruction.Data.length < 24 ∨
          mainInstruction.Data.take 8 ≠ BoopFunBuyTokenDiscriminator) →
        p.processBoopFunSwaps c x instructionIndex =
          .ok ((p.innerUnder instructionIndex).filterMap fun instr =>
            (p.emitsEither x instr).map fun d => (⟨c.BOOPFUN, d⟩ : SwapData))) ∧
      (¬ (mainInstruction.Data.length < 24 ∨
          mainInstruction.Data.take 8 ≠ BoopFunBuyTokenDiscriminator) →
        ∃ e, p.processBoopFunSwaps c x instructionIndex = .ok [⟨c.BOOPFUN, .boopFun e⟩] ∧
          e.BuyAmount = leUint64 (mainInstruction.Data.drop 8) ∧
          e.AmountOutMin = leUint64 (mainInstruction.Data.drop 16) ∧ e.IsBuy = true)) ∧
    (p.allAccountKeys[mainInstruction.ProgramIDIndex]? = some c.METEORA_DAMM_V2_PROGRAM_ID →
      ((mainInstruction.Data.length < 24 ∨
          mainInstruction.Data.take 8 ≠ MeteoraDAMMv2SwapDiscriminator) →
        p.processMeteoraDAMMv2Swaps c x instructionIndex =
          .ok ((p.innerUnder instructionIndex).filterMap fun instr =>
            (p.emitsEither x instr).map fun d => (⟨c.METEORA, d⟩ : SwapData))) ∧
      (¬ (mainInstruction.Data.length < 24 ∨
          mainInstruction.Data.take 8 ≠ MeteoraDAMMv2SwapDiscriminator) →
        ∃ e, p.processMeteoraDAMMv2Swaps c x instructionIndex =
            .ok [⟨c.METEORA, .meteoraDAMMv2 e⟩] ∧
          e.AmountIn = leUint64 (mainInstruction.Data.drop 8) ∧
          e.MinimumAmountOut = leUint64 (mainInstruction.Data.drop 16))) ∧
    (p.allAccountKeys[mainInstruction.ProgramIDIndex]? = some c.METEORA_DBC_PROGRAM_ID →
      ((mainInstruction.Data.length < 24 ∨
          mainInstruction.Data.take 8 ≠ MeteoraDBCSwapDiscriminator) →
        p.processMeteoraDBCSwaps c x instructionIndex =
          .ok ((p.innerUnder instructionIndex).filterMap fun instr =>
            (p.emitsEither x instr).map fun d => (⟨c.METEORA, d⟩ : SwapData))) ∧
      (¬ (mainInstruction.Data.length < 24 ∨
          mainInstruction.Data.take 8 ≠ MeteoraDBCSwapDiscriminator) →
        ∃ e, p.processMeteoraDBCSwaps c x instructionIndex =
            .ok [⟨c.METEORA, .meteoraDBC e⟩] ∧
          e.MinimumAmountOut = leUint64 (mainInstruction.Data.drop 16))) := by
  refine ⟨fun hprog => ⟨fun hfail => ?_, fun hok => ?_⟩,
    fun hprog => ⟨fun hfail => ?_, fun hok => ?_⟩,
    fun hprog => ⟨fun hfail => ?_, fun hok => ?_⟩⟩
  · exact processBoopFunSwaps_transfers c x p instructionIndex mainInstruction _ hmain hprog
      (Or.inr hfail)
  · exact processBoopFunSwaps_event c x p instructionIndex mainInstruction hmain hprog hok hm
  · exact processMeteoraDAMMv2Swaps_transfers c x p instructionIndex mainInstruction _ hmain
      hprog (Or.inr hfail)
  · exact processMeteoraDAMMv2Swaps_event c x p instructionIndex mainInstruction hmain hprog
      hok hm
  · exact processMeteoraDBCSwaps_transfers c x p instructionIndex mainInstruction _ hmain
      hprog (Or.inr hfail)
  · exact processMeteoraDBCSwaps_event c x p instructionIndex mainInstruction hmain hprog
      hok hm

/-- Instance of C29: the outer instruction 1 of `tierParser`, a Boop.fun instruction of 3
data bytes, gives the records of its inner Transfer and of its inner TransferChecked. -/
theorem decode_failure_demotes_witness :
    tierParser.txInfo.Instructions[1]? = some ⟨1, [], [1, 2, 3]⟩ ∧
    tierParser.allAccountKeys[1]? = some sampleConsts.BOOPFUN_PROGRAM_ID ∧
    tierParser.processBoopFunSwaps sampleConsts sampleTransferHelpers 1 =
      .ok [⟨"boopfun", .transferData tierTransferRecord⟩,
        ⟨"boopfun", .transferCheck tierTransferCheck⟩] :=
  ⟨by decide, by decide,
    (((decode_failure_demotes sampleConsts sampleTransferHelpers tierParser 1
      ⟨1, [], [1, 2, 3]⟩ (by decide) (sampleTransferHelpers_mintsDecode tierParser)).1
        (by decide)).1 (Or.inl (by decide))).trans (by decide)⟩

/-- Counterexample to C30: under the outer instruction 2 of `tierParser` stand a Transfer
and a TransferChecked, both recognised and both decodable; `processOrcaSwaps` returns the
record of the Transfer alone. -/
theorem orca_transferChecked_counterexample :
    tierParser.innerUnder 2 =
      [⟨3, [0, 4, 0], [3, 1, 1, 0, 0, 0, 0, 0, 0]⟩,
        ⟨3, [0, 4, 0, 0], [12, 7, 0, 0, 0, 0, 0, 0, 0, 6]⟩] ∧
    tierParser.isTransfer ⟨3, [0, 4, 0], [3, 1, 1, 0, 0, 0, 0, 0, 0]⟩ = .ok true ∧
    tierParser.isTransferCheck ⟨3, [0, 4, 0, 0], [12, 7, 0, 0, 0, 0, 0, 0, 0, 6]⟩ = .ok true ∧
    sampleTransferHelpers.processTransferCheck tierParser
      ⟨3, [0, 4, 0, 0], [12, 7, 0, 0, 0, 0, 0, 0, 0, 6]⟩ = some tierTransferCheck ∧
    tierParser.processOrcaSwaps sampleConsts 2 =
      .ok [⟨sampleConsts.ORCA, .transferData tierTransferRecord⟩] := by
  refine ⟨by decide, by decide, by decide, by decide, by decide⟩

/-- C30, amended. `processOrcaSwaps` returns, in the order of the inner instructions under
the outer index, one ORCA entry with the record of `processTransfer` for every inner
instruction that `isTransfer` accepts, and nothing else: an inner TransferChecked
contributes nothing. -/
theorem orca_transfers_only (c : Consts) (p : Parser) (instructionIndex : Nat) :
    p.processOrcaSwaps c instructionIndex =
      .ok ((p.innerUnder instructionIndex).filterMap fun instr =>
        (p.emitsTransfer instr).map fun d => (⟨c.ORCA, d⟩ : SwapData)) ∧
    (∀ instr, p.isTransfer instr = .ok true →
      ∃ t, p.processTransfer instr = .ok (some t) ∧
        p.emitsTransfer instr = some (.transferData t)) ∧
    (∀ instr, p.isTransfer instr ≠ .ok true → p.emitsTransfer instr = none) ∧
    (∀ instr, p.isTransferCheck instr = .ok true → p.emitsTransfer instr = none) := by
  refine ⟨processOrcaSwaps_eq c p instructionIndex, emitsTransfer_of_true p, ?_, ?_⟩
  · intro instr h
    rcases isTransfer_total p instr with ht | hf
    · exact absurd ht h
    · exact emitsTransfer_of_false p instr hf
  · intro instr h
    exact emitsTransfer_of_false p instr (isTransfer_of_isTransferCheck p instr h)

/-- Instance of C30: the inner TransferChecked under the outer instruction 2 of
`tierParser` gives no entry. -/
theorem orca_transfers_only_witness :
    tierParser.isTransferCheck ⟨3, [0, 4, 0, 0], [12, 7, 0, 0, 0, 0, 0, 0, 0, 6]⟩ = .ok true ∧
    tierParser.emitsTransfer ⟨3, [0, 4, 0, 0], [12, 7, 0, 0, 0, 0, 0, 0, 0, 6]⟩ = none :=
  ⟨by decide,
    (orca_transfers_only sampleConsts tierParser 2).2.2.2
      ⟨3, [0, 4, 0, 0], [12, 7, 0, 0, 0, 0, 0, 0, 0, 6]⟩ (by decide)⟩

/-! ## Claims C31 to C33: the payloads of the outer instructions -/

/-- C31. `parseRaydiumLaunchLabInstruction` succeeds exactly when the data have at least 32
bytes and start with the buy discriminator or the sell discriminator; on success the three
amounts are the little-endian 64-bit values at the byte offsets 8, 16 and 24, and the flag
`isBuy` is true exactly when the data start with the buy discriminator. -/
theorem launchLab_instruction_layout (instruction : CompiledInstruction) :
    ((parseRaydiumLaunchLabInstruction instruction).isSome ↔
      (32 ≤ instruction.Data.length ∧
        (instruction.Data.take 8 = [102, 230, 103, 87, 137, 106, 134, 187] ∨
          instruction.Data.take 8 = [149, 39, 222, 155, 211, 124, 152, 26]))) ∧
    ∀ (data : RaydiumLaunchLabInstructionData) (isBuy : Bool),
      parseRaydiumLaunchLabInstruction instruction = some (data, isBuy) →
        data.AmountIn =
          ∑ i ∈ Finset.range 8, (instruction.Data.getD (8 + i) 0 % 256) * 256 ^ i ∧
        data.MinimumAmountOut =
          ∑ i ∈ Finset.range 8, (instruction.Data.getD (16 + i) 0 % 256) * 256 ^ i ∧
        data.ShareFeeRate =
          ∑ i ∈ Finset.range 8, (instruction.Data.getD (24 + i) 0 % 256) * 256 ^ i ∧
        (isBuy = true ↔ instruction.Data.take 8 = [102, 230, 103, 87, 137, 106, 134, 187]) := by
  rw [parseRaydiumLaunchLabInstruction_eq]
  have hb : RaydiumLaunchLabBuyEventDiscriminator = [102, 230, 103, 87, 137, 106, 134, 187] :=
    rfl
  have hs : RaydiumLaunchLabSellEventDiscriminator = [149, 39, 222, 155, 211, 124, 152, 26] :=
    rfl
  rw [hb, hs]
  constructor
  · split
    · rename_i h
      simp only [Option.isSome_none, Bool.false_eq_true, false_iff, not_and, not_or]
      intro hlen
      rcases h with h | h
      · omega
      · exact h
    · rename_i h
      simp only [not_or, not_and, not_lt, not_not] at h
      simp only [Option.isSome_some, true_iff]
      refine ⟨h.1, ?_⟩
      by_cases h1 : instruction.Data.take 8 = [102, 230, 103, 87, 137, 106, 134, 187]
      · exact Or.inl h1
      · exact Or.inr (h.2 h1)
  · intro data isBuy h
    split at h
    · exact absurd h (by simp)
    · injection h with h
      injection h with h1 h2
      subst h1
      subst h2
      refine ⟨leUint64_drop _ 8, leUint64_drop _ 16, leUint64_drop _ 24, ?_⟩
      simp

/-- Instance of C31: the payload of a LaunchLab buy with the amounts 100, 90 and 1. -/
theorem launchLab_instruction_layout_witness :
    parseRaydiumLaunchLabInstruction ⟨1, [], launchLabBuyData⟩ = some (⟨100, 90, 1⟩, true) ∧
    (⟨100, 90, 1⟩ : RaydiumLaunchLabInstructionData).AmountIn =
      ∑ i ∈ Finset.range 8, (launchLabBuyData.getD (8 + i) 0 % 256) * 256 ^ i :=
  ⟨by decide,
    ((launchLab_instruction_layout ⟨1, [], launchLabBuyData⟩).2 ⟨100, 90, 1⟩ true
      (by decide)).1⟩

/-- C32. `parseBoopFunInstruction` succeeds exactly when the data have at least 24 bytes and
start with the `buy_token` discriminator; on success the two amounts are the little-endian
64-bit values at the byte offsets 8 and 16, and the bytes from offset 24 on do not change
the result. -/
theorem boopFun_instruction_layout (instruction : CompiledInstruction) :
    ((parseBoopFunInstruction instruction).isSome ↔
      (24 ≤ instruction.Data.length ∧
        instruction.Data.take 8 = [138, 127, 14, 91, 38, 87, 115, 105])) ∧
    (∀ data : BoopFunInstructionData, parseBoopFunInstruction instruction = some data →
      data.BuyAmount =
        ∑ i ∈ Finset.range 8, (instruction.Data.getD (8 + i) 0 % 256) * 256 ^ i ∧
      data.AmountOutMin =
        ∑ i ∈ Finset.range 8, (instruction.Data.getD (16 + i) 0 % 256) * 256 ^ i) ∧
    (∀ tail : List Nat, 24 ≤ instruction.Data.length →
      parseBoopFunInstruction { instruction with Data := instruction.Data.take 24 ++ tail } =
        parseBoopFunInstruction instruction) := by
  have hb : BoopFunBuyTokenDiscriminator = [138, 127, 14, 91, 38, 87, 115, 105] := rfl
  refine ⟨?_, ?_, ?_⟩
  · rw [parseBoopFunInstruction_eq, hb]
    split
    · rename_i h
      simp only [Option.isSome_none, Bool.false_eq_true, false_iff, not_and]
      intro hlen
      rcases h with h | h
      · omega
      · exact h
    · rename_i h
      simp only [not_or, not_lt, not_not] at h
      simp only [Option.isSome_some, true_iff]
      exact h
  · intro data h
    rw [parseBoopFunInstruction_eq] at h
    split at h
    · exact absurd h (by simp)
    · injection h with h
      subst h
      exact ⟨leUint64_drop _ 8, leUint64_drop _ 16⟩
  · intro tail hlen
    rw [parseBoopFunInstruction_eq, parseBoopFunInstruction_eq]
    have hl : (instruction.Data.take 24).length = 24 := by
      rw [List.length_take]; omega
    have h1 : (instruction.Data.take 24 ++ tail).take 8 = instruction.Data.take 8 := by
      rw [List.take_append_of_le_length (by omega), List.take_take]
      rfl
    have h2 : ∀ off, off + 8 ≤ 24 → leUint64 ((instruction.Data.take 24 ++ tail).drop off) =
        leUint64 (instruction.Data.drop off) := by
      intro off hoff
      rw [leUint64_drop, leUint64_drop]
      apply Finset.sum_congr rfl
      intro i hi
      have hi8 : i < 8 := Finset.mem_range.mp hi
      have hlt : off + i < (instruction.Data.take 24).length := by omega
      have hlt2 : off + i < instruction.Data.length := by omega
      rw [List.getD_eq_getElem?_getD, List.getD_eq_getElem?_getD,
        List.getElem?_append_left hlt, List.getElem?_take_of_lt (by omega)]
    simp only [List.length_append, hl, h1, h2 8 (by omega), h2 16 (by omega)]
    have hc : (24 + tail.length < 24) = False := by simp
    have hc2 : (instruction.Data.length < 24) = False := by simp; omega
    simp only [hc, hc2]

/-- Instance of C32: a `buy_token` payload with the amounts 100 and 90, and the same payload
followed by three more bytes. -/
theorem boopFun_instruction_layout_witness :
    parseBoopFunInstruction
        ⟨1, [], BoopFunBuyTokenDiscriminator ++
          [100, 0, 0, 0, 0, 0, 0, 0, 90, 0, 0, 0, 0, 0, 0, 0]⟩ = some ⟨100, 90⟩ ∧
    parseBoopFunInstruction
        ⟨1, [], (BoopFunBuyTokenDiscriminator ++
          [100, 0, 0, 0, 0, 0, 0, 0, 90, 0, 0, 0, 0, 0, 0, 0]).take 24 ++ [7, 7, 7]⟩ =
      parseBoopFunInstruction
        ⟨1, [], BoopFunBuyTokenDiscriminator ++
          [100, 0, 0, 0, 0, 0, 0, 0, 90, 0, 0, 0, 0, 0, 0, 0]⟩ :=
  ⟨by decide,
    (boopFun_instruction_layout
      ⟨1, [], BoopFunBuyTokenDiscriminator ++
        [100, 0, 0, 0, 0, 0, 0, 0, 90, 0, 0, 0, 0, 0, 0, 0]⟩).2.2 [7, 7, 7] (by decide)⟩

/-- C33. `parseMeteoraDAMMv2Instruction` and `parseMeteoraDBCInstruction` decode alike: on
every instruction each succeeds exactly when the data have at least 24 bytes and start with
the bytes 248, 198, 158, 145, 225, 117, 135, 200, so one succeeds exactly when the other
does, and on success both return the little-endian 64-bit values at the byte offsets 8 and
16. -/
theorem meteora_instruction_decoders_agree (instruction : CompiledInstruction) :
    ((parseMeteoraDAMMv2Instruction instruction).isSome ↔
      (24 ≤ instruction.Data.length ∧
        instruction.Data.take 8 = [248, 198, 158, 145, 225, 117, 135, 200])) ∧
    ((parseMeteoraDBCInstruction instruction).isSome ↔
      (parseMeteoraDAMMv2Instruction instruction).isSome) ∧
    (∀ (a : MeteoraDAMMv2InstructionData) (b : MeteoraDBCInstructionData),
      parseMeteoraDAMMv2Instruction instruction = some a →
      parseMeteoraDBCInstruction instruction = some b →
        a.Amount = b.AmountIn ∧ a.OtherAmountThreshold = b.MinimumAmountOut ∧
        a.Amount = ∑ i ∈ Finset.range 8, (instruction.Data.getD (8 + i) 0 % 256) * 256 ^ i ∧
        a.OtherAmountThreshold =
          ∑ i ∈ Finset.range 8, (instruction.Data.getD (16 + i) 0 % 256) * 256 ^ i) := by
  have hb : MeteoraDAMMv2SwapDiscriminator = [248, 198, 158, 145, 225, 117, 135, 200] := rfl
  have hc : MeteoraDBCSwapDiscriminator = [248, 198, 158, 145, 225, 117, 135, 200] := rfl
  rw [parseMeteoraDAMMv2Instruction_eq, parseMeteoraDBCInstruction_eq, hb, hc]
  refine ⟨?_, ?_, ?_⟩
  · split
    · rename_i h
      simp only [Option.isSome_none, Bool.false_eq_true, false_iff, not_and]
      intro hlen
      rcases h with h | h
      · omega
      · exact h
    · rename_i h
      simp only [not_or, not_lt, not_not] at h
      simp only [Option.isSome_some, true_iff]
      exact h
  · split <;> simp
  · intro a b ha hb
    split at ha
    · exact absurd ha (by simp)
    · rename_i h
      rw [if_neg h] at hb
      injection ha with ha
      injection hb with hb
      subst ha
      subst hb
      exact ⟨rfl, rfl, leUint64_drop _ 8, leUint64_drop _ 16⟩

/-- Instance of C33: a payload with the amounts 100 and 90 under both decoders. -/
theorem meteora_instruction_decoders_agree_witness :
    parseMeteoraDAMMv2Instruction
        ⟨1, [], MeteoraDAMMv2SwapDiscriminator ++
          [100, 0, 0, 0, 0, 0, 0, 0, 90, 0, 0, 0, 0, 0, 0, 0]⟩ = some ⟨100, 90⟩ ∧
    parseMeteoraDBCInstruction
        ⟨1, [], MeteoraDAMMv2SwapDiscriminator ++
          [100, 0, 0, 0, 0, 0, 0, 0, 90, 0, 0, 0, 0, 0, 0, 0]⟩ = some ⟨100, 90⟩ ∧
    (⟨100, 90⟩ : MeteoraDAMMv2InstructionData).Amount =
      (⟨100, 90⟩ : MeteoraDBCInstructionData).AmountIn :=
  ⟨by decide, by decide,
    ((meteora_instruction_decoders_agree
      ⟨1, [], MeteoraDAMMv2SwapDiscriminator ++
        [100, 0, 0, 0, 0, 0, 0, 0, 90, 0, 0, 0, 0, 0, 0, 0]⟩).2.2 ⟨100, 90⟩ ⟨100, 90⟩
      (by decide) (by decide)).1⟩

/-! ## Claims C34 and C35: the events enriched from the inner TransferChecked -/

set_option maxRecDepth 4000 in
/-- Counterexample to C34: under each outer instruction of `meteoraParser` three inner
TransferChecked decode, of USDC, of SOL and of the mint `accountA`, all with known mints; the
DAMM v2 event and the DBC event take their output mint, decimals and amount from the second
record (SOL, 9 decimals, 8 units), and the last record (2 decimals, 9 units) is not used. -/
theorem meteora_output_leg_counterexample :
    collectTransferChecks keyedTransferHelpers meteoraParser 0 = .ok meteoraTransferChecks ∧
    collectTransferChecks keyedTransferHelpers meteoraParser 1 = .ok meteoraTransferChecks ∧
    (∀ t ∈ meteoraTransferChecks, t.Mint ≠ "Unknown" ∧ t.Mint ≠ "") ∧
    meteoraTransferChecks.getLast? =
      some ⟨"authority", "destination", PublicKey.String accountA, "source", "9", 2⟩ ∧
    meteoraParser.processMeteoraDAMMv2Swaps sampleConsts keyedTransferHelpers 0 =
      .ok [⟨sampleConsts.METEORA, .meteoraDAMMv2 sampleDAMMv2Event⟩] ∧
    meteoraParser.processMeteoraDBCSwaps sampleConsts keyedTransferHelpers 1 =
      .ok [⟨sampleConsts.METEORA, .meteoraDBC sampleDBCEvent⟩] ∧
    sampleDAMMv2Event.TokenOutMint ≠ accountA ∧ sampleDAMMv2Event.TokenOutDecimals ≠ 2 ∧
    sampleDAMMv2Event.ActualAmountOut ≠ 9 ∧
    sampleDBCEvent.TokenOutMint ≠ accountA ∧ sampleDBCEvent.TokenOutDecimals ≠ 2 ∧
    sampleDBCEvent.OutputAmount ≠ 9 := by
  decide

/-- C34, amended. For a Meteora DAMM v2 or DBC outer instruction whose payload decodes and
under whose index the decoded inner TransferChecked are `t1 :: t2 :: rest`, the first two
with known mints, the emitted event takes its input mint and decimals from `t1` and its
output mint, decimals and output amount from `t2`, the second record, whatever `rest` is;
the DBC event also takes its input amounts from `t1`. -/
theorem meteora_legs_first_and_second (c : Consts) (x : TransferHelpers) (p : Parser)
    (instructionIndex : Nat) (mainInstruction : CompiledInstruction)
    (t1 t2 : TransferCheck) (rest : List TransferCheck)
    (hmain : p.txInfo.Instructions[instructionIndex]? = some mainInstruction)
    (hok : 24 ≤ mainInstruction.Data.length ∧
      mainInstruction.Data.take 8 = [248, 198, 158, 145, 225, 117, 135, 200])
    (hm : x.mintsDecode p)
    (hc : collectTransferChecks x p instructionIndex = .ok (t1 :: t2 :: rest))
    (h1 : t1.Mint ≠ "Unknown" ∧ t1.Mint ≠ "") (h2 : t2.Mint ≠ "Unknown" ∧ t2.Mint ≠ "") :
    (p.allAccountKeys[mainInstruction.ProgramIDIndex]? = some c.METEORA_DAMM_V2_PROGRAM_ID →
      ∃ e, p.processMeteoraDAMMv2Swaps c x instructionIndex =
          .ok [⟨c.METEORA, .meteoraDAMMv2 e⟩] ∧
        PublicKeyFromBase58 t1.Mint = some e.TokenInMint ∧
        e.TokenInDecimals = t1.Decimals ∧
        PublicKeyFromBase58 t2.Mint = some e.TokenOutMint ∧
        e.TokenOutDecimals = t2.Decimals ∧
        e.ActualAmountOut = parseUint64 t2.Amount) ∧
    (p.allAccountKeys[mainInstruction.ProgramIDIndex]? = some c.METEORA_DBC_PROGRAM_ID →
      ∃ e, p.processMeteoraDBCSwaps c x instructionIndex = .ok [⟨c.METEORA, .meteoraDBC e⟩] ∧
        PublicKeyFromBase58 t1.Mint = some e.TokenInMint ∧
        e.TokenInDecimals = t1.Decimals ∧
        e.AmountIn = parseUint64 t1.Amount ∧ e.ActualInputAmount = parseUint64 t1.Amount ∧
        PublicKeyFromBase58 t2.Mint = some e.TokenOutMint ∧
        e.TokenOutDecimals = t2.Decimals ∧
        e.OutputAmount = parseUint64 t2.Amount) := by
  obtain ⟨m1, hm1⟩ := collectTransferChecks_decode x p hm instructionIndex _ hc t1 (by simp)
    h1.1 h1.2
  obtain ⟨m2, hm2⟩ := collectTransferChecks_decode x p hm instructionIndex _ hc t2 (by simp)
    h2.1 h2.2
  have hok2 : ¬ (mainInstruction.Data.length < 24 ∨
      mainInstruction.Data.take 8 ≠ MeteoraDAMMv2SwapDiscriminator) := by
    intro h
    rcases h with h | h
    · omega
    · exact h hok.2
  constructor
  · intro hprog
    exact ⟨_, processMeteoraDAMMv2Swaps_two c x p instructionIndex mainInstruction t1 t2 rest
      m1 m2 hmain hprog hok2 hc h1 h2 hm1 hm2, hm1, rfl, hm2, rfl, rfl⟩
  · intro hprog
    exact ⟨_, processMeteoraDBCSwaps_two c x p instructionIndex mainInstruction t1 t2 rest
      m1 m2 hmain hprog hok2 hc h1 h2 hm1 hm2, hm1, rfl, rfl, rfl, hm2, rfl, rfl⟩

set_option maxRecDepth 4000 in
/-- Instance of C34: the DAMM v2 instruction of `meteoraParser` with its three inner
TransferChecked. -/
theorem meteora_legs_first_and_second_witness :
    meteoraParser.txInfo.Instructions[0]? = some ⟨1, [], meteoraSwapData⟩ ∧
    collectTransferChecks keyedTransferHelpers meteoraParser 0 =
      .ok (⟨"authority", "destination", usdcText, "source", "7", 6⟩ ::
        ⟨"authority", "destination", solText, "source", "8", 9⟩ ::
        [⟨"authority", "destination", PublicKey.String accountA, "source", "9", 2⟩]) ∧
    ∃ e, meteoraParser.processMeteoraDAMMv2Swaps sampleConsts keyedTransferHelpers 0 =
        .ok [⟨sampleConsts.METEORA, .meteoraDAMMv2 e⟩] ∧
      PublicKeyFromBase58 usdcText = some e.TokenInMint ∧ e.TokenInDecimals = 6 ∧
      PublicKeyFromBase58 solText = some e.TokenOutMint ∧ e.TokenOutDecimals = 9 ∧
      e.ActualAmountOut = parseUint64 "8" :=
  ⟨by decide, by decide,
    (meteora_legs_first_and_second sampleConsts keyedTransferHelpers meteoraParser 0
      ⟨1, [], meteoraSwapData⟩ ⟨"authority", "destination", usdcText, "source", "7", 6⟩
      ⟨"authority", "destination", solText, "source", "8", 9⟩
      [⟨"authority", "destination", PublicKey.String accountA, "source", "9", 2⟩]
      (by decide) (by decide) (keyedTransferHelpers_mintsDecode meteoraParser) (by decide)
      (by decide) (by decide)).1 (by decide)⟩

/-- C35. For a Boop.fun outer instruction whose payload decodes, `processBoopFunSwaps`
returns one event whose mint is not the native SOL mint: it is decoded from a decoded inner
TransferChecked whose mint text is not that of SOL, or it is the zero key when every decoded
inner TransferChecked has the SOL text, `Unknown` or the empty text as mint. The summary of
the returned list has the native SOL mint as input mint and the mint of the event, which is
not the native SOL mint, as output mint. -/
theorem boopFun_token_never_sol (c : Consts) (x : TransferHelpers) (h : Helpers) (p : Parser)
    (instructionIndex : Nat) (mainInstruction : CompiledInstruction) (now : Int)
    (hmain : p.txInfo.Instructions[instructionIndex]? = some mainInstruction)
    (hprog : p.allAccountKeys[mainInstruction.ProgramIDIndex]? = some c.BOOPFUN_PROGRAM_ID)
    (hok : 24 ≤ mainInstruction.Data.length ∧
      mainInstruction.Data.take 8 = [138, 127, 14, 91, 38, 87, 115, 105])
    (hm : x.mintsDecode p) (hd : c.tagsDistinct) :
    ∃ e ts swaps s, p.processBoopFunSwaps c x instructionIndex = .ok swaps ∧
      swaps = [⟨c.BOOPFUN, .boopFun e⟩] ∧
      collectTransferChecks x p instructionIndex = .ok ts ∧
      e.TokenMint ≠ NATIVE_SOL_MINT_PROGRAM_ID ∧
      ((∃ t ∈ ts, t.Mint ≠ solText ∧ PublicKeyFromBase58 t.Mint = some e.TokenMint) ∨
        ((∀ t ∈ ts, t.Mint = solText ∨ t.Mint = "Unknown" ∨ t.Mint = "") ∧
          e.TokenMint = PublicKey.zero)) ∧
      ProcessSwapData c h p now swaps = .ok s ∧
      s.TokenInMint = NATIVE_SOL_MINT_PROGRAM_ID ∧ s.TokenOutMint = e.TokenMint ∧
      s.TokenOutMint ≠ NATIVE_SOL_MINT_PROGRAM_ID := by
  have hok2 : ¬ (mainInstruction.Data.length < 24 ∨
      mainInstruction.Data.take 8 ≠ BoopFunBuyTokenDiscriminator) := by
    intro h
    rcases h with h | h
    · omega
    · exact h hok.2
  obtain ⟨e, ts, hp, hts, hne, hcase⟩ :=
    processBoopFunSwaps_mint c x p instructionIndex mainInstruction hmain hprog hok2 hm
  exact ⟨e, ts, _, _, hp, rfl, hts, hne, hcase, ProcessSwapData_boopFun_single c h p now e hd,
    rfl, rfl, hne⟩

set_option maxRecDepth 4000 in
/-- Instance of C35: the Boop.fun buy of `tierParser`, whose inner TransferChecked moves
USDC. -/
theorem boopFun_token_never_sol_witness :
    tierParser.txInfo.Instructions[0]? =
      some ⟨1, [], BoopFunBuyTokenDiscriminator ++
        [100, 0, 0, 0, 0, 0, 0, 0, 90, 0, 0, 0, 0, 0, 0, 0]⟩ ∧
    tierParser.processBoopFunSwaps sampleConsts sampleTransferHelpers 0 =
      .ok [⟨sampleConsts.BOOPFUN, .boopFun tierBoopFunEvent⟩] ∧
    ∃ e ts swaps s, tierParser.processBoopFunSwaps sampleConsts sampleTransferHelpers 0 =
        .ok swaps ∧
      swaps = [⟨sampleConsts.BOOPFUN, .boopFun e⟩] ∧
      collectTransferChecks sampleTransferHelpers tierParser 0 = .ok ts ∧
      e.TokenMint ≠ NATIVE_SOL_MINT_PROGRAM_ID ∧
      ((∃ t ∈ ts, t.Mint ≠ solText ∧ PublicKeyFromBase58 t.Mint = some e.TokenMint) ∨
        ((∀ t ∈ ts, t.Mint = solText ∨ t.Mint = "Unknown" ∨ t.Mint = "") ∧
          e.TokenMint = PublicKey.zero)) ∧
      ProcessSwapData sampleConsts sampleHelpers tierParser 5 swaps = .ok s ∧
      s.TokenInMint = NATIVE_SOL_MINT_PROGRAM_ID ∧ s.TokenOutMint = e.TokenMint ∧
      s.TokenOutMint ≠ NATIVE_SOL_MINT_PROGRAM_ID :=
  ⟨by decide, by decide,
    boopFun_token_never_sol sampleConsts sampleTransferHelpers sampleHelpers tierParser 0
      ⟨1, [], BoopFunBuyTokenDiscriminator ++
        [100, 0, 0, 0, 0, 0, 0, 0, 90, 0, 0, 0, 0, 0, 0, 0]⟩ 5 (by decide) (by decide)
      (by decide) (sampleTransferHelpers_mintsDecode tierParser) (by decide)⟩

/-! ## Claim C36: the router wrappers against the second loop -/

/-- Counterexample to C36: for an inner instruction of Meteora DAMM v2 and for one of
Meteora DBC the loop of `processRouterSwaps` calls `processMeteoraSwaps`, where the second
loop of `ParseTransaction` calls `processMeteoraDAMMv2Swaps` and `processMeteoraDBCSwaps`;
for an inner instruction of Raydium LaunchLab and for one of the legacy Raydium program it
calls no decoder, where the second loop calls `processRaydiumLaunchLabSwaps` and
`processRaydSwaps`. -/
theorem router_dispatch_counterexample :
    redispatchParser.getInnerInstructions 0 = [⟨2, [], []⟩] ∧
    redispatchParser.keyAt 2 = sampleConsts.METEORA_DAMM_V2_PROGRAM_ID ∧
    processRouterSwaps sampleConsts namedDecoders redispatchParser 0 =
      [⟨"processMeteoraSwaps", .other⟩] ∧
    pass2Step sampleConsts namedDecoders redispatchParser [] (0, ⟨2, [], []⟩) =
      [⟨"processMeteoraDAMMv2Swaps", .other⟩] ∧
    redispatchParser.getInnerInstructions 1 = [⟨3, [], []⟩] ∧
    redispatchParser.keyAt 3 = sampleConsts.RAYDIUM_LAUNCHLAB_PROGRAM_ID ∧
    processRouterSwaps sampleConsts namedDecoders redispatchParser 1 = [] ∧
    pass2Step sampleConsts namedDecoders redispatchParser [] (1, ⟨3, [], []⟩) =
      [⟨"processRaydiumLaunchLabSwaps", .other⟩] ∧
    redispatchParser.getInnerInstructions 2 = [⟨4, [], []⟩] ∧
    redispatchParser.keyAt 4 = sampleConsts.METEORA_DBC_PROGRAM_ID ∧
    processRouterSwaps sampleConsts namedDecoders redispatchParser 2 =
      [⟨"processMeteoraSwaps", .other⟩] ∧
    pass2Step sampleConsts namedDecoders redispatchParser [] (2, ⟨4, [], []⟩) =
      [⟨"processMeteoraDBCSwaps", .other⟩] ∧
    redispatchParser.getInnerInstructions 3 = [⟨5, [], []⟩] ∧
    redispatchParser.keyAt 5 = RAYDIUM_LEGACY_PROGRAM_ID ∧
    processRouterSwaps sampleConsts namedDecoders redispatchParser 3 = [] ∧
    pass2Step sampleConsts namedDecoders redispatchParser [] (3, ⟨5, [], []⟩) =
      [⟨"processRaydSwaps", .other⟩] := by
  decide

/-- C36, amended. When the fifteen program IDs of the second loop of `ParseTransaction` are
pairwise different, the round of the loop of `processRouterSwaps` at the first inner
instruction, whose output the result of `processRouterSwaps` starts with, appends what the
second loop appends for an instruction of the same program ID when that ID is one of Raydium
V4, CPMM, AMM, CLMM, Orca, Meteora legacy, Pools, DLMM, the Pump.fun AMM, Pump.fun and legacy
Pump.fun. For Meteora DAMM v2 and Meteora DBC it appends the output of `processMeteoraSwaps`
where the second loop appends that of `processMeteoraDAMMv2Swaps` and of
`processMeteoraDBCSwaps`; for Raydium LaunchLab and the legacy Raydium ID it appends nothing
where the second loop appends the output of `processRaydiumLaunchLabSwaps` and of
`processRaydSwaps`; for every other program ID both append nothing. -/
theorem router_table_against_pass2 (c : Consts) (d : Decoders) (p : Parser)
    (instructionIndex : Nat) (inner : CompiledInstruction) (rest : List CompiledInstruction)
    (hdis : c.ammIDsDistinct)
    (hinner : p.getInnerInstructions instructionIndex = inner :: rest)
    (hr : inner.ProgramIDIndex < p.allAccountKeys.length) :
    (∃ tail, processRouterSwaps c d p instructionIndex =
      (routerStep c d p instructionIndex ([], []) inner).1 ++ tail) ∧
    (p.keyAt inner.ProgramIDIndex ∈
        [c.RAYDIUM_V4_PROGRAM_ID, c.RAYDIUM_CPMM_PROGRAM_ID, c.RAYDIUM_AMM_PROGRAM_ID,
          c.RAYDIUM_CONCENTRATED_LIQUIDITY_PROGRAM_ID, c.ORCA_PROGRAM_ID, c.METEORA_PROGRAM_ID,
          c.METEORA_POOLS_PROGRAM_ID, c.METEORA_DLMM_PROGRAM_ID, c.PUMPFUN_AMM_PROGRAM_ID,
          c.PUMP_FUN_PROGRAM_ID, PUMP_FUN_LEGACY_PROGRAM_ID] →
      (routerStep c d p instructionIndex ([], []) inner).1 =
        pass2Step c d p [] (instructionIndex, inner)) ∧
    (p.keyAt inner.ProgramIDIndex = c.METEORA_DAMM_V2_PROGRAM_ID →
      (routerStep c d p instructionIndex ([], []) inner).1 =
          d.processMeteoraSwaps p instructionIndex ∧
        pass2Step c d p [] (instructionIndex, inner) =
          d.processMeteoraDAMMv2Swaps p instructionIndex) ∧
    (p.keyAt inner.ProgramIDIndex = c.METEORA_DBC_PROGRAM_ID →
      (routerStep c d p instructionIndex ([], []) inner).1 =
          d.processMeteoraSwaps p instructionIndex ∧
        pass2Step c d p [] (instructionIndex, inner) =
          d.processMeteoraDBCSwaps p instructionIndex) ∧
    (p.keyAt inner.ProgramIDIndex = c.RAYDIUM_LAUNCHLAB_PROGRAM_ID →
      (routerStep c d p instructionIndex ([], []) inner).1 = [] ∧
        pass2Step c d p [] (instructionIndex, inner) =
          d.processRaydiumLaunchLabSwaps p instructionIndex) ∧
    (p.keyAt inner.ProgramIDIndex = RAYDIUM_LEGACY_PROGRAM_ID →
      (routerStep c d p instructionIndex ([], []) inner).1 = [] ∧
        pass2Step c d p [] (instructionIndex, inner) = d.processRaydSwaps p instructionIndex) ∧
    (p.keyAt inner.ProgramIDIndex ∉ c.ammIDs →
      (routerStep c d p instructionIndex ([], []) inner).1 = [] ∧
        pass2Step c d p [] (instructionIndex, inner) = []) :=
  ⟨processRouterSwaps_head c d p instructionIndex inner rest hinner,
    dispatch_tables c d p instructionIndex inner hdis hr⟩

/-- Instance of C36: for the inner Orca instruction under the outer instruction 4 of
`redispatchParser` both loops call `processOrcaSwaps`. -/
theorem router_table_against_pass2_witness :
    sampleConsts.ammIDsDistinct ∧
    redispatchParser.getInnerInstructions 4 = [⟨6, [], []⟩] ∧
    processRouterSwaps sampleConsts namedDecoders redispatchParser 4 =
      [⟨"processOrcaSwaps", .other⟩] ∧
    (routerStep sampleConsts namedDecoders redispatchParser 4 ([], []) ⟨6, [], []⟩).1 =
      pass2Step sampleConsts namedDecoders redispatchParser [] (4, ⟨6, [], []⟩) :=
  ⟨by decide, by decide, by decide,
    (router_table_against_pass2 sampleConsts namedDecoders redispatchParser 4 ⟨6, [], []⟩ []
      (by decide) (by decide) (by decide)).2.1 (by decide)⟩

/-! ## Claims C37 and C38: the mint of a Transfer and the tiers of Meteora DBC -/

/-- C37. On a parser returned by a constructor, for every outer or inner instruction of the
transaction that `isTransfer` accepts, `processTransfer` returns a record whose mint is not
`Unknown`: the destination is a key of the token map, the entry has a non-empty mint, which
the record carries with the decimals of the entry, and the entry is that of a
post-token-balance or the native SOL mint with 9 decimals. -/
theorem transfer_mint_never_unknown (x : TransferHelpers)
    (txResult : Option GetTransactionResult) (tx : Transaction) (txMeta : TransactionMeta)
    (p : Parser)
    (h : NewTransactionParserFromTransactionResult x txResult tx txMeta = .ok p ∨
      NewTransactionParserFromTransaction x tx txMeta = .ok p)
    (instr : CompiledInstruction) (hmem : instr ∈ p.allInstructions)
    (ht : p.isTransfer instr = .ok true) :
    ∃ t info, p.processTransfer instr = .ok (some t) ∧
      p.splTokenInfoMap t.Info.Destination = some info ∧ info.Mint ≠ "" ∧
      t.Mint = info.Mint ∧ t.Decimals = info.Decimals ∧ t.Mint ≠ "Unknown" ∧
      ((∃ b ∈ txMeta.PostTokenBalances, info = ⟨PublicKey.String b.Mint, b.Decimals⟩) ∨
        info = ⟨PublicKey.String NATIVE_SOL_MINT_PROGRAM_ID, 9⟩) := by
  rcases h with h | h
  · exact processTransfer_constructed x txResult tx txMeta p h instr hmem ht
  · rw [NewTransactionParserFromTransaction_eq] at h
    exact processTransfer_constructed x none tx txMeta p h instr hmem ht

/-- Instance of C37: the outer Transfer of `sampleTx` on the parser built for it. -/
theorem transfer_mint_never_unknown_witness :
    NewTransactionParserFromTransaction sampleTransferHelpers sampleTx sampleMeta =
      .ok indexedParser ∧
    sampleTransferInstruction ∈ indexedParser.allInstructions ∧
    indexedParser.isTransfer sampleTransferInstruction = .ok true ∧
    ∃ t info, indexedParser.processTransfer sampleTransferInstruction = .ok (some t) ∧
      indexedParser.splTokenInfoMap t.Info.Destination = some info ∧ info.Mint ≠ "" ∧
      t.Mint = info.Mint ∧ t.Decimals = info.Decimals ∧ t.Mint ≠ "Unknown" ∧
      ((∃ b ∈ sampleMeta.PostTokenBalances, info = ⟨PublicKey.String b.Mint, b.Decimals⟩) ∨
        info = ⟨PublicKey.String NATIVE_SOL_MINT_PROGRAM_ID, 9⟩) :=
  ⟨rfl, by decide, by decide,
    transfer_mint_never_unknown sampleTransferHelpers none sampleTx sampleMeta indexedParser
      (Or.inr rfl) sampleTransferInstruction (by decide) (by decide)⟩

/-- C38. For every parser and outer index `parseMeteoraDBCEvent` returns no event, and
`processMeteoraDBCSwaps` returns what the decoder returns that tries the instruction tier
and then the transfer tier. -/
theorem dbc_event_tier_never_yields (c : Consts) (x : TransferHelpers) (p : Parser)
    (instructionIndex : Nat) :
    p.parseMeteoraDBCEvent c instructionIndex = .ok none ∧
    p.processMeteoraDBCSwaps c x instructionIndex =
      p.dbcInstructionThenTransfers c x instructionIndex :=
  ⟨parseMeteoraDBCEventLoop_none c p _, processMeteoraDBCSwaps_two_tier c x p instructionIndex⟩

set_option maxRecDepth 4000 in
/-- Instance of C38: under the outer instruction 1 of `meteoraParser` there is an inner
instruction of the DBC program, which `isMeteoraDBCEventInstruction` accepts. -/
theorem dbc_event_tier_never_yields_witness :
    (⟨2, [], [1, 2, 3]⟩ : CompiledInstruction) ∈ meteoraParser.innerUnder 1 ∧
    meteoraParser.isMeteoraDBCEventInstruction sampleConsts ⟨2, [], [1, 2, 3]⟩ = .ok true ∧
    meteoraParser.parseMeteoraDBCEvent sampleConsts 1 = .ok none ∧
    meteoraParser.processMeteoraDBCSwaps sampleConsts keyedTransferHelpers 1 =
      meteoraParser.dbcInstructionThenTransfers sampleConsts keyedTransferHelpers 1 :=
  ⟨by decide, by decide,
    dbc_event_tier_never_yields sampleConsts keyedTransferHelpers meteoraParser 1⟩

/-! ## Claims C39 and C40: the generic reduction -/

/-- C39. For a list that reaches the generic reduction (no class of the summariser matches
it), `ProcessSwapData` returns on the list followed by itself what it returns on the list:
the same error, or the same summary, with the same mints, amounts, decimals and AMMs. -/
theorem ProcessSwapData_twice (c : Consts) (x : Helpers) (p : Parser) (now : Int)
    (xs : List SwapData) (hd : c.tagsDistinct) (hn : noClassMatches c xs) :
    ProcessSwapData c x p now (xs ++ xs) = ProcessSwapData c x p now xs ∧
    (∀ s, ProcessSwapData c x p now xs = .ok s →
      ∃ s2, ProcessSwapData c x p now (xs ++ xs) = .ok s2 ∧
        s2.TokenInMint = s.TokenInMint ∧ s2.TokenOutMint = s.TokenOutMint ∧
        s2.TokenInAmount = s.TokenInAmount ∧ s2.TokenOutAmount = s.TokenOutAmount ∧
        s2.TokenInDecimals = s.TokenInDecimals ∧ s2.TokenOutDecimals = s.TokenOutDecimals ∧
        s2.AMMs = s.AMMs) ∧
    (∀ msg, ProcessSwapData c x p now xs = .error msg ↔
      ProcessSwapData c x p now (xs ++ xs) = .error msg) := by
  have h := ProcessSwapData_double c x p now xs hd hn
  refine ⟨h, ?_, ?_⟩
  · intro s hs
    exact ⟨s, by rw [h, hs], rfl, rfl, rfl, rfl, rfl, rfl, rfl⟩
  · intro msg
    rw [h]

/-- Instance of C39: the four transfers of `plainList`, and a list with one mint, on which
both calls return the same error. -/
theorem ProcessSwapData_twice_witness :
    sampleConsts.tagsDistinct ∧ noClassMatches sampleConsts plainList ∧
    ProcessSwapData sampleConsts sampleHelpers sampleParser 5 plainList = .ok plainSummary ∧
    ProcessSwapData sampleConsts sampleHelpers sampleParser 5 (plainList ++ plainList) =
      ProcessSwapData sampleConsts sampleHelpers sampleParser 5 plainList :=
  ⟨by decide, by decide, by decide,
    (ProcessSwapData_twice sampleConsts sampleHelpers sampleParser 5 plainList (by decide)
      (by decide)).1⟩

/-- C40. When `ProcessSwapData` returns a summary for a list that reaches the generic
reduction, the input mint and the output mint are the keys of two different mint texts, so
they are different keys, and the input and output decimals are those of the first transfer
record of the reduced list that carries the input mint text and the output mint text. -/
theorem generic_legs_first_records (c : Consts) (x : Helpers) (p : Parser) (now : Int)
    (xs : List SwapData) (s : SwapInfo) (hd : c.tagsDistinct) (hn : noClassMatches c xs)
    (h : ProcessSwapData c x p now xs = .ok s) :
    ∃ ti tz : TokenTransfer,
      (transferRecords (reducedList c xs)).find? (fun t => t.mint = ti.mint) = some ti ∧
      (transferRecords (reducedList c xs)).find? (fun t => t.mint = tz.mint) = some tz ∧
      PublicKey.String s.TokenInMint = ti.mint ∧ PublicKey.String s.TokenOutMint = tz.mint ∧
      ti.mint ≠ tz.mint ∧ s.TokenInMint ≠ s.TokenOutMint ∧
      s.TokenInDecimals = ti.decimals ∧ s.TokenOutDecimals = tz.decimals := by
  have hne : xs ≠ [] := by
    intro h0
    subst h0
    exact absurd h (by simp [ProcessSwapData])
  rw [ProcessSwapData_generic c x p now xs hd hn hne] at h
  obtain ⟨ti, tz, hti, htz, hdiff, hin, hout, -, -, hdi, hdo, -⟩ :=
    genericReduction_ok p now _ _ s h
  have hmi : ti ∈ firstSeen (fun t : TokenTransfer => t.mint)
      (transferRecords (reducedList c xs)) := List.mem_of_mem_head? (by rw [hti]; rfl)
  have hmz : tz ∈ firstSeen (fun t : TokenTransfer => t.mint)
      (transferRecords (reducedList c xs)) := List.mem_of_mem_getLast? (by rw [htz]; rfl)
  have hfi := firstSeen_find (fun t : TokenTransfer => t.mint) _ ti hmi
  have hfz := firstSeen_find (fun t : TokenTransfer => t.mint) _ tz hmz
  refine ⟨ti, tz, ?_, ?_, PublicKeyFromBase58_canonical hin, PublicKeyFromBase58_canonical hout,
    hdiff, ?_, hdi, hdo⟩
  · simpa using hfi
  · simpa using hfz
  · intro heq
    apply hdiff
    rw [← PublicKeyFromBase58_canonical hin, ← PublicKeyFromBase58_canonical hout, heq]

/-- Instance of C40: the four transfers of `plainList`; USDC with 6 decimals comes in, SOL
with 9 decimals goes out. -/
theorem generic_legs_first_records_witness :
    sampleConsts.tagsDistinct ∧ noClassMatches sampleConsts plainList ∧
    ProcessSwapData sampleConsts sampleHelpers sampleParser 5 plainList = .ok plainSummary ∧
    ∃ ti tz : TokenTransfer,
      (transferRecords (reducedList sampleConsts plainList)).find?
        (fun t => t.mint = ti.mint) = some ti ∧
      (transferRecords (reducedList sampleConsts plainList)).find?
        (fun t => t.mint = tz.mint) = some tz ∧
      PublicKey.String plainSummary.TokenInMint = ti.mint ∧
      PublicKey.String plainSummary.TokenOutMint = tz.mint ∧
      ti.mint ≠ tz.mint ∧ plainSummary.TokenInMint ≠ plainSummary.TokenOutMint ∧
      plainSummary.TokenInDecimals = ti.decimals ∧
      plainSummary.TokenOutDecimals = tz.decimals :=
  ⟨by decide, by decide, by decide,
    generic_legs_first_records sampleConsts sampleHelpers sampleParser 5 plainList plainSummary
      (by decide) (by decide) (by decide)⟩

end SolanaDexParse
